import Mathlib

/-! # tdengine_fdw: pushdown eligibility and deparsing

A shallow embedding of `src/deparse.c` and `src/schemaless.c`.  C strings are
lists of characters (a C string never holds the NUL character), the output
buffer `StringInfo` is the list of characters appended so far, and
`elog(ERROR, ...)` is the `Except` error channel.
-/

namespace TDengine

/-! ## Outcomes -/

/-- How a C function can fail: `elog(ERROR, msg)` aborts the statement, and
`undefined` marks a read the C standard leaves undefined, such as `val[-1]`. -/
inductive Err where
  | elog (msg : String)
  | undefined (what : String)
deriving DecidableEq, Repr

deriving instance DecidableEq for Except

/-- The output buffer: the characters appended so far. -/
abbrev StringInfo := List Char

/-! ## LIKE pattern translation (deparse.c 1813-1919) -/

/-- C `strchr(s, ch) != NULL` for a character `ch` of a C string (so not the
terminating NUL): `ch` occurs in `s`. -/
def strchr_found (s : List Char) (ch : Char) : Bool :=
  s.contains ch

/-- `add_backslash` (deparse.c 1813): append `*ptr`, preceded by a backslash
when it is one of `regex_special`. -/
def add_backslash (buf : StringInfo) (ch : Char) (regex_special : List Char) : StringInfo :=
  if strchr_found regex_special ch then
    buf ++ ['\\', ch]
  else
    buf ++ [ch]

/-- The `while (len >= 0 && val[len] == '\\')` loop of
`tdengine_last_percent_sign_check`, run on the characters before the final
one, last first. -/
def count_backslash : List Char → Nat
  | [] => 0
  | c :: rest => if c = '\\' then count_backslash rest + 1 else 0

/-- `tdengine_last_percent_sign_check` (deparse.c 1834): `true` when the
pattern does not end in an unescaped `%`.  On the empty string the C code
reads `val[-1]`, which is outside the string. -/
def tdengine_last_percent_sign_check (val : List Char) : Except Err Bool :=
  match val.reverse with
  | [] => .error (.undefined "tdengine_last_percent_sign_check reads val[-1]")
  | last :: before =>
    if last ≠ '%' then .ok true
    else if count_backslash before % 2 = 0 then .ok false
    else .ok true

/-- The `regex_special` constant of `tdengine_deparse_string_like_pattern`. -/
def regex_special : List Char := "\\^$.|?*+()[\x7b%".toList

/-- The `while (*ptr != '\0')` loop of `tdengine_deparse_string_like_pattern`. -/
def like_pattern_loop : List Char → StringInfo → Except Err StringInfo
  | [], buf => .ok buf
  | c :: rest, buf =>
    if c = '%' then like_pattern_loop rest (buf ++ "(.*)".toList)
    else if c = '_' then like_pattern_loop rest (buf ++ "(.\x7b1\x7d)".toList)
    else if c = '\\' then
      match rest with
      | [] => .error (.elog "invalid pattern matching")
      | d :: rest2 => like_pattern_loop rest2 (add_backslash buf d regex_special)
    else like_pattern_loop rest (add_backslash buf c regex_special)

/-- `PatternMatchingOperator` (deparse.c 113). -/
inductive PatternMatchingOperator where
  | UNKNOWN_OPERATOR
  | LIKE_OPERATOR
  | NOT_LIKE_OPERATOR
  | ILIKE_OPERATOR
  | NOT_ILIKE_OPERATOR
  | REGEX_MATCH_CASE_SENSITIVE_OPERATOR
  | REGEX_NOT_MATCH_CASE_SENSITIVE_OPERATOR
  | REGEX_MATCH_CASE_INSENSITIVE_OPERATOR
  | REGEX_NOT_MATCH_CASE_INSENSITIVE_OPERATOR
deriving DecidableEq, Repr

open PatternMatchingOperator

/-- What `tdengine_deparse_string_like_pattern` appends before the loop: the
opening `/`, `(?i)` for the case-insensitive operators, and `^` unless the
pattern starts with `%`. -/
def like_pattern_head (buf : StringInfo) (val : List Char)
    (op_type : PatternMatchingOperator) : StringInfo :=
  let buf1 := buf ++ ['/']
  let buf2 :=
    if op_type = ILIKE_OPERATOR ∨ op_type = NOT_ILIKE_OPERATOR then buf1 ++ "(?i)".toList
    else buf1
  if val.head? ≠ some '%' then buf2 ++ ['^'] else buf2

/-- `tdengine_deparse_string_like_pattern` (deparse.c 1867). -/
def tdengine_deparse_string_like_pattern (buf : StringInfo) (val : List Char)
    (op_type : PatternMatchingOperator) : Except Err StringInfo :=
  match like_pattern_loop val (like_pattern_head buf val op_type) with
  | .error e => .error e
  | .ok buf3 =>
    match tdengine_last_percent_sign_check val with
    | .error e => .error e
    | .ok anchored =>
      let buf4 := if anchored then buf3 ++ ['$'] else buf3
      .ok (buf4 ++ ['/'])

/-- `tdengine_deparse_string_regex_pattern` (deparse.c 1923). -/
def tdengine_deparse_string_regex_pattern (buf : StringInfo) (val : List Char)
    (op_type : PatternMatchingOperator) : StringInfo :=
  let buf1 := buf ++ ['/']
  let buf2 :=
    if op_type = REGEX_MATCH_CASE_INSENSITIVE_OPERATOR ∨
       op_type = REGEX_NOT_MATCH_CASE_INSENSITIVE_OPERATOR then buf1 ++ "(?i)".toList
    else buf1
  (buf2 ++ val) ++ ['/']

/-! ## PostgreSQL constants and node types -/

/-- PostgreSQL object identifiers. -/
abbrev Oid := Nat

def InvalidOid : Oid := 0
def DEFAULT_COLLATION_OID : Oid := 100
def FirstGenbkiObjectId : Oid := 10000
def PG_CATALOG_NAMESPACE : Oid := 11

def BOOLOID : Oid := 16
def BYTEAOID : Oid := 17
def CHAROID : Oid := 18
def NAMEOID : Oid := 19
def INT8OID : Oid := 20
def INT2OID : Oid := 21
def INT4OID : Oid := 23
def TEXTOID : Oid := 25
def OIDOID : Oid := 26
def FLOAT4OID : Oid := 700
def FLOAT8OID : Oid := 701
def BOOLARRAYOID : Oid := 1000
def INT2ARRAYOID : Oid := 1005
def INT4ARRAYOID : Oid := 1007
def INT8ARRAYOID : Oid := 1016
def OIDARRAYOID : Oid := 1028
def BPCHAROID : Oid := 1042
def VARCHAROID : Oid := 1043
def TIMEOID : Oid := 1083
def TIMESTAMPOID : Oid := 1114
def TIMESTAMPTZOID : Oid := 1184
def INTERVALOID : Oid := 1186
def BITOID : Oid := 1560
def VARBITOID : Oid := 1562
def NUMERICOID : Oid := 1700
def JSONBOID : Oid := 3802

/-- `OidIsValid`. -/
def OidIsValid (o : Oid) : Bool := o != InvalidOid

/-- `TDENGINE_IS_TIME_TYPE` (tdengine_fdw.h). -/
def TDENGINE_IS_TIME_TYPE (typeoid : Oid) : Bool :=
  typeoid == TIMESTAMPTZOID || typeoid == TIMEOID || typeoid == TIMESTAMPOID

/-- `TDENGINE_IS_TIME_COLUMN` (tdengine_fdw.h). -/
def TDENGINE_IS_TIME_COLUMN (x : String) : Bool :=
  x == "time" || x == "time_text"

def TDENGINE_TARGETS_MARK_COLUMN : Nat := 1
def TDENGINE_TARGETS_MARK_AGGREF : Nat := 2
def TDENGINE_TARGETS_MIXING_AGGREF_UNSAFE : Nat :=
  TDENGINE_TARGETS_MARK_COLUMN ||| TDENGINE_TARGETS_MARK_AGGREF
def TDENGINE_TARGETS_MIXING_AGGREF_SAFE : Nat := 0

/-- `tdengine_is_builtin` (deparse.c 2820). -/
def tdengine_is_builtin (oid : Oid) : Bool := decide (oid < FirstGenbkiObjectId)

/-- A PostgreSQL `Interval`: microseconds, days and months. -/
structure Interval where
  time : Int
  day : Int
  month : Int
deriving DecidableEq, Repr

/-- The value of a `Const`.  `text` carries what the type's output function
prints (`OidOutputFunctionCall`, `TextDatumGetCString`); a `timestamptz`
carries both its session-zone text and the text of its UTC conversion. -/
inductive Datum where
  | interval (v : Interval)
  | timestamptz (out : List Char) (out_utc : List Char)
  | text (out : List Char)
deriving DecidableEq, Repr

/-- `DatumGetIntervalP`. -/
def DatumGetIntervalP : Datum → Interval
  | .interval v => v
  | _ => ⟨0, 0, 0⟩

/-- `OidOutputFunctionCall(typoutput, value)` for the value's own type. -/
def OidOutputFunctionCall : Datum → List Char
  | .text out => out
  | .timestamptz out _ => out
  | .interval _ => []

inductive BoolExprType where
  | AND_EXPR
  | OR_EXPR
  | NOT_EXPR
deriving DecidableEq, Repr

inductive NullTestType where
  | IS_NULL
  | IS_NOT_NULL
deriving DecidableEq, Repr

/-- `AggSplit`: only `AGGSPLIT_SIMPLE` is told apart from the partial modes. -/
inductive AggSplit where
  | AGGSPLIT_SIMPLE
  | AGGSPLIT_INITIAL_SERIAL
  | AGGSPLIT_FINAL_DESERIAL
deriving DecidableEq, Repr

inductive RelOptKind where
  | RELOPT_BASEREL
  | RELOPT_JOINREL
  | RELOPT_OTHER_MEMBER_REL
  | RELOPT_OTHER_JOINREL
  | RELOPT_UPPER_REL
  | RELOPT_OTHER_UPPER_REL
deriving DecidableEq, Repr

/-- The expression nodes of PostgreSQL that `deparse.c` looks at, one
constructor per `nodeTag`, with the fields the code reads.  `T_CoerceViaIOExpr`
is the node tagged `T_CoerceViaIO`; `T_Other` is any node kind the code has no
case for (`tag` is its `nodeTag`). -/
inductive Node where
  | T_Var (varno : Nat) (varattno : Int) (vartype : Oid) (vartypmod : Int)
      (varcollid : Oid) (varlevelsup : Nat)
  | T_Const (consttype : Oid) (constcollid : Oid) (constvalue : Datum) (constisnull : Bool)
  | T_Param (paramid : Int) (paramtype : Oid) (paramtypmod : Int) (paramcollid : Oid)
  | T_FieldSelect (arg : Node) (fieldnum : Int) (resulttype : Oid) (resultcollid : Oid)
  | T_FuncExpr (funcid : Oid) (funcresulttype : Oid) (funccollid : Oid) (inputcollid : Oid)
      (args : List Node)
  | T_OpExpr (opno : Oid) (opresulttype : Oid) (opcollid : Oid) (inputcollid : Oid)
      (args : List Node)
  | T_DistinctExpr (opno : Oid) (opresulttype : Oid) (opcollid : Oid) (inputcollid : Oid)
      (args : List Node)
  | T_ScalarArrayOpExpr (opno : Oid) (useOr : Bool) (inputcollid : Oid) (args : List Node)
  | T_RelabelType (arg : Node) (resulttype : Oid) (resultcollid : Oid)
  | T_BoolExpr (boolop : BoolExprType) (args : List Node)
  | T_List (elems : List Node)
  | T_Aggref (aggfnoid : Oid) (aggtype : Oid) (aggcollid : Oid) (inputcollid : Oid)
      (args : List Node) (aggorder : List Nat) (aggdistinct : List Nat)
      (aggfilter : Option Node) (aggstar : Bool) (aggvariadic : Bool) (aggsplit : AggSplit)
  | T_TargetEntry (expr : Node) (resno : Int) (ressortgroupref : Nat) (resjunk : Bool)
  | T_CoerceViaIOExpr (arg : Node) (resulttype : Oid) (resultcollid : Oid)
  | T_NullTest (arg : Node) (nulltesttype : NullTestType)
  | T_ArrayExpr (array_typeid : Oid) (array_collid : Oid) (elements : List Node)
  | T_Other (tag : Nat) (type : Oid) (children : List Node)
deriving Repr

/-! ## Catalogs and contexts -/

/-- A `DefElem` of a column's FDW options: its name, and its value as
`defGetString` and as `defGetBoolean` read it. -/
structure DefElem where
  defname : String
  sval : String
  bval : Bool
deriving DecidableEq, Repr

/-- A `pg_operator` row. -/
structure Form_pg_operator where
  oprname : String
  oprkind : Char
  oprnamespace : Oid
deriving DecidableEq, Repr

/-- The system catalogs and FDW options the code looks up.  A lookup that
yields `none` is a failed syscache lookup. -/
structure Catalog where
  /-- `pg_proc.proname` by function oid. -/
  proname : Oid → Option String
  /-- `pg_operator` by operator oid. -/
  operator : Oid → Option Form_pg_operator
  /-- `pg_type.typname` by type oid. -/
  typname : Oid → Option String
  /-- `get_namespace_name`. -/
  nspname : Oid → String
  /-- `GetForeignColumnOptions(relid, attnum)`. -/
  column_options : Oid → Int → List DefElem
  /-- `get_attname(relid, attnum, false)`. -/
  attname : Oid → Int → Option String
  /-- `tdengine_get_options(reloid, GetUserId())->tags_list`. -/
  tags_list : Oid → List String
  /-- `planner_rt_fetch(varno, root)->relid`. -/
  rte_relid : Nat → Oid

/-- `schemaless_info` (tdengine_fdw.h). -/
structure schemaless_info where
  schemaless : Bool
  slcol_type_oid : Oid
  jsonb_op_oid : Oid
  relid : Oid
deriving DecidableEq, Repr

/-- `FDWCollateState` (deparse.c 86), in the order of the enum. -/
inductive FDWCollateState where
  | FDW_COLLATE_NONE
  | FDW_COLLATE_SAFE
  | FDW_COLLATE_UNSAFE
deriving DecidableEq, Repr

open FDWCollateState

/-- The integer value of the enum constant, which the C code compares with `>`. -/
def FDWCollateState.toNat : FDWCollateState → Nat
  | FDW_COLLATE_NONE => 0
  | FDW_COLLATE_SAFE => 1
  | FDW_COLLATE_UNSAFE => 2

/-- `foreign_glob_cxt` (deparse.c 72).  Of `foreignrel` the walker reads the
`reloptkind` and, through `fdw_private`, the schemaless information. -/
structure foreign_glob_cxt where
  reloptkind : RelOptKind
  slinfo : schemaless_info
  relids : List Nat
  relid : Oid
  mixing_aggref_status : Nat
  for_tlist : Bool
  is_inner_func : Bool
deriving DecidableEq, Repr

/-- `foreign_loc_cxt` (deparse.c 96). -/
structure foreign_loc_cxt where
  collation : Oid
  state : FDWCollateState
  can_skip_cast : Bool
  can_pushdown_stable : Bool
  can_pushdown_volatile : Bool
  tdengine_fill_enable : Bool
  have_otherfunc_tdengine_time_tlist : Bool
  has_time_key : Bool
  has_sub_or_add_operator : Bool
  is_comparison : Bool
deriving DecidableEq, Repr

/-- The `inner_cxt` initialisation at the top of `tdengine_foreign_expr_walker`
(deparse.c 402-410). -/
def inner_cxt_init : foreign_loc_cxt :=
  { collation := InvalidOid, state := FDW_COLLATE_NONE, can_skip_cast := false,
    can_pushdown_stable := false, can_pushdown_volatile := false,
    tdengine_fill_enable := false, have_otherfunc_tdengine_time_tlist := false,
    has_time_key := false, has_sub_or_add_operator := false, is_comparison := false }

/-! ## Function classification (deparse.c 24-67, 2853-2895, 3683) -/

def TDengineStableStarFunction : List String :=
  ["tdengine_count_all", "tdengine_mode_all", "tdengine_max_all", "tdengine_min_all",
   "tdengine_sum_all"]

def TDengineUniqueFunction : List String :=
  ["bottom", "percentile", "top", "cumulative_sum", "derivative", "difference", "elapsed",
   "log2", "log10", "tdengine_time", "tdengine_fill_numeric", "tdengine_fill_option"]

def TDengineSupportedBuiltinFunction : List String :=
  ["now", "sqrt", "abs", "acos", "asin", "atan", "atan2", "ceil", "cos", "exp", "floor",
   "ln", "log", "log10", "pow", "round", "sin", "tan"]

/-- `exist_in_function_list` (deparse.c 3683). -/
def exist_in_function_list (funcname : String) (funclist : List String) : Bool :=
  funclist.contains funcname

/-- The test `strcmp(in + func_len - eof_len, eof) == 0` of `tdengine_is_star_func`:
the last `eof_len` characters of `in` are `eof`. -/
def ends_with (s : List Char) (eof : List Char) : Bool :=
  s.drop (s.length - eof.length) == eof

/-- `tdengine_is_star_func` (deparse.c 2853). -/
def tdengine_is_star_func (funcid : Oid) (name : String) : Bool :=
  if tdengine_is_builtin funcid then false
  else if name.toList.length > "_all".toList.length && ends_with name.toList "_all".toList &&
      exist_in_function_list name TDengineStableStarFunction then true
  else false

/-- `tdengine_is_unique_func` (deparse.c 2871). -/
def tdengine_is_unique_func (funcid : Oid) (name : String) : Bool :=
  if tdengine_is_builtin funcid then false
  else if exist_in_function_list name TDengineUniqueFunction then true
  else false

/-- `tdengine_is_supported_builtin_func` (deparse.c 2885). -/
def tdengine_is_supported_builtin_func (funcid : Oid) (name : String) : Bool :=
  if !tdengine_is_builtin funcid then false
  else if exist_in_function_list name TDengineSupportedBuiltinFunction then true
  else false

/-! ## Node helpers -/

open Node

/-- `IsA(node, Var)`. -/
def isVar : Node → Bool
  | T_Var .. => true
  | _ => false

/-- `IsA(node, Const)`. -/
def isConst : Node → Bool
  | T_Const .. => true
  | _ => false

/-- `IsA(node, Param)`. -/
def isParam : Node → Bool
  | T_Param .. => true
  | _ => false

/-- `IsA(node, FuncExpr)`. -/
def isFuncExpr : Node → Bool
  | T_FuncExpr .. => true
  | _ => false

/-- `linitial(l)`; reading the head of `NIL` is undefined. -/
def linitial (l : List Node) : Except Err Node :=
  match l with
  | a :: _ => .ok a
  | [] => .error (.undefined "linitial of an empty list")

/-- `lsecond(l)`; reading past the end of the list is undefined. -/
def lsecond (l : List Node) : Except Err Node :=
  match l with
  | _ :: b :: _ => .ok b
  | _ => .error (.undefined "lsecond of a list shorter than two")

/-- PostgreSQL `exprType` (nodeFuncs.c) on the node kinds of `Node`; it has no
case for a `List` or a `TargetEntry`. -/
def exprType : Node → Except Err Oid
  | T_Var _ _ vartype _ _ _ => .ok vartype
  | T_Const consttype _ _ _ => .ok consttype
  | T_Param _ paramtype _ _ => .ok paramtype
  | T_FieldSelect _ _ resulttype _ => .ok resulttype
  | T_FuncExpr _ funcresulttype _ _ _ => .ok funcresulttype
  | T_OpExpr _ opresulttype _ _ _ => .ok opresulttype
  | T_DistinctExpr _ opresulttype _ _ _ => .ok opresulttype
  | T_ScalarArrayOpExpr .. => .ok BOOLOID
  | T_RelabelType _ resulttype _ => .ok resulttype
  | T_BoolExpr .. => .ok BOOLOID
  | T_List _ => .error (.elog "unrecognized node type")
  | T_Aggref _ aggtype _ _ _ _ _ _ _ _ _ => .ok aggtype
  | T_TargetEntry .. => .error (.elog "unrecognized node type")
  | T_CoerceViaIOExpr _ resulttype _ => .ok resulttype
  | T_NullTest .. => .ok BOOLOID
  | T_ArrayExpr array_typeid _ _ => .ok array_typeid
  | T_Other _ type _ => .ok type

/-- `is_valid_type` (deparse.c 358). -/
def is_valid_type (type : Oid) : Bool :=
  type == INT2OID || type == INT4OID || type == INT8OID || type == OIDOID ||
  type == FLOAT4OID || type == FLOAT8OID || type == NUMERICOID || type == VARCHAROID ||
  type == TEXTOID || type == TIMEOID || type == TIMESTAMPOID || type == TIMESTAMPTZOID

/-- `tdengine_get_column_name` (deparse.c 3423): the `column_name` option of the
column when it has one, else `get_attname`, which raises on a missing column. -/
def tdengine_get_column_name (cat : Catalog) (relid : Oid) (attnum : Int) : Except Err String :=
  match (cat.column_options relid attnum).find? (fun d => d.defname == "column_name") with
  | some d => .ok d.sval
  | none =>
    match cat.attname relid attnum with
    | some n => .ok n
    | none => .error (.elog "cache lookup failed for attribute")

/-- `tdengine_is_tag_key` (deparse.c 3451). -/
def tdengine_is_tag_key (cat : Catalog) (colname : String) (reloid : Oid) : Bool :=
  (cat.tags_list reloid).contains colname

/-- `tdengine_get_data_type_name` (deparse.c 3156): an error when the type is
not in the catalog.  When it is, the C text copies `type->typname.data`, and
`type` is declared (`Form_pg_type type;`) and never assigned, not even from
the tuple just looked up: the read through it is undefined. -/
def tdengine_get_data_type_name (cat : Catalog) (data_type_id : Oid) : Except Err String :=
  match cat.typname data_type_id with
  | some _ => .error (.undefined "tdengine_get_data_type_name reads the unassigned type")
  | none => .error (.elog "cache lookup failed for data type id")

/-- `tdengine_is_regex_argument` (deparse.c 2829) on the printed value: it
starts and ends with `/`. -/
def tdengine_is_regex_argument (extval : List Char) : Bool :=
  extval.head? == some '/' && extval.getLast? == some '/'

/-- The option scan of `tdengine_is_slvar` (schemaless.c 36): the value of the
first `tags` or `fields` option of the column, as `(tags_opt, fields_opt)`. -/
def slvar_options : List DefElem → Bool × Bool
  | [] => (false, false)
  | d :: rest =>
    if d.defname == "tags" then (d.bval, false)
    else if d.defname == "fields" then (false, d.bval)
    else slvar_options rest

/-- `tdengine_is_slvar` (schemaless.c 36). -/
def tdengine_is_slvar (cat : Catalog) (oid : Oid) (attnum : Int) (pslinfo : schemaless_info) :
    Bool :=
  if !pslinfo.schemaless then false
  else
    let opts := slvar_options (cat.column_options pslinfo.relid attnum)
    oid == pslinfo.slcol_type_oid && (opts.1 || opts.2)

/-- The tests of `tdengine_is_slvar_fetch` once a `CoerceViaIO` has been
unwrapped: an `OpExpr` of the `->>` operator on a schemaless `Var` and a `Const`. -/
def is_slvar_fetch_op (cat : Catalog) (node : Node) (pslinfo : schemaless_info) : Bool :=
  match node with
  | T_OpExpr opno _ _ _ args =>
    if opno != pslinfo.jsonb_op_oid then false
    else
      match args with
      | [T_Var _ varattno vartype _ _ _, T_Const ..] =>
        tdengine_is_slvar cat vartype varattno pslinfo
      | _ => false
  | _ => false

/-- `tdengine_is_slvar_fetch` (schemaless.c 85). -/
def tdengine_is_slvar_fetch (cat : Catalog) (node : Node) (pslinfo : schemaless_info) : Bool :=
  if !pslinfo.schemaless then false
  else
    match node with
    | T_CoerceViaIOExpr arg _ _ => is_slvar_fetch_op cat arg pslinfo
    | _ => is_slvar_fetch_op cat node pslinfo

/-- `tdengine_is_param_fetch` (schemaless.c 126). -/
def tdengine_is_param_fetch (node : Node) (pslinfo : schemaless_info) : Bool :=
  if !pslinfo.schemaless then false
  else
    match node with
    | T_OpExpr opno _ _ _ args =>
      if opno != pslinfo.jsonb_op_oid then false
      else
        match args with
        | [T_Param .., T_Const ..] => true
        | _ => false
    | _ => false

/-- The key `TextDatumGetCString(cnst->constvalue)` of a dynamic column access
`var ->> cnst`. -/
def slvar_key : Node → Option String
  | T_OpExpr _ _ _ _ [_, T_Const _ _ v _] => some (String.mk (OidOutputFunctionCall v))
  | _ => none

/-- `tdengine_get_slvar` (schemaless.c 159): the key of a dynamic column access,
`none` for the C `NULL`. -/
def tdengine_get_slvar (cat : Catalog) (node : Node) (pslinfo : schemaless_info) :
    Option String :=
  if !pslinfo.schemaless then none
  else if tdengine_is_slvar_fetch cat node pslinfo then
    match node with
    | T_CoerceViaIOExpr arg _ _ => slvar_key arg
    | _ => slvar_key node
  else none

/-! ## Time-column tests (deparse.c 3175-3342) -/

/-- `tdengine_contain_time_key_column` (deparse.c 3211): some expression of the
list is a time-typed `Var` whose remote column name is `time` or `time_text`. -/
def tdengine_contain_time_key_column (cat : Catalog) (relid : Oid) :
    List Node → Except Err Bool
  | [] => .ok false
  | T_Var _ varattno vartype _ _ _ :: rest =>
    if TDENGINE_IS_TIME_TYPE vartype then
      match tdengine_get_column_name cat relid varattno with
      | .error e => .error e
      | .ok column_name =>
        if TDENGINE_IS_TIME_COLUMN column_name then .ok true
        else tdengine_contain_time_key_column cat relid rest
    else tdengine_contain_time_key_column cat relid rest
  | _ :: rest => tdengine_contain_time_key_column cat relid rest

/-- `tdengine_contain_time_column` (deparse.c 3175).  On a `CoerceViaIO` element
the C code calls `tdengine_contain_time_key_column(arg, pslinfo)`, passing a node
pointer for the relation oid and the schemaless information for the list: the
call reads a structure as a list, which is undefined. -/
def tdengine_contain_time_column : List Node → Except Err Bool
  | [] => .ok false
  | T_Var _ _ vartype _ _ _ :: rest =>
    if TDENGINE_IS_TIME_TYPE vartype then .ok true
    else tdengine_contain_time_column rest
  | T_CoerceViaIOExpr .. :: _ =>
    .error (.undefined "tdengine_contain_time_key_column(arg, pslinfo) reads pslinfo as a List")
  | _ :: rest => tdengine_contain_time_column rest

/-- `tdengine_contain_time_expr` (deparse.c 3240). -/
def tdengine_contain_time_expr : List Node → Except Err Bool
  | [] => .ok false
  | expr :: rest =>
    if isVar expr || isConst expr || isParam expr || isFuncExpr expr then
      tdengine_contain_time_expr rest
    else
      match exprType expr with
      | .error e => .error e
      | .ok type =>
        if TDENGINE_IS_TIME_TYPE type then .ok true
        else tdengine_contain_time_expr rest

/-- `tdengine_contain_time_function` (deparse.c 3269). -/
def tdengine_contain_time_function : List Node → Bool
  | [] => false
  | T_FuncExpr _ funcresulttype _ _ _ :: rest =>
    if TDENGINE_IS_TIME_TYPE funcresulttype then true
    else tdengine_contain_time_function rest
  | _ :: rest => tdengine_contain_time_function rest

/-- `tdengine_contain_time_param` (deparse.c 3294). -/
def tdengine_contain_time_param : List Node → Bool
  | [] => false
  | T_Param _ paramtype _ _ :: rest =>
    if TDENGINE_IS_TIME_TYPE paramtype then true
    else tdengine_contain_time_param rest
  | _ :: rest => tdengine_contain_time_param rest

/-- `tdengine_contain_time_const` (deparse.c 3320). -/
def tdengine_contain_time_const : List Node → Bool
  | [] => false
  | T_Const consttype _ _ _ :: rest =>
    if TDENGINE_IS_TIME_TYPE consttype then true
    else tdengine_contain_time_const rest
  | _ :: rest => tdengine_contain_time_const rest

/-- The `switch (oidtype)` at the end of `tdengine_is_string_type`. -/
def is_string_oid (oidtype : Oid) : Bool :=
  oidtype == CHAROID || oidtype == VARCHAROID || oidtype == TEXTOID ||
  oidtype == BPCHAROID || oidtype == NAMEOID

mutual
/-- `tdengine_is_string_type` (deparse.c 3621).  Where the C code hands the node
to `expression_tree_walker`, the test is applied to each sub-expression. -/
def tdengine_is_string_type (cat : Catalog) (pslinfo : schemaless_info) : Node → Bool
  | T_Var _ _ vartype _ _ _ => is_string_oid vartype
  | T_Const consttype _ _ _ => is_string_oid consttype
  | T_OpExpr opno opresulttype opcollid inputcollid args =>
    if tdengine_is_slvar_fetch cat (T_OpExpr opno opresulttype opcollid inputcollid args) pslinfo
    then is_string_oid opresulttype
    else tdengine_is_string_type_list cat pslinfo args
  | T_CoerceViaIOExpr arg resulttype _ =>
    if tdengine_is_slvar_fetch cat arg pslinfo then is_string_oid resulttype
    else tdengine_is_string_type cat pslinfo arg
  | T_Param .. => false
  | T_FieldSelect arg _ _ _ => tdengine_is_string_type cat pslinfo arg
  | T_FuncExpr _ _ _ _ args => tdengine_is_string_type_list cat pslinfo args
  | T_DistinctExpr _ _ _ _ args => tdengine_is_string_type_list cat pslinfo args
  | T_ScalarArrayOpExpr _ _ _ args => tdengine_is_string_type_list cat pslinfo args
  | T_RelabelType arg _ _ => tdengine_is_string_type cat pslinfo arg
  | T_BoolExpr _ args => tdengine_is_string_type_list cat pslinfo args
  | T_List elems => tdengine_is_string_type_list cat pslinfo elems
  | T_Aggref _ _ _ _ args _ _ aggfilter _ _ _ =>
    tdengine_is_string_type_list cat pslinfo args ||
    (match aggfilter with
     | some f => tdengine_is_string_type cat pslinfo f
     | none => false)
  | T_TargetEntry expr _ _ _ => tdengine_is_string_type cat pslinfo expr
  | T_NullTest arg _ => tdengine_is_string_type cat pslinfo arg
  | T_ArrayExpr _ _ elements => tdengine_is_string_type_list cat pslinfo elements
  | T_Other _ _ children => tdengine_is_string_type_list cat pslinfo children
/-- `tdengine_is_string_type` over the elements of a list, as
`expression_tree_walker` applies it. -/
def tdengine_is_string_type_list (cat : Catalog) (pslinfo : schemaless_info) :
    List Node → Bool
  | [] => false
  | a :: rest =>
    tdengine_is_string_type cat pslinfo a || tdengine_is_string_type_list cat pslinfo rest
end

/-! ## The eligibility walker: state and the collation merge -/

/-- What one call of `tdengine_foreign_expr_walker` leaves behind: its return
value, the global context, the function-static `is_time_column` flag and the
local context it was given as `outer_cxt`. -/
structure WalkOut where
  result : Bool
  glob : foreign_glob_cxt
  is_time_column : Bool
  cxt : foreign_loc_cxt
deriving DecidableEq, Repr

/-- The collation merge at the end of `tdengine_foreign_expr_walker`
(deparse.c 1262-1293): fold the node's `(collation, state)` into the parent's
context. -/
def collation_merge (collation : Oid) (state : FDWCollateState) (outer_cxt : foreign_loc_cxt) :
    foreign_loc_cxt :=
  if state.toNat > outer_cxt.state.toNat then
    { outer_cxt with collation := collation, state := state }
  else if state = outer_cxt.state then
    match state with
    | FDW_COLLATE_NONE => outer_cxt
    | FDW_COLLATE_SAFE =>
      if collation ≠ outer_cxt.collation then
        if outer_cxt.collation = DEFAULT_COLLATION_OID then
          { outer_cxt with collation := collation }
        else if collation ≠ DEFAULT_COLLATION_OID then
          { outer_cxt with state := FDW_COLLATE_UNSAFE }
        else outer_cxt
      else outer_cxt
    | FDW_COLLATE_UNSAFE => outer_cxt
  else outer_cxt

/-- The tail of `tdengine_foreign_expr_walker` after the `switch`
(deparse.c 1259-1295): the result-type check, then the collation merge.
`type` is `exprType(node)`, consulted only when `check_type` is set. -/
def walker_finish (type : Except Err Oid) (check_type : Bool) (collation : Oid)
    (state : FDWCollateState) (g : foreign_glob_cxt) (itc : Bool) (outer_cxt : foreign_loc_cxt) :
    Except Err WalkOut :=
  if check_type then
    match type with
    | .error e => .error e
    | .ok t =>
      if !tdengine_is_builtin t then .ok ⟨false, g, itc, outer_cxt⟩
      else .ok ⟨true, g, itc, collation_merge collation state outer_cxt⟩
  else .ok ⟨true, g, itc, collation_merge collation state outer_cxt⟩

/-- The state a node derives from its own collation and that of its inputs,
as `T_FuncExpr`, `T_Aggref` and `T_ArrayExpr` do (deparse.c 664-673). -/
def derived_state (collation : Oid) (inner_cxt : foreign_loc_cxt) : FDWCollateState :=
  if collation = InvalidOid then FDW_COLLATE_NONE
  else if inner_cxt.state = FDW_COLLATE_SAFE ∧ collation = inner_cxt.collation then
    FDW_COLLATE_SAFE
  else if collation = DEFAULT_COLLATION_OID then FDW_COLLATE_NONE
  else FDW_COLLATE_UNSAFE

/-- The same for `T_OpExpr` and `T_RelabelType`, which have no case for the
default collation (deparse.c 817-823, 889-895). -/
def derived_state_strict (collation : Oid) (inner_cxt : foreign_loc_cxt) : FDWCollateState :=
  if collation = InvalidOid then FDW_COLLATE_NONE
  else if inner_cxt.state = FDW_COLLATE_SAFE ∧ collation = inner_cxt.collation then
    FDW_COLLATE_SAFE
  else FDW_COLLATE_UNSAFE

/-- The input-collation test shared by the operator and function cases:
`true` when the node must be rejected. -/
def inputcollid_mismatch (inputcollid : Oid) (inner_cxt : foreign_loc_cxt) : Bool :=
  if inputcollid = InvalidOid then false
  else decide (inner_cxt.state ≠ FDW_COLLATE_SAFE ∨ inputcollid ≠ inner_cxt.collation)

/-- The state of a `Var` that is not of the scanned relation, and of a `Param`
(deparse.c 445-456, 514-519). -/
def param_state (collation : Oid) : FDWCollateState :=
  if collation = InvalidOid ∨ collation = DEFAULT_COLLATION_OID then FDW_COLLATE_NONE
  else FDW_COLLATE_UNSAFE

/-- The rejection test `is_comparison && has_sub_or_add_operator && has_time_key`
on the parent context. -/
def time_arith_in_comparison (outer_cxt : foreign_loc_cxt) : Bool :=
  outer_cxt.is_comparison && outer_cxt.has_sub_or_add_operator && outer_cxt.has_time_key

/-- `interval2tm`: the year and month fields of a broken-down interval. -/
def interval2tm_year_mon (v : Interval) : Int × Int :=
  (Int.tdiv v.month 12, Int.tmod v.month 12)

/-! ### Leaf cases -/

/-- The `T_Var` case (deparse.c 415-459). -/
def walker_Var (varno : Nat) (varattno : Int) (vartype : Oid) (varcollid : Oid)
    (varlevelsup : Nat) (g : foreign_glob_cxt) (itc : Bool) (outer_cxt : foreign_loc_cxt) :
    Except Err WalkOut :=
  if g.relids.contains varno && varlevelsup == 0 then
    if varattno < 0 then .ok ⟨false, g, itc, outer_cxt⟩
    else
      let itc1 := if TDENGINE_IS_TIME_TYPE vartype then true else itc
      if TDENGINE_IS_TIME_TYPE vartype && time_arith_in_comparison outer_cxt then
        .ok ⟨false, g, itc1, outer_cxt⟩
      else
        let g1 := { g with mixing_aggref_status :=
                      g.mixing_aggref_status ||| TDENGINE_TARGETS_MARK_COLUMN }
        let state := if OidIsValid varcollid then FDW_COLLATE_SAFE else FDW_COLLATE_NONE
        walker_finish (.ok vartype) true varcollid state g1 itc1 outer_cxt
  else
    walker_finish (.ok vartype) true varcollid (param_state varcollid) g itc outer_cxt

/-- The `T_Const` case (deparse.c 462-493). -/
def walker_Const (cat : Catalog) (consttype : Oid) (constcollid : Oid)
    (constvalue : Datum) (g : foreign_glob_cxt) (itc : Bool) (outer_cxt : foreign_loc_cxt) :
    Except Err WalkOut :=
  let tm := interval2tm_year_mon (DatumGetIntervalP constvalue)
  if consttype = INTERVALOID ∧ (tm.2 ≠ 0 ∨ tm.1 ≠ 0) then .ok ⟨false, g, itc, outer_cxt⟩
  else
    match tdengine_get_data_type_name cat consttype with
    | .error e => .error e
    | .ok type_name =>
      let check_type := !(type_name == "tdengine_fill_enum")
      if constcollid ≠ InvalidOid ∧ constcollid ≠ DEFAULT_COLLATION_OID then
        .ok ⟨false, g, itc, outer_cxt⟩
      else
        walker_finish (.ok consttype) check_type InvalidOid FDW_COLLATE_NONE g itc outer_cxt

/-- The `T_Param` case (deparse.c 498-521). -/
def walker_Param (paramtype : Oid) (paramcollid : Oid)
    (g : foreign_glob_cxt) (itc : Bool) (outer_cxt : foreign_loc_cxt) : Except Err WalkOut :=
  if !is_valid_type paramtype then .ok ⟨false, g, itc, outer_cxt⟩
  else if TDENGINE_IS_TIME_TYPE paramtype && time_arith_in_comparison outer_cxt then
    .ok ⟨false, g, itc, outer_cxt⟩
  else
    walker_finish (.ok paramtype) true paramcollid (param_state paramcollid) g itc outer_cxt

/-- The `T_FieldSelect` case (deparse.c 522-532): the argument is not visited. -/
def walker_FieldSelect (g : foreign_glob_cxt) (itc : Bool) (outer_cxt : foreign_loc_cxt) :
    Except Err WalkOut :=
  if !(g.reloptkind = .RELOPT_BASEREL ∨ g.reloptkind = .RELOPT_OTHER_MEMBER_REL) then
    .ok ⟨false, g, itc, outer_cxt⟩
  else
    walker_finish (.ok InvalidOid) false InvalidOid FDW_COLLATE_NONE g itc outer_cxt

/-- The `T_NullTest` case (deparse.c 1191-1207): the argument is not visited. -/
def walker_NullTest (cat : Catalog) (arg : Node)
    (g : foreign_glob_cxt) (itc : Bool) (outer_cxt : foreign_loc_cxt) : Except Err WalkOut :=
  match tdengine_get_slvar cat arg g.slinfo with
  | none => .ok ⟨false, g, itc, outer_cxt⟩
  | some colname =>
    if !tdengine_is_tag_key cat colname g.relid then .ok ⟨false, g, itc, outer_cxt⟩
    else walker_finish (.ok BOOLOID) true InvalidOid FDW_COLLATE_NONE g itc outer_cxt

/-! ### The parts of the composite cases around the recursive call -/

/-- The `T_List` case (deparse.c 932-958), given the `foreach` loop over the
elements: the inner context inherits five flags, and the list's collation is
the one its elements left in the inner context. -/
def walker_List_node
    (loop : foreign_glob_cxt → Bool → foreign_loc_cxt → Except Err WalkOut)
    (g : foreign_glob_cxt) (itc : Bool) (outer_cxt : foreign_loc_cxt) : Except Err WalkOut :=
  let inner_cxt : foreign_loc_cxt :=
    { inner_cxt_init with
      can_skip_cast := outer_cxt.can_skip_cast,
      tdengine_fill_enable := outer_cxt.tdengine_fill_enable,
      has_time_key := outer_cxt.has_time_key,
      has_sub_or_add_operator := outer_cxt.has_sub_or_add_operator,
      is_comparison := outer_cxt.is_comparison }
  match loop g itc inner_cxt with
  | .error e => .error e
  | .ok r =>
    if !r.result then .ok ⟨false, r.glob, r.is_time_column, outer_cxt⟩
    else
      walker_finish (.ok InvalidOid) false r.cxt.collation r.cxt.state r.glob r.is_time_column
        outer_cxt

/-- What the `T_FuncExpr` case has settled when it descends into the arguments. -/
structure FuncPre where
  opername : String
  is_cast_func : Bool
  glob : foreign_glob_cxt
  outer_cxt : foreign_loc_cxt
  inner_cxt : foreign_loc_cxt
deriving DecidableEq, Repr

/-- The `T_FuncExpr` case up to the recursive call (deparse.c 534-621): an early
return (`inl`), an error, or the contexts for the descent (`inr`). -/
def walker_FuncExpr_pre (cat : Catalog) (funcid : Oid) (funcresulttype : Oid)
    (g : foreign_glob_cxt) (itc : Bool) (outer_cxt : foreign_loc_cxt) :
    Except Err (WalkOut ⊕ FuncPre) :=
  match cat.proname funcid with
  | none => .error (.elog "cache lookup failed for function")
  | some opername =>
    if TDENGINE_IS_TIME_TYPE funcresulttype && outer_cxt.is_comparison &&
        (opername != "now" || !outer_cxt.has_time_key) then
      .ok (.inl ⟨false, g, itc, outer_cxt⟩)
    else
      let is_cast_func := opername == "float8" || opername == "numeric"
      let is_star_func := tdengine_is_star_func funcid opername
      let outer1 := if is_star_func then { outer_cxt with can_pushdown_stable := true }
                    else outer_cxt
      let can_pushdown_func := tdengine_is_unique_func funcid opername ||
                               tdengine_is_supported_builtin_func funcid opername
      let inner1 := if can_pushdown_func then { inner_cxt_init with can_skip_cast := true }
                    else inner_cxt_init
      let outer2 := if can_pushdown_func then { outer1 with can_pushdown_volatile := true }
                    else outer1
      if !(is_star_func || can_pushdown_func || is_cast_func) then
        .ok (.inl ⟨false, g, itc, outer2⟩)
      else if (opername == "tdengine_fill_numeric" || opername == "tdengine_fill_option") &&
          outer_cxt.tdengine_fill_enable == false then
        .error (.elog ("tdengine_fdw: syntax error tdengine_fill_numeric() or " ++
          "tdengine_fill_option() must be embedded inside tdengine_time() function\n"))
      else if is_cast_func && outer_cxt.can_skip_cast == false then
        .ok (.inl ⟨false, g, itc, outer2⟩)
      else if !is_cast_func && !g.for_tlist && g.is_inner_func then
        .ok (.inl ⟨false, g, itc, outer2⟩)
      else
        let g1 := if is_cast_func then g else { g with is_inner_func := true }
        let inner2 := if opername == "tdengine_time"
                      then { inner1 with tdengine_fill_enable := true } else inner1
        let outer3 := if opername == "tdengine_time" then outer2
                      else { outer2 with have_otherfunc_tdengine_time_tlist := true }
        .ok (.inr ⟨opername, is_cast_func, g1, outer3, inner2⟩)

/-- Whether the first argument of a call is a text constant of the form `/.../`
(deparse.c 632-648). -/
def first_arg_is_regex : List Node → Bool
  | T_Const consttype _ v _ :: _ =>
    consttype == TEXTOID && tdengine_is_regex_argument (OidOutputFunctionCall v)
  | _ => false

/-- The `T_FuncExpr` case after the arguments were accepted (deparse.c 627-674);
`r` is what the descent left behind. -/
def walker_FuncExpr_post (funcresulttype : Oid) (funccollid : Oid) (inputcollid : Oid)
    (args : List Node) (pre : FuncPre) (r : WalkOut) : Except Err WalkOut :=
  let inner_cxt := { r.cxt with tdengine_fill_enable := false }
  let g2 := if !pre.is_cast_func then { r.glob with is_inner_func := false } else r.glob
  if first_arg_is_regex args then
    walker_finish (.ok InvalidOid) false InvalidOid FDW_COLLATE_NONE g2 r.is_time_column
      { pre.outer_cxt with can_pushdown_stable := true }
  else if inputcollid_mismatch inputcollid inner_cxt then
    .ok ⟨false, g2, r.is_time_column, pre.outer_cxt⟩
  else
    walker_finish (.ok funcresulttype) true funccollid (derived_state funccollid inner_cxt) g2
      r.is_time_column pre.outer_cxt

/-- The comparison operators of the `T_OpExpr` case (deparse.c 702-708). -/
def is_comparison_opname (n : String) : Bool :=
  n == "=" || n == ">" || n == "<" || n == ">=" || n == "<=" || n == "!=" || n == "<>"

/-- The operators of the block at deparse.c 747. -/
def is_ordering_or_eq_opname (n : String) : Bool :=
  n == ">" || n == "<" || n == ">=" || n == "<=" || n == "="

/-- The test at deparse.c 713-718: a comparison of two interval operands. -/
def both_operands_interval (is_comparison : Bool) (args : List Node) : Except Err Bool :=
  if is_comparison then do
    let a ← linitial args
    let ta ← exprType a
    if ta == INTERVALOID then do
      let b ← lsecond args
      let tb ← exprType b
      pure (tb == INTERVALOID)
    else pure false
  else pure false

/-- The block at deparse.c 747-779 for `>`, `<`, `>=`, `<=` and `=`: `true` when
the operator expression must be rejected. -/
def time_operand_rejected (cat : Catalog) (g : foreign_glob_cxt) (cur_opname : String)
    (args : List Node) (has_time_key : Bool) (has_time_tags_or_fields_column : Bool) :
    Except Err Bool :=
  if is_ordering_or_eq_opname cur_opname then do
    let a ← linitial args
    let b ← lsecond args
    let c1 ← tdengine_contain_time_column [a]
    let c2 ← if c1 then tdengine_contain_time_column [b] else pure false
    let has_both_time_colum := c1 && c2
    if has_time_key && has_both_time_colum then pure true
    else if cur_opname != "=" then do
      let has_first_time_key ← tdengine_contain_time_key_column cat g.relid [a]
      let has_second_time_key ← tdengine_contain_time_key_column cat g.relid [b]
      if has_both_time_colum && !has_first_time_key && !has_second_time_key then pure true
      else if has_time_tags_or_fields_column &&
          (tdengine_contain_time_const args || tdengine_contain_time_param args) then pure true
      else if tdengine_is_string_type cat g.slinfo a then pure true
      else pure false
    else pure false
  else pure false

/-- The `T_OpExpr` case up to `if (is_slvar || is_param)` (deparse.c 677-792):
`none` is `return false`, else the inner context for the operands. -/
def walker_OpExpr_pre (cat : Catalog) (node : Node) (opno : Oid) (args : List Node)
    (g : foreign_glob_cxt) (outer_cxt : foreign_loc_cxt) :
    Except Err (Option foreign_loc_cxt) := do
  let is_slvar := tdengine_is_slvar_fetch cat node g.slinfo
  let is_param := tdengine_is_param_fetch node g.slinfo
  if !tdengine_is_builtin opno && !is_slvar && !is_param then pure none
  else
    match cat.operator opno with
    | none => throw (.elog "cache lookup failed for operator")
    | some form =>
      let cur_opname := form.oprname
      let is_comparison := is_comparison_opname cur_opname
      if ← both_operands_interval is_comparison args then pure none
      else
        let has_time_key ← tdengine_contain_time_key_column cat g.relid args
        let time_expr ← if is_comparison && !has_time_key
                        then tdengine_contain_time_expr args else pure false
        if time_expr then pure none
        else if (cur_opname == "!=" || cur_opname == "<>") && has_time_key then pure none
        else
          let has_time_column ← tdengine_contain_time_column args
          let has_time_tags_or_fields_column := has_time_column && !has_time_key
          if is_comparison && has_time_tags_or_fields_column &&
              tdengine_contain_time_function args then pure none
          else if ← time_operand_rejected cat g cur_opname args has_time_key
              has_time_tags_or_fields_column then pure none
          else
            let inner_cxt : foreign_loc_cxt :=
              if cur_opname == "+" || cur_opname == "-" then
                { inner_cxt_init with
                  has_time_key := outer_cxt.has_time_key,
                  is_comparison := outer_cxt.is_comparison,
                  has_sub_or_add_operator := true }
              else
                { inner_cxt_init with
                  is_comparison := is_comparison, has_time_key := has_time_key }
            pure (some inner_cxt)

/-- The `T_OpExpr` case after the operands were accepted (deparse.c 807-823). -/
def walker_OpExpr_post (opresulttype : Oid) (opcollid : Oid) (inputcollid : Oid)
    (outer_cxt : foreign_loc_cxt) (r : WalkOut) : Except Err WalkOut :=
  if r.glob.mixing_aggref_status &&& TDENGINE_TARGETS_MIXING_AGGREF_UNSAFE
      = TDENGINE_TARGETS_MIXING_AGGREF_UNSAFE then
    .ok ⟨false, r.glob, r.is_time_column, outer_cxt⟩
  else if inputcollid_mismatch inputcollid r.cxt then
    .ok ⟨false, r.glob, r.is_time_column, outer_cxt⟩
  else
    walker_finish (.ok opresulttype) true opcollid (derived_state_strict opcollid r.cxt) r.glob
      r.is_time_column outer_cxt

/-- The `T_ScalarArrayOpExpr` case up to the recursive call (deparse.c 829-859):
`false` is `return false`. -/
def walker_ScalarArrayOpExpr_pre (cat : Catalog) (opno : Oid) (args : List Node)
    (g : foreign_glob_cxt) : Except Err Bool := do
  match cat.operator opno with
  | none => throw (.elog "cache lookup failed for operator")
  | some form =>
    let cur_opname := form.oprname
    let a ← linitial args
    if tdengine_is_string_type cat g.slinfo a &&
        (cur_opname == "<" || cur_opname == ">" || cur_opname == "<=" || cur_opname == ">=")
    then pure false
    else if !tdengine_is_builtin opno then pure false
    else if ← tdengine_contain_time_column args then pure false
    else pure true

/-- The aggregate names of deparse.c 977-994. -/
def is_not_star_aggregate (opername : String) : Bool :=
  ["sum", "max", "min", "count", "tdengine_distinct", "spread", "sample", "first", "last",
   "integral", "mean", "median", "tdengine_count", "tdengine_mode", "stddev", "tdengine_sum",
   "tdengine_max", "tdengine_min"].contains opername

/-- What the `T_Aggref` case fixes before its argument loop. -/
structure AggPre where
  opername : String
  is_star_func : Bool
  index_const : Int
  old_val : Bool
deriving DecidableEq, Repr

/-- The `T_Aggref` case up to the argument loop (deparse.c 959-1021): `none` is
`return false`.  `get_func_name` yields `NULL` for an unknown function, which
`strcmp` then reads. -/
def walker_Aggref_pre (cat : Catalog) (aggfnoid : Oid) (aggsplit : AggSplit)
    (g : foreign_glob_cxt) (itc : Bool) : Except Err (Option AggPre) :=
  match cat.proname aggfnoid with
  | none => .error (.undefined "strcmp on the NULL result of get_func_name")
  | some opername =>
    let is_star_func := tdengine_is_star_func aggfnoid opername
    if !(is_star_func || is_not_star_aggregate opername) then .ok none
    else
      let index_const : Int := if opername == "sample" || opername == "integral" then 1 else -1
      if g.reloptkind ≠ .RELOPT_UPPER_REL then .ok none
      else if aggsplit ≠ .AGGSPLIT_SIMPLE then .ok none
      else .ok (some ⟨opername, is_star_func, index_const, itc⟩)

/-- The loop-carried variables of the argument loop of the `T_Aggref` case. -/
structure AggLoop where
  index : Int
  is_regex : Bool
  agg_inputcollid : Oid
deriving DecidableEq, Repr

/-- The checks on an argument that was wrapped in a `TargetEntry`
(deparse.c 1033-1079); `n` is `tle->expr`.  The result is `none` for
`return false`, else the updated `is_regex` and, for a dynamic column access,
the access `oe` with its `resulttype`. -/
def aggref_tle_check (cat : Catalog) (g : foreign_glob_cxt) (pre : AggPre) (index : Int)
    (is_regex : Bool) (n : Node) : Option (Bool × Option (Node × Oid)) :=
  match n with
  | T_Var .. => some (is_regex, none)
  | T_Const consttype _ v _ =>
    if index == pre.index_const then some (is_regex, none)
    else if consttype == TEXTOID then
      if tdengine_is_regex_argument (OidOutputFunctionCall v) then some (true, none) else none
    else none
  | T_OpExpr _ opresulttype _ _ _ =>
    if g.slinfo.schemaless then
      if tdengine_is_slvar_fetch cat n g.slinfo then some (is_regex, some (n, opresulttype))
      else none
    else if pre.is_star_func then some (is_regex, none)
    else none
  | T_CoerceViaIOExpr arg resulttype _ =>
    if g.slinfo.schemaless then
      if tdengine_is_slvar_fetch cat arg g.slinfo then some (is_regex, some (arg, resulttype))
      else none
    else if pre.is_star_func then some (is_regex, none)
    else none
  | _ => if pre.is_star_func then some (is_regex, none) else none

/-- The column checks on an argument (deparse.c 1081-1107): `none` is
`return false`, else the updated `agg_inputcollid`.  `slvar` is the dynamic
column access found by `aggref_tle_check`; reading `oe->args` of an access that
is not an `OpExpr` is undefined. -/
def aggref_column_check (cat : Catalog) (g : foreign_glob_cxt) (pre : AggPre)
    (agg_inputcollid : Oid) (n : Node) (slvar : Option (Node × Oid)) :
    Except Err (Option Oid) :=
  let reject_type (resulttype : Oid) : Bool :=
    (pre.opername == "max" || pre.opername == "min") &&
    (resulttype == TEXTOID || resulttype == InvalidOid)
  match slvar with
  | some (oe, resulttype) =>
    match oe with
    | T_OpExpr _ _ _ _ [T_Var _ _ _ _ varcollid _, T_Const _ _ v _] =>
      let colname := String.mk (OidOutputFunctionCall v)
      if tdengine_is_tag_key cat colname g.relid then .ok none
      else if reject_type resulttype then .ok none
      else .ok (some varcollid)
    | _ => .error (.undefined "oe->args of a node that is not an OpExpr")
  | none =>
    match n with
    | T_Var _ varattno vartype _ _ _ =>
      match tdengine_get_column_name cat g.relid varattno with
      | .error e => .error e
      | .ok colname =>
        if tdengine_is_tag_key cat colname g.relid then .ok none
        else if reject_type vartype then .ok none
        else .ok (some agg_inputcollid)
    | _ => .ok (some agg_inputcollid)

/-- One argument of the `T_Aggref` loop up to the recursive call on it:
`none` is `return false`, else the loop variables for the rest of the loop.
`wrapped` tells whether the argument was a `TargetEntry`; `n` is the node the
walker will visit. -/
def aggref_arg_pre (cat : Catalog) (g : foreign_glob_cxt) (pre : AggPre) (st : AggLoop)
    (wrapped : Bool) (n : Node) : Except Err (Option AggLoop) :=
  let index := st.index + 1
  let checked : Option (Bool × Option (Node × Oid)) :=
    if wrapped then aggref_tle_check cat g pre index st.is_regex n
    else some (st.is_regex, none)
  match checked with
  | none => .ok none
  | some (is_regex, slvar) =>
    match aggref_column_check cat g pre st.agg_inputcollid n slvar with
    | .error e => .error e
    | .ok none => .ok none
    | .ok (some coll) => .ok (some ⟨index, is_regex, coll⟩)

/-- The test after the recursive call on an argument (deparse.c 1111): a time
column was seen and the aggregate is neither `last` nor `first`. -/
def aggref_time_rejected (pre : AggPre) (itc : Bool) : Bool :=
  itc && !(pre.opername == "last" || pre.opername == "first")

/-- The `T_Aggref` case after its argument loop (deparse.c 1117-1146). -/
def walker_Aggref_post (aggtype : Oid) (aggcollid : Oid) (aggorder : List Nat)
    (aggdistinct : List Nat) (aggfilter : Bool) (pre : AggPre) (st : AggLoop)
    (outer_cxt : foreign_loc_cxt) (r : WalkOut) : Except Err WalkOut :=
  let itc := pre.old_val
  if !aggorder.isEmpty || aggfilter then .ok ⟨false, r.glob, itc, outer_cxt⟩
  else if !aggdistinct.isEmpty && pre.opername != "count" then .ok ⟨false, r.glob, itc, outer_cxt⟩
  else if st.is_regex then
    walker_finish (.ok InvalidOid) false aggcollid (derived_state aggcollid r.cxt) r.glob itc
      outer_cxt
  else if inputcollid_mismatch st.agg_inputcollid r.cxt then
    .ok ⟨false, r.glob, itc, outer_cxt⟩
  else
    walker_finish (.ok aggtype) true aggcollid (derived_state aggcollid r.cxt) r.glob itc
      outer_cxt

/-! ### The walker -/

mutual
/-- `tdengine_foreign_expr_walker` (deparse.c 382-1296).  `itc` is the value of
the function-static `is_time_column` when the call starts. -/
def tdengine_foreign_expr_walker (cat : Catalog) :
    Node → foreign_glob_cxt → Bool → foreign_loc_cxt → Except Err WalkOut
  | T_Var varno varattno vartype _ varcollid varlevelsup, g, itc, outer_cxt =>
    walker_Var varno varattno vartype varcollid varlevelsup g itc outer_cxt
  | T_Const consttype constcollid constvalue _, g, itc, outer_cxt =>
    walker_Const cat consttype constcollid constvalue g itc outer_cxt
  | T_Param _ paramtype _ paramcollid, g, itc, outer_cxt =>
    walker_Param paramtype paramcollid g itc outer_cxt
  | T_FieldSelect _ _ _ _, g, itc, outer_cxt =>
    walker_FieldSelect g itc outer_cxt
  | T_FuncExpr funcid funcresulttype funccollid inputcollid args, g, itc, outer_cxt =>
    match walker_FuncExpr_pre cat funcid funcresulttype g itc outer_cxt with
    | .error e => .error e
    | .ok (.inl r) => .ok r
    | .ok (.inr pre) =>
      match walker_List_node (fun g2 i2 c2 => walker_foreach cat args g2 i2 c2)
          pre.glob itc pre.inner_cxt with
      | .error e => .error e
      | .ok r =>
        if !r.result then .ok ⟨false, r.glob, r.is_time_column, pre.outer_cxt⟩
        else walker_FuncExpr_post funcresulttype funccollid inputcollid args pre r
  | T_OpExpr opno opresulttype opcollid inputcollid args, g, itc, outer_cxt =>
    match walker_OpExpr_pre cat (T_OpExpr opno opresulttype opcollid inputcollid args) opno args
        g outer_cxt with
    | .error e => .error e
    | .ok none => .ok ⟨false, g, itc, outer_cxt⟩
    | .ok (some inner_cxt) =>
      if tdengine_is_slvar_fetch cat (T_OpExpr opno opresulttype opcollid inputcollid args)
            g.slinfo ||
          tdengine_is_param_fetch (T_OpExpr opno opresulttype opcollid inputcollid args)
            g.slinfo then
        walker_finish (.ok opresulttype) false inputcollid FDW_COLLATE_SAFE g itc outer_cxt
      else
        match walker_List_node (fun g2 i2 c2 => walker_foreach cat args g2 i2 c2)
            g itc inner_cxt with
        | .error e => .error e
        | .ok r =>
          if !r.result then .ok ⟨false, r.glob, r.is_time_column, outer_cxt⟩
          else walker_OpExpr_post opresulttype opcollid inputcollid outer_cxt r
  | T_ScalarArrayOpExpr opno _ inputcollid args, g, itc, outer_cxt =>
    match walker_ScalarArrayOpExpr_pre cat opno args g with
    | .error e => .error e
    | .ok false => .ok ⟨false, g, itc, outer_cxt⟩
    | .ok true =>
      match walker_List_node (fun g2 i2 c2 => walker_foreach cat args g2 i2 c2)
          g itc inner_cxt_init with
      | .error e => .error e
      | .ok r =>
        if !r.result then .ok ⟨false, r.glob, r.is_time_column, outer_cxt⟩
        else if inputcollid_mismatch inputcollid r.cxt then
          .ok ⟨false, r.glob, r.is_time_column, outer_cxt⟩
        else
          walker_finish (.ok BOOLOID) true InvalidOid FDW_COLLATE_NONE r.glob r.is_time_column
            outer_cxt
  | T_RelabelType arg resulttype resultcollid, g, itc, outer_cxt =>
    match tdengine_foreign_expr_walker cat arg g itc inner_cxt_init with
    | .error e => .error e
    | .ok r =>
      if !r.result then .ok ⟨false, r.glob, r.is_time_column, outer_cxt⟩
      else
        walker_finish (.ok resulttype) true resultcollid
          (derived_state_strict resultcollid r.cxt) r.glob r.is_time_column outer_cxt
  | T_BoolExpr boolop args, g, _, outer_cxt =>
    if boolop = .NOT_EXPR then .ok ⟨false, g, false, outer_cxt⟩
    else
      match walker_List_node (fun g2 i2 c2 => walker_foreach cat args g2 i2 c2)
          g false inner_cxt_init with
      | .error e => .error e
      | .ok r =>
        if !r.result then .ok ⟨false, r.glob, r.is_time_column, outer_cxt⟩
        else if boolop = .OR_EXPR ∧ r.is_time_column = true then
          .ok ⟨false, r.glob, false, outer_cxt⟩
        else
          walker_finish (.ok BOOLOID) true InvalidOid FDW_COLLATE_NONE r.glob r.is_time_column
            outer_cxt
  | T_List elems, g, itc, outer_cxt =>
    walker_List_node (fun g2 i2 c2 => walker_foreach cat elems g2 i2 c2) g itc outer_cxt
  | T_Aggref aggfnoid aggtype aggcollid inputcollid args aggorder aggdistinct aggfilter _ _
      aggsplit, g, itc, outer_cxt =>
    match walker_Aggref_pre cat aggfnoid aggsplit g itc with
    | .error e => .error e
    | .ok none => .ok ⟨false, g, itc, outer_cxt⟩
    | .ok (some pre) =>
      match walker_aggargs cat pre args ⟨-1, false, inputcollid⟩ g false inner_cxt_init with
      | .error e => .error e
      | .ok (r, st) =>
        if !r.result then .ok ⟨false, r.glob, r.is_time_column, outer_cxt⟩
        else
          walker_Aggref_post aggtype aggcollid aggorder aggdistinct aggfilter.isSome pre st
            outer_cxt r
  | T_CoerceViaIOExpr arg resulttype _, g, itc, outer_cxt =>
    if tdengine_is_slvar_fetch cat arg g.slinfo && TDENGINE_IS_TIME_TYPE resulttype &&
        time_arith_in_comparison outer_cxt then
      .ok ⟨false, g, itc, outer_cxt⟩
    else if tdengine_is_slvar_fetch cat arg g.slinfo || tdengine_is_param_fetch arg g.slinfo then
      match tdengine_foreign_expr_walker cat arg g itc inner_cxt_init with
      | .error e => .error e
      | .ok r =>
        if !r.result then .ok ⟨false, r.glob, r.is_time_column, outer_cxt⟩
        else
          walker_finish (.ok resulttype) true InvalidOid FDW_COLLATE_NONE r.glob
            r.is_time_column outer_cxt
    else .ok ⟨false, g, itc, outer_cxt⟩
  | T_NullTest arg _, g, itc, outer_cxt =>
    walker_NullTest cat arg g itc outer_cxt
  | T_ArrayExpr array_typeid array_collid elements, g, itc, outer_cxt =>
    match walker_List_node (fun g2 i2 c2 => walker_foreach cat elements g2 i2 c2)
        g itc inner_cxt_init with
    | .error e => .error e
    | .ok r =>
      if !r.result then .ok ⟨false, r.glob, r.is_time_column, outer_cxt⟩
      else
        walker_finish (.ok array_typeid) true array_collid (derived_state array_collid r.cxt)
          r.glob r.is_time_column outer_cxt
  | T_DistinctExpr .., g, itc, outer_cxt => .ok ⟨false, g, itc, outer_cxt⟩
  | T_TargetEntry .., g, itc, outer_cxt => .ok ⟨false, g, itc, outer_cxt⟩
  | T_Other .., g, itc, outer_cxt => .ok ⟨false, g, itc, outer_cxt⟩
/-- The `foreach` loop of the `T_List` case (deparse.c 945-949): the elements
are visited in order with one shared inner context, up to the first that is
rejected. -/
def walker_foreach (cat : Catalog) :
    List Node → foreign_glob_cxt → Bool → foreign_loc_cxt → Except Err WalkOut
  | [], g, itc, inner_cxt => .ok ⟨true, g, itc, inner_cxt⟩
  | a :: rest, g, itc, inner_cxt =>
    match tdengine_foreign_expr_walker cat a g itc inner_cxt with
    | .error e => .error e
    | .ok r =>
      if !r.result then .ok r
      else walker_foreach cat rest r.glob r.is_time_column r.cxt
/-- The argument loop of the `T_Aggref` case (deparse.c 1024-1116). -/
def walker_aggargs (cat : Catalog) (pre : AggPre) :
    List Node → AggLoop → foreign_glob_cxt → Bool → foreign_loc_cxt →
    Except Err (WalkOut × AggLoop)
  | [], st, g, itc, inner_cxt => .ok (⟨true, g, itc, inner_cxt⟩, st)
  | T_TargetEntry n _ _ _ :: rest, st, g, itc, inner_cxt =>
    match aggref_arg_pre cat g pre st true n with
    | .error e => .error e
    | .ok none => .ok (⟨false, g, itc, inner_cxt⟩, st)
    | .ok (some st1) =>
      match tdengine_foreign_expr_walker cat n g itc inner_cxt with
      | .error e => .error e
      | .ok r =>
        if !r.result then .ok (r, st1)
        else if aggref_time_rejected pre r.is_time_column then
          .ok (⟨false, r.glob, false, r.cxt⟩, st1)
        else walker_aggargs cat pre rest st1 r.glob r.is_time_column r.cxt
  | n :: rest, st, g, itc, inner_cxt =>
    match aggref_arg_pre cat g pre st false n with
    | .error e => .error e
    | .ok none => .ok (⟨false, g, itc, inner_cxt⟩, st)
    | .ok (some st1) =>
      match tdengine_foreign_expr_walker cat n g itc inner_cxt with
      | .error e => .error e
      | .ok r =>
        if !r.result then .ok (r, st1)
        else if aggref_time_rejected pre r.is_time_column then
          .ok (⟨false, r.glob, false, r.cxt⟩, st1)
        else walker_aggargs cat pre rest st1 r.glob r.is_time_column r.cxt
end

/-- `tdengine_is_foreign_expr` (deparse.c 306-353).  `relids` is the relid set
the C code picks by `reloptkind`, `relid` is `fpinfo->table->relid`, and `itc`
is the value the static `is_time_column` has when the call is made. -/
def tdengine_is_foreign_expr (cat : Catalog) (reloptkind : RelOptKind)
    (slinfo : schemaless_info) (relids : List Nat) (relid : Oid) (itc : Bool) (expr : Node)
    (for_tlist : Bool) : Except Err Bool :=
  let glob_cxt : foreign_glob_cxt :=
    { reloptkind := reloptkind, slinfo := slinfo, relids := relids, relid := relid,
      mixing_aggref_status := TDENGINE_TARGETS_MIXING_AGGREF_SAFE,
      for_tlist := for_tlist, is_inner_func := false }
  match tdengine_foreign_expr_walker cat expr glob_cxt itc inner_cxt_init with
  | .error e => .error e
  | .ok r =>
    if !r.result then .ok false
    else if r.cxt.state = FDW_COLLATE_UNSAFE then .ok false
    else .ok true

/-! ## Deparsing: context and leaves -/

mutual
/-- PostgreSQL `equal()` on the fields `Node` carries. -/
def equal : Node → Node → Bool
  | T_Var a1 a2 a3 a4 a5 a6, T_Var b1 b2 b3 b4 b5 b6 =>
    a1 == b1 && a2 == b2 && a3 == b3 && a4 == b4 && a5 == b5 && a6 == b6
  | T_Const a1 a2 a3 a4, T_Const b1 b2 b3 b4 => a1 == b1 && a2 == b2 && a3 == b3 && a4 == b4
  | T_Param a1 a2 a3 a4, T_Param b1 b2 b3 b4 => a1 == b1 && a2 == b2 && a3 == b3 && a4 == b4
  | T_FieldSelect a a1 a2 a3, T_FieldSelect b b1 b2 b3 =>
    equal a b && a1 == b1 && a2 == b2 && a3 == b3
  | T_FuncExpr a1 a2 a3 a4 as, T_FuncExpr b1 b2 b3 b4 bs =>
    a1 == b1 && a2 == b2 && a3 == b3 && a4 == b4 && equal_list as bs
  | T_OpExpr a1 a2 a3 a4 as, T_OpExpr b1 b2 b3 b4 bs =>
    a1 == b1 && a2 == b2 && a3 == b3 && a4 == b4 && equal_list as bs
  | T_DistinctExpr a1 a2 a3 a4 as, T_DistinctExpr b1 b2 b3 b4 bs =>
    a1 == b1 && a2 == b2 && a3 == b3 && a4 == b4 && equal_list as bs
  | T_ScalarArrayOpExpr a1 a2 a3 as, T_ScalarArrayOpExpr b1 b2 b3 bs =>
    a1 == b1 && a2 == b2 && a3 == b3 && equal_list as bs
  | T_RelabelType a a1 a2, T_RelabelType b b1 b2 => equal a b && a1 == b1 && a2 == b2
  | T_BoolExpr a1 as, T_BoolExpr b1 bs => a1 == b1 && equal_list as bs
  | T_List as, T_List bs => equal_list as bs
  | T_Aggref a1 a2 a3 a4 as a5 a6 af a7 a8 a9, T_Aggref b1 b2 b3 b4 bs b5 b6 bf b7 b8 b9 =>
    a1 == b1 && a2 == b2 && a3 == b3 && a4 == b4 && equal_list as bs && a5 == b5 && a6 == b6 &&
    (match af, bf with
     | some x, some y => equal x y
     | none, none => true
     | _, _ => false) &&
    a7 == b7 && a8 == b8 && a9 == b9
  | T_TargetEntry a a1 a2 a3, T_TargetEntry b b1 b2 b3 =>
    equal a b && a1 == b1 && a2 == b2 && a3 == b3
  | T_CoerceViaIOExpr a a1 a2, T_CoerceViaIOExpr b b1 b2 => equal a b && a1 == b1 && a2 == b2
  | T_NullTest a a1, T_NullTest b b1 => equal a b && a1 == b1
  | T_ArrayExpr a1 a2 as, T_ArrayExpr b1 b2 bs => a1 == b1 && a2 == b2 && equal_list as bs
  | T_Other a1 a2 as, T_Other b1 b2 bs => a1 == b1 && a2 == b2 && equal_list as bs
  | _, _ => false
/-- `equal()` on two lists of nodes. -/
def equal_list : List Node → List Node → Bool
  | [], [] => true
  | a :: as, b :: bs => equal a b && equal_list as bs
  | _, _ => false
end

/-- `deparse_expr_cxt` (deparse.c 130).  Of `scanrel` the code reads the relid
set and the range-table index, of `foreignrel` the schemaless information; `buf`
is the text appended so far and `params_list` is `none` for a `NULL` list
pointer. -/
structure deparse_expr_cxt where
  scanrel_relids : List Nat
  scanrel_relid : Nat
  slinfo : schemaless_info
  buf : StringInfo
  params_list : Option (List Node)
  op_type : PatternMatchingOperator
  is_tlist : Bool
  can_skip_cast : Bool
  can_delete_directly : Bool
  has_bool_cmp : Bool
  tdengine_fill_expr : Option Node
  convert_to_timestamp : Bool

/-- `appendStringInfoString` and friends on the context's buffer. -/
def deparse_expr_cxt.append (context : deparse_expr_cxt) (s : List Char) : deparse_expr_cxt :=
  { context with buf := context.buf ++ s }

/-- The doubling loop of `tdengine_quote_identifier`. -/
def quote_identifier_body (q : Char) : List Char → List Char
  | [] => []
  | c :: rest => if c = q then c :: c :: quote_identifier_body q rest
                 else c :: quote_identifier_body q rest

/-- `tdengine_quote_identifier` (deparse.c 235). -/
def tdengine_quote_identifier (s : List Char) (q : Char) : List Char :=
  q :: (quote_identifier_body q s ++ [q])

/-- The quote character `QUOTE` (deparse.c 20). -/
def QUOTE : Char := '"'

/-- The text `tdengine_deparse_column_ref` appends for the column named
`colname` (deparse.c 1795-1807). -/
def column_ref_text (colname : String) (vartype : Oid) (convert : Bool) : List Char :=
  if convert && vartype == BOOLOID then
    ['('] ++ tdengine_quote_identifier colname.toList QUOTE ++ "=true)".toList
  else if TDENGINE_IS_TIME_COLUMN colname then "time".toList
  else tdengine_quote_identifier colname.toList QUOTE

/-- `tdengine_deparse_column_ref` (deparse.c 1771).  `can_delete_directly` is
`none` when the caller passes no flag to update. -/
def tdengine_deparse_column_ref (cat : Catalog) (buf : StringInfo) (varno : Nat)
    (varattno : Int) (vartype : Oid) (convert : Bool) (can_delete_directly : Option Bool) :
    Except Err (StringInfo × Option Bool) :=
  match tdengine_get_column_name cat (cat.rte_relid varno) varattno with
  | .error e => .error e
  | .ok colname =>
    let cdd := match can_delete_directly with
      | some b =>
        if !TDENGINE_IS_TIME_COLUMN colname &&
            !tdengine_is_tag_key cat colname (cat.rte_relid varno) then some false
        else some b
      | none => none
    .ok (buf ++ column_ref_text colname vartype convert, cdd)

/-- The position scan shared by `tdengine_deparse_var`, `tdengine_deparse_param`
and `tdengine_deparse_slvar`: the 1-based index of the first entry `equal` to
`node`, or one past the length when there is none. -/
def param_index (node : Node) : List Node → Nat → Nat × Bool
  | [], pindex => (pindex + 1, false)
  | p :: rest, pindex =>
    if equal node p then (pindex + 1, true) else param_index node rest (pindex + 1)

/-- `tdengine_print_remote_param` after the list scan, or
`tdengine_print_remote_placeholder` when there is no parameter list
(deparse.c 2234-2262, 2800-2815). -/
def deparse_as_param (node : Node) (context : deparse_expr_cxt) : deparse_expr_cxt :=
  match context.params_list with
  | some params =>
    let found := param_index node params 0
    let params2 := if found.2 then params else params ++ [node]
    { context with params_list := some params2,
                   buf := context.buf ++ ('$' :: (toString found.1).toList) }
  | none => context.append "(SELECT null)".toList

/-- `tdengine_deparse_var` (deparse.c 2046). -/
def tdengine_deparse_var (cat : Catalog) (node : Node) (varno : Nat) (varattno : Int)
    (vartype : Oid) (varlevelsup : Nat) (context : deparse_expr_cxt) :
    Except Err deparse_expr_cxt :=
  if context.scanrel_relids.contains varno && varlevelsup == 0 then
    match tdengine_deparse_column_ref cat context.buf varno varattno vartype
        context.has_bool_cmp (some context.can_delete_directly) with
    | .error e => .error e
    | .ok (buf, cdd) =>
      .ok { context with buf := buf, can_delete_directly := cdd.getD context.can_delete_directly }
  else .ok (deparse_as_param node context)

/-- `struct pg_itm` as `interval2itm` fills it (PostgreSQL timestamp.c); C
division truncates toward zero. -/
structure pg_itm where
  tm_usec : Int
  tm_sec : Int
  tm_min : Int
  tm_hour : Int
  tm_mday : Int
deriving DecidableEq, Repr

def USECS_PER_HOUR : Int := 3600000000
def USECS_PER_MINUTE : Int := 60000000
def USECS_PER_SEC : Int := 1000000

/-- `interval2itm`. -/
def interval2itm (span : Interval) : pg_itm :=
  let hour := Int.tdiv span.time USECS_PER_HOUR
  let t1 := span.time - hour * USECS_PER_HOUR
  let min := Int.tdiv t1 USECS_PER_MINUTE
  let t2 := t1 - min * USECS_PER_MINUTE
  let sec := Int.tdiv t2 USECS_PER_SEC
  let t3 := t2 - sec * USECS_PER_SEC
  { tm_usec := t3, tm_sec := sec, tm_min := min, tm_hour := hour, tm_mday := span.day }

/-- The `printf` conversion `%d` (and `%ld`). -/
def fmt_d (n : Int) : List Char := (toString n).toList

/-- The `INTERVALOID` case of `tdengine_deparse_const` (deparse.c 2174-2184): the
format `%dd%ldh%dm%ds%du`. -/
def deparse_interval (v : Interval) : List Char :=
  let tm := interval2itm v
  fmt_d tm.tm_mday ++ ['d'] ++ fmt_d tm.tm_hour ++ ['h'] ++ fmt_d tm.tm_min ++ ['m'] ++
    fmt_d tm.tm_sec ++ ['s'] ++ fmt_d tm.tm_usec ++ ['u']

/-- `SQL_STR_DOUBLE(ch, true)`. -/
def SQL_STR_DOUBLE (ch : Char) : Bool := ch == '\'' || ch == '\\'

/-- The character loop of `tdengine_deparse_string_literal`. -/
def string_literal_body : List Char → List Char
  | [] => []
  | ch :: rest =>
    if SQL_STR_DOUBLE ch then ch :: ch :: string_literal_body rest
    else ch :: string_literal_body rest

/-- `tdengine_deparse_string_literal` (deparse.c 1950). -/
def tdengine_deparse_string_literal (buf : StringInfo) (val : List Char) : StringInfo :=
  buf ++ ('\'' :: (string_literal_body val ++ ['\'']))

/-- The test `strspn(extval, "0123456789+-eE.") == strlen(extval)`. -/
def all_numeric_chars (extval : List Char) : Bool :=
  extval.all (fun c => "0123456789+-eE.".toList.contains c)

/-- The pattern branch of `tdengine_deparse_const` (deparse.c 2195-2218). -/
def deparse_pattern_const (buf : StringInfo) (extval : List Char)
    (op_type : PatternMatchingOperator) : Except Err StringInfo :=
  match op_type with
  | LIKE_OPERATOR | NOT_LIKE_OPERATOR | ILIKE_OPERATOR | NOT_ILIKE_OPERATOR =>
    tdengine_deparse_string_like_pattern buf extval op_type
  | REGEX_MATCH_CASE_SENSITIVE_OPERATOR | REGEX_NOT_MATCH_CASE_SENSITIVE_OPERATOR
  | REGEX_MATCH_CASE_INSENSITIVE_OPERATOR | REGEX_NOT_MATCH_CASE_INSENSITIVE_OPERATOR =>
    .ok (tdengine_deparse_string_regex_pattern buf extval op_type)
  | UNKNOWN_OPERATOR => .error (.elog "OPERATOR is not supported")

/-- `tdengine_deparse_const` (deparse.c 2092); the `showtype` argument is not
read by the C code. -/
def tdengine_deparse_const (cat : Catalog) (consttype : Oid) (constvalue : Datum)
    (constisnull : Bool) (context : deparse_expr_cxt) : Except Err deparse_expr_cxt :=
  let buf := context.buf
  let extval := OidOutputFunctionCall constvalue
  if constisnull then .ok (context.append "NULL".toList)
  else if consttype = INT2OID ∨ consttype = INT4OID ∨ consttype = INT8OID ∨ consttype = OIDOID ∨
      consttype = FLOAT4OID ∨ consttype = FLOAT8OID ∨ consttype = NUMERICOID then
    if all_numeric_chars extval then
      if extval.head? = some '+' ∨ extval.head? = some '-' then
        .ok (context.append (['('] ++ extval ++ [')']))
      else .ok (context.append extval)
    else .ok (context.append (['\''] ++ extval ++ ['\'']))
  else if consttype = BITOID ∨ consttype = VARBITOID then
    .ok (context.append ("B'".toList ++ extval ++ ['\'']))
  else if consttype = BOOLOID then
    if extval = ['t'] then .ok (context.append "true".toList)
    else .ok (context.append "false".toList)
  else if consttype = BYTEAOID then
    .ok (context.append ("X'".toList ++ extval.drop 2 ++ ['\'']))
  else if consttype = TIMESTAMPTZOID then
    let out := match constvalue with
      | .timestamptz local_out utc_out =>
        if context.convert_to_timestamp then utc_out else local_out
      | _ => extval
    .ok (context.append (['\''] ++ out ++ ['\'']))
  else if consttype = INTERVALOID then
    .ok (context.append (deparse_interval (DatumGetIntervalP constvalue)))
  else
    match tdengine_get_data_type_name cat consttype with
    | .error e => .error e
    | .ok type_name =>
      if type_name == "tdengine_fill_enum" then .ok (context.append extval)
      else if context.op_type ≠ UNKNOWN_OPERATOR then
        match deparse_pattern_const buf extval context.op_type with
        | .error e => .error e
        | .ok buf2 => .ok { context with buf := buf2 }
      else .ok { context with buf := tdengine_deparse_string_literal buf extval }

/-- `tdengine_deparse_operator_name` (deparse.c 2467): the text appended and the
pattern kind recorded in `op_type`. -/
def tdengine_deparse_operator_name (cat : Catalog) (buf : StringInfo)
    (opform : Form_pg_operator) : StringInfo × PatternMatchingOperator :=
  let cur_opname := opform.oprname
  if opform.oprnamespace ≠ PG_CATALOG_NAMESPACE then
    (buf ++ ("OPERATOR(".toList ++
       tdengine_quote_identifier (cat.nspname opform.oprnamespace).toList QUOTE ++ ['.'] ++
       cur_opname.toList ++ [')']), UNKNOWN_OPERATOR)
  else if cur_opname == "~~" then (buf ++ "=~".toList, LIKE_OPERATOR)
  else if cur_opname == "!~~" then (buf ++ "!~".toList, NOT_LIKE_OPERATOR)
  else if cur_opname == "~~*" then (buf ++ "=~".toList, ILIKE_OPERATOR)
  else if cur_opname == "!~~*" then (buf ++ "!~".toList, NOT_ILIKE_OPERATOR)
  else (buf ++ cur_opname.toList, UNKNOWN_OPERATOR)

/-- `tdengine_deparse_slvar` (deparse.c 3885) for the access `var ->> cnst`;
`node` is the node recorded as a parameter when the column is not of the
scanned relation. -/
def tdengine_deparse_slvar (node : Node) (varno : Nat) (varlevelsup : Nat) (cnst : Datum)
    (context : deparse_expr_cxt) : deparse_expr_cxt :=
  if context.scanrel_relids.contains varno && varlevelsup == 0 then
    context.append (tdengine_quote_identifier (OidOutputFunctionCall cnst) QUOTE)
  else deparse_as_param node context

/-- The calls `tdengine_deparse_slvar(node, linitial_node(Var, oe->args),
lsecond_node(Const, oe->args), context)`: reading the operands of an `oe` that
is not an `OpExpr` on a `Var` and a `Const` is undefined. -/
def deparse_slvar_of (node : Node) (oe : Node) (context : deparse_expr_cxt) :
    Except Err deparse_expr_cxt :=
  match oe with
  | T_OpExpr _ _ _ _ (T_Var varno _ _ _ _ varlevelsup :: T_Const _ _ cnst _ :: _) =>
    .ok (tdengine_deparse_slvar node varno varlevelsup cnst context)
  | _ => .error (.undefined "oe->args of a node that is not a dynamic column access")

/-! ## Deparsing: the recursive generator -/

/-- The loop-carried flags of the constant-array loop of
`tdengine_deparse_scalar_array_op_expr`. -/
structure ArrayScan where
  deparseLeft : Bool
  inString : Bool
  isEscape : Bool
deriving DecidableEq, Repr

/-- The character loop over the printed array constant in
`tdengine_deparse_scalar_array_op_expr` (deparse.c 2575-2665).  `left` deparses
the left operand, `len` is `strlen(extval)` and `i` the index of the next
character. -/
def scalar_array_const_loop
    (left : deparse_expr_cxt → Except Err deparse_expr_cxt) (opname : List Char)
    (isstr : Bool) (isbool : Bool) (useOr : Bool) (len : Nat) :
    List Char → Nat → ArrayScan → deparse_expr_cxt → Except Err (ArrayScan × deparse_expr_cxt)
  | [], _, st, context => .ok (st, context)
  | ch :: rest, i, st, context =>
    let started : Except Err deparse_expr_cxt :=
      if st.deparseLeft then
        match left context with
        | .error e => .error e
        | .ok c =>
          let c1 := c.append ([' '] ++ opname ++ [' '])
          .ok (if isstr then c1.append ['\''] else c1)
      else .ok context
    match started with
    | .error e => .error e
    | .ok c1 =>
      let st1 := { st with deparseLeft := false }
      if (ch == '\x7b' && i == 0) || (ch == '\x7d' && i == len - 1) then
        scalar_array_const_loop left opname isstr isbool useOr len rest (i + 1) st1 c1
      else if ch == '"' && !st1.isEscape then
        scalar_array_const_loop left opname isstr isbool useOr len rest (i + 1)
          { st1 with inString := !st1.inString } c1
      else
        let c2 := if ch == '\'' then c1.append ['\''] else c1
        if ch == '\\' && !st1.isEscape then
          scalar_array_const_loop left opname isstr isbool useOr len rest (i + 1)
            { st1 with isEscape := true } c2
        else
          let st2 := { st1 with isEscape := false }
          if ch == ',' && !st2.inString then
            let c3 := if isstr then c2.append ['\''] else c2
            let c4 := c3.append (if useOr then " OR ".toList else " AND ".toList)
            scalar_array_const_loop left opname isstr isbool useOr len rest (i + 1)
              { st2 with deparseLeft := true } c4
          else if isbool then
            scalar_array_const_loop left opname isstr isbool useOr len rest (i + 1) st2
              (c2.append (if ch == 't' then "true".toList else "false".toList))
          else
            scalar_array_const_loop left opname isstr isbool useOr len rest (i + 1) st2
              (c2.append [ch])

/-- The element types whose array constants are not quoted (deparse.c 2560-2572). -/
def array_is_unquoted (consttype : Oid) : Bool :=
  consttype == BOOLARRAYOID || consttype == INT8ARRAYOID || consttype == INT2ARRAYOID ||
  consttype == INT4ARRAYOID || consttype == OIDARRAYOID

/-- The constant-array case of `tdengine_deparse_scalar_array_op_expr`
(deparse.c 2539-2671), given how the left operand is deparsed. -/
def scalar_array_const (left : deparse_expr_cxt → Except Err deparse_expr_cxt)
    (opname : List Char) (useOr : Bool) (consttype : Oid) (constvalue : Datum)
    (constisnull : Bool) (context : deparse_expr_cxt) : Except Err deparse_expr_cxt :=
  if constisnull then .ok context
  else
    let extval := OidOutputFunctionCall constvalue
    let isstr := !array_is_unquoted consttype
    match scalar_array_const_loop left opname isstr (consttype == BOOLARRAYOID) useOr
        extval.length extval 0 ⟨true, false, false⟩ context with
    | .error e => .error e
    | .ok (_, c) => .ok (if isstr then c.append ['\''] else c)

/-- One argument of the argument loop of `tdengine_deparse_func_expr`
(deparse.c 2372-2401); `deparse` is `tdengine_deparse_expr` on `exp`. -/
def func_arg_step (deparse : deparse_expr_cxt → Except Err deparse_expr_cxt) (exp : Node)
    (can_skip_cast : Bool) (first : Bool) (context : deparse_expr_cxt) :
    Except Err deparse_expr_cxt :=
  let c1 := if !first then context.append ", ".toList else context
  if first_arg_is_regex [exp] then
    match exp with
    | T_Const _ _ v _ => .ok (c1.append (OidOutputFunctionCall v))
    | _ => .ok c1
  else
    deparse (if can_skip_cast then { c1 with can_skip_cast := true } else c1)

/-- The entry of `tdengine_deparse_expr` (deparse.c 1980-1989): both flags are
cleared; the cases that keep one restore it from the caller's context. -/
def enter (context : deparse_expr_cxt) (keep_skip_cast : Bool) (keep_convert : Bool) :
    deparse_expr_cxt :=
  { context with
    can_skip_cast := if keep_skip_cast then context.can_skip_cast else false,
    convert_to_timestamp := if keep_convert then context.convert_to_timestamp else false }

/-- The type of a recursive call of the generator with its node fixed. -/
abbrev Deparse := deparse_expr_cxt → Except Err deparse_expr_cxt

/-- `tdengine_replace_function` (deparse.c 2269): the body between the braces
is empty (the function stands under a `TODO:` line), so control reaches the
end of a function returning `char *` without a `return`, and the callers use
the value: undefined. -/
def tdengine_replace_function (_name : String) : Except Err String :=
  .error (.undefined "tdengine_replace_function returns no value")

/-- `tdengine_deparse_func_expr` (deparse.c 2278), given the recursive calls
on its arguments: `time_args` is the loop of the `tdengine_time` branch,
`first_arg` deparses `lfirst(list_head(args))`, `swapped_args` and `all_args`
are the argument loop over `list_make2(second, first)` and over `args`, for a
value of the local `can_skip_cast` and of `first`.  `node` is the call itself
and `nargs` is `list_length(args)`. -/
def tdengine_deparse_func_expr (cat : Catalog) (node : Node) (funcid : Oid) (nargs : Nat)
    (time_args : Deparse) (first_arg : Deparse)
    (swapped_args : Bool → Bool → Deparse) (all_args : Bool → Bool → Deparse)
    (context : deparse_expr_cxt) : Except Err deparse_expr_cxt :=
  match cat.proname funcid with
  | none => .error (.undefined "strcmp on the NULL result of get_func_name")
  | some proname =>
    if proname == "tdengine_fill_numeric" || proname == "tdengine_fill_option" then
      if context.is_tlist then .ok context
      else
        .ok { context with
              buf := context.buf.take (context.buf.length - 2),
              tdengine_fill_expr := some node }
    else if proname == "tdengine_time" then
      if context.is_tlist then .ok context
      else
        match time_args (context.append "time(".toList) with
        | .error e => .error e
        | .ok c1 => .ok (c1.append [')'])
    else if context.can_skip_cast && (proname == "float8" || proname == "numeric") then
      first_arg { context with can_skip_cast := false }
    else
      let can_skip_cast := tdengine_is_unique_func funcid proname ||
                           tdengine_is_supported_builtin_func funcid proname
      let is_star_func := tdengine_is_star_func funcid proname
      match tdengine_replace_function proname with
      | .error e => .error e
      | .ok replaced =>
        let c1 := context.append (replaced.toList ++ ['('])
        let c2 := if is_star_func then c1.append ['*'] else c1
        let looped : Except Err deparse_expr_cxt :=
          if proname == "log" && nargs == 2 then swapped_args can_skip_cast (!is_star_func) c2
          else all_args can_skip_cast (!is_star_func) c2
        match looped with
        | .error e => .error e
        | .ok c3 => .ok (c3.append [')'])

/-- `tdengine_deparse_op_expr` (deparse.c 2409), given the recursive calls on
`linitial(args)` and `llast(args)`; `node` is the operator expression. -/
def tdengine_deparse_op_expr (cat : Catalog) (node : Node) (opno : Oid) (args : List Node)
    (left : Deparse) (right : Deparse) (context : deparse_expr_cxt) :
    Except Err deparse_expr_cxt :=
  match cat.operator opno with
  | none => .error (.elog "cache lookup failed for operator")
  | some form =>
    if tdengine_is_slvar_fetch cat node context.slinfo then deparse_slvar_of node node context
    else
      let has_key : Except Err Bool :=
        if form.oprkind == 'b' then
          tdengine_contain_time_key_column cat (cat.rte_relid context.scanrel_relid) args
        else .ok false
      match has_key with
      | .error e => .error e
      | .ok tk =>
        let c1 := if tk then { context with convert_to_timestamp := true } else context
        match left c1 with
        | .error e => .error e
        | .ok c2 =>
          let named := tdengine_deparse_operator_name cat (c2.buf ++ [' ']) form
          let c3 := { c2 with buf := named.1 ++ [' '], op_type := named.2 }
          match right c3 with
          | .error e => .error e
          | .ok c4 => .ok ({ c4 with op_type := UNKNOWN_OPERATOR }.append [')'])

/-- How the constant-array loop deparses the left operand
(deparse.c 2580-2601): for a boolean array a column is emitted as a bare
column reference, a `CoerceViaIO` with `has_bool_cmp` cleared, anything else
not at all; for other arrays the operand is deparsed as an expression.
`left` is `tdengine_deparse_expr` on the operand. -/
def scalar_array_left (cat : Catalog) (consttype : Oid) (arg1 : Node) (left : Deparse) :
    Deparse :=
  if consttype == BOOLARRAYOID then
    match arg1 with
    | T_Var varno varattno vartype _ _ _ => fun c =>
      match tdengine_deparse_column_ref cat c.buf varno varattno vartype false none with
      | .error e => .error e
      | .ok (buf, _) => .ok { c with buf := buf }
    | T_CoerceViaIOExpr .. => fun c =>
      match left { c with has_bool_cmp := false } with
      | .error e => .error e
      | .ok c1 => .ok { c1 with has_bool_cmp := c.has_bool_cmp }
    | _ => fun c => .ok c
  else left

/-- `tdengine_deparse_scalar_array_op_expr` (deparse.c 2513), given the
recursive call `left` on the left operand and the loop `elems` over the
elements of an `ArrayExpr` right operand. -/
def tdengine_deparse_scalar_array_op_expr (cat : Catalog) (opno : Oid) (useOr : Bool)
    (args : List Node) (left : Deparse) (elems : List Char → Deparse)
    (context : deparse_expr_cxt) : Except Err deparse_expr_cxt :=
  match cat.operator opno with
  | none => .error (.elog "cache lookup failed for operator")
  | some form =>
    let opname := form.oprname.toList
    match args with
    | arg1 :: arg2 :: _ =>
      match arg2 with
      | T_Const consttype _ constvalue constisnull =>
        scalar_array_const (scalar_array_left cat consttype arg1 left) opname useOr consttype
          constvalue constisnull context
      | T_ArrayExpr .. => elems opname context
      | _ => .error (.elog "unsupported expression type for deparse")
    | _ => .error (.undefined "lsecond of a list shorter than two")

/-- `tdengine_deparse_bool_expr` (deparse.c 2719), given the recursive call on
`linitial(args)` and the loop over `args` with a separator. -/
def tdengine_deparse_bool_expr (boolop : BoolExprType) (first_arg : Deparse)
    (joined : List Char → Deparse) (context : deparse_expr_cxt) :
    Except Err deparse_expr_cxt :=
  match boolop with
  | .NOT_EXPR =>
    match first_arg (context.append "(NOT ".toList) with
    | .error e => .error e
    | .ok c1 => .ok (c1.append [')'])
  | .AND_EXPR =>
    match joined " AND ".toList (context.append ['(']) with
    | .error e => .error e
    | .ok c1 => .ok (c1.append [')'])
  | .OR_EXPR =>
    match joined " OR ".toList (context.append ['(']) with
    | .error e => .error e
    | .ok c1 => .ok (c1.append [')'])

/-- `tdengine_deparse_null_test` (deparse.c 2758), given the recursive call on
the argument. -/
def tdengine_deparse_null_test (nulltesttype : NullTestType) (arg : Deparse)
    (context : deparse_expr_cxt) : Except Err deparse_expr_cxt :=
  match arg (context.append ['(']) with
  | .error e => .error e
  | .ok c1 =>
    if nulltesttype = .IS_NULL then .ok (c1.append " = '')".toList)
    else .ok (c1.append " <> '')".toList)

/-- `tdengine_deparse_array_expr` (deparse.c 2775), given the loop over the
elements with a separator. -/
def tdengine_deparse_array_expr (joined : List Char → Deparse) (context : deparse_expr_cxt) :
    Except Err deparse_expr_cxt :=
  match joined ", ".toList (context.append "ARRAY[".toList) with
  | .error e => .error e
  | .ok c1 => .ok (c1.append [']'])

/-- `tdengine_deparse_aggref` (deparse.c 2901), given the recursive call
`second_arg` on the expression of `list_nth(args, 1)` and the argument loop
`all_args` for a value of `first`; `nargs` is `list_length(args)`. -/
def tdengine_deparse_aggref (cat : Catalog) (aggfnoid : Oid) (nargs : Nat)
    (aggdistinct : List Nat) (aggstar : Bool) (second_arg : Deparse)
    (all_args : Bool → Deparse) (context : deparse_expr_cxt) : Except Err deparse_expr_cxt :=
  match cat.proname aggfnoid with
  | none => .error (.undefined "strcmp on the NULL result of get_func_name")
  | some func_name =>
    if !aggstar && (func_name == "last" || func_name == "first") && nargs == 2 then
      match second_arg (context.append (func_name.toList ++ ['('])) with
      | .error e => .error e
      | .ok c1 => .ok (c1.append [')'])
    else
      let is_star_func := tdengine_is_star_func aggfnoid func_name
      match tdengine_replace_function func_name with
      | .error e => .error e
      | .ok replaced =>
        let c1 := context.append (replaced.toList ++ ['('] ++
                    (if !aggdistinct.isEmpty then "DISTINCT ".toList else []))
        if aggstar then .ok (c1.append ['*', ')'])
        else
          let c2 := if is_star_func then c1.append ['*'] else c1
          match all_args (!is_star_func) c2 with
          | .error e => .error e
          | .ok c3 => .ok (c3.append [')'])

/-- `tdengine_deparse_coerce_via_io` (deparse.c 3855); `node` is the
`CoerceViaIO` and `arg` its argument.  Nothing here is recursive. -/
def tdengine_deparse_coerce_via_io (cat : Catalog) (node : Node) (arg : Node)
    (resulttype : Oid) (context : deparse_expr_cxt) : Except Err deparse_expr_cxt :=
  let emitted : Except Err deparse_expr_cxt :=
    if tdengine_is_slvar_fetch cat arg context.slinfo then deparse_slvar_of node arg context
    else if tdengine_is_param_fetch arg context.slinfo then .ok (deparse_as_param node context)
    else .ok context
  match emitted with
  | .error e => .error e
  | .ok c1 =>
    if resulttype == BOOLOID && c1.has_bool_cmp then .ok (c1.append " = true".toList)
    else .ok c1

mutual
/-- `tdengine_deparse_expr` (deparse.c 1977): the dispatch on the node kind,
with the flag handling of each case. -/
def tdengine_deparse_expr (cat : Catalog) :
    Node → deparse_expr_cxt → Except Err deparse_expr_cxt
  | T_Var varno varattno vartype vartypmod varcollid varlevelsup, context =>
    tdengine_deparse_var cat (T_Var varno varattno vartype vartypmod varcollid varlevelsup)
      varno varattno vartype varlevelsup (enter context false true)
  | T_Const consttype _ constvalue constisnull, context =>
    tdengine_deparse_const cat consttype constvalue constisnull (enter context false true)
  | T_Param paramid paramtype paramtypmod paramcollid, context =>
    .ok (deparse_as_param (T_Param paramid paramtype paramtypmod paramcollid)
      (enter context false false))
  | T_FuncExpr funcid funcresulttype funccollid inputcollid args, context =>
    tdengine_deparse_func_expr cat (T_FuncExpr funcid funcresulttype funccollid inputcollid args)
      funcid args.length
      (fun c => deparse_time_args cat args 0 c)
      (fun c => deparse_linitial cat args c)
      (fun s f c => deparse_func_args_swapped cat s args f c)
      (fun s f c => deparse_func_args cat s args f c)
      (enter context true false)
  | T_OpExpr opno opresulttype opcollid inputcollid args, context =>
    tdengine_deparse_op_expr cat (T_OpExpr opno opresulttype opcollid inputcollid args) opno args
      (fun c => deparse_linitial cat args c) (fun c => deparse_llast cat args c)
      (enter context false true)
  | T_ScalarArrayOpExpr opno useOr _ args, context =>
    tdengine_deparse_scalar_array_op_expr cat opno useOr args
      (fun c => deparse_linitial cat args c)
      (fun opname c => deparse_array_operand cat opname useOr args c)
      (enter context false false)
  | T_RelabelType arg _ _, context =>
    tdengine_deparse_expr cat arg (enter context false false)
  | T_BoolExpr boolop args, context =>
    tdengine_deparse_bool_expr boolop (fun c => deparse_linitial cat args c)
      (fun sep c => deparse_join cat sep args true c) (enter context false false)
  | T_NullTest arg nulltesttype, context =>
    tdengine_deparse_null_test nulltesttype (fun c => tdengine_deparse_expr cat arg c)
      (enter context false false)
  | T_ArrayExpr _ _ elements, context =>
    tdengine_deparse_array_expr (fun sep c => deparse_join cat sep elements true c)
      (enter context false false)
  | T_Aggref aggfnoid _ _ _ args _ aggdistinct _ aggstar aggvariadic _, context =>
    tdengine_deparse_aggref cat aggfnoid args.length aggdistinct aggstar
      (fun c => deparse_agg_second cat args c)
      (fun f c => deparse_agg_args cat aggvariadic args f c)
      (enter context false false)
  | T_CoerceViaIOExpr arg resulttype resultcollid, context =>
    tdengine_deparse_coerce_via_io cat (T_CoerceViaIOExpr arg resulttype resultcollid) arg
      resulttype (enter context false false)
  | T_FieldSelect .., _ => .error (.elog "unsupported expression type for deparse")
  | T_DistinctExpr .., _ => .error (.elog "unsupported expression type for deparse")
  | T_List _, _ => .error (.elog "unsupported expression type for deparse")
  | T_TargetEntry .., _ => .error (.elog "unsupported expression type for deparse")
  | T_Other .., _ => .error (.elog "unsupported expression type for deparse")
/-- The argument loop of the `tdengine_time` branch of
`tdengine_deparse_func_expr` (deparse.c 2318-2330): the first argument is
skipped, the others are separated by `, ` from the third on. -/
def deparse_time_args (cat : Catalog) :
    List Node → Nat → deparse_expr_cxt → Except Err deparse_expr_cxt
  | [], _, context => .ok context
  | a :: rest, idx, context =>
    if idx = 0 then deparse_time_args cat rest 1 context
    else
      match tdengine_deparse_expr cat a
          (if idx ≥ 2 then context.append ", ".toList else context) with
      | .error e => .error e
      | .ok c1 => deparse_time_args cat rest (idx + 1) c1
/-- The argument loop of `tdengine_deparse_func_expr` (deparse.c 2372-2401). -/
def deparse_func_args (cat : Catalog) (can_skip_cast : Bool) :
    List Node → Bool → deparse_expr_cxt → Except Err deparse_expr_cxt
  | [], _, context => .ok context
  | a :: rest, first, context =>
    match func_arg_step (fun c => tdengine_deparse_expr cat a c) a can_skip_cast first
        context with
    | .error e => .error e
    | .ok c1 => deparse_func_args cat can_skip_cast rest false c1
/-- The argument loop of `tdengine_deparse_func_expr` over
`list_make2(lfirst(list_tail(args)), lfirst(list_head(args)))`, which the C
code builds only from a list of two. -/
def deparse_func_args_swapped (cat : Catalog) (can_skip_cast : Bool) :
    List Node → Bool → deparse_expr_cxt → Except Err deparse_expr_cxt
  | [a, b], first, context =>
    match func_arg_step (fun c => tdengine_deparse_expr cat b c) b can_skip_cast first
        context with
    | .error e => .error e
    | .ok c1 => func_arg_step (fun c => tdengine_deparse_expr cat a c) a can_skip_cast false c1
  | _, _, _ => .error (.undefined "list_make2 of a list that has not two elements")
/-- `tdengine_deparse_expr(llast(args), context)`. -/
def deparse_llast (cat : Catalog) : List Node → deparse_expr_cxt → Except Err deparse_expr_cxt
  | [], _ => .error (.undefined "llast of an empty list")
  | [a], context => tdengine_deparse_expr cat a context
  | _ :: b :: rest, context => deparse_llast cat (b :: rest) context
/-- `tdengine_deparse_expr(linitial(args), context)`. -/
def deparse_linitial (cat : Catalog) :
    List Node → deparse_expr_cxt → Except Err deparse_expr_cxt
  | [], _ => .error (.undefined "linitial of an empty list")
  | a :: _, context => tdengine_deparse_expr cat a context
/-- The `T_ArrayExpr` case of `tdengine_deparse_scalar_array_op_expr`
(deparse.c 2672-2698) on the operands `args`: the loop over the elements of
the second operand, the first being deparsed anew for each. -/
def deparse_array_operand (cat : Catalog) (opname : List Char) (useOr : Bool) :
    List Node → deparse_expr_cxt → Except Err deparse_expr_cxt
  | arg1 :: T_ArrayExpr _ _ elements :: _, context =>
    deparse_array_elems cat (fun c => tdengine_deparse_expr cat arg1 c) opname useOr elements
      true context
  | _, _ => .error (.undefined "the right operand is not an ArrayExpr")
/-- The element loop of the `T_ArrayExpr` case of
`tdengine_deparse_scalar_array_op_expr` (deparse.c 2677-2696). -/
def deparse_array_elems (cat : Catalog) (left : Deparse) (opname : List Char) (useOr : Bool) :
    List Node → Bool → deparse_expr_cxt → Except Err deparse_expr_cxt
  | [], _, context => .ok context
  | e :: rest, first, context =>
    let c1 := if !first then context.append (if useOr then " OR ".toList else " AND ".toList)
              else context
    match left (c1.append ['(']) with
    | .error err => .error err
    | .ok c2 =>
      match tdengine_deparse_expr cat e (c2.append ([' '] ++ opname ++ [' '])) with
      | .error err => .error err
      | .ok c3 => deparse_array_elems cat left opname useOr rest false (c3.append [')'])
/-- The loops of `tdengine_deparse_bool_expr` and `tdengine_deparse_array_expr`:
the elements deparsed in order, separated by `sep`. -/
def deparse_join (cat : Catalog) (sep : List Char) :
    List Node → Bool → deparse_expr_cxt → Except Err deparse_expr_cxt
  | [], _, context => .ok context
  | a :: rest, first, context =>
    match tdengine_deparse_expr cat a (if !first then context.append sep else context) with
    | .error e => .error e
    | .ok c1 => deparse_join cat sep rest false c1
/-- The call `tdengine_deparse_expr(((TargetEntry *) list_nth(args, 1))->expr,
context)` of `tdengine_deparse_aggref` (deparse.c 2920). -/
def deparse_agg_second (cat : Catalog) :
    List Node → deparse_expr_cxt → Except Err deparse_expr_cxt
  | _ :: T_TargetEntry e _ _ _ :: _, context => tdengine_deparse_expr cat e context
  | _, _ => .error (.undefined "list_nth(args, 1) is not a TargetEntry")
/-- The argument loop of `tdengine_deparse_aggref` (deparse.c 2949-2987). -/
def deparse_agg_args (cat : Catalog) (use_variadic : Bool) :
    List Node → Bool → deparse_expr_cxt → Except Err deparse_expr_cxt
  | [], _, context => .ok context
  | T_TargetEntry n _ _ resjunk :: rest, first, context =>
    if first_arg_is_regex [n] then
      match n with
      | T_Const _ _ v _ =>
        deparse_agg_args cat use_variadic rest false (context.append (OidOutputFunctionCall v))
      | _ => deparse_agg_args cat use_variadic rest false context
    else if resjunk then deparse_agg_args cat use_variadic rest first context
    else
      let c1 := if !first then context.append ", ".toList else context
      let c2 := if use_variadic && rest.isEmpty then c1.append "VARIADIC ".toList else c1
      match tdengine_deparse_expr cat n c2 with
      | .error e => .error e
      | .ok c3 => deparse_agg_args cat use_variadic rest false c3
  | _ :: _, _, _ => .error (.undefined "an aggregate argument that is not a TargetEntry")
end

/-! ## Clauses -/

/-- PostgreSQL `get_sortgroupref_tle` (tlist.c): the target entry whose
`ressortgroupref` is `sortref`. -/
def get_sortgroupref_tle (sortref : Nat) : List Node → Except Err Node
  | [] => .error (.elog "ORDER/GROUP BY expression not found in targetlist")
  | T_TargetEntry expr resno ressortgroupref resjunk :: rest =>
    if ressortgroupref = sortref then .ok (T_TargetEntry expr resno ressortgroupref resjunk)
    else get_sortgroupref_tle sortref rest
  | _ :: _ => .error (.undefined "a target list entry that is not a TargetEntry")

/-- `tdengine_deparse_sort_group_clause` (deparse.c 3126). -/
def tdengine_deparse_sort_group_clause (cat : Catalog) (ref : Nat) (tlist : List Node)
    (context : deparse_expr_cxt) : Except Err deparse_expr_cxt :=
  match get_sortgroupref_tle ref tlist with
  | .error e => .error e
  | .ok (T_TargetEntry expr _ _ _) =>
    match expr with
    | T_Const consttype _ constvalue constisnull =>
      tdengine_deparse_const cat consttype constvalue constisnull context
    | T_Var .. => tdengine_deparse_expr cat expr context
    | _ =>
      match tdengine_deparse_expr cat expr (context.append ['(']) with
      | .error e => .error e
      | .ok c1 => .ok (c1.append [')'])
  | .ok _ => .error (.undefined "a target list entry that is not a TargetEntry")

/-- The `foreach` over `query->groupClause` in `tdengine_append_group_by_clause`
(deparse.c 3014-3023); each element is a `tleSortGroupRef`. -/
def group_by_items (cat : Catalog) (tlist : List Node) :
    List Nat → Bool → deparse_expr_cxt → Except Err deparse_expr_cxt
  | [], _, context => .ok context
  | ref :: rest, first, context =>
    match tdengine_deparse_sort_group_clause cat ref tlist
        (if !first then context.append ", ".toList else context) with
    | .error e => .error e
    | .ok c1 => group_by_items cat tlist rest false c1

/-- The `foreach` over the arguments of the stashed fill call
(deparse.c 3031-3034): they are deparsed one after the other. -/
def fill_args (cat : Catalog) : List Node → deparse_expr_cxt → Except Err deparse_expr_cxt
  | [], context => .ok context
  | a :: rest, context =>
    match tdengine_deparse_expr cat a context with
    | .error e => .error e
    | .ok c1 => fill_args cat rest c1

/-- `tdengine_append_group_by_clause` (deparse.c 2998); `groupClause` is
`context->root->parse->groupClause` as the list of its `tleSortGroupRef`s. -/
def tdengine_append_group_by_clause (cat : Catalog) (groupClause : List Nat)
    (tlist : List Node) (context : deparse_expr_cxt) : Except Err deparse_expr_cxt :=
  if groupClause.isEmpty then .ok context
  else
    let c0 := { context.append " GROUP BY ".toList with tdengine_fill_expr := none }
    match group_by_items cat tlist groupClause true c0 with
    | .error e => .error e
    | .ok c1 =>
      match c1.tdengine_fill_expr with
      | none => .ok c1
      | some (T_FuncExpr _ _ _ _ args) =>
        match fill_args cat args (c1.append " fill(".toList) with
        | .error e => .error e
        | .ok c2 => .ok (c2.append [')'])
      | some _ => .error (.undefined "tdengine_fill_expr is not a FuncExpr")

/-- An attribute of a tuple descriptor (`Form_pg_attribute`); the code reads
`attisdropped`. -/
structure Form_pg_attribute where
  attisdropped : Bool
deriving DecidableEq, Repr

/-- The variables of the attribute loop of `tdengine_deparse_target_list`. -/
structure TargetListScan where
  buf : StringInfo
  first : Bool
  need_field_key : Bool
  retrieved_attrs : List Int
deriving DecidableEq, Repr

/-- The `vartype` argument `-1` of the calls `tdengine_deparse_column_ref(buf,
rtindex, i, -1, root, false, false)`, as the unsigned `Oid` it is converted to. -/
def OID_MINUS_ONE : Oid := 4294967295

/-- The `for` loop of `tdengine_deparse_target_list` (deparse.c 1719-1750) over
the attributes from number `i` on.  `attrs_used` holds the attribute numbers
whose bit is set (the offset `FirstLowInvalidHeapAttributeNumber` taken off). -/
def target_list_loop (cat : Catalog) (rtindex : Nat) (have_wholerow : Bool)
    (attrs_used : List Int) :
    List Form_pg_attribute → Int → TargetListScan → Except Err TargetListScan
  | [], _, st => .ok st
  | attr :: rest, i, st =>
    if attr.attisdropped then
      target_list_loop cat rtindex have_wholerow attrs_used rest (i + 1) st
    else if have_wholerow || attrs_used.contains i then
      match tdengine_get_column_name cat (cat.rte_relid rtindex) i with
      | .error e => .error e
      | .ok name =>
        if !TDENGINE_IS_TIME_COLUMN name then
          let need_field_key :=
            if !tdengine_is_tag_key cat name (cat.rte_relid rtindex) then false
            else st.need_field_key
          let buf1 := if !st.first then st.buf ++ ", ".toList else st.buf
          match tdengine_deparse_column_ref cat buf1 rtindex i OID_MINUS_ONE false none with
          | .error e => .error e
          | .ok (buf2, _) =>
            target_list_loop cat rtindex have_wholerow attrs_used rest (i + 1)
              ⟨buf2, false, need_field_key, st.retrieved_attrs ++ [i]⟩
        else
          target_list_loop cat rtindex have_wholerow attrs_used rest (i + 1)
            { st with retrieved_attrs := st.retrieved_attrs ++ [i] }
    else target_list_loop cat rtindex have_wholerow attrs_used rest (i + 1) st

/-- The `for` loop of `tdengine_append_field_key` (deparse.c 3375-3391) over the
attributes from number `i` on: the column name is looked up before the test on
`attisdropped`. -/
def append_field_key_loop (cat : Catalog) (rtindex : Nat) (first : Bool) :
    List Form_pg_attribute → Int → StringInfo → Except Err StringInfo
  | [], _, buf => .ok buf
  | attr :: rest, i, buf =>
    match tdengine_get_column_name cat (cat.rte_relid rtindex) i with
    | .error e => .error e
    | .ok name =>
      if attr.attisdropped then append_field_key_loop cat rtindex first rest (i + 1) buf
      else if !TDENGINE_IS_TIME_COLUMN name &&
          !tdengine_is_tag_key cat name (cat.rte_relid rtindex) then
        let buf1 := if !first then buf ++ ", ".toList else buf
        match tdengine_deparse_column_ref cat buf1 rtindex i OID_MINUS_ONE false none with
        | .error e => .error e
        | .ok (buf2, _) => .ok buf2
      else append_field_key_loop cat rtindex first rest (i + 1) buf

/-- `tdengine_append_field_key` (deparse.c 3371). -/
def tdengine_append_field_key (cat : Catalog) (tupdesc : List Form_pg_attribute)
    (buf : StringInfo) (rtindex : Nat) (first : Bool) : Except Err StringInfo :=
  append_field_key_loop cat rtindex first tupdesc 1 buf

/-- `tdengine_deparse_target_list` (deparse.c 1702): the text appended to `buf`
and `*retrieved_attrs`.  `tupdesc` is the tuple descriptor of `rel`. -/
def tdengine_deparse_target_list (cat : Catalog) (buf : StringInfo) (rtindex : Nat)
    (tupdesc : List Form_pg_attribute) (attrs_used : List Int) :
    Except Err (StringInfo × List Int) :=
  let have_wholerow := attrs_used.contains 0
  match target_list_loop cat rtindex have_wholerow attrs_used tupdesc 1
      ⟨buf, true, true, []⟩ with
  | .error e => .error e
  | .ok st =>
    if st.first then .ok (st.buf ++ ['*'], st.retrieved_attrs)
    else if st.need_field_key then
      match tdengine_append_field_key cat tupdesc st.buf rtindex st.first with
      | .error e => .error e
      | .ok buf2 => .ok (buf2, st.retrieved_attrs)
    else .ok (st.buf, st.retrieved_attrs)

/-- An `EquivalenceMember`: the relids of its expression and the expression. -/
structure EquivalenceMember where
  em_relids : List Nat
  em_expr : Node

/-- A `PathKey`; `pk_eclass` is the list `ec_members` of its equivalence class. -/
structure PathKey where
  pk_eclass : List EquivalenceMember
  pk_strategy : Nat
  pk_nulls_first : Bool

/-- `BTLessStrategyNumber` (PostgreSQL stratnum.h). -/
def BTLessStrategyNumber : Nat := 1

/-- `bms_is_subset(a, b)` on relid sets kept as lists. -/
def bms_is_subset (a b : List Nat) : Bool :=
  a.all (fun x => b.contains x)

/-- `tdengine_find_em_expr_for_rel` (deparse.c 3067): the expression of the
first member whose relids lie in those of the relation, `none` for `NULL`. -/
def tdengine_find_em_expr_for_rel (ec_members : List EquivalenceMember) (relids : List Nat) :
    Option Node :=
  match ec_members with
  | [] => none
  | em :: rest =>
    if bms_is_subset em.em_relids relids then some em.em_expr
    else tdengine_find_em_expr_for_rel rest relids

/-- The `foreach` loop of `tdengine_append_order_by_clause` (deparse.c 3099-3119);
`delim` is the text put before the next key.  `Assert(em_expr != NULL)` is
compiled out unless assertions are enabled, and `tdengine_deparse_expr` returns
at once on `NULL`. -/
def order_by_loop (cat : Catalog) :
    List PathKey → List Char → deparse_expr_cxt → Except Err deparse_expr_cxt
  | [], _, context => .ok context
  | pathkey :: rest, delim, context =>
    let c1 := context.append delim
    let deparsed : Except Err deparse_expr_cxt :=
      match tdengine_find_em_expr_for_rel pathkey.pk_eclass context.scanrel_relids with
      | none => .ok c1
      | some em_expr => tdengine_deparse_expr cat em_expr c1
    match deparsed with
    | .error e => .error e
    | .ok c2 =>
      let c3 := c2.append (if pathkey.pk_strategy == BTLessStrategyNumber then " ASC".toList
                           else " DESC".toList)
      if pathkey.pk_nulls_first then .error (.elog "NULLS FIRST not supported")
      else order_by_loop cat rest ", ".toList c3

/-- `tdengine_append_order_by_clause` (deparse.c 3088). -/
def tdengine_append_order_by_clause (cat : Catalog) (pathkeys : List PathKey)
    (context : deparse_expr_cxt) : Except Err deparse_expr_cxt :=
  order_by_loop cat pathkeys " ".toList (context.append " ORDER BY".toList)

/-- The value of the function-static `is_time_column` of
`tdengine_foreign_expr_walker` after a call of `tdengine_is_foreign_expr` that
started with the value `itc`; with the arguments of `tdengine_is_foreign_expr`. -/
def is_time_column_after (cat : Catalog) (reloptkind : RelOptKind)
    (slinfo : schemaless_info) (relids : List Nat) (relid : Oid) (itc : Bool) (expr : Node)
    (for_tlist : Bool) : Bool :=
  match tdengine_foreign_expr_walker cat expr
      { reloptkind := reloptkind, slinfo := slinfo, relids := relids, relid := relid,
        mixing_aggref_status := TDENGINE_TARGETS_MIXING_AGGREF_SAFE,
        for_tlist := for_tlist, is_inner_func := false } itc inner_cxt_init with
  | .error _ => itc
  | .ok r => r.is_time_column

/-- A `RestrictInfo`; the code reads its `clause`. -/
structure RestrictInfo where
  clause : Node

/-- The loop of `tdengineGetForeignRelSize` over `baserel->baserestrictinfo`
(tdengine_fdw_test.c 366-374), which sorts the restriction clauses into
`fpinfo->remote_conds` and `fpinfo->local_conds`; `itc` is the value of the
static `is_time_column` when the next clause is checked.  The result is
`(remote_conds, local_conds)`. -/
def classify_baserestrictinfo (cat : Catalog) (reloptkind : RelOptKind)
    (slinfo : schemaless_info) (relids : List Nat) (relid : Oid) :
    List RestrictInfo → Bool → List RestrictInfo → List RestrictInfo →
    Except Err (List RestrictInfo × List RestrictInfo)
  | [], _, remote_conds, local_conds => .ok (remote_conds, local_conds)
  | ri :: rest, itc, remote_conds, local_conds =>
    match tdengine_is_foreign_expr cat reloptkind slinfo relids relid itc ri.clause false with
    | .error e => .error e
    | .ok accepted =>
      let itc1 := is_time_column_after cat reloptkind slinfo relids relid itc ri.clause false
      if accepted then
        classify_baserestrictinfo cat reloptkind slinfo relids relid rest itc1
          (remote_conds ++ [ri]) local_conds
      else
        classify_baserestrictinfo cat reloptkind slinfo relids relid rest itc1
          remote_conds (local_conds ++ [ri])

/-- The part of `tdengineGetForeignRelSize` (tdengine_fdw_test.c 337) that
fills `fpinfo->remote_conds` and `fpinfo->local_conds`, both `NIL` after
`palloc0`, from `baserel->baserestrictinfo`. -/
def tdengineGetForeignRelSize (cat : Catalog) (reloptkind : RelOptKind)
    (slinfo : schemaless_info) (relids : List Nat) (relid : Oid) (itc : Bool)
    (baserestrictinfo : List RestrictInfo) :
    Except Err (List RestrictInfo × List RestrictInfo) :=
  classify_baserestrictinfo cat reloptkind slinfo relids relid baserestrictinfo itc [] []

/-! ## The explicit target list (deparse.c 1425-1446, 1552-1662, 3347-3366) -/

/-- `IsA(node, Aggref)`. -/
def isAggref : Node → Bool
  | T_Aggref .. => true
  | _ => false

/-- `IsA(node, OpExpr)`. -/
def isOpExpr : Node → Bool
  | T_OpExpr .. => true
  | _ => false

/-- `tdengine_is_grouping_target` (deparse.c 3347): `groupClause` holds the
`tleSortGroupRef` of the entries of `query->groupClause`. -/
def tdengine_is_grouping_target (ressortgroupref : Nat) (groupClause : List Nat) : Bool :=
  groupClause.contains ressortgroupref

/-- The local variables of `tdengine_deparse_explicit_target_list` together
with the deparse context. -/
structure ExplicitTargetScan where
  context : deparse_expr_cxt
  i : Nat
  first : Bool
  is_col_grouping_target : Bool
  need_field_key : Bool
  is_need_comma : Bool
  selected_all_fieldtag : Bool
  retrieved_attrs : List Int

/-- The test on the name `get_proname` yields for a function call of the
target list (deparse.c 1598-1610): `get_proname` raises when the function is
not in the catalog; every other expression is not skipped. -/
def is_skip_expr (cat : Catalog) : Node → Except Err Bool
  | T_FuncExpr funcid _ _ _ _ =>
    match cat.proname funcid with
    | none => .error (.elog "cache lookup failed for function")
    | some func_name =>
      .ok (func_name == "tdengine_time" || func_name == "tdengine_fill_numeric" ||
           func_name == "tdengine_fill_option")
  | _ => .ok false

/-- The first part of the body of the `foreach (lc, tlist)` loop of
`tdengine_deparse_explicit_target_list` (deparse.c 1568-1618) for the target
entry with expression `expr`: the grouping test and the emission of the
expression.  `is_tlist_func_pushdown` and `all_fieldtag` are the fields of
`fpinfo`. -/
def explicit_target_emit (cat : Catalog) (is_tlist_func_pushdown all_fieldtag : Bool)
    (groupClause : List Nat) (expr : Node) (ressortgroupref : Nat)
    (st : ExplicitTargetScan) : Except Err ExplicitTargetScan :=
  let is_slvar := tdengine_is_slvar_fetch cat expr st.context.slinfo
  let grouping1 :=
    if !is_tlist_func_pushdown && isVar expr then
      tdengine_is_grouping_target ressortgroupref groupClause
    else st.is_col_grouping_target
  let grouping2 :=
    if is_slvar then tdengine_is_grouping_target ressortgroupref groupClause else grouping1
  if isAggref expr || (isOpExpr expr && !is_slvar) || isFuncExpr expr ||
      ((isVar expr || is_slvar) && !grouping2) then
    match is_skip_expr cat expr with
    | .error e => .error e
    | .ok skip =>
      let c1 :=
        if st.is_need_comma && !skip then st.context.append ", ".toList else st.context
      let st1 := { st with context := c1, is_col_grouping_target := grouping2,
                           need_field_key := false }
      if !skip then
        if is_tlist_func_pushdown && all_fieldtag then
          .ok { st1 with selected_all_fieldtag := true }
        else
          match tdengine_deparse_expr cat expr c1 with
          | .error e => .error e
          | .ok c2 => .ok { st1 with first := false, context := c2, is_need_comma := true }
      else .ok st1
  else .ok { st with is_col_grouping_target := grouping2 }

/-- The test on a `Var` of the target list while a field key is still asked
for (deparse.c 1620-1627): the new value of `need_field_key`. -/
def explicit_target_field_key (cat : Catalog) (expr : Node) (st : ExplicitTargetScan) :
    Except Err Bool :=
  match expr with
  | T_Var _ varattno _ _ _ _ =>
    if st.need_field_key then
      match tdengine_get_column_name cat (cat.rte_relid st.context.scanrel_relid)
          varattno with
      | .error e => .error e
      | .ok colname =>
        if !tdengine_is_tag_key cat colname (cat.rte_relid st.context.scanrel_relid) then
          .ok false
        else .ok st.need_field_key
    else .ok st.need_field_key
  | _ => .ok st.need_field_key

/-- The body of the `foreach (lc, tlist)` loop of
`tdengine_deparse_explicit_target_list` (deparse.c 1568-1631) for the target
entry with expression `expr`. -/
def explicit_target_step (cat : Catalog) (is_tlist_func_pushdown all_fieldtag : Bool)
    (groupClause : List Nat) (expr : Node) (ressortgroupref : Nat)
    (st : ExplicitTargetScan) : Except Err ExplicitTargetScan :=
  match explicit_target_emit cat is_tlist_func_pushdown all_fieldtag groupClause expr
      ressortgroupref st with
  | .error e => .error e
  | .ok st2 =>
    match explicit_target_field_key cat expr st2 with
    | .error e => .error e
    | .ok need_field_key =>
      .ok { st2 with need_field_key := need_field_key,
                     retrieved_attrs := st2.retrieved_attrs ++ [(st2.i : Int) + 1],
                     i := st2.i + 1 }

/-- The `foreach (lc, tlist)` loop of `tdengine_deparse_explicit_target_list`;
`lfirst_node(TargetEntry, lc)` on another node kind is undefined. -/
def explicit_target_loop (cat : Catalog) (is_tlist_func_pushdown all_fieldtag : Bool)
    (groupClause : List Nat) :
    List Node → ExplicitTargetScan → Except Err ExplicitTargetScan
  | [], st => .ok st
  | T_TargetEntry expr _ ressortgroupref _ :: rest, st =>
    match explicit_target_step cat is_tlist_func_pushdown all_fieldtag groupClause expr
        ressortgroupref st with
    | .error e => .error e
    | .ok st1 =>
      explicit_target_loop cat is_tlist_func_pushdown all_fieldtag groupClause rest st1
  | _ :: _, _ => .error (.undefined "lfirst_node(TargetEntry) on another node kind")

/-- `tdengine_deparse_explicit_target_list` (deparse.c 1552): the context
after the call and `*retrieved_attrs`.  `tupdesc` is the tuple descriptor of
the scanned relation. -/
def tdengine_deparse_explicit_target_list (cat : Catalog)
    (is_tlist_func_pushdown all_fieldtag : Bool) (groupClause : List Nat)
    (tupdesc : List Form_pg_attribute) (tlist : List Node) (context : deparse_expr_cxt) :
    Except Err (deparse_expr_cxt × List Int) :=
  match explicit_target_loop cat is_tlist_func_pushdown all_fieldtag groupClause tlist
      ⟨{ context with is_tlist := true }, 0, true, false, true, false, false, []⟩ with
  | .error e => .error e
  | .ok st =>
    let c := { st.context with is_tlist := false }
    if st.i == 0 || st.selected_all_fieldtag then .ok (c.append ['*'], st.retrieved_attrs)
    else if st.need_field_key then
      match tdengine_append_field_key cat tupdesc c.buf c.scanrel_relid st.first with
      | .error e => .error e
      | .ok buf2 => .ok ({ c with buf := buf2 }, st.retrieved_attrs)
    else .ok (c, st.retrieved_attrs)

/-! ## Select of the whole table (deparse.c 3696-3763) -/

/-- The counters and flags of `tdengine_is_select_all`. -/
structure SelectAllScan where
  natts : Nat
  has_rel_type_id : Bool
  has_slcol : Bool
  has_wholerow : Bool
deriving DecidableEq, Repr

/-- The `foreach (lc, tlist)` loop of `tdengine_is_select_all` for the
attribute with number `attnum`: the first `Var` that meets one of the four
tests ends the loop. -/
def select_all_tlist (cat : Catalog) (rel_type_id : Oid) (pslinfo : schemaless_info)
    (attnum : Int) : List Node → SelectAllScan → SelectAllScan
  | [], s => s
  | node :: rest, s =>
    let inner :=
      match node with
      | T_TargetEntry expr _ _ _ => expr
      | n => n
    match inner with
    | T_Var _ varattno vartype _ _ _ =>
      if vartype == rel_type_id then { s with has_rel_type_id := true }
      else if varattno == 0 then { s with has_wholerow := true }
      else if tdengine_is_slvar cat vartype varattno pslinfo then { s with has_slcol := true }
      else if varattno == attnum then { s with natts := s.natts + 1 }
      else select_all_tlist cat rel_type_id pslinfo attnum rest s
    | _ => select_all_tlist cat rel_type_id pslinfo attnum rest s

/-- The `for (i = 1; i <= tupdesc->natts; i++)` loop of `tdengine_is_select_all`
from the attribute number `i` on; `attr->attnum` of the attribute at position
`i - 1` of a tuple descriptor is `i`. -/
def select_all_attrs (cat : Catalog) (rel_type_id : Oid) (pslinfo : schemaless_info)
    (tlist : List Node) : List Form_pg_attribute → Int → SelectAllScan → SelectAllScan
  | [], _, s => s
  | attr :: rest, i, s =>
    if attr.attisdropped then select_all_attrs cat rel_type_id pslinfo tlist rest (i + 1) s
    else
      select_all_attrs cat rel_type_id pslinfo tlist rest (i + 1)
        (select_all_tlist cat rel_type_id pslinfo i tlist s)

/-- `tdengine_is_select_all` (deparse.c 3698).  `rel_type_id` is
`get_rel_type_id(rte->relid)` and `tupdesc` the tuple descriptor of the
relation.  `natts_valid` is initialised to `0` and not assigned again. -/
def tdengine_is_select_all (cat : Catalog) (rel_type_id : Oid)
    (tupdesc : List Form_pg_attribute) (tlist : List Node) (pslinfo : schemaless_info) :
    Bool :=
  let natts_valid := 0
  let s := select_all_attrs cat rel_type_id pslinfo tlist tupdesc 1 ⟨0, false, false, false⟩
  s.natts == natts_valid || s.has_rel_type_id || s.has_slcol || s.has_wholerow

/-! ## Options (option.c) -/

def ForeignServerRelationId : Oid := 1417
def UserMappingRelationId : Oid := 1418
def ForeignTableRelationId : Oid := 3118
def AttributeRelationId : Oid := 1249

/-- `valid_options` (option.c 41) without its terminating `NULL` entry. -/
def valid_options : List (String × Oid) :=
  [("host", ForeignServerRelationId),
   ("dbname", ForeignServerRelationId),
   ("port", ForeignServerRelationId),
   ("username", UserMappingRelationId),
   ("password", UserMappingRelationId),
   ("table", ForeignTableRelationId),
   ("column_name", AttributeRelationId),
   ("tags", ForeignTableRelationId),
   ("schemaless", ForeignTableRelationId),
   ("tags", AttributeRelationId),
   ("fields", AttributeRelationId)]

/-- `tdengine_is_valid_option` (option.c 144). -/
def tdengine_is_valid_option (option : String) (context : Oid) : Bool :=
  valid_options.any (fun opt => context == opt.2 && opt.1 == option)

/-- The digits loop of C `atoi`. -/
def atoi_digits : List Char → Int → Int
  | [], acc => acc
  | c :: rest, acc =>
    if c.isDigit then atoi_digits rest (acc * 10 + ((c.toNat - '0'.toNat : Nat) : Int))
    else acc

/-- C `atoi` on a string whose value fits an `int`: white space, an optional
sign, then the decimal digits up to the first other character. -/
def atoi (s : String) : Int :=
  match s.toList.dropWhile (fun c => " \t\n\x0b\x0c\r".toList.contains c) with
  | '-' :: rest => - atoi_digits rest 0
  | '+' :: rest => atoi_digits rest 0
  | t => atoi_digits t 0

/-- `tdengine_fdw_validator` (option.c 65) on the options of an object of the
catalog `catalog`. -/
def tdengine_fdw_validator : List DefElem → Oid → Except Err Unit
  | [], _ => .ok ()
  | d :: rest, catalog =>
    if !tdengine_is_valid_option d.defname catalog then
      .error (.elog ("invalid option \"" ++ d.defname ++ "\""))
    else if d.defname == "port" && (atoi d.sval ≤ 0 || atoi d.sval > 65535) then
      .error (.elog "port number must be between 1 and 65535")
    else tdengine_fdw_validator rest catalog

/-- `tdengine_opt` (tdengine_fdw.h 60); a `char *` field is `none` while it is
`NULL`. -/
structure tdengine_opt where
  driver : Option String
  protocol : Option String
  svr_database : Option String
  svr_table : Option String
  svr_address : Option String
  svr_port : Int
  svr_username : Option String
  svr_password : Option String
  tags_list : List String
  schemaless : Bool
deriving DecidableEq, Repr

/-- What `tdengine_get_options` looks up for `foreigntableid`: the options of
the foreign table (`none` when the oid is that of a server, the `PG_CATCH`
branch), of its server and of the user mapping, `get_rel_name(foreigntableid)`,
and `SplitIdentifierString` (`none` for a syntax error in the list). -/
structure ForeignObjects where
  f_table : Option (List DefElem)
  f_server : List DefElem
  f_mapping : List DefElem
  rel_name : Option String
  SplitIdentifierString : String → Option (List String)

/-- The body of the `foreach (lc, options)` loop of `tdengine_get_options`
(option.c 203-241). -/
def get_options_step (split : String → Option (List String)) (opt : tdengine_opt)
    (d : DefElem) : Except Err tdengine_opt :=
  let opt1 := if d.defname == "table" then { opt with svr_table := some d.sval } else opt
  let opt2 := if d.defname == "host" then { opt1 with svr_address := some d.sval } else opt1
  let opt3 := if d.defname == "port" then { opt2 with svr_port := atoi d.sval } else opt2
  let opt4 := if d.defname == "user" then { opt3 with svr_username := some d.sval } else opt3
  let opt5 :=
    if d.defname == "password" then { opt4 with svr_password := some d.sval } else opt4
  let opt6 := if d.defname == "dbname" then { opt5 with svr_database := some d.sval } else opt5
  let opt7 :=
    if d.defname == "table_name" then { opt6 with svr_table := some d.sval } else opt6
  let opt8 : Except Err tdengine_opt :=
    if d.defname == "tags" then
      match split d.sval with
      | none => .error (.elog "parameter \"tags\" must be a list of tag keys")
      | some tags => .ok { opt7 with tags_list := tags }
    else .ok opt7
  match opt8 with
  | .error e => .error e
  | .ok o =>
    .ok (if d.defname == "schemaless" then { o with schemaless := d.bval } else o)

/-- The `foreach (lc, options)` loop of `tdengine_get_options`. -/
def get_options_loop (split : String → Option (List String)) :
    List DefElem → tdengine_opt → Except Err tdengine_opt
  | [], opt => .ok opt
  | d :: rest, opt =>
    match get_options_step split opt d with
    | .error e => .error e
    | .ok opt1 => get_options_loop split rest opt1

/-- `tdengine_get_options` (option.c 163). -/
def tdengine_get_options (src : ForeignObjects) : Except Err tdengine_opt :=
  let options := (src.f_table.getD []) ++ src.f_server ++ src.f_mapping
  match get_options_loop src.SplitIdentifierString options
      ⟨none, none, none, none, none, 0, none, none, [], false⟩ with
  | .error e => .error e
  | .ok opt =>
    let opt1 :=
      if opt.svr_table.isNone && src.f_table.isSome then { opt with svr_table := src.rel_name }
      else opt
    if opt1.svr_address.isNone then .error (.elog "tdengine_fdw: Server Host not specified")
    else if opt1.svr_database.isNone || opt1.svr_database == some "" then
      .error (.elog "tdengine_fdw: Database not specified")
    else
      let opt2 := if opt1.svr_username.isNone then { opt1 with svr_username := some "" } else opt1
      let opt3 := if opt2.svr_password.isNone then { opt2 with svr_password := some "" } else opt2
      .ok (if opt3.svr_port == 0 then { opt3 with svr_port := 6041 } else opt3)

/-! ## Specification-side definitions -/

/-- The `(?i)` flag of the case-insensitive LIKE operators. -/
def case_flag (op_type : PatternMatchingOperator) : List Char :=
  if op_type = ILIKE_OPERATOR ∨ op_type = NOT_ILIKE_OPERATOR then "(?i)".toList else []

/-- A pattern ends in an unescaped `%`: its final `%` is preceded by an even
number of consecutive backslashes (`q` is what stands before that run, so it
does not end in a backslash). -/
def EndsInUnescapedPercent (p : List Char) : Prop :=
  ∃ (q : List Char) (k : Nat),
    p = q ++ List.replicate k '\\' ++ ['%'] ∧ k % 2 = 0 ∧ ∀ q2, q ≠ q2 ++ ['\\']

/-- Scanning a pattern left to right, each backslash consuming the character
after it: a backslash is left with no character after it. -/
def dangling_escape : List Char → Bool
  | [] => false
  | c :: rest =>
    if c = '\\' then
      match rest with
      | [] => true
      | _ :: rest2 => dangling_escape rest2
    else dangling_escape rest

/-- The regex metacharacters as the specification lists them. -/
def spec_metacharacters : List Char := "\\^$.|?*+()[]\x7b\x7d".toList

/-- The regex metacharacters the code escapes in a pattern without backslash. -/
def escaped_metacharacters : List Char := "\\^$.|?*+()[\x7b".toList

/-- The translation of one pattern character, given the set of characters that
get a backslash. -/
def translate_char (special : List Char) (c : Char) : List Char :=
  if c = '%' then "(.*)".toList
  else if c = '_' then "(.\x7b1\x7d)".toList
  else if c ∈ special then ['\\', c]
  else [c]

/-- The character-by-character translation of a pattern. -/
def like_body (special : List Char) (p : List Char) : List Char :=
  (p.map (translate_char special)).flatten

/-- The order `None < Safe < Unsafe` on collation states. -/
def FDWCollateState.le (a b : FDWCollateState) : Prop := a.toNat ≤ b.toNat

/-- Merging the results `(collation, state)` of a sequence of nodes into a
parent context, one after the other. -/
def merge_all (results : List (Oid × FDWCollateState)) (outer_cxt : foreign_loc_cxt) :
    foreign_loc_cxt :=
  results.foldl (fun cxt r => collation_merge r.1 r.2 cxt) outer_cxt

/-- A character that the constant-array loop copies as it is: none of
`{ } " ' \ ,`.  The digits and the sign of a printed integer are such. -/
def plain_char (c : Char) : Prop :=
  c ≠ '\x7b' ∧ c ≠ '\x7d' ∧ c ≠ '"' ∧ c ≠ '\'' ∧ c ≠ '\\' ∧ c ≠ ','

/-- The printed form of an array constant with the elements `elems`. -/
def array_text (elems : List (List Char)) : List Char :=
  ['\x7b'] ++ List.intercalate [','] elems ++ ['\x7d']

/-- The comparisons `left op e` for the elements `e`, joined by ` OR ` or
` AND `. -/
def comparison_chain (left : List Char) (opname : List Char) (useOr : Bool)
    (elems : List (List Char)) : List Char :=
  List.intercalate (if useOr then " OR ".toList else " AND ".toList)
    (elems.map (fun e => left ++ [' '] ++ opname ++ [' '] ++ e))

/-- What follows the first `left op ` of a comparison chain: the first element,
then each further element behind the separator and `left op `. -/
def comparison_chain_rest (left : List Char) (opname : List Char) (useOr : Bool) :
    List (List Char) → List Char
  | [] => []
  | e :: rest =>
    e ++ (rest.map (fun e2 =>
      (if useOr then " OR ".toList else " AND ".toList) ++
        (left ++ [' '] ++ opname ++ [' '] ++ e2))).flatten

/-- The remote names of the columns whose reference `tdengine_deparse_target_list`
emits, in the order of the table: the attributes from number `i` on that are
not dropped, are selected (by the whole-row bit or by their own) and are not
a time column.  `name_of` gives the remote name of an attribute number. -/
def selected_columns (name_of : Int → String) (attrs_used : List Int) :
    List Form_pg_attribute → Int → List String
  | [], _ => []
  | attr :: rest, i =>
    if !attr.attisdropped && (attrs_used.contains 0 || attrs_used.contains i) &&
        !TDENGINE_IS_TIME_COLUMN (name_of i) then
      name_of i :: selected_columns name_of attrs_used rest (i + 1)
    else selected_columns name_of attrs_used rest (i + 1)

/-- The remote name of the first attribute from number `i` on that is not
dropped and is neither a time column nor a tag key. -/
def first_field_key (is_tag : String → Bool) (name_of : Int → String) :
    List Form_pg_attribute → Int → Option String
  | [], _ => none
  | attr :: rest, i =>
    if !attr.attisdropped && !TDENGINE_IS_TIME_COLUMN (name_of i) && !is_tag (name_of i) then
      some (name_of i)
    else first_field_key is_tag name_of rest (i + 1)

/-- The quoted column names, separated by `, `. -/
def quoted_list (names : List String) : List Char :=
  List.intercalate ", ".toList (names.map (fun n => tdengine_quote_identifier n.toList QUOTE))

/-- The path key `pk` sorts by a column of the scanned relation: the expression
found for the relation is a `Var` of it, of type `col.2`, whose remote name
`col.1` the catalog knows. -/
def column_key (cat : Catalog) (relids : List Nat) (pk : PathKey) (col : String × Oid) : Prop :=
  ∃ varno varattno vartypmod varcollid,
    tdengine_find_em_expr_for_rel pk.pk_eclass relids
      = some (T_Var varno varattno col.2 vartypmod varcollid 0) ∧
    relids.contains varno = true ∧
    tdengine_get_column_name cat (cat.rte_relid varno) varattno = .ok col.1

/-- The sort keys of an `ORDER BY` clause: each key text followed by ` ASC`
for the less-than strategy and by ` DESC` otherwise, the first key preceded
by a space and the others by `, `. -/
def order_by_keys (has_bool_cmp : Bool) : List PathKey → List (String × Oid) → List Char → List Char
  | pk :: pks, col :: cols, delim =>
    delim ++ column_ref_text col.1 col.2 has_bool_cmp ++
      (if pk.pk_strategy = BTLessStrategyNumber then " ASC".toList else " DESC".toList) ++
      order_by_keys has_bool_cmp pks cols ", ".toList
  | _, _, _ => []

/-- The clause is one that `tdengine_is_foreign_expr` accepts as a filter:
the call returns, and returns true. -/
def accepts_clause (cat : Catalog) (reloptkind : RelOptKind) (slinfo : schemaless_info)
    (relids : List Nat) (relid : Oid) (ri : RestrictInfo) : Bool :=
  match tdengine_is_foreign_expr cat reloptkind slinfo relids relid false ri.clause false with
  | .ok accepted => accepted
  | .error _ => false

mutual
/-- The expression tree holds a `BoolExpr` with `boolop` NOT, at the root or
below it.  With `into_fieldselect = false` the argument of a `FieldSelect` is
not searched. -/
def has_not (into_fieldselect : Bool) : Node → Bool
  | T_Var .. => false
  | T_Const .. => false
  | T_Param .. => false
  | T_FieldSelect arg _ _ _ => into_fieldselect && has_not into_fieldselect arg
  | T_FuncExpr _ _ _ _ args => has_not_list into_fieldselect args
  | T_OpExpr _ _ _ _ args => has_not_list into_fieldselect args
  | T_DistinctExpr _ _ _ _ args => has_not_list into_fieldselect args
  | T_ScalarArrayOpExpr _ _ _ args => has_not_list into_fieldselect args
  | T_RelabelType arg _ _ => has_not into_fieldselect arg
  | T_BoolExpr boolop args => boolop == .NOT_EXPR || has_not_list into_fieldselect args
  | T_List elems => has_not_list into_fieldselect elems
  | T_Aggref _ _ _ _ args _ _ aggfilter _ _ _ =>
    has_not_list into_fieldselect args ||
    (match aggfilter with
     | some f => has_not into_fieldselect f
     | none => false)
  | T_TargetEntry expr _ _ _ => has_not into_fieldselect expr
  | T_CoerceViaIOExpr arg _ _ => has_not into_fieldselect arg
  | T_NullTest arg _ => has_not into_fieldselect arg
  | T_ArrayExpr _ _ elements => has_not_list into_fieldselect elements
  | T_Other _ _ children => has_not_list into_fieldselect children
/-- Some node of the list holds a NOT. -/
def has_not_list (into_fieldselect : Bool) : List Node → Bool
  | [] => false
  | a :: rest => has_not into_fieldselect a || has_not_list into_fieldselect rest
end

/-- Two runs end alike: both raise the same error, or both return and the
results are related by `P`. -/
def same_outcome {α : Type} (P : α → α → Prop) (a b : Except Err α) : Prop :=
  (∃ e, a = .error e ∧ b = .error e) ∨ (∃ r r2, a = .ok r ∧ b = .ok r2 ∧ P r r2)

/-- The aggregate mark `TDENGINE_TARGETS_MARK_AGGREF` (bit 1) is not set in a
value of `mixing_aggref_status`.  No statement of the code sets it. -/
def no_aggref_mark (status : Nat) : Prop := status.testBit 1 = false

/-- The global context `g` with other values in the two fields the walker
writes, `mixing_aggref_status` and `is_inner_func`. -/
def with_marks (g : foreign_glob_cxt) (status : Nat) (inner : Bool) : foreign_glob_cxt :=
  { g with mixing_aggref_status := status, is_inner_func := inner }

/-- Two values of `mixing_aggref_status` on which the test of the `T_OpExpr`
case (deparse.c 807) answers alike whatever column marks are added to both:
they are equal, or the aggregate mark is set in neither. -/
def marks_agree (status status2 : Nat) : Prop :=
  status2 = status ∨ (no_aggref_mark status ∧ no_aggref_mark status2)

/-- How the results `r` and `r2` of two runs of the walker are related when the
second run started from a global context that differed in
`mixing_aggref_status` and (for a target list) in `is_inner_func`, and from
the value `itc2` instead of `itc` of the static `is_time_column`: the same
return value and local context, global contexts that differ in the same way,
and the same static flag if the runs started from the same. -/
def marks_rel (itc itc2 : Bool) (r r2 : WalkOut) : Prop :=
  r2.result = r.result ∧ r2.cxt = r.cxt ∧ (itc2 = itc → r2.is_time_column = r.is_time_column) ∧
  ∃ m2 b2, r2.glob = with_marks r.glob m2 b2 ∧ marks_agree r.glob.mixing_aggref_status m2 ∧
    (r.glob.for_tlist = false → b2 = r.glob.is_inner_func)

/-- The function is one of the casts `float8` and `numeric` (deparse.c 571). -/
def is_cast_call (cat : Catalog) (funcid : Oid) : Bool :=
  match cat.proname funcid with
  | some opername => opername == "float8" || opername == "numeric"
  | none => false

mutual
/-- The expression tree holds a function call other than the casts `float8` and
`numeric`, at the root or below it, outside the argument of a `FieldSelect`. -/
def has_func_call (cat : Catalog) : Node → Bool
  | T_Var .. => false
  | T_Const .. => false
  | T_Param .. => false
  | T_FieldSelect .. => false
  | T_FuncExpr funcid _ _ _ args => !is_cast_call cat funcid || has_func_call_list cat args
  | T_OpExpr _ _ _ _ args => has_func_call_list cat args
  | T_DistinctExpr _ _ _ _ args => has_func_call_list cat args
  | T_ScalarArrayOpExpr _ _ _ args => has_func_call_list cat args
  | T_RelabelType arg _ _ => has_func_call cat arg
  | T_BoolExpr _ args => has_func_call_list cat args
  | T_List elems => has_func_call_list cat elems
  | T_Aggref _ _ _ _ args _ _ aggfilter _ _ _ =>
    has_func_call_list cat args ||
    (match aggfilter with
     | some f => has_func_call cat f
     | none => false)
  | T_TargetEntry expr _ _ _ => has_func_call cat expr
  | T_CoerceViaIOExpr arg _ _ => has_func_call cat arg
  | T_NullTest arg _ => has_func_call cat arg
  | T_ArrayExpr _ _ elements => has_func_call_list cat elements
  | T_Other _ _ children => has_func_call_list cat children
/-- Some node of the list holds such a function call. -/
def has_func_call_list (cat : Catalog) : List Node → Bool
  | [] => false
  | a :: rest => has_func_call cat a || has_func_call_list cat rest
end

mutual
/-- The expression tree holds a `BoolExpr` or an `Aggref`, the two node kinds
whose case assigns `false` to the static `is_time_column`. -/
def resets_time_flag : Node → Bool
  | T_Var .. => false
  | T_Const .. => false
  | T_Param .. => false
  | T_FieldSelect arg _ _ _ => resets_time_flag arg
  | T_FuncExpr _ _ _ _ args => resets_time_flag_list args
  | T_OpExpr _ _ _ _ args => resets_time_flag_list args
  | T_DistinctExpr _ _ _ _ args => resets_time_flag_list args
  | T_ScalarArrayOpExpr _ _ _ args => resets_time_flag_list args
  | T_RelabelType arg _ _ => resets_time_flag arg
  | T_BoolExpr .. => true
  | T_List elems => resets_time_flag_list elems
  | T_Aggref .. => true
  | T_TargetEntry expr _ _ _ => resets_time_flag expr
  | T_CoerceViaIOExpr arg _ _ => resets_time_flag arg
  | T_NullTest arg _ => resets_time_flag arg
  | T_ArrayExpr _ _ elements => resets_time_flag_list elements
  | T_Other _ _ children => resets_time_flag_list children
/-- Some node of the list holds a `BoolExpr` or an `Aggref`. -/
def resets_time_flag_list : List Node → Bool
  | [] => false
  | a :: rest => resets_time_flag a || resets_time_flag_list rest
end

mutual
/-- The expression tree holds a time-typed column `Var` of the scanned relation
(`relids`), at the root or anywhere below it. -/
def has_time_column (relids : List Nat) : Node → Bool
  | T_Var varno _ vartype _ _ varlevelsup =>
    relids.contains varno && varlevelsup == 0 && TDENGINE_IS_TIME_TYPE vartype
  | T_Const .. => false
  | T_Param .. => false
  | T_FieldSelect arg _ _ _ => has_time_column relids arg
  | T_FuncExpr _ _ _ _ args => has_time_column_list relids args
  | T_OpExpr _ _ _ _ args => has_time_column_list relids args
  | T_DistinctExpr _ _ _ _ args => has_time_column_list relids args
  | T_ScalarArrayOpExpr _ _ _ args => has_time_column_list relids args
  | T_RelabelType arg _ _ => has_time_column relids arg
  | T_BoolExpr _ args => has_time_column_list relids args
  | T_List elems => has_time_column_list relids elems
  | T_Aggref _ _ _ _ args _ _ aggfilter _ _ _ =>
    has_time_column_list relids args ||
    (match aggfilter with
     | some f => has_time_column relids f
     | none => false)
  | T_TargetEntry expr _ _ _ => has_time_column relids expr
  | T_CoerceViaIOExpr arg _ _ => has_time_column relids arg
  | T_NullTest arg _ => has_time_column relids arg
  | T_ArrayExpr _ _ elements => has_time_column_list relids elements
  | T_Other _ _ children => has_time_column_list relids children
/-- Some node of the list holds such a time-typed column. -/
def has_time_column_list (relids : List Nat) : List Node → Bool
  | [] => false
  | a :: rest => has_time_column relids a || has_time_column_list relids rest
end

/-- The aggregate mark of `mixing_aggref_status` is not set in `a` when it is
not set in `b`. -/
def marks_kept (a b : foreign_glob_cxt) : Prop :=
  no_aggref_mark b.mixing_aggref_status → no_aggref_mark a.mixing_aggref_status

/-- The local context `c` with the collation, the state and the three
write-only flags of `k`. -/
def with_frame (c k : foreign_loc_cxt) : foreign_loc_cxt :=
  { c with
    collation := k.collation, state := k.state,
    can_pushdown_stable := k.can_pushdown_stable,
    can_pushdown_volatile := k.can_pushdown_volatile,
    have_otherfunc_tdengine_time_tlist := k.have_otherfunc_tdengine_time_tlist }

/-- Two results of the walker agree on all but the local context. -/
def same_verdict (r r2 : WalkOut) : Prop :=
  r2.result = r.result ∧ r2.glob = r.glob ∧ r2.is_time_column = r.is_time_column

/-- The translation of a pattern in which a backslash takes the character
after it out of its wildcard meaning: that character is copied, preceded by a
backslash when it is in `special`; every other character is translated by
`translate_char`. -/
def like_escaped_body (special : List Char) : List Char → List Char
  | [] => []
  | c :: rest =>
    if c = '\\' then
      match rest with
      | [] => []
      | d :: rest2 => (if d ∈ special then ['\\', d] else [d]) ++ like_escaped_body special rest2
    else translate_char special c ++ like_escaped_body special rest

/-- Collapsing every doubled `q` of a text into one `q`, from the left. -/
def collapse_doubled (q : Char) : List Char → List Char
  | [] => []
  | [c] => [c]
  | c :: d :: rest =>
    if c = q ∧ d = q then q :: collapse_doubled q rest
    else c :: collapse_doubled q (d :: rest)

/-- Stripping the first and the last character of a quoted identifier and
collapsing the doubled quote characters between them. -/
def unquote_identifier (t : List Char) (q : Char) : List Char :=
  collapse_doubled q (t.drop 1).dropLast

/-- What a local context says about collations: nothing, one collation that
can be used, or a conflict.  The collation id is part of it only when the
state is Safe. -/
inductive CollationVerdict where
  | none
  | safe (collation : Oid)
  | rejected
deriving DecidableEq, Repr

/-- The verdict of a pair of collation id and state. -/
def verdict_of (collation : Oid) (state : FDWCollateState) : CollationVerdict :=
  match state with
  | FDW_COLLATE_NONE => .none
  | FDW_COLLATE_SAFE => .safe collation
  | FDW_COLLATE_UNSAFE => .rejected

/-- The join of the verdict `x` of a node with the verdict `a` of its parent:
a conflict absorbs, None is neutral, the default collation yields to any
other, and two different non-default collations are a conflict. -/
def verdict_join (x a : CollationVerdict) : CollationVerdict :=
  match x, a with
  | .rejected, _ => .rejected
  | _, .rejected => .rejected
  | .none, a => a
  | x, .none => x
  | .safe c1, .safe c2 =>
    if c1 = c2 then .safe c2
    else if c2 = DEFAULT_COLLATION_OID then .safe c1
    else if c1 = DEFAULT_COLLATION_OID then .safe c2
    else .rejected

/-- Two states of the loop over an explicit target list from which the same
text is emitted: the same context, `first`, comma flag, grouping flag and
all-columns flag; the second may have given up the field key that the first
still asks for. -/
def same_emission (s1 s2 : ExplicitTargetScan) : Prop :=
  s2.context = s1.context ∧ s2.first = s1.first ∧ s2.is_need_comma = s1.is_need_comma ∧
  s2.is_col_grouping_target = s1.is_col_grouping_target ∧
  s2.selected_all_fieldtag = s1.selected_all_fieldtag ∧
  (s2.need_field_key = true → s1.need_field_key = true)

/-- The expression of a node of a target list. -/
def target_expr : Node → Node
  | T_TargetEntry expr _ _ _ => expr
  | n => n

/-- A node of a target list that is not a row-type, whole-row or
schemaless-column `Var`: a plain column `Var`, or no `Var` at all. -/
def plain_target (cat : Catalog) (rel_type_id : Oid) (pslinfo : schemaless_info)
    (node : Node) : Bool :=
  match target_expr node with
  | T_Var _ varattno vartype _ _ _ =>
    !(vartype == rel_type_id) && !(varattno == 0) &&
      !tdengine_is_slvar cat vartype varattno pslinfo
  | _ => true

/-- The node is a `Var` of the column with number `attnum`. -/
def references_column (attnum : Int) (node : Node) : Bool :=
  match target_expr node with
  | T_Var _ varattno _ _ _ _ => varattno == attnum
  | _ => false

/-- The number of non-dropped columns, numbered from `i` on, that a `Var` of
the target list references. -/
def referenced_columns (tlist : List Node) : List Form_pg_attribute → Int → Nat
  | [], _ => 0
  | attr :: rest, i =>
    (if !attr.attisdropped && tlist.any (references_column i) then 1 else 0)
      + referenced_columns tlist rest (i + 1)

/-! ## Sample data -/

/-- A catalog with a foreign table of oid 5000 whose columns are `time`
(timestamp), `col` (int4), `flag` (bool) and `name` (text), the operators
`=` and `>` on int4, `>` on timestamp and `~~` on text, and a few functions. -/
def demo_catalog : Catalog :=
  { proname := fun o =>
      if o = 20001 then some "tdengine_time"
      else if o = 20002 then some "tdengine_fill_numeric"
      else if o = 20003 then some "record_of"
      else if o = 1299 then some "now"
      else none,
    operator := fun o =>
      if o = 96 then some ⟨"=", 'b', PG_CATALOG_NAMESPACE⟩
      else if o = 521 then some ⟨">", 'b', PG_CATALOG_NAMESPACE⟩
      else if o = 2064 then some ⟨">", 'b', PG_CATALOG_NAMESPACE⟩
      else if o = 1209 then some ⟨"~~", 'b', PG_CATALOG_NAMESPACE⟩
      else none,
    typname := fun o =>
      if o = BOOLOID then some "bool"
      else if o = INT4OID then some "int4"
      else if o = TEXTOID then some "text"
      else if o = INT4ARRAYOID then some "_int4"
      else if o = TIMESTAMPOID then some "timestamp"
      else if o = INTERVALOID then some "interval"
      else none,
    nspname := fun _ => "pg_catalog",
    column_options := fun _ _ => [],
    attname := fun relid a =>
      if relid = 5000 then
        if a = 1 then some "time"
        else if a = 2 then some "col"
        else if a = 3 then some "flag"
        else if a = 4 then some "name"
        else none
      else none,
    tags_list := fun _ => [],
    rte_relid := fun _ => 5000 }

/-- A table that is not in schemaless mode. -/
def demo_slinfo : schemaless_info := ⟨false, InvalidOid, InvalidOid, InvalidOid⟩

/-- The columns of the sample table as `Var`s of range-table entry 1. -/
def demo_time : Node := T_Var 1 1 TIMESTAMPOID (-1) InvalidOid 0
def demo_col : Node := T_Var 1 2 INT4OID (-1) InvalidOid 0
def demo_flag : Node := T_Var 1 3 BOOLOID (-1) InvalidOid 0
def demo_name : Node := T_Var 1 4 TEXTOID (-1) DEFAULT_COLLATION_OID 0

/-- An int4 constant with the given text form. -/
def demo_int (s : String) : Node := T_Const INT4OID InvalidOid (.text s.toList) false

/-- The parameter `$n` of type int4, and the parameter `$1` of type timestamp. -/
def demo_int_param (n : Int) : Node := T_Param n INT4OID (-1) InvalidOid
def demo_time_param : Node := T_Param 1 TIMESTAMPOID (-1) InvalidOid

/-- A deparse context on the sample table with an empty buffer. -/
def demo_context : deparse_expr_cxt :=
  { scanrel_relids := [1], scanrel_relid := 1, slinfo := demo_slinfo, buf := [],
    params_list := some [], op_type := UNKNOWN_OPERATOR, is_tlist := false,
    can_skip_cast := false, can_delete_directly := true, has_bool_cmp := false,
    tdengine_fill_expr := none, convert_to_timestamp := false }

/-- `NOT flag`. -/
def demo_not : Node := T_BoolExpr .NOT_EXPR [demo_flag]

/-- `(record_of(NOT flag)).f1`, a boolean field of a function result. -/
def demo_fieldselect : Node :=
  T_FieldSelect (T_FuncExpr 20003 2249 InvalidOid InvalidOid [demo_not]) 1 BOOLOID InvalidOid

/-- `tdengine_fill_numeric(NOT flag)` outside `tdengine_time()`. -/
def demo_fill_not : Node := T_FuncExpr 20002 INT4OID InvalidOid InvalidOid [demo_not]

/-- `time > $1`. -/
def demo_time_gt : Node :=
  T_OpExpr 2064 BOOLOID InvalidOid InvalidOid [demo_time, demo_time_param]

/-- `col = v`. -/
def demo_col_eq (v : String) : Node :=
  T_OpExpr 96 BOOLOID InvalidOid InvalidOid [demo_col, demo_int v]

/-- `col = $n`. -/
def demo_col_eq_param (n : Int) : Node :=
  T_OpExpr 96 BOOLOID InvalidOid InvalidOid [demo_col, demo_int_param n]

/-- `col = $2 AND NOT flag`. -/
def demo_and_not : Node := T_BoolExpr .AND_EXPR [demo_col_eq_param 2, demo_not]

/-- `time > $1 OR (col = $2 AND col = $3)`. -/
def demo_or_nested : Node :=
  T_BoolExpr .OR_EXPR
    [demo_time_gt, T_BoolExpr .AND_EXPR [demo_col_eq_param 2, demo_col_eq_param 3]]

/-- `time > $1 OR col = $2`. -/
def demo_or_flat : Node := T_BoolExpr .OR_EXPR [demo_time_gt, demo_col_eq_param 2]

/-- `col = ANY ('{1,2,3}'::int4[])`, the form of `col IN (1, 2, 3)`. -/
def demo_in_list : Node :=
  T_ScalarArrayOpExpr 96 true InvalidOid
    [demo_col, T_Const INT4ARRAYOID InvalidOid (.text "\x7b1,2,3\x7d".toList) false]

/-- `tdengine_time(time, interval '5 minutes', tdengine_fill_numeric(0))`. -/
def demo_time_bucket : Node :=
  T_FuncExpr 20001 TIMESTAMPOID InvalidOid InvalidOid
    [demo_time, T_Const INTERVALOID InvalidOid (.interval ⟨300000000, 0, 0⟩) false,
     T_FuncExpr 20002 INT4OID InvalidOid InvalidOid [demo_int "0"]]

/-- The node kinds the `switch` of `tdengine_foreign_expr_walker` has a case
with a body for (deparse.c 415-1247); `DistinctExpr` has the case
`return false` and every other kind falls to `default`. -/
def walker_has_case : Node → Bool
  | T_Var .. => true
  | T_Const .. => true
  | T_Param .. => true
  | T_FieldSelect .. => true
  | T_FuncExpr .. => true
  | T_OpExpr .. => true
  | T_ScalarArrayOpExpr .. => true
  | T_RelabelType .. => true
  | T_BoolExpr .. => true
  | T_List .. => true
  | T_Aggref .. => true
  | T_CoerceViaIOExpr .. => true
  | T_NullTest .. => true
  | T_ArrayExpr .. => true
  | T_DistinctExpr .. => false
  | T_TargetEntry .. => false
  | T_Other .. => false

/-- Two local contexts agree on the five flags that a `List` node hands down
to its elements (deparse.c 938-942). -/
def same_flags (a b : foreign_loc_cxt) : Prop :=
  a.can_skip_cast = b.can_skip_cast ∧ a.tdengine_fill_enable = b.tdengine_fill_enable ∧
  a.has_time_key = b.has_time_key ∧
  a.has_sub_or_add_operator = b.has_sub_or_add_operator ∧ a.is_comparison = b.is_comparison

/-- The inner context of the `T_List` case for a given outer context
(deparse.c 938-942). -/
def list_inner_cxt (outer_cxt : foreign_loc_cxt) : foreign_loc_cxt :=
  { inner_cxt_init with
    can_skip_cast := outer_cxt.can_skip_cast,
    tdengine_fill_enable := outer_cxt.tdengine_fill_enable,
    has_time_key := outer_cxt.has_time_key,
    has_sub_or_add_operator := outer_cxt.has_sub_or_add_operator,
    is_comparison := outer_cxt.is_comparison }

/-- The parent's context as a function call leaves it, before the descent into
the arguments or at an early return. -/
def FuncPre_cxt : WalkOut ⊕ FuncPre → foreign_loc_cxt
  | .inl r => r.cxt
  | .inr P => P.outer_cxt

/-- Two global contexts describe the same relation: they differ at most in
`mixing_aggref_status` and `is_inner_func`, the two fields the walker writes. -/
def same_table (a b : foreign_glob_cxt) : Prop :=
  a.reloptkind = b.reloptkind ∧ a.slinfo = b.slinfo ∧ a.relids = b.relids ∧
  a.relid = b.relid ∧ a.for_tlist = b.for_tlist

/-- The global context as a function call leaves it, before the descent into
the arguments or at an early return. -/
def FuncPre_glob : WalkOut ⊕ FuncPre → foreign_glob_cxt
  | .inl r => r.glob
  | .inr P => P.glob

/-- A reference to a tag key of the table of `g`: a column `Var` whose remote
name is in the tag list of the table, or a dynamic key access `var ->> key`,
bare or under a `CoerceViaIO`, whose key is in the tag list. -/
def tag_reference (cat : Catalog) (g : foreign_glob_cxt) : Node → Bool
  | T_Var _ varattno _ _ _ _ =>
    match tdengine_get_column_name cat g.relid varattno with
    | .ok colname => tdengine_is_tag_key cat colname g.relid
    | .error _ => false
  | T_OpExpr opno t oc ic [T_Var a1 a2 a3 a4 a5 a6, T_Const b1 b2 v b4] =>
    tdengine_is_slvar_fetch cat
      (T_OpExpr opno t oc ic [T_Var a1 a2 a3 a4 a5 a6, T_Const b1 b2 v b4]) g.slinfo &&
    tdengine_is_tag_key cat (String.mk (OidOutputFunctionCall v)) g.relid
  | T_CoerceViaIOExpr (T_OpExpr opno t oc ic [T_Var a1 a2 a3 a4 a5 a6, T_Const b1 b2 v b4])
      _ _ =>
    tdengine_is_slvar_fetch cat
      (T_OpExpr opno t oc ic [T_Var a1 a2 a3 a4 a5 a6, T_Const b1 b2 v b4]) g.slinfo &&
    tdengine_is_tag_key cat (String.mk (OidOutputFunctionCall v)) g.relid
  | _ => false

/-- A time-typed column of the scanned relation, or a time-typed `Param`. -/
def time_operand (g : foreign_glob_cxt) : Node → Bool
  | T_Var varno _ vartype _ _ varlevelsup =>
    g.relids.contains varno && varlevelsup == 0 && TDENGINE_IS_TIME_TYPE vartype
  | T_Param _ paramtype _ _ => TDENGINE_IS_TIME_TYPE paramtype
  | _ => false

/-- The inner context of an `OpExpr` whose operator is `+` or `-`
(deparse.c 781-787). -/
def arith_inner_cxt (outer_cxt : foreign_loc_cxt) : foreign_loc_cxt :=
  { inner_cxt_init with
    has_time_key := outer_cxt.has_time_key,
    is_comparison := outer_cxt.is_comparison,
    has_sub_or_add_operator := true }

/-- The inner context of a comparison that has the time key among its operands
(deparse.c 710, 790). -/
def time_key_comparison_cxt : foreign_loc_cxt :=
  { inner_cxt_init with is_comparison := true, has_time_key := true }

/-- `name::interval + time`, the first operand a `CoerceViaIO`. -/
def demo_coerce_plus_time : Node :=
  T_OpExpr 2553 TIMESTAMPOID InvalidOid InvalidOid
    [T_CoerceViaIOExpr demo_name INTERVALOID InvalidOid, demo_time]

/-- The error of deparse.c 598. -/
def fill_syntax_error : Err :=
  .elog ("tdengine_fdw: syntax error tdengine_fill_numeric() or " ++
    "tdengine_fill_option() must be embedded inside tdengine_time() function\n")

/-- The sample catalog with further operators (`=` on text, `=` and `<>` on
timestamp, `+` on timestamp and interval in both orders, `*` on interval and
float8), the functions `sqrt` and `float8`, the aggregates `count`, `max` and
`tdengine_max_all`, and with `name` as the tag key of the table. -/
def demo_catalog_tags : Catalog :=
  { demo_catalog with
    proname := fun o =>
      if o = 2803 then some "count"
      else if o = 2116 then some "max"
      else if o = 2129 then some "max"
      else if o = 20010 then some "tdengine_max_all"
      else if o = 1344 then some "sqrt"
      else if o = 316 then some "float8"
      else demo_catalog.proname o,
    operator := fun o =>
      if o = 98 then some ⟨"=", 'b', PG_CATALOG_NAMESPACE⟩
      else if o = 2060 then some ⟨"=", 'b', PG_CATALOG_NAMESPACE⟩
      else if o = 2061 then some ⟨"<>", 'b', PG_CATALOG_NAMESPACE⟩
      else if o = 2066 then some ⟨"+", 'b', PG_CATALOG_NAMESPACE⟩
      else if o = 2553 then some ⟨"+", 'b', PG_CATALOG_NAMESPACE⟩
      else if o = 1584 then some ⟨"*", 'b', PG_CATALOG_NAMESPACE⟩
      else demo_catalog.operator o,
    tags_list := fun _ => ["name"] }

/-- The global context `tdengine_is_foreign_expr` builds for a filter of the
sample table, on a relation of the given kind. -/
def demo_glob (reloptkind : RelOptKind) : foreign_glob_cxt :=
  { reloptkind := reloptkind, slinfo := demo_slinfo, relids := [1], relid := 5000,
    mixing_aggref_status := TDENGINE_TARGETS_MIXING_AGGREF_SAFE, for_tlist := false,
    is_inner_func := false }

/-- A text parameter `$1` whose collation is `"C"` (oid 950). -/
def demo_param_c : Node := T_Param 1 TEXTOID (-1) 950

/-- `time = time`. -/
def demo_time_eq_time : Node :=
  T_OpExpr 2060 BOOLOID InvalidOid InvalidOid [demo_time, demo_time]

/-- `'2020-01-01 00:00:00' <> time`. -/
def demo_const_ne_time : Node :=
  T_OpExpr 2061 BOOLOID InvalidOid InvalidOid
    [T_Const TIMESTAMPOID InvalidOid (.text "2020-01-01 00:00:00".toList) false, demo_time]

/-- The constant `interval '1 hour'`. -/
def demo_hour : Node := T_Const INTERVALOID InvalidOid (.interval ⟨3600000000, 0, 0⟩) false

/-- `time > time + interval '1 hour'`. -/
def demo_time_gt_time_plus : Node :=
  T_OpExpr 2064 BOOLOID InvalidOid InvalidOid
    [demo_time, T_OpExpr 2066 TIMESTAMPOID InvalidOid InvalidOid [demo_time, demo_hour]]

/-- `time > sqrt(tdengine_fill_numeric(4)) * interval '1 hour' + time`, with
the cast `float8(...)` of the integer result of the fill call. -/
def demo_time_gt_fill_plus_time : Node :=
  T_OpExpr 2064 BOOLOID InvalidOid InvalidOid
    [demo_time,
     T_OpExpr 2553 TIMESTAMPOID InvalidOid InvalidOid
       [T_OpExpr 1584 INTERVALOID InvalidOid InvalidOid
          [T_FuncExpr 1344 FLOAT8OID InvalidOid InvalidOid
             [T_FuncExpr 316 FLOAT8OID InvalidOid InvalidOid
                [T_FuncExpr 20002 INT4OID InvalidOid InvalidOid [demo_int "4"]]],
           demo_hour],
        demo_time]]

/-- `count(*)`. -/
def demo_count_star : Node :=
  T_Aggref 2803 INT8OID InvalidOid InvalidOid [] [] [] none true false .AGGSPLIT_SIMPLE

/-- `max(name)`, the aggregate of the tag key. -/
def demo_max_tag : Node :=
  T_Aggref 2129 TEXTOID DEFAULT_COLLATION_OID DEFAULT_COLLATION_OID
    [T_TargetEntry demo_name 1 0 false] [] [] none false false .AGGSPLIT_SIMPLE

/-- `tdengine_max_all(tdengine_fill_numeric(1), name)`. -/
def demo_star_fill_tag : Node :=
  T_Aggref 20010 TEXTOID InvalidOid InvalidOid
    [T_TargetEntry (T_FuncExpr 20002 INT4OID InvalidOid InvalidOid [demo_int "1"]) 1 0 false,
     T_TargetEntry demo_name 2 0 false] [] [] none false false .AGGSPLIT_SIMPLE

/-- `max(col) FILTER (WHERE flag)`. -/
def demo_max_filter : Node :=
  T_Aggref 2116 INT4OID InvalidOid InvalidOid
    [T_TargetEntry demo_col 1 0 false] [] [] (some demo_flag) false false .AGGSPLIT_SIMPLE

/-- `tdengine_max_all(tdengine_fill_numeric(1)) FILTER (WHERE flag)`. -/
def demo_star_fill_filter : Node :=
  T_Aggref 20010 INT4OID InvalidOid InvalidOid
    [T_TargetEntry (T_FuncExpr 20002 INT4OID InvalidOid InvalidOid [demo_int "1"]) 1 0 false]
    [] [] (some demo_flag) false false .AGGSPLIT_SIMPLE

/-- `time > f(0)` for a fill function `f` declared with the result type
timestamp. -/
def demo_time_gt_fill : Node :=
  T_OpExpr 2064 BOOLOID InvalidOid InvalidOid
    [demo_time, T_FuncExpr 20002 TIMESTAMPOID InvalidOid InvalidOid [demo_int "0"]]

/-- The sample catalog with the function `log`, the type numeric, the array
types of text and bool, and the operator `=` on bool. -/
def demo_catalog_funcs : Catalog :=
  { demo_catalog_tags with
    proname := fun o =>
      if o = 1736 then some "log"
      else demo_catalog_tags.proname o,
    operator := fun o =>
      if o = 91 then some ⟨"=", 'b', PG_CATALOG_NAMESPACE⟩
      else demo_catalog_tags.operator o,
    typname := fun o =>
      if o = 1009 then some "_text"
      else if o = BOOLARRAYOID then some "_bool"
      else if o = NUMERICOID then some "numeric"
      else demo_catalog_tags.typname o }

/-- `log($1, col)`, with numeric arguments. -/
def demo_log_call : Node :=
  T_FuncExpr 1736 NUMERICOID InvalidOid InvalidOid
    [T_Param 1 NUMERICOID (-1) InvalidOid, demo_col]

/-- `tdengine_max_all(col)` as a function call. -/
def demo_star_call : Node :=
  T_FuncExpr 20010 INT4OID InvalidOid InvalidOid [demo_col]

/-- `name = ANY ('{}'::text[])`: the array has no element. -/
def demo_empty_in_list : Node :=
  T_ScalarArrayOpExpr 98 true DEFAULT_COLLATION_OID
    [demo_name, T_Const 1009 DEFAULT_COLLATION_OID (.text "\x7b\x7d".toList) false]

/-- `name = ANY ('{"a,b",c''d,"e\"f"}'::text[])`: the elements `a,b`, `c'd`
and `e"f` as `array_out` prints them. -/
def demo_quoted_in_list : Node :=
  T_ScalarArrayOpExpr 98 true DEFAULT_COLLATION_OID
    [demo_name,
     T_Const 1009 DEFAULT_COLLATION_OID (.text "\x7b\"a,b\",c'd,\"e\\\"f\"\x7d".toList) false]

/-- `flag = ANY ('{t,f}'::bool[])`. -/
def demo_bool_in_list : Node :=
  T_ScalarArrayOpExpr 91 true InvalidOid
    [demo_flag, T_Const BOOLARRAYOID InvalidOid (.text "\x7bt,f\x7d".toList) false]

/-- The tuple descriptor of the sample table: four columns, none dropped. -/
def demo_tupdesc : List Form_pg_attribute := [⟨false⟩, ⟨false⟩, ⟨false⟩, ⟨false⟩]

/-- The remote names of the columns of the sample table by attribute number. -/
def demo_name_of (i : Int) : String :=
  if i = 1 then "time" else if i = 2 then "col" else if i = 3 then "flag" else "name"

/-- The path key of a column of the sample table. -/
def demo_pathkey (col : Node) (pk_strategy : Nat) (pk_nulls_first : Bool) : PathKey :=
  ⟨[⟨[1], col⟩], pk_strategy, pk_nulls_first⟩

/-- `col = tdengine_fill_numeric(1)`: a fill call outside `tdengine_time()`. -/
def demo_col_eq_fill : Node :=
  T_OpExpr 96 BOOLOID InvalidOid InvalidOid
    [demo_col, T_FuncExpr 20002 INT4OID InvalidOid InvalidOid [demo_int "1"]]

/-- `sqrt(float8(tdengine_fill_numeric(4)))`. -/
def demo_sqrt_cast_fill : Node :=
  T_FuncExpr 1344 FLOAT8OID InvalidOid InvalidOid
    [T_FuncExpr 316 FLOAT8OID InvalidOid InvalidOid
       [T_FuncExpr 20002 INT4OID InvalidOid InvalidOid [demo_int "4"]]]

/-- `sqrt((record_of(sqrt(float8(col)))).f1)`: the inner call of `sqrt` stands
in the argument of a `FieldSelect`. -/
def demo_sqrt_fieldselect : Node :=
  T_FuncExpr 1344 FLOAT8OID InvalidOid InvalidOid
    [T_FieldSelect
       (T_FuncExpr 20003 2249 InvalidOid InvalidOid
          [T_FuncExpr 1344 FLOAT8OID InvalidOid InvalidOid
             [T_FuncExpr 316 FLOAT8OID InvalidOid InvalidOid [demo_col]]])
       1 FLOAT8OID InvalidOid]

/-- `sqrt(sqrt(float8(col)))`. -/
def demo_sqrt_sqrt : Node :=
  T_FuncExpr 1344 FLOAT8OID InvalidOid InvalidOid
    [T_FuncExpr 1344 FLOAT8OID InvalidOid InvalidOid
       [T_FuncExpr 316 FLOAT8OID InvalidOid InvalidOid [demo_col]]]

/-- The sample catalog with the aggregate `last`. -/
def demo_catalog_last : Catalog :=
  { demo_catalog_funcs with
    proname := fun o =>
      if o = 20020 then some "last"
      else demo_catalog_funcs.proname o }

/-- `last(time)`. -/
def demo_last_time : Node :=
  T_Aggref 20020 TIMESTAMPOID InvalidOid InvalidOid
    [T_TargetEntry demo_time 1 0 false] [] [] none false false .AGGSPLIT_SIMPLE

/-- `max(time)`. -/
def demo_max_time : Node :=
  T_Aggref 2116 TIMESTAMPOID InvalidOid InvalidOid
    [T_TargetEntry demo_time 1 0 false] [] [] none false false .AGGSPLIT_SIMPLE

/-- `tdengine_max_all(tdengine_fill_numeric(1), time)`. -/
def demo_star_fill_time : Node :=
  T_Aggref 20010 TIMESTAMPOID InvalidOid InvalidOid
    [T_TargetEntry (T_FuncExpr 20002 INT4OID InvalidOid InvalidOid [demo_int "1"]) 1 0 false,
     T_TargetEntry demo_time 2 0 false] [] [] none false false .AGGSPLIT_SIMPLE

/-- `tdengine_max_all((time > $1) = (col = $2 AND col = $3))`. -/
def demo_star_time_and : Node :=
  T_Aggref 20010 BOOLOID InvalidOid InvalidOid
    [T_TargetEntry
       (T_OpExpr 91 BOOLOID InvalidOid InvalidOid
          [demo_time_gt, T_BoolExpr .AND_EXPR [demo_col_eq_param 2, demo_col_eq_param 3]])
       1 0 false] [] [] none false false .AGGSPLIT_SIMPLE

/-- `name LIKE $1` on the text column of the sample table. -/
def demo_like_param : Node :=
  T_OpExpr 1209 BOOLOID InvalidOid DEFAULT_COLLATION_OID
    [demo_name, T_Param 1 TEXTOID (-1) DEFAULT_COLLATION_OID]

/-- The target list `col, name`. -/
def demo_tlist_plain : List Node :=
  [T_TargetEntry demo_col 1 0 false, T_TargetEntry demo_name 2 0 false]

/-- The target list
`col, tdengine_time(time, interval '5 minutes', tdengine_fill_numeric(0)), name`. -/
def demo_tlist_bucket : List Node :=
  [T_TargetEntry demo_col 1 0 false, T_TargetEntry demo_time_bucket 2 0 false,
   T_TargetEntry demo_name 3 0 false]

/-- The target list `tdengine_fill_numeric(0), col, name`. -/
def demo_tlist_fill_first : List Node :=
  [T_TargetEntry (T_FuncExpr 20002 INT4OID InvalidOid InvalidOid [demo_int "0"]) 1 0 false,
   T_TargetEntry demo_col 2 0 false, T_TargetEntry demo_name 3 0 false]

/-- The catalog of two tables in schemaless mode: relation 6000 with the
columns `time` and `time_text` only, and relation 6100 with the columns
`time`, `tags` and `fields`, the last two with the column options `tags` and
`fields`. -/
def demo_sl_catalog : Catalog :=
  { demo_catalog with
    attname := fun relid a =>
      if relid = 6000 then
        if a = 1 then some "time" else if a = 2 then some "time_text" else none
      else if relid = 6100 then
        if a = 1 then some "time" else if a = 2 then some "tags"
        else if a = 3 then some "fields" else none
      else demo_catalog.attname relid a,
    column_options := fun relid a =>
      if relid = 6100 then
        if a = 2 then [⟨"tags", "true", true⟩]
        else if a = 3 then [⟨"fields", "true", true⟩] else []
      else [],
    rte_relid := fun _ => 6000 }

/-- The schemaless information of relation 6000 and of relation 6100; 3477 is
the operator `->>` on jsonb and text. -/
def demo_sl_info : schemaless_info := ⟨true, JSONBOID, 3477, 6000⟩
def demo_sl_std_info : schemaless_info := ⟨true, JSONBOID, 3477, 6100⟩

/-- The tuple descriptors of relation 6000 and of relation 6100. -/
def demo_sl_tupdesc : List Form_pg_attribute := [⟨false⟩, ⟨false⟩]
def demo_sl_std_tupdesc : List Form_pg_attribute := [⟨false⟩, ⟨false⟩, ⟨false⟩]

/-- The columns of the schemaless tables as `Var`s. -/
def demo_sl_time : Node := T_Var 1 1 TIMESTAMPTZOID (-1) InvalidOid 0
def demo_sl_time_text : Node := T_Var 1 2 TEXTOID (-1) DEFAULT_COLLATION_OID 0
def demo_sl_tags : Node := T_Var 1 2 JSONBOID (-1) InvalidOid 0
def demo_sl_fields : Node := T_Var 1 3 JSONBOID (-1) InvalidOid 0

/-- `SplitIdentifierString` on a list of plain lower-case names separated by
commas without white space. -/
def demo_split_names : List Char → List Char → List String
  | [], cur => [String.mk cur.reverse]
  | c :: rest, cur =>
    if c = ',' then String.mk cur.reverse :: demo_split_names rest []
    else demo_split_names rest (c :: cur)

/-- A foreign table with `OPTIONS (table 'meters')` on a server with
`OPTIONS (host 'localhost', port '6041', dbname 'power')` and a user mapping
with the options `mapping`. -/
def demo_objects (mapping : List DefElem) : ForeignObjects :=
  { f_table := some [⟨"table", "meters", false⟩],
    f_server := [⟨"host", "localhost", false⟩, ⟨"port", "6041", false⟩,
                 ⟨"dbname", "power", false⟩],
    f_mapping := mapping,
    rel_name := some "meters_ft",
    SplitIdentifierString := fun s => some (demo_split_names s.toList []) }

/-- The user mapping options `username 'root', password 'taosdata'`. -/
def demo_mapping : List DefElem :=
  [⟨"username", "root", false⟩, ⟨"password", "taosdata", false⟩]

/-! ### The calls of the walker and the input-collation test -/

/-- The global context `tdengine_is_foreign_expr` hands the walker
(deparse.c 314-328). -/
def initial_glob_cxt (reloptkind : RelOptKind) (slinfo : schemaless_info) (relids : List Nat)
    (relid : Oid) (for_tlist : Bool) : foreign_glob_cxt :=
  { reloptkind := reloptkind, slinfo := slinfo, relids := relids, relid := relid,
    mixing_aggref_status := TDENGINE_TARGETS_MIXING_AGGREF_SAFE,
    for_tlist := for_tlist, is_inner_func := false }

/-- The catalog of the tables in schemaless mode with the operator `->>` and
the functions of `demo_catalog_tags`. -/
def demo_sl_agg_catalog : Catalog :=
  { demo_sl_catalog with
    proname := demo_catalog_tags.proname,
    operator := fun o =>
      if o = 3477 then some ⟨"->>", 'b', PG_CATALOG_NAMESPACE⟩
      else demo_catalog_tags.operator o }

/-- The dynamic column access `fields->>'a'` of relation 6100. -/
def demo_sl_fetch : Node :=
  T_OpExpr 3477 TEXTOID DEFAULT_COLLATION_OID DEFAULT_COLLATION_OID
    [demo_sl_fields, T_Const TEXTOID DEFAULT_COLLATION_OID (.text "a".toList) false]

/-- `tdengine_max_all(fields->>'a', $1)` with the input collation `"default"`;
the text parameter `$1` has the collation `"C"`. -/
def demo_sl_star_agg : Node :=
  T_Aggref 20010 TEXTOID InvalidOid DEFAULT_COLLATION_OID
    [T_TargetEntry demo_sl_fetch 1 0 false, T_TargetEntry demo_param_c 2 0 false]
    [] [] none false false .AGGSPLIT_SIMPLE

/-! ## Theorems: the LIKE pattern translation -/

/-- C4: with the LIKE operator kind, `tdengine_deparse_string_like_pattern`
appends exactly `/^abc(.*)/` for the pattern `abc%`, `/(.*)abc$/` for `%abc`
and `/^abc$/` for `abc`, whatever the buffer held before. -/
theorem like_pattern_examples (buf : StringInfo) :
    tdengine_deparse_string_like_pattern buf "abc%".toList LIKE_OPERATOR
      = .ok (buf ++ "/^abc(.*)/".toList) ∧
    tdengine_deparse_string_like_pattern buf "%abc".toList LIKE_OPERATOR
      = .ok (buf ++ "/(.*)abc$/".toList) ∧
    tdengine_deparse_string_like_pattern buf "abc".toList LIKE_OPERATOR
      = .ok (buf ++ "/^abc$/".toList) := by
  refine ⟨?_, ?_, ?_⟩ <;>
  simp [tdengine_deparse_string_like_pattern, like_pattern_head, like_pattern_loop,
    add_backslash, strchr_found, regex_special, tdengine_last_percent_sign_check,
    count_backslash]

theorem like_pattern_loop_cons (c : Char) (rest : List Char) (b : StringInfo) :
    like_pattern_loop (c :: rest) b =
      if c = '%' then like_pattern_loop rest (b ++ "(.*)".toList)
      else if c = '_' then like_pattern_loop rest (b ++ "(.\x7b1\x7d)".toList)
      else if c = '\\' then
        match rest with
        | [] => .error (.elog "invalid pattern matching")
        | d :: rest2 => like_pattern_loop rest2 (add_backslash b d regex_special)
      else like_pattern_loop rest (add_backslash b c regex_special) := by
  conv_lhs => rw [like_pattern_loop.eq_def]

theorem dangling_escape_cons (c : Char) (rest : List Char) :
    dangling_escape (c :: rest) =
      if c = '\\' then
        match rest with
        | [] => true
        | _ :: rest2 => dangling_escape rest2
      else dangling_escape rest := by
  conv_lhs => rw [dangling_escape.eq_def]

theorem add_backslash_extends (b : StringInfo) (c : Char) (sp : List Char) :
    ∃ t, add_backslash b c sp = b ++ t := by
  unfold add_backslash
  split
  · exact ⟨_, rfl⟩
  · exact ⟨_, rfl⟩

theorem like_pattern_loop_extends_aux (n : Nat) :
    ∀ (p : List Char), p.length ≤ n → ∀ (b out : StringInfo),
      like_pattern_loop p b = .ok out → ∃ body, out = b ++ body := by
  induction n with
  | zero =>
    intro p hp b out h
    have : p = [] := List.length_eq_zero.mp (Nat.le_zero.mp hp)
    subst this
    simp [like_pattern_loop] at h
    exact ⟨[], by simp [h]⟩
  | succ n ih =>
    intro p hp b out h
    cases p with
    | nil =>
      simp [like_pattern_loop] at h
      exact ⟨[], by simp [h]⟩
    | cons c rest =>
      have hr : rest.length ≤ n := by simpa using hp
      rw [like_pattern_loop_cons] at h
      split at h
      · obtain ⟨body, hb⟩ := ih rest hr _ _ h
        exact ⟨_, by rw [hb, List.append_assoc]⟩
      · split at h
        · obtain ⟨body, hb⟩ := ih rest hr _ _ h
          exact ⟨_, by rw [hb, List.append_assoc]⟩
        · split at h
          · cases rest with
            | nil => simp at h
            | cons d rest2 =>
              simp only at h
              have hr2 : rest2.length ≤ n := by
                simp at hr; omega
              obtain ⟨body, hb⟩ := ih rest2 hr2 _ _ h
              obtain ⟨t, ht⟩ := add_backslash_extends b d regex_special
              exact ⟨_, by rw [hb, ht, List.append_assoc]⟩
          · obtain ⟨body, hb⟩ := ih rest hr _ _ h
            obtain ⟨t, ht⟩ := add_backslash_extends b c regex_special
            exact ⟨_, by rw [hb, ht, List.append_assoc]⟩

theorem like_pattern_loop_extends (p : List Char) (b out : StringInfo)
    (h : like_pattern_loop p b = .ok out) : ∃ body, out = b ++ body :=
  like_pattern_loop_extends_aux p.length p (Nat.le_refl _) b out h

theorem like_pattern_loop_total_aux (n : Nat) :
    ∀ (p : List Char), p.length ≤ n → dangling_escape p = false →
      ∀ (b : StringInfo), ∃ out, like_pattern_loop p b = .ok out := by
  induction n with
  | zero =>
    intro p hp _ b
    have : p = [] := List.length_eq_zero.mp (Nat.le_zero.mp hp)
    subst this
    exact ⟨b, by simp [like_pattern_loop]⟩
  | succ n ih =>
    intro p hp hd b
    cases p with
    | nil => exact ⟨b, by simp [like_pattern_loop]⟩
    | cons c rest =>
      have hr : rest.length ≤ n := by simpa using hp
      rw [like_pattern_loop_cons]
      rw [dangling_escape_cons] at hd
      by_cases h1 : c = '%'
      · have hne : c ≠ '\\' := by rw [h1]; decide
        rw [if_neg hne] at hd
        rw [if_pos h1]
        exact ih rest hr hd _
      · rw [if_neg h1]
        by_cases h2 : c = '_'
        · have hne : c ≠ '\\' := by rw [h2]; decide
          rw [if_neg hne] at hd
          rw [if_pos h2]
          exact ih rest hr hd _
        · rw [if_neg h2]
          by_cases h3 : c = '\\'
          · rw [if_pos h3] at hd
            rw [if_pos h3]
            cases rest with
            | nil => simp at hd
            | cons d rest2 =>
              simp only at hd ⊢
              have hr2 : rest2.length ≤ n := by
                simp at hr; omega
              exact ih rest2 hr2 hd _
          · rw [if_neg h3] at hd
            rw [if_neg h3]
            exact ih rest hr hd _

theorem count_backslash_replicate (k : Nat) (r : List Char) :
    count_backslash (List.replicate k '\\' ++ r) = k + count_backslash r := by
  induction k with
  | zero => simp
  | succ k ih =>
    rw [List.replicate_succ, List.cons_append, count_backslash, if_pos rfl, ih]
    omega

theorem count_backslash_split (r : List Char) :
    ∃ r2, r = List.replicate (count_backslash r) '\\' ++ r2 ∧ ∀ t, r2 ≠ '\\' :: t := by
  induction r with
  | nil => exact ⟨[], by simp [count_backslash], by simp⟩
  | cons c rest ih =>
    by_cases hc : c = '\\'
    · obtain ⟨r2, h1, h2⟩ := ih
      refine ⟨r2, ?_, h2⟩
      rw [count_backslash, if_pos hc, List.replicate_succ, List.cons_append, ← h1, hc]
    · refine ⟨c :: rest, ?_, ?_⟩
      · rw [count_backslash, if_neg hc]; simp
      · intro t ht
        exact hc (List.cons.inj ht).1

theorem count_backslash_reverse_zero (q : List Char) (hq : ∀ q2, q ≠ q2 ++ ['\\']) :
    count_backslash q.reverse = 0 := by
  rcases List.eq_nil_or_concat q with h | ⟨q2, c, h⟩
  · subst h; simp [count_backslash]
  · rw [List.concat_eq_append] at h
    subst h
    have hc : c ≠ '\\' := fun hc => hq q2 (by rw [hc])
    simp [count_backslash, hc]

theorem last_percent_check_false (p : List Char) (h : EndsInUnescapedPercent p) :
    tdengine_last_percent_sign_check p = .ok false := by
  obtain ⟨q, k, hp, hk, hq⟩ := h
  subst hp
  unfold tdengine_last_percent_sign_check
  simp only [List.reverse_append, List.reverse_cons, List.reverse_nil, List.nil_append,
    List.singleton_append, List.reverse_replicate]
  simp [count_backslash_replicate, count_backslash_reverse_zero q hq, hk]

theorem last_percent_check_true (p : List Char) (hp : p ≠ [])
    (h : ¬ EndsInUnescapedPercent p) :
    tdengine_last_percent_sign_check p = .ok true := by
  unfold tdengine_last_percent_sign_check
  rcases List.eq_nil_or_concat p with h0 | ⟨q, c, h0⟩
  · exact absurd h0 hp
  · rw [List.concat_eq_append] at h0
    subst h0
    simp only [List.reverse_append, List.reverse_cons, List.reverse_nil, List.nil_append,
      List.singleton_append]
    by_cases hc : c = '%'
    · subst hc
      simp only [ne_eq, not_true_eq_false, if_false]
      by_cases hk : count_backslash q.reverse % 2 = 0
      · exfalso
        apply h
        obtain ⟨r2, h1, h2⟩ := count_backslash_split q.reverse
        refine ⟨r2.reverse, count_backslash q.reverse, ?_, hk, ?_⟩
        · have : q = (q.reverse).reverse := by simp
          rw [this, h1]
          simp [List.reverse_append]
          rw [← h1]
        · intro q2 hq2
          have : r2 = (q2 ++ ['\\']).reverse := by rw [← hq2]; simp
          simp at this
          exact h2 _ this
      · rw [if_neg hk]
    · simp [hc]

theorem like_pattern_loop_ends_star_aux (n : Nat) :
    ∀ (p : List Char), p.length ≤ n → ∀ (q : List Char) (k : Nat) (b out : StringInfo),
      p = q ++ List.replicate k '\\' ++ ['%'] → k % 2 = 0 → (∀ q2, q ≠ q2 ++ ['\\']) →
      like_pattern_loop p b = .ok out → ∃ pre, out = pre ++ "(.*)".toList := by
  induction n with
  | zero =>
    intro p hp q k b out hd _ _ _
    have : p = [] := List.length_eq_zero.mp (Nat.le_zero.mp hp)
    subst this
    simp at hd
  | succ n ih =>
    intro p hp q k b out hd hk hq h
    cases q with
    | nil =>
      cases k with
      | zero =>
        simp at hd
        subst hd
        rw [like_pattern_loop_cons, if_pos rfl] at h
        simp [like_pattern_loop] at h
        exact ⟨b, h.symm⟩
      | succ k1 =>
        cases k1 with
        | zero => simp at hk
        | succ k2 =>
          have hd2 : p = '\\' :: '\\' :: ([] ++ List.replicate k2 '\\' ++ ['%']) := by
            rw [hd]; simp [List.replicate_succ]
          subst hd2
          rw [like_pattern_loop_cons, if_neg (by decide), if_neg (by decide), if_pos rfl] at h
          simp only at h
          refine ih _ ?_ [] k2 _ out rfl (by omega) (by simp) h
          simp at hp ⊢
          omega
    | cons c q1 =>
      have hd2 : p = c :: (q1 ++ List.replicate k '\\' ++ ['%']) := by
        rw [hd]; simp
      subst hd2
      have hq1 : ∀ q2, q1 ≠ q2 ++ ['\\'] := by
        intro q2 hq2
        exact hq (c :: q2) (by rw [hq2]; simp)
      have hlen : (q1 ++ List.replicate k '\\' ++ ['%']).length ≤ n := by
        simp at hp ⊢; omega
      rw [like_pattern_loop_cons] at h
      by_cases h1 : c = '%'
      · rw [if_pos h1] at h
        exact ih _ hlen q1 k _ out rfl hk hq1 h
      · rw [if_neg h1] at h
        by_cases h2 : c = '_'
        · rw [if_pos h2] at h
          exact ih _ hlen q1 k _ out rfl hk hq1 h
        · rw [if_neg h2] at h
          by_cases h3 : c = '\\'
          · rw [if_pos h3] at h
            cases q1 with
            | nil => exact absurd (by rw [h3]; simp) (hq [])
            | cons d q2 =>
              simp only [List.cons_append] at h
              have hq2 : ∀ q3, q2 ≠ q3 ++ ['\\'] := by
                intro q3 hq3
                exact hq1 (d :: q3) (by rw [hq3]; simp)
              refine ih _ ?_ q2 k _ out rfl hk hq2 h
              simp at hlen ⊢; omega
          · rw [if_neg h3] at h
            exact ih _ hlen q1 k _ out rfl hk hq1 h

theorem like_pattern_loop_ends_star (p : List Char) (b out : StringInfo)
    (hp : EndsInUnescapedPercent p) (h : like_pattern_loop p b = .ok out) :
    ∃ pre, out = pre ++ "(.*)".toList := by
  obtain ⟨q, k, hd, hk, hq⟩ := hp
  exact like_pattern_loop_ends_star_aux p.length p (Nat.le_refl _) q k b out hd hk hq h

theorem like_pattern_head_eq (buf p : List Char) (op : PatternMatchingOperator) :
    like_pattern_head buf p op =
      buf ++ (['/'] ++ case_flag op ++ (if p.head? ≠ some '%' then ['^'] else [])) := by
  unfold like_pattern_head case_flag
  by_cases h1 : op = ILIKE_OPERATOR ∨ op = NOT_ILIKE_OPERATOR <;>
  by_cases h2 : p.head? = some '%' <;> simp [h1, h2]

/-- C5: for every non-empty LIKE pattern `p`, the translation is produced
unless a backslash is left without a character to escape, and the text it
appends has `^` right after the opening `/` and the optional `(?i)` if and only
if `p` does not start with `%`, and has `$` right before the closing `/` if and
only if `p` does not end in an unescaped `%` (a final `%` preceded by an even
number of consecutive backslashes). -/
theorem like_pattern_anchors (buf p : List Char) (op : PatternMatchingOperator) (hp : p ≠ []) :
    (dangling_escape p = false →
      ∃ out, tdengine_deparse_string_like_pattern buf p op = .ok out) ∧
    ∀ out, tdengine_deparse_string_like_pattern buf p op = .ok out →
      ∃ text, out = buf ++ text ∧
        ((∃ rest, text = ['/'] ++ case_flag op ++ ['^'] ++ rest) ↔ p.head? ≠ some '%') ∧
        ((∃ pre, text = pre ++ ['$', '/']) ↔ ¬ EndsInUnescapedPercent p) := by
  constructor
  · intro hd
    obtain ⟨o, ho⟩ := like_pattern_loop_total_aux p.length p (Nat.le_refl _) hd
      (like_pattern_head buf p op)
    unfold tdengine_deparse_string_like_pattern
    rw [ho]
    by_cases he : EndsInUnescapedPercent p
    · rw [last_percent_check_false p he]; exact ⟨_, rfl⟩
    · rw [last_percent_check_true p hp he]; exact ⟨_, rfl⟩
  · intro out h
    unfold tdengine_deparse_string_like_pattern at h
    cases hl : like_pattern_loop p (like_pattern_head buf p op) with
    | error e => rw [hl] at h; simp at h
    | ok buf3 =>
      rw [hl] at h
      simp only at h
      obtain ⟨body, hbody⟩ := like_pattern_loop_extends p _ _ hl
      rw [like_pattern_head_eq] at hbody
      by_cases he : EndsInUnescapedPercent p
      · rw [last_percent_check_false p he] at h
        simp only [Bool.false_eq_true, if_false, Except.ok.injEq] at h
        refine ⟨(['/'] ++ case_flag op ++ (if p.head? ≠ some '%' then ['^'] else [])) ++ body
          ++ ['/'], ?_, ?_, ?_⟩
        · rw [← h, hbody]; simp
        · constructor
          · rintro ⟨rest, hr⟩ hhead
            cases p with
            | nil => exact hp rfl
            | cons c p1 =>
              simp at hhead
              subst hhead
              rw [like_pattern_loop_cons, if_pos rfl] at hl
              obtain ⟨body1, hb1⟩ := like_pattern_loop_extends p1 _ _ hl
              rw [like_pattern_head_eq] at hb1
              rw [hb1] at hbody
              simp at hbody
              rw [← hbody] at hr
              simp at hr
          · intro hhead
            exact ⟨body ++ ['/'], by simp [hhead]⟩
        · constructor
          · rintro ⟨pre, hpre⟩
            exfalso
            obtain ⟨pre2, hpre2⟩ := like_pattern_loop_ends_star p _ _ he hl
            have h1 : buf3 ++ ['/'] = (buf ++ pre) ++ ['$', '/'] := by
              rw [hbody]
              rw [List.append_assoc buf pre, ← hpre]
              simp
            rw [hpre2] at h1
            have h2 : (pre2 ++ "(.*".toList) ++ [')', '/'] = (buf ++ pre) ++ ['$', '/'] := by
              rw [← h1]; simp
            have h3 := (List.append_inj' h2 rfl).2
            simp at h3
          · intro hn; exact absurd he hn
      · rw [last_percent_check_true p hp he] at h
        simp only [if_true, Except.ok.injEq] at h
        refine ⟨(['/'] ++ case_flag op ++ (if p.head? ≠ some '%' then ['^'] else [])) ++ body
          ++ ['$', '/'], ?_, ?_, ?_⟩
        · rw [← h, hbody]; simp
        · constructor
          · rintro ⟨rest, hr⟩ hhead
            cases p with
            | nil => exact hp rfl
            | cons c p1 =>
              simp at hhead
              subst hhead
              rw [like_pattern_loop_cons, if_pos rfl] at hl
              obtain ⟨body1, hb1⟩ := like_pattern_loop_extends p1 _ _ hl
              rw [like_pattern_head_eq] at hb1
              rw [hb1] at hbody
              simp at hbody
              rw [← hbody] at hr
              simp at hr
          · intro hhead
            exact ⟨body ++ ['$', '/'], by simp [hhead]⟩
        · constructor
          · intro _; exact he
          · intro _; exact ⟨_, rfl⟩

theorem add_backslash_translate (b : StringInfo) (c : Char) (h1 : c ≠ '%') (h2 : c ≠ '_') :
    add_backslash b c regex_special = b ++ translate_char escaped_metacharacters c := by
  unfold add_backslash translate_char strchr_found
  rw [if_neg h1, if_neg h2]
  have hmem : (regex_special.contains c = true) ↔ c ∈ escaped_metacharacters := by
    have hr : regex_special = escaped_metacharacters ++ ['%'] := by decide
    rw [hr]
    simp [h1]
  by_cases hc : c ∈ escaped_metacharacters
  · rw [if_pos (hmem.mpr hc), if_pos hc]
  · rw [if_neg (fun h => hc (hmem.mp h)), if_neg hc]

theorem like_pattern_loop_no_backslash (p : List Char) :
    ∀ (b : StringInfo), '\\' ∉ p →
      like_pattern_loop p b = .ok (b ++ like_body escaped_metacharacters p) := by
  induction p with
  | nil => intro b _; simp [like_pattern_loop, like_body]
  | cons c rest ih =>
    intro b hbs
    have hc : c ≠ '\\' := fun h => hbs (by rw [h]; simp)
    have hrest : '\\' ∉ rest := fun h => hbs (List.mem_cons_of_mem _ h)
    rw [like_pattern_loop_cons]
    have hbody : like_body escaped_metacharacters (c :: rest) =
        translate_char escaped_metacharacters c ++ like_body escaped_metacharacters rest := by
      simp [like_body]
    rw [hbody]
    by_cases h1 : c = '%'
    · rw [if_pos h1, ih _ hrest]
      simp [translate_char, h1]
    · rw [if_neg h1]
      by_cases h2 : c = '_'
      · rw [if_pos h2, ih _ hrest]
        simp [translate_char, h2]
      · rw [if_neg h2, if_neg hc, ih _ hrest, add_backslash_translate b c h1 h2]
        simp

theorem last_percent_check_no_backslash (p : List Char) (hp : p ≠ []) (hbs : '\\' ∉ p) :
    tdengine_last_percent_sign_check p = .ok (decide (p.getLast? ≠ some '%')) := by
  unfold tdengine_last_percent_sign_check
  rcases List.eq_nil_or_concat p with h0 | ⟨q, c, h0⟩
  · exact absurd h0 hp
  · rw [List.concat_eq_append] at h0
    subst h0
    have hq : count_backslash q.reverse = 0 := by
      apply count_backslash_reverse_zero
      intro q2 hq2
      apply hbs
      rw [hq2]; simp
    simp only [List.reverse_append, List.reverse_cons, List.reverse_nil, List.nil_append,
      List.singleton_append]
    by_cases hc : c = '%'
    · simp [hc, hq]
    · simp [hc]

/-- C6 (amended): for every non-empty LIKE pattern without a backslash the
translation is `/`, the optional `(?i)`, `^` unless the pattern starts with
`%`, then character by character `(.*)` for `%`, `(.{1})` for `_`, a backslash
and the character for each of `^ $ . | ? * + ( ) [ {`, the character itself
for every other character (`]` and `}` included), then `$` unless the pattern
ends with `%`, and `/`. -/
theorem like_pattern_body_no_backslash (buf p : List Char) (op : PatternMatchingOperator)
    (hp : p ≠ []) (hbs : '\\' ∉ p) :
    tdengine_deparse_string_like_pattern buf p op =
      .ok (buf ++ (['/'] ++ case_flag op ++ (if p.head? ≠ some '%' then ['^'] else []) ++
        like_body escaped_metacharacters p ++
        (if p.getLast? ≠ some '%' then ['$'] else []) ++ ['/'])) := by
  unfold tdengine_deparse_string_like_pattern
  rw [like_pattern_loop_no_backslash p _ hbs, last_percent_check_no_backslash p hp hbs,
    like_pattern_head_eq]
  by_cases h : p.getLast? = some '%' <;> simp [h]

/-- Witness for C6: the pattern `a.b_%` under ILIKE. -/
theorem like_pattern_body_no_backslash_witness :
    tdengine_deparse_string_like_pattern [] "a.b_%".toList ILIKE_OPERATOR =
      .ok ("/(?i)^a\\.b(.\x7b1\x7d)(.*)/".toList) ∧ "a.b_%".toList ≠ [] ∧
      '\\' ∉ "a.b_%".toList :=
  ⟨by
    have h := like_pattern_body_no_backslash [] "a.b_%".toList ILIKE_OPERATOR (by decide)
      (by decide)
    rw [h]; decide, by decide, by decide⟩

/-- C6 (counterexample): the pattern `a]b` is translated to `/^a]b$/`; the
closing bracket gets no backslash, while the claimed body is `a\]b`. -/
theorem like_pattern_closing_bracket_unescaped :
    tdengine_deparse_string_like_pattern [] "a]b".toList LIKE_OPERATOR
      = .ok "/^a]b$/".toList ∧
    like_body spec_metacharacters "a]b".toList = "a\\]b".toList ∧
    tdengine_deparse_string_like_pattern [] "a]b".toList LIKE_OPERATOR
      ≠ .ok ("/^".toList ++ like_body spec_metacharacters "a]b".toList ++ "$/".toList) := by
  decide

/-- Witness for C5: the pattern `ab%` under LIKE. -/
theorem like_pattern_anchors_witness :
    "ab%".toList ≠ [] ∧
    (∃ out, tdengine_deparse_string_like_pattern [] "ab%".toList LIKE_OPERATOR = .ok out) ∧
    ∃ text, "/^ab(.*)/".toList = [] ++ text ∧
      ((∃ rest, text = ['/'] ++ case_flag LIKE_OPERATOR ++ ['^'] ++ rest) ↔
        "ab%".toList.head? ≠ some '%') ∧
      ((∃ pre, text = pre ++ ['$', '/']) ↔ ¬ EndsInUnescapedPercent "ab%".toList) :=
  ⟨by decide,
   (like_pattern_anchors [] "ab%".toList LIKE_OPERATOR (by decide)).1 (by decide),
   (like_pattern_anchors [] "ab%".toList LIKE_OPERATOR (by decide)).2 "/^ab(.*)/".toList
     (by decide)⟩

/-! ## Theorems: the collation merge -/

/-- C9: merging a node result `Safe(c1)` into a parent context `Safe(c2)` sets
the parent state to `Unsafe` when `c1 ≠ c2` and neither is the default
collation; when exactly one of the two is the default collation the parent
stays `Safe` and carries the non-default collation. -/
theorem collation_merge_safe_safe (c1 c2 : Oid) (outer_cxt : foreign_loc_cxt)
    (hs : outer_cxt.state = FDW_COLLATE_SAFE) (hc : outer_cxt.collation = c2) :
    (c1 ≠ c2 → c1 ≠ DEFAULT_COLLATION_OID → c2 ≠ DEFAULT_COLLATION_OID →
      (collation_merge c1 FDW_COLLATE_SAFE outer_cxt).state = FDW_COLLATE_UNSAFE) ∧
    (c1 ≠ DEFAULT_COLLATION_OID → c2 = DEFAULT_COLLATION_OID →
      (collation_merge c1 FDW_COLLATE_SAFE outer_cxt).state = FDW_COLLATE_SAFE ∧
      (collation_merge c1 FDW_COLLATE_SAFE outer_cxt).collation = c1) ∧
    (c1 = DEFAULT_COLLATION_OID → c2 ≠ DEFAULT_COLLATION_OID →
      (collation_merge c1 FDW_COLLATE_SAFE outer_cxt).state = FDW_COLLATE_SAFE ∧
      (collation_merge c1 FDW_COLLATE_SAFE outer_cxt).collation = c2) := by
  subst hc
  refine ⟨?_, ?_, ?_⟩
  · intro h1 h2 h3
    simp [collation_merge, hs, FDWCollateState.toNat, h1, h2, h3]
  · intro h1 h2
    have h3 : c1 ≠ outer_cxt.collation := by rw [h2]; exact h1
    simp [collation_merge, hs, FDWCollateState.toNat, h2, h1]
  · intro h1 h2
    have h3 : c1 ≠ outer_cxt.collation := by rw [h1]; exact fun h => h2 h.symm
    simp [collation_merge, hs, FDWCollateState.toNat, h1, h3, h2]

/-- Witness for C9: collations 950 and 951 clash, and 950 merged into the
default collation 100 is kept. -/
theorem collation_merge_safe_safe_witness :
    (collation_merge 950 FDW_COLLATE_SAFE
        { inner_cxt_init with state := FDW_COLLATE_SAFE, collation := 951 }).state
      = FDW_COLLATE_UNSAFE ∧
    (collation_merge 950 FDW_COLLATE_SAFE
        { inner_cxt_init with state := FDW_COLLATE_SAFE, collation := 100 }).collation
      = 950 :=
  ⟨(collation_merge_safe_safe 950 951
      { inner_cxt_init with state := FDW_COLLATE_SAFE, collation := 951 } rfl rfl).1
      (by decide) (by decide) (by decide),
   ((collation_merge_safe_safe 950 100
      { inner_cxt_init with state := FDW_COLLATE_SAFE, collation := 100 } rfl rfl).2.1
      (by decide) (by decide)).2⟩

theorem collation_merge_ge (collation : Oid) (state : FDWCollateState)
    (outer_cxt : foreign_loc_cxt) :
    outer_cxt.state.le (collation_merge collation state outer_cxt).state ∧
    state.le (collation_merge collation state outer_cxt).state := by
  cases hst : state <;> cases hou : outer_cxt.state <;>
    simp [collation_merge, hou, FDWCollateState.toNat, FDWCollateState.le]
  split_ifs <;> simp [hou, FDWCollateState.toNat]

theorem merge_all_ge (results : List (Oid × FDWCollateState)) :
    ∀ (outer_cxt : foreign_loc_cxt), outer_cxt.state.le (merge_all results outer_cxt).state := by
  induction results with
  | nil => intro outer_cxt; simp [merge_all, FDWCollateState.le]
  | cons r rest ih =>
    intro outer_cxt
    have h1 := (collation_merge_ge r.1 r.2 outer_cxt).1
    have h2 := ih (collation_merge r.1 r.2 outer_cxt)
    unfold FDWCollateState.le at *
    simp only [merge_all, List.foldl_cons] at h2 ⊢
    omega

/-- C10: the collation merge never lowers the parent's state: under the order
`None < Safe < Unsafe` the state after a merge is at least the parent's state
before it and at least the merged node's state, and a parent context that is
`Unsafe` is `Unsafe` after any sequence of later merges. -/
theorem collation_merge_never_lowers :
    (∀ (collation : Oid) (state : FDWCollateState) (outer_cxt : foreign_loc_cxt),
      outer_cxt.state.le (collation_merge collation state outer_cxt).state ∧
      state.le (collation_merge collation state outer_cxt).state) ∧
    (∀ (results : List (Oid × FDWCollateState)) (outer_cxt : foreign_loc_cxt),
      (merge_all results { outer_cxt with state := FDW_COLLATE_UNSAFE }).state
        = FDW_COLLATE_UNSAFE) := by
  refine ⟨collation_merge_ge, ?_⟩
  intro results outer_cxt
  have h := merge_all_ge results { outer_cxt with state := FDW_COLLATE_UNSAFE }
  unfold FDWCollateState.le at h
  cases hm : (merge_all results { outer_cxt with state := FDW_COLLATE_UNSAFE }).state <;>
    simp [hm, FDWCollateState.toNat] at h ⊢

/-! ## Theorems: the eligibility walker on sample expressions -/

/-- C2 (the code at the failing input): the walker accepts
`time > $1 OR (col = $2 AND col = $3)`, whose first argument holds the time
column of the scanned relation, although it rejects `time > $1 OR col = $2`:
entering the nested AND clears the static `is_time_column` flag that the time
column had set. -/
theorem or_with_time_column_accepted :
    tdengine_is_foreign_expr demo_catalog .RELOPT_BASEREL demo_slinfo [1] 5000 false
      demo_or_nested false = .ok true ∧
    tdengine_is_foreign_expr demo_catalog .RELOPT_BASEREL demo_slinfo [1] 5000 false
      demo_or_flat false = .ok false := by
  decide

/-- C3 (the code at the failing input): on a base relation
`tdengine_is_foreign_expr` accepts the field selection
`(record_of(NOT flag)).f1`, and `tdengine_deparse_expr` then raises
`unsupported expression type for deparse` on it. -/
theorem accepted_expression_fails_to_deparse :
    tdengine_is_foreign_expr demo_catalog .RELOPT_BASEREL demo_slinfo [1] 5000 false
      demo_fieldselect false = .ok true ∧
    (tdengine_deparse_expr demo_catalog demo_fieldselect demo_context).map (fun c => c.buf)
      = .error (.elog "unsupported expression type for deparse") := by
  decide

/-- C1 (counterexample): `(record_of(NOT flag)).f1` holds a NOT below its root,
and on a base relation the walker, hence `tdengine_is_foreign_expr`, returns
true on it: the argument of a `FieldSelect` is not visited. And on
`tdengine_fill_numeric(NOT flag)` the walker raises the error of the function
node before it reaches the NOT, so it does not return false there either. -/
theorem not_without_false_result :
    has_not true demo_fieldselect = true ∧
    (tdengine_foreign_expr_walker demo_catalog demo_fieldselect
        { reloptkind := .RELOPT_BASEREL, slinfo := demo_slinfo, relids := [1], relid := 5000,
          mixing_aggref_status := TDENGINE_TARGETS_MIXING_AGGREF_SAFE, for_tlist := false,
          is_inner_func := false } false inner_cxt_init).map (fun r => r.result) = .ok true ∧
    tdengine_is_foreign_expr demo_catalog .RELOPT_BASEREL demo_slinfo [1] 5000 false
      demo_fieldselect false = .ok true ∧
    has_not false demo_fill_not = true ∧
    tdengine_is_foreign_expr demo_catalog .RELOPT_BASEREL demo_slinfo [1] 5000 false
      demo_fill_not false =
      .error (.elog ("tdengine_fdw: syntax error tdengine_fill_numeric() or " ++
        "tdengine_fill_option() must be embedded inside tdengine_time() function\n")) := by
  decide

/-- C7 (counterexample): for `col = ANY ('{1,2,3}')` with `useOr` set the code
emits `"col" = 1 OR "col" = 2 OR "col" = 3`, which neither starts with `(` nor
ends with `)`. -/
theorem in_list_has_no_parentheses :
    (tdengine_deparse_expr demo_catalog demo_in_list demo_context).map (fun c => c.buf)
      = .ok "\"col\" = 1 OR \"col\" = 2 OR \"col\" = 3".toList ∧
    (tdengine_deparse_expr demo_catalog demo_in_list demo_context).map (fun c => c.buf)
      ≠ .ok "(\"col\" = 1 OR \"col\" = 2 OR \"col\" = 3)".toList := by
  decide

/-- C8 (counterexample): for the single GROUP BY key
`tdengine_time(time, interval '5 minutes', tdengine_fill_numeric(0))` the code
appends ` GROUP BY (time(0d0h5m0s0u)) fill(0)`, not ` GROUP BY time(5m) fill(0)`. -/
theorem group_by_time_bucket_text :
    (tdengine_append_group_by_clause demo_catalog [1]
        [T_TargetEntry demo_time_bucket 1 1 false] demo_context).map (fun c => c.buf)
      = .ok " GROUP BY (time(0d0h5m0s0u)) fill(0)".toList ∧
    (tdengine_append_group_by_clause demo_catalog [1]
        [T_TargetEntry demo_time_bucket 1 1 false] demo_context).map (fun c => c.buf)
      ≠ .ok " GROUP BY time(5m) fill(0)".toList := by
  decide

theorem deparse_interval_five_minutes :
    deparse_interval ⟨300000000, 0, 0⟩ = "0d0h5m0s0u".toList := by decide

/-- C8 (amended): for a grouped query whose only GROUP BY key is the call
`tdengine_time(time, interval '5 minutes', tdengine_fill_numeric(0))`,
`tdengine_append_group_by_clause` appends exactly
` GROUP BY (time(0d0h5m0s0u)) fill(0)`: the key, being neither a column nor a
constant, is put in parentheses, the bucket is rendered as `time(<interval>)`
without its first argument, the interval in the form days, hours, minutes,
seconds and microseconds, and the fill call is taken out of the argument list
and emitted once as a trailing ` fill(<args>)`. -/
theorem group_by_time_bucket (cat : Catalog) (time_fn fill_fn : Oid)
    (h_time : cat.proname time_fn = some "tdengine_time")
    (h_fill : cat.proname fill_fn = some "tdengine_fill_numeric")
    (time_arg : Node) (ref : Nat) (resno : Int) (resjunk : Bool)
    (t1 c1 i1 cc1 t2 c2 i2 cc2 : Oid)
    (context : deparse_expr_cxt) (h_tlist : context.is_tlist = false) :
    (tdengine_append_group_by_clause cat [ref]
        [T_TargetEntry
          (T_FuncExpr time_fn t1 c1 i1
            [time_arg, T_Const INTERVALOID cc1 (.interval ⟨300000000, 0, 0⟩) false,
             T_FuncExpr fill_fn t2 c2 i2 [T_Const INT4OID cc2 (.text "0".toList) false]])
          resno ref resjunk] context).map (fun c => c.buf)
      = .ok (context.buf ++ " GROUP BY (time(0d0h5m0s0u)) fill(0)".toList) := by
  simp [tdengine_append_group_by_clause, group_by_items, tdengine_deparse_sort_group_clause,
    get_sortgroupref_tle, tdengine_deparse_expr, tdengine_deparse_func_expr,
    deparse_time_args, h_time, h_fill, enter,
    deparse_expr_cxt.append, h_tlist, fill_args, tdengine_deparse_const,
    deparse_interval_five_minutes, INTERVALOID, INT4OID, INT2OID, INT8OID, OIDOID, FLOAT4OID,
    FLOAT8OID, NUMERICOID, BITOID, VARBITOID, BOOLOID, BYTEAOID, TIMESTAMPTZOID,
    OidOutputFunctionCall, all_numeric_chars, DatumGetIntervalP, Except.map]
  rw [List.take_append]
  simp

/-- Witness for C8: the sample catalog, with functions 20001 and 20002. -/
theorem group_by_time_bucket_witness :
    demo_catalog.proname 20001 = some "tdengine_time" ∧
    demo_catalog.proname 20002 = some "tdengine_fill_numeric" ∧
    demo_context.is_tlist = false ∧
    (tdengine_append_group_by_clause demo_catalog [1]
        [T_TargetEntry demo_time_bucket 1 1 false] demo_context).map (fun c => c.buf)
      = .ok (demo_context.buf ++ " GROUP BY (time(0d0h5m0s0u)) fill(0)".toList) :=
  ⟨rfl, rfl, rfl,
   group_by_time_bucket demo_catalog 20001 20002 rfl rfl demo_time 1 1 false
     TIMESTAMPOID InvalidOid InvalidOid InvalidOid INT4OID InvalidOid InvalidOid InvalidOid
     demo_context rfl⟩

/-! ## Theorems: the constant-array expansion -/

theorem scalar_array_loop_nil (left : Deparse) (opname : List Char) (isstr isbool useOr : Bool)
    (len i : Nat) (st : ArrayScan) (c : deparse_expr_cxt) :
    scalar_array_const_loop left opname isstr isbool useOr len [] i st c = .ok (st, c) := by
  rw [scalar_array_const_loop]

/-- One step of the loop on a plain character with the left operand already
emitted. -/
theorem scalar_array_loop_plain_step (left : Deparse) (opname : List Char) (useOr : Bool)
    (len i : Nat) (ch : Char) (rest : List Char) (c : deparse_expr_cxt) (hch : plain_char ch) :
    scalar_array_const_loop left opname false false useOr len (ch :: rest) i
        ⟨false, false, false⟩ c
      = scalar_array_const_loop left opname false false useOr len rest (i + 1)
          ⟨false, false, false⟩ (c.append [ch]) := by
  obtain ⟨h1, h2, h3, h4, h5, h6⟩ := hch
  rw [scalar_array_const_loop]
  simp [h1, h2, h3, h4, h5, h6]

theorem cxt_append_append (c : deparse_expr_cxt) (s t : List Char) :
    (c.append s).append t = c.append (s ++ t) := by
  simp [deparse_expr_cxt.append]

theorem cxt_append_nil (c : deparse_expr_cxt) : c.append [] = c := by
  simp [deparse_expr_cxt.append]

/-- A run of plain characters is copied to the buffer. -/
theorem scalar_array_loop_plain_run (left : Deparse) (opname : List Char) (useOr : Bool)
    (len : Nat) (e : List Char) :
    ∀ (tail : List Char) (i : Nat) (c : deparse_expr_cxt), (∀ ch ∈ e, plain_char ch) →
      scalar_array_const_loop left opname false false useOr len (e ++ tail) i
          ⟨false, false, false⟩ c
        = scalar_array_const_loop left opname false false useOr len tail (i + e.length)
            ⟨false, false, false⟩ (c.append e) := by
  induction e with
  | nil => intro tail i c _; simp [cxt_append_nil]
  | cons ch rest ih =>
    intro tail i c hp
    rw [List.cons_append, scalar_array_loop_plain_step left opname useOr len i ch _ c
      (hp ch (by simp))]
    rw [ih tail (i + 1) _ (fun x hx => hp x (List.mem_cons_of_mem _ hx)), cxt_append_append]
    simp only [List.singleton_append, List.length_cons]
    congr 1
    omega

/-- With the left operand pending, the next character first emits it and the
operator. -/
theorem scalar_array_loop_pending (left : Deparse) (opname : List Char) (useOr : Bool)
    (len i : Nat) (ch : Char) (rest : List Char) (c : deparse_expr_cxt) :
    scalar_array_const_loop left opname false false useOr len (ch :: rest) i
        ⟨true, false, false⟩ c
      = match left c with
        | .error e => .error e
        | .ok c1 =>
          scalar_array_const_loop left opname false false useOr len (ch :: rest) i
            ⟨false, false, false⟩ (c1.append ([' '] ++ opname ++ [' '])) := by
  rw [scalar_array_const_loop]
  cases left c with
  | error e => simp
  | ok c1 =>
    simp only [if_true, Bool.false_eq_true, if_false]
    conv_rhs => rw [scalar_array_const_loop]
    simp

theorem scalar_array_loop_open (left : Deparse) (opname : List Char) (useOr : Bool)
    (len : Nat) (rest : List Char) (c : deparse_expr_cxt) :
    scalar_array_const_loop left opname false false useOr len ('\x7b' :: rest) 0
        ⟨false, false, false⟩ c
      = scalar_array_const_loop left opname false false useOr len rest 1
          ⟨false, false, false⟩ c := by
  rw [scalar_array_const_loop]
  simp

theorem scalar_array_loop_close (left : Deparse) (opname : List Char) (useOr : Bool)
    (len i : Nat) (c : deparse_expr_cxt) (hi : i + 1 = len) :
    scalar_array_const_loop left opname false false useOr len ['\x7d'] i
        ⟨false, false, false⟩ c
      = .ok (⟨false, false, false⟩, c) := by
  rw [scalar_array_const_loop]
  have h : i = len - 1 := by omega
  simp [h, scalar_array_loop_nil]

theorem scalar_array_loop_comma (left : Deparse) (opname : List Char) (useOr : Bool)
    (len i : Nat) (rest : List Char) (c : deparse_expr_cxt) :
    scalar_array_const_loop left opname false false useOr len (',' :: rest) i
        ⟨false, false, false⟩ c
      = scalar_array_const_loop left opname false false useOr len rest (i + 1)
          ⟨true, false, false⟩
          (c.append (if useOr then " OR ".toList else " AND ".toList)) := by
  rw [scalar_array_const_loop]
  simp

theorem intercalate_cons_cons {α : Type} (sep a b : List α) (rest : List (List α)) :
    List.intercalate sep (a :: b :: rest) = a ++ sep ++ List.intercalate sep (b :: rest) := by
  simp [List.intercalate, List.intersperse]

theorem intercalate_singleton {α : Type} (sep a : List α) :
    List.intercalate sep [a] = a := by
  simp [List.intercalate, List.intersperse]

theorem comparison_chain_eq (left opname : List Char) (useOr : Bool) (elems : List (List Char))
    (hne : elems ≠ []) :
    comparison_chain left opname useOr elems
      = left ++ [' '] ++ opname ++ [' '] ++ comparison_chain_rest left opname useOr elems := by
  induction elems with
  | nil => exact absurd rfl hne
  | cons e rest ih =>
    cases rest with
    | nil => simp [comparison_chain, comparison_chain_rest, intercalate_singleton]
    | cons e2 r =>
      have ih2 := ih (by simp)
      unfold comparison_chain at ih2 ⊢
      rw [List.map_cons, List.map_cons, intercalate_cons_cons, ← List.map_cons, ih2]
      simp [comparison_chain_rest]

/-- The loop over the elements of a printed array of plain elements, from just
behind a `left op `: it appends the rest of the comparison chain. -/
theorem scalar_array_loop_elems (left : Deparse) (col opname : List Char) (useOr : Bool)
    (len : Nat) (inv : deparse_expr_cxt → Prop)
    (h_inv : ∀ c s, inv c → inv (c.append s))
    (h_left : ∀ c, inv c → ∃ c1, left c = .ok c1 ∧ c1.buf = c.buf ++ col ∧ inv c1)
    (elems : List (List Char)) :
    elems ≠ [] → (∀ e ∈ elems, ∀ ch ∈ e, plain_char ch) →
    ∀ (i : Nat) (c : deparse_expr_cxt), inv c →
      i + (List.intercalate [','] elems ++ ['\x7d']).length = len →
      ∃ st c2,
        scalar_array_const_loop left opname false false useOr len
            (List.intercalate [','] elems ++ ['\x7d']) i ⟨false, false, false⟩ c
          = .ok (st, c2) ∧
        c2.buf = c.buf ++ comparison_chain_rest col opname useOr elems ∧ inv c2 := by
  induction elems with
  | nil => intro h; exact absurd rfl h
  | cons e rest ih =>
    intro _ hp i c hc hlen
    have hpe : ∀ ch ∈ e, plain_char ch := hp e (by simp)
    cases rest with
    | nil =>
      rw [intercalate_singleton] at hlen ⊢
      rw [scalar_array_loop_plain_run left opname useOr len e _ i c hpe,
        scalar_array_loop_close left opname useOr len _ _ (by simp at hlen; omega)]
      refine ⟨_, _, rfl, ?_, h_inv _ _ hc⟩
      simp [deparse_expr_cxt.append, comparison_chain_rest]
    | cons e2 r =>
      rw [intercalate_cons_cons] at hlen ⊢
      rw [List.append_assoc, List.append_assoc,
        scalar_array_loop_plain_run left opname useOr len e _ i c hpe]
      rw [List.singleton_append, scalar_array_loop_comma]
      have hc2 : inv ((c.append e).append (if useOr then " OR ".toList else " AND ".toList)) :=
        h_inv _ _ (h_inv _ _ hc)
      obtain ⟨c3, hl3, hb3, hi3⟩ := h_left _ hc2
      have hne : List.intercalate [','] (e2 :: r) ++ ['\x7d'] ≠ [] := by simp
      obtain ⟨ch, tl, htl⟩ := List.exists_cons_of_ne_nil hne
      rw [htl, scalar_array_loop_pending, hl3]
      simp only
      rw [← htl]
      have hp2 : ∀ e ∈ e2 :: r, ∀ ch ∈ e, plain_char ch :=
        fun x hx => hp x (List.mem_cons_of_mem _ hx)
      obtain ⟨st, c4, h4, hb4, hi4⟩ := ih (by simp) hp2 (i + e.length + 1)
        (c3.append ([' '] ++ opname ++ [' '])) (h_inv _ _ hi3)
        (by simp at hlen ⊢; omega)
      refine ⟨st, c4, h4, ?_, hi4⟩
      rw [hb4]
      simp [deparse_expr_cxt.append, hb3, comparison_chain_rest]

/-- The left operand of the chain, a column of the scanned relation, deparsed
by `tdengine_deparse_expr`: it appends the column reference and leaves the
relid set and `has_bool_cmp` as they were. -/
theorem deparse_scanned_var (cat : Catalog) (varno : Nat) (varattno : Int) (vartype : Oid)
    (vartypmod : Int) (varcollid : Oid) (colname : String)
    (h_col : tdengine_get_column_name cat (cat.rte_relid varno) varattno = .ok colname)
    (c : deparse_expr_cxt) (h_rel : c.scanrel_relids.contains varno = true) :
    ∃ c1, tdengine_deparse_expr cat (T_Var varno varattno vartype vartypmod varcollid 0) c
        = .ok c1 ∧
      c1.buf = c.buf ++ column_ref_text colname vartype c.has_bool_cmp ∧
      c1.scanrel_relids = c.scanrel_relids ∧ c1.has_bool_cmp = c.has_bool_cmp := by
  have h_mem : varno ∈ c.scanrel_relids := by simpa using h_rel
  rw [tdengine_deparse_expr]
  simp [tdengine_deparse_var, enter, h_mem, tdengine_deparse_column_ref, h_col]

/-- C7 (amended): for a `ScalarArrayOpExpr` whose left operand is a column of
the scanned relation and whose right operand is a constant integer array
printed as `{e1,...,en}` with `n ≥ 1` (the elements holding none of
`{ } " ' \ ,`), `tdengine_deparse_scalar_array_op_expr` emits the `n`
comparisons `<column> <op> ei` in array order, joined by ` OR ` when `useOr`
is set and by ` AND ` otherwise, and nothing else: no parentheses of its own.
`<column>` is the column reference as `tdengine_deparse_column_ref` prints it. -/
theorem in_list_comparisons (cat : Catalog) (opno : Oid) (form : Form_pg_operator)
    (h_op : cat.operator opno = some form) (useOr : Bool) (inputcollid : Oid)
    (varno : Nat) (varattno : Int) (vartype : Oid) (vartypmod : Int) (varcollid : Oid)
    (colname : String)
    (h_col : tdengine_get_column_name cat (cat.rte_relid varno) varattno = .ok colname)
    (consttype constcollid : Oid)
    (h_int : consttype = INT2ARRAYOID ∨ consttype = INT4ARRAYOID ∨ consttype = INT8ARRAYOID)
    (elems : List (List Char)) (h_ne : elems ≠ [])
    (h_plain : ∀ e ∈ elems, ∀ ch ∈ e, plain_char ch)
    (context : deparse_expr_cxt) (h_rel : context.scanrel_relids.contains varno = true) :
    (tdengine_deparse_expr cat
        (T_ScalarArrayOpExpr opno useOr inputcollid
          [T_Var varno varattno vartype vartypmod varcollid 0,
           T_Const consttype constcollid (.text (array_text elems)) false])
        context).map (fun c => c.buf)
      = .ok (context.buf ++
          comparison_chain (column_ref_text colname vartype context.has_bool_cmp)
            form.oprname.toList useOr elems) := by
  have h_unq : array_is_unquoted consttype = true := by
    rcases h_int with h | h | h <;> rw [h] <;> decide
  have h_nb : (consttype == BOOLARRAYOID) = false := by
    rcases h_int with h | h | h <;> rw [h] <;> decide
  rw [tdengine_deparse_expr]
  simp only [tdengine_deparse_scalar_array_op_expr, h_op, scalar_array_const,
    scalar_array_left, h_nb, h_unq, Bool.false_eq_true, if_false, Bool.not_true,
    OidOutputFunctionCall, array_text]
  let inv : deparse_expr_cxt → Prop := fun c =>
    c.scanrel_relids = context.scanrel_relids ∧ c.has_bool_cmp = context.has_bool_cmp
  let col := column_ref_text colname vartype context.has_bool_cmp
  have h_inv : ∀ c s, inv c → inv (c.append s) := by
    intro c s hc; exact hc
  generalize hL : (fun c => deparse_linitial cat
      [T_Var varno varattno vartype vartypmod varcollid 0,
       T_Const consttype constcollid
         (.text (['\x7b'] ++ List.intercalate [','] elems ++ ['\x7d'])) false] c) = left
  have h_left : ∀ c, inv c → ∃ c1, left c = .ok c1 ∧ c1.buf = c.buf ++ col ∧ inv c1 := by
    intro c hc
    obtain ⟨c1, h1, h2, h3, h4⟩ := deparse_scanned_var cat varno varattno vartype vartypmod
      varcollid colname h_col c (by rw [hc.1]; exact h_rel)
    refine ⟨c1, ?_, ?_, ?_, ?_⟩
    · rw [← hL]; simp only [deparse_linitial]; exact h1
    · rw [h2, hc.2]
    · rw [h3]; exact hc.1
    · rw [h4]; exact hc.2
  have h0 : inv (enter context false false) := ⟨rfl, rfl⟩
  obtain ⟨c1, hl1, hb1, hi1⟩ := h_left _ h0
  rw [List.append_assoc, List.singleton_append, scalar_array_loop_pending, hl1]
  simp only
  rw [scalar_array_loop_open]
  obtain ⟨st, c2, h2, hb2, _⟩ := scalar_array_loop_elems left col form.oprname.toList useOr
    (['\x7b'] ++ List.intercalate [','] elems ++ ['\x7d']).length inv h_inv h_left elems h_ne
    h_plain 1 (c1.append ([' '] ++ form.oprname.toList ++ [' '])) (h_inv _ _ hi1)
    (by simp; omega)
  simp only [List.append_assoc, List.singleton_append, List.cons_append,
    List.nil_append] at h2 ⊢
  rw [h2]
  simp only [Except.map, hb2]
  rw [comparison_chain_eq _ _ _ _ h_ne]
  simp [deparse_expr_cxt.append, hb1, enter, col]

/-- Witness for C7: `col = ANY ('{1,2,3}')` on the sample table. -/
theorem in_list_comparisons_witness :
    demo_catalog.operator 96 = some ⟨"=", 'b', PG_CATALOG_NAMESPACE⟩ ∧
    tdengine_get_column_name demo_catalog (demo_catalog.rte_relid 1) 2 = .ok "col" ∧
    (tdengine_deparse_expr demo_catalog demo_in_list demo_context).map (fun c => c.buf)
      = .ok (demo_context.buf ++
          comparison_chain (column_ref_text "col" INT4OID demo_context.has_bool_cmp)
            "=".toList true ["1".toList, "2".toList, "3".toList]) :=
  ⟨rfl, by decide,
   in_list_comparisons demo_catalog 96 ⟨"=", 'b', PG_CATALOG_NAMESPACE⟩ rfl true InvalidOid
     1 2 INT4OID (-1) InvalidOid "col" (by decide) INT4ARRAYOID InvalidOid
     (Or.inr (Or.inl rfl)) ["1".toList, "2".toList, "3".toList] (by decide)
     (by simp [plain_char]) demo_context (by decide)⟩

/-! ## Theorems: NOT is rejected wherever the walker looks -/

theorem is_slvar_fetch_op_no_not (cat : Catalog) (node : Node) (sl : schemaless_info)
    (b : Bool) (h : is_slvar_fetch_op cat node sl = true) : has_not b node = false := by
  unfold is_slvar_fetch_op at h
  split at h
  · split at h
    · simp at h
    · split at h
      · simp [has_not, has_not_list]
      · simp at h
  · simp at h

theorem is_slvar_fetch_no_not (cat : Catalog) (node : Node) (sl : schemaless_info)
    (b : Bool) (h : tdengine_is_slvar_fetch cat node sl = true) : has_not b node = false := by
  unfold tdengine_is_slvar_fetch at h
  split at h
  · simp at h
  · split at h
    · rw [has_not]
      exact is_slvar_fetch_op_no_not cat _ sl b h
    · exact is_slvar_fetch_op_no_not cat _ sl b h

theorem is_param_fetch_no_not (node : Node) (sl : schemaless_info)
    (b : Bool) (h : tdengine_is_param_fetch node sl = true) : has_not b node = false := by
  unfold tdengine_is_param_fetch at h
  split at h
  · simp at h
  · split at h
    · split at h
      · simp at h
      · split at h
        · simp [has_not, has_not_list]
        · simp at h
    · simp at h

theorem get_slvar_no_not (cat : Catalog) (node : Node) (sl : schemaless_info) (b : Bool)
    (name : String) (h : tdengine_get_slvar cat node sl = some name) :
    has_not b node = false := by
  unfold tdengine_get_slvar at h
  split at h
  · simp at h
  · split at h
    · rename_i hf
      exact is_slvar_fetch_no_not cat node sl b hf
    · simp at h

theorem walker_FuncExpr_pre_inl (cat : Catalog) (funcid t : Oid) (g : foreign_glob_cxt)
    (itc : Bool) (o : foreign_loc_cxt) (r : WalkOut)
    (h : walker_FuncExpr_pre cat funcid t g itc o = .ok (.inl r)) : r.result = false := by
  unfold walker_FuncExpr_pre at h
  split at h
  · simp at h
  · split at h
    · simp at h; rw [← h]
    · simp only at h
      split at h
      · simp at h; rw [← h]
      · split at h
        · simp at h
        · split at h
          · simp at h; rw [← h]
          · split at h
            · simp at h; rw [← h]
            · simp at h

theorem walker_List_node_false
    (loop : foreign_glob_cxt → Bool → foreign_loc_cxt → Except Err WalkOut)
    (hloop : ∀ g i c r, loop g i c = .ok r → r.result = false)
    (g : foreign_glob_cxt) (itc : Bool) (o : foreign_loc_cxt) (r : WalkOut)
    (h : walker_List_node loop g itc o = .ok r) : r.result = false := by
  unfold walker_List_node at h
  simp only at h
  split at h
  · simp at h
  · rename_i r1 h1
    rw [hloop _ _ _ _ h1] at h
    simp at h
    rw [← h]

theorem has_not_Aggref (b : Bool) (a1 a2 a3 a4 : Oid) (args : List Node) (a5 a6 : List Nat)
    (af : Option Node) (a7 a8 : Bool) (a9 : AggSplit) :
    has_not b (T_Aggref a1 a2 a3 a4 args a5 a6 af a7 a8 a9) =
      (has_not_list b args ||
        (match af with
         | some f => has_not b f
         | none => false)) := by
  conv_lhs => rw [has_not.eq_def]

mutual
/-- Where the walker looks, a NOT makes it return false (or raise): the walker
never returns true on a tree that holds a NOT outside the argument of a
`FieldSelect`. -/
theorem walker_not_true (cat : Catalog) :
    ∀ (e : Node), has_not false e = true →
      ∀ (g : foreign_glob_cxt) (itc : Bool) (o : foreign_loc_cxt) (r : WalkOut),
        tdengine_foreign_expr_walker cat e g itc o = .ok r → r.result = false
  | T_Var .., h, _, _, _, _, _ => by simp [has_not] at h
  | T_Const .., h, _, _, _, _, _ => by simp [has_not] at h
  | T_Param .., h, _, _, _, _, _ => by simp [has_not] at h
  | T_FieldSelect .., h, _, _, _, _, _ => by simp [has_not] at h
  | T_FuncExpr funcid t fc ic args, h, g, itc, o, r, hw => by
    rw [has_not] at h
    rw [tdengine_foreign_expr_walker] at hw
    split at hw
    · simp at hw
    · rename_i r1 h1
      simp at hw
      rw [← hw]
      exact walker_FuncExpr_pre_inl cat funcid t g itc o r1 h1
    · rename_i pre h1
      split at hw
      · simp at hw
      · rename_i r2 h2
        have hr2 : r2.result = false :=
          walker_List_node_false _ (fun g2 i2 c2 r3 h3 =>
            walker_foreach_not_true cat args h g2 i2 c2 r3 h3) _ _ _ _ h2
        rw [hr2] at hw
        simp at hw
        rw [← hw]
  | T_DistinctExpr .., _, _, _, _, _, hw => by
    rw [tdengine_foreign_expr_walker] at hw
    simp at hw
    rw [← hw]
  | T_TargetEntry .., _, _, _, _, _, hw => by
    rw [tdengine_foreign_expr_walker] at hw
    simp at hw
    rw [← hw]
  | T_Other .., _, _, _, _, _, hw => by
    rw [tdengine_foreign_expr_walker] at hw
    simp at hw
    rw [← hw]
  | T_BoolExpr boolop args, h, g, itc, o, r, hw => by
    rw [has_not] at h
    rw [tdengine_foreign_expr_walker] at hw
    split at hw
    · simp at hw
      rw [← hw]
    · rename_i hb
      have hl : has_not_list false args = true := by
        simpa [hb] using h
      split at hw
      · simp at hw
      · rename_i r2 h2
        have hr2 : r2.result = false :=
          walker_List_node_false _ (fun g2 i2 c2 r3 h3 =>
            walker_foreach_not_true cat args hl g2 i2 c2 r3 h3) _ _ _ _ h2
        rw [hr2] at hw
        simp at hw
        rw [← hw]
  | T_List elems, h, g, itc, o, r, hw => by
    rw [has_not] at h
    rw [tdengine_foreign_expr_walker] at hw
    exact walker_List_node_false _ (fun g2 i2 c2 r3 h3 =>
      walker_foreach_not_true cat elems h g2 i2 c2 r3 h3) _ _ _ _ hw
  | T_RelabelType arg _ _, h, g, itc, o, r, hw => by
    rw [has_not] at h
    rw [tdengine_foreign_expr_walker] at hw
    split at hw
    · simp at hw
    · rename_i r2 h2
      have hr2 : r2.result = false := walker_not_true cat arg h _ _ _ _ h2
      rw [hr2] at hw
      simp at hw
      rw [← hw]
  | T_ArrayExpr _ _ elements, h, g, itc, o, r, hw => by
    rw [has_not] at h
    rw [tdengine_foreign_expr_walker] at hw
    split at hw
    · simp at hw
    · rename_i r2 h2
      have hr2 : r2.result = false :=
        walker_List_node_false _ (fun g2 i2 c2 r3 h3 =>
          walker_foreach_not_true cat elements h g2 i2 c2 r3 h3) _ _ _ _ h2
      rw [hr2] at hw
      simp at hw
      rw [← hw]
  | T_ScalarArrayOpExpr opno _ _ args, h, g, itc, o, r, hw => by
    rw [has_not] at h
    rw [tdengine_foreign_expr_walker] at hw
    split at hw
    · simp at hw
    · simp at hw
      rw [← hw]
    · split at hw
      · simp at hw
      · rename_i r2 h2
        have hr2 : r2.result = false :=
          walker_List_node_false _ (fun g2 i2 c2 r3 h3 =>
            walker_foreach_not_true cat args h g2 i2 c2 r3 h3) _ _ _ _ h2
        rw [hr2] at hw
        simp at hw
        rw [← hw]
  | T_OpExpr opno t oc ic args, h, g, itc, o, r, hw => by
    rw [tdengine_foreign_expr_walker] at hw
    split at hw
    · simp at hw
    · simp at hw
      rw [← hw]
    · split at hw
      · rename_i hf
        exfalso
        rw [Bool.or_eq_true] at hf
        rcases hf with hf | hf
        · rw [is_slvar_fetch_no_not cat _ _ false hf] at h
          simp at h
        · rw [is_param_fetch_no_not _ _ false hf] at h
          simp at h
      · rw [has_not] at h
        split at hw
        · simp at hw
        · rename_i r2 h2
          have hr2 : r2.result = false :=
            walker_List_node_false _ (fun g2 i2 c2 r3 h3 =>
              walker_foreach_not_true cat args h g2 i2 c2 r3 h3) _ _ _ _ h2
          rw [hr2] at hw
          simp at hw
          rw [← hw]
  | T_CoerceViaIOExpr arg _ _, h, g, itc, o, r, hw => by
    rw [has_not] at h
    rw [tdengine_foreign_expr_walker] at hw
    split at hw
    · simp at hw
      rw [← hw]
    · split at hw
      · split at hw
        · simp at hw
        · rename_i r2 h2
          have hr2 : r2.result = false := walker_not_true cat arg h _ _ _ _ h2
          rw [hr2] at hw
          simp at hw
          rw [← hw]
      · simp at hw
        rw [← hw]
  | T_NullTest arg _, h, g, itc, o, r, hw => by
    rw [has_not] at h
    rw [tdengine_foreign_expr_walker] at hw
    unfold walker_NullTest at hw
    split at hw
    · simp at hw
      rw [← hw]
    · rename_i name hn
      rw [get_slvar_no_not cat arg _ false name hn] at h
      simp at h
  | T_Aggref aggfnoid aggtype aggcollid inputcollid args aggorder aggdistinct aggfilter _ _
      aggsplit, h, g, itc, o, r, hw => by
    rw [has_not_Aggref] at h
    rw [tdengine_foreign_expr_walker] at hw
    split at hw
    · simp at hw
    · simp at hw
      rw [← hw]
    · rename_i pre hpre
      split at hw
      · simp at hw
      · rename_i r2 st2 h2
        by_cases hr : r2.result = true
        · rw [hr] at hw
          simp only [Bool.not_true, Bool.false_eq_true, if_false] at hw
          by_cases hl : has_not_list false args = true
          · have := walker_aggargs_not_true cat pre args hl _ _ _ _ _ _ h2
            rw [this] at hr
            simp at hr
          · have hf : aggfilter.isSome = true := by
              cases aggfilter with
              | none => simp [hl] at h
              | some f => rfl
            unfold walker_Aggref_post at hw
            simp [hf] at hw
            rw [← hw]
        · have hr2 : r2.result = false := by simpa using hr
          rw [hr2] at hw
          simp at hw
          rw [← hw]
/-- The same for the element loop of a list. -/
theorem walker_foreach_not_true (cat : Catalog) :
    ∀ (es : List Node), has_not_list false es = true →
      ∀ (g : foreign_glob_cxt) (itc : Bool) (c : foreign_loc_cxt) (r : WalkOut),
        walker_foreach cat es g itc c = .ok r → r.result = false
  | [], h, _, _, _, _, _ => by simp [has_not_list] at h
  | a :: rest, h, g, itc, c, r, hw => by
    rw [has_not_list] at h
    rw [walker_foreach] at hw
    split at hw
    · simp at hw
    · rename_i r1 h1
      by_cases hr : r1.result = true
      · rw [hr] at hw
        simp only [Bool.not_true, Bool.false_eq_true, if_false] at hw
        by_cases ha : has_not false a = true
        · have := walker_not_true cat a ha _ _ _ _ h1
          rw [this] at hr
          simp at hr
        · have hrest : has_not_list false rest = true := by
            simpa [ha] using h
          exact walker_foreach_not_true cat rest hrest _ _ _ _ hw
      · have hr2 : r1.result = false := by simpa using hr
        rw [hr2] at hw
        simp at hw
        rw [← hw]
        exact hr2
/-- The same for the argument loop of an aggregate. -/
theorem walker_aggargs_not_true (cat : Catalog) (pre : AggPre) :
    ∀ (es : List Node), has_not_list false es = true →
      ∀ (st : AggLoop) (g : foreign_glob_cxt) (itc : Bool) (c : foreign_loc_cxt) (r : WalkOut)
        (st2 : AggLoop),
        walker_aggargs cat pre es st g itc c = .ok (r, st2) → r.result = false
  | [], h, _, _, _, _, _, _, _ => by simp [has_not_list] at h
  | T_TargetEntry n a1 a2 a3 :: rest, h, st, g, itc, c, r, st2, hw => by
    simp only [has_not_list, has_not] at h
    rw [walker_aggargs] at hw
    split at hw
    · simp at hw
    · simp at hw
      rw [← hw.1]
    · rename_i st1 hst
      split at hw
      · simp at hw
      · rename_i r1 h1
        by_cases hr : r1.result = true
        · rw [hr] at hw
          simp only [Bool.not_true, Bool.false_eq_true, if_false] at hw
          split at hw
          · simp at hw
            rw [← hw.1]
          · by_cases ha : has_not false n = true
            · have := walker_not_true cat n ha _ _ _ _ h1
              rw [this] at hr
              simp at hr
            · have hrest : has_not_list false rest = true := by
                simpa [ha] using h
              exact walker_aggargs_not_true cat pre rest hrest _ _ _ _ _ _ hw
        · have hr2 : r1.result = false := by simpa using hr
          rw [hr2] at hw
          simp at hw
          rw [← hw.1]
          exact hr2
  | n :: rest, h, st, g, itc, c, r, st2, hw => by
    rw [has_not_list] at h
    have key : ∀ (wrapped : Bool) (m : Node),
        (has_not false m = true ∨ has_not_list false rest = true) →
        (has_not false m = true → ∀ g2 i2 c2 r2,
          tdengine_foreign_expr_walker cat m g2 i2 c2 = .ok r2 → r2.result = false) →
        ((match aggref_arg_pre cat g pre st wrapped m with
          | .error e => .error e
          | .ok none => .ok (⟨false, g, itc, c⟩, st)
          | .ok (some st1) =>
            match tdengine_foreign_expr_walker cat m g itc c with
            | .error e => .error e
            | .ok r =>
              if !r.result then .ok (r, st1)
              else if aggref_time_rejected pre r.is_time_column then
                .ok (⟨false, r.glob, false, r.cxt⟩, st1)
              else walker_aggargs cat pre rest st1 r.glob r.is_time_column r.cxt :
            Except Err (WalkOut × AggLoop))
          = .ok (r, st2)) → r.result = false := by
      intro wrapped m hm ihm hw2
      split at hw2
      · simp at hw2
      · simp at hw2
        rw [← hw2.1]
      · rename_i st1 hst
        split at hw2
        · simp at hw2
        · rename_i r1 h1
          by_cases hr : r1.result = true
          · rw [hr] at hw2
            simp only [Bool.not_true, Bool.false_eq_true, if_false] at hw2
            split at hw2
            · simp at hw2
              rw [← hw2.1]
            · by_cases ha : has_not false m = true
              · have := ihm ha _ _ _ _ h1
                rw [this] at hr
                simp at hr
              · have hrest : has_not_list false rest = true := by
                  rcases hm with hm | hm
                  · exact absurd hm ha
                  · exact hm
                exact walker_aggargs_not_true cat pre rest hrest _ _ _ _ _ _ hw2
          · have hr2 : r1.result = false := by simpa using hr
            rw [hr2] at hw2
            simp at hw2
            rw [← hw2.1]
            exact hr2
    have hn : ∀ m, has_not false m = true → ∀ g2 i2 c2 r2,
        tdengine_foreign_expr_walker cat m g2 i2 c2 = .ok r2 → m = n → r2.result = false := by
      intro m hm g2 i2 c2 r2 hw2 hmn
      subst hmn
      exact walker_not_true cat m hm g2 i2 c2 r2 hw2
    by_cases hT : ∃ e a1 a2 a3, n = T_TargetEntry e a1 a2 a3
    · cases n with
      | T_TargetEntry e a1 a2 a3 =>
        rw [walker_aggargs] at hw
        refine key true e ?_ ?_ hw
        · simpa [has_not] using h
        · intro he g2 i2 c2 r2 hw2
          exact walker_not_true cat e he g2 i2 c2 r2 hw2
      | _ =>
        obtain ⟨e, a1, a2, a3, he⟩ := hT
        cases he
    · rw [walker_aggargs] at hw
      · refine key false n ?_ ?_ hw
        · simpa using h
        · intro he g2 i2 c2 r2 hw2
          exact hn n he g2 i2 c2 r2 hw2 rfl
      · intro n2 a1 a2 a3 hn2
        exact hT ⟨n2, a1, a2, a3, hn2⟩
end

/-- C1 (amended): for every expression tree that holds a `BoolExpr` with boolop
NOT at the root or at any depth that is not inside the argument of a
`FieldSelect`, `tdengine_foreign_expr_walker` never returns true: whenever it
returns, in any context, its result is false, and `tdengine_is_foreign_expr`
never answers true. (It may instead raise the error of a node visited before
the NOT.) -/
theorem not_outside_fieldselect_never_accepted (cat : Catalog) (e : Node)
    (h : has_not false e = true) :
    (∀ (g : foreign_glob_cxt) (itc : Bool) (c : foreign_loc_cxt) (r : WalkOut),
      tdengine_foreign_expr_walker cat e g itc c = .ok r → r.result = false) ∧
    (∀ (reloptkind : RelOptKind) (slinfo : schemaless_info) (relids : List Nat) (relid : Oid)
      (itc for_tlist : Bool) (b : Bool),
      tdengine_is_foreign_expr cat reloptkind slinfo relids relid itc e for_tlist = .ok b →
        b = false) := by
  refine ⟨walker_not_true cat e h, ?_⟩
  intro reloptkind slinfo relids relid itc for_tlist b hb
  unfold tdengine_is_foreign_expr at hb
  simp only at hb
  split at hb
  · simp at hb
  · rename_i r hr
    have hres := walker_not_true cat e h _ _ _ _ hr
    rw [hres] at hb
    simp at hb
    exact hb

/-- Witness for C1: `col = $2 AND NOT flag` holds a NOT below its root, and on
the sample table the walker returns false on it. -/
theorem not_outside_fieldselect_never_accepted_witness :
    has_not false demo_and_not = true ∧
    tdengine_is_foreign_expr demo_catalog .RELOPT_BASEREL demo_slinfo [1] 5000 false
      demo_and_not false = .ok false ∧
    (∀ (b : Bool),
      tdengine_is_foreign_expr demo_catalog .RELOPT_BASEREL demo_slinfo [1] 5000 false
        demo_and_not false = .ok b → b = false) :=
  ⟨by decide, by decide,
   (not_outside_fieldselect_never_accepted demo_catalog demo_and_not (by decide)).2
     .RELOPT_BASEREL demo_slinfo [1] 5000 false false⟩

/-! ## Theorems: the function-name tables and the fail-closed default -/

/-- C19 (counterexample): the name `log10` stands in both
`TDengineUniqueFunction` and `TDengineSupportedBuiltinFunction`. -/
theorem function_tables_share_log10 :
    exist_in_function_list "log10" TDengineUniqueFunction = true ∧
    exist_in_function_list "log10" TDengineSupportedBuiltinFunction = true := by
  decide

/-- C19 (amended): `TDengineStableStarFunction` shares no name with
`TDengineUniqueFunction` nor with `TDengineSupportedBuiltinFunction`, and the
names that occur in both `TDengineUniqueFunction` and
`TDengineSupportedBuiltinFunction` are exactly `log10`. -/
theorem function_tables_overlap_is_log10 :
    TDengineStableStarFunction.filter
      (fun n => exist_in_function_list n TDengineUniqueFunction) = [] ∧
    TDengineStableStarFunction.filter
      (fun n => exist_in_function_list n TDengineSupportedBuiltinFunction) = [] ∧
    TDengineUniqueFunction.filter
      (fun n => exist_in_function_list n TDengineSupportedBuiltinFunction) = ["log10"] ∧
    TDengineSupportedBuiltinFunction.filter
      (fun n => exist_in_function_list n TDengineUniqueFunction) = ["log10"] := by
  decide

/-- C18: on every node whose kind is none of Var, Const, Param, FieldSelect,
FuncExpr, OpExpr, ScalarArrayOpExpr, RelabelType, BoolExpr, List, Aggref,
CoerceViaIO, NullTest and ArrayExpr, `tdengine_foreign_expr_walker` returns
false, in every context and without touching it. -/
theorem walker_default_false (cat : Catalog) (e : Node) (h : walker_has_case e = false)
    (g : foreign_glob_cxt) (itc : Bool) (outer_cxt : foreign_loc_cxt) :
    tdengine_foreign_expr_walker cat e g itc outer_cxt = .ok ⟨false, g, itc, outer_cxt⟩ := by
  cases e <;> simp [walker_has_case] at h <;> rw [tdengine_foreign_expr_walker]

/-- Witness for C18: a `DistinctExpr` (`col IS DISTINCT FROM 1`) and a node of
a kind the walker does not know, such as a `CaseExpr`. -/
theorem walker_default_false_witness :
    walker_has_case (T_DistinctExpr 96 BOOLOID InvalidOid InvalidOid [demo_col, demo_int "1"])
      = false ∧
    tdengine_foreign_expr_walker demo_catalog
      (T_DistinctExpr 96 BOOLOID InvalidOid InvalidOid [demo_col, demo_int "1"])
      (demo_glob .RELOPT_BASEREL) false inner_cxt_init
      = .ok ⟨false, demo_glob .RELOPT_BASEREL, false, inner_cxt_init⟩ ∧
    tdengine_foreign_expr_walker demo_catalog (T_Other 129 INT4OID [demo_col])
      (demo_glob .RELOPT_BASEREL) false inner_cxt_init
      = .ok ⟨false, demo_glob .RELOPT_BASEREL, false, inner_cxt_init⟩ :=
  ⟨rfl,
   walker_default_false demo_catalog
     (T_DistinctExpr 96 BOOLOID InvalidOid InvalidOid [demo_col, demo_int "1"]) rfl
     (demo_glob .RELOPT_BASEREL) false inner_cxt_init,
   walker_default_false demo_catalog (T_Other 129 INT4OID [demo_col]) rfl
     (demo_glob .RELOPT_BASEREL) false inner_cxt_init⟩

/-! ## Theorems: comparisons with the time key -/

theorem ordering_opname_is_comparison (n : String) (h : is_ordering_or_eq_opname n = true) :
    is_comparison_opname n = true := by
  simp only [is_ordering_or_eq_opname, Bool.or_eq_true, beq_iff_eq] at h
  simp only [is_comparison_opname, Bool.or_eq_true, beq_iff_eq]
  tauto

theorem ordering_opname_not_ne (n : String) (h : is_ordering_or_eq_opname n = true) :
    (n == "!=" || n == "<>") = false := by
  simp only [is_ordering_or_eq_opname, Bool.or_eq_true, beq_iff_eq] at h
  rcases h with ((((h | h) | h) | h) | h) <;> subst h <;> decide

/-- The time-key scan on two time-typed columns one of which is the time key. -/
theorem contain_time_key_two_vars (cat : Catalog) (relid : Oid)
    (n1 : Nat) (a1 : Int) (t1 : Oid) (m1 : Int) (c1 : Oid) (l1 : Nat)
    (n2 : Nat) (a2 : Int) (t2 : Oid) (m2 : Int) (c2 : Oid) (l2 : Nat)
    (h_t1 : TDENGINE_IS_TIME_TYPE t1 = true) (h_t2 : TDENGINE_IS_TIME_TYPE t2 = true)
    (name1 name2 : String)
    (h_n1 : tdengine_get_column_name cat relid a1 = .ok name1)
    (h_n2 : tdengine_get_column_name cat relid a2 = .ok name2)
    (h_key : TDENGINE_IS_TIME_COLUMN name1 = true ∨ TDENGINE_IS_TIME_COLUMN name2 = true) :
    tdengine_contain_time_key_column cat relid
      [T_Var n1 a1 t1 m1 c1 l1, T_Var n2 a2 t2 m2 c2 l2] = .ok true := by
  by_cases hk : TDENGINE_IS_TIME_COLUMN name1 = true
  · simp [tdengine_contain_time_key_column, h_t1, h_n1, hk]
  · have hk2 : TDENGINE_IS_TIME_COLUMN name2 = true := by
      rcases h_key with h | h
      · exact absurd h hk
      · exact h
    simp [tdengine_contain_time_key_column, h_t1, h_t2, h_n1, h_n2, hk, hk2]

/-- C12: for every `OpExpr` whose operator is `=`, `<`, `>`, `<=` or `>=` and
whose two operands are time-typed column `Var`s at least one of which is the
time key (remote name `time` or `time_text`), `tdengine_foreign_expr_walker`
returns false, leaving its contexts as they were. -/
theorem both_time_columns_with_key_rejected (cat : Catalog) (opno : Oid)
    (form : Form_pg_operator) (h_op : cat.operator opno = some form)
    (h_name : form.oprname = "=" ∨ form.oprname = "<" ∨ form.oprname = ">" ∨
      form.oprname = "<=" ∨ form.oprname = ">=")
    (opresulttype opcollid inputcollid : Oid)
    (n1 : Nat) (a1 : Int) (t1 : Oid) (m1 : Int) (c1 : Oid) (l1 : Nat)
    (n2 : Nat) (a2 : Int) (t2 : Oid) (m2 : Int) (c2 : Oid) (l2 : Nat)
    (h_t1 : TDENGINE_IS_TIME_TYPE t1 = true) (h_t2 : TDENGINE_IS_TIME_TYPE t2 = true)
    (g : foreign_glob_cxt) (name1 name2 : String)
    (h_n1 : tdengine_get_column_name cat g.relid a1 = .ok name1)
    (h_n2 : tdengine_get_column_name cat g.relid a2 = .ok name2)
    (h_key : TDENGINE_IS_TIME_COLUMN name1 = true ∨ TDENGINE_IS_TIME_COLUMN name2 = true)
    (itc : Bool) (outer_cxt : foreign_loc_cxt) :
    tdengine_foreign_expr_walker cat
        (T_OpExpr opno opresulttype opcollid inputcollid
          [T_Var n1 a1 t1 m1 c1 l1, T_Var n2 a2 t2 m2 c2 l2]) g itc outer_cxt
      = .ok ⟨false, g, itc, outer_cxt⟩ := by
  have h_ord : is_ordering_or_eq_opname form.oprname = true := by
    simp only [is_ordering_or_eq_opname, Bool.or_eq_true, beq_iff_eq]
    tauto
  have h_cmp := ordering_opname_is_comparison _ h_ord
  have h_ne := ordering_opname_not_ne _ h_ord
  have h_key2 := contain_time_key_two_vars cat g.relid n1 a1 t1 m1 c1 l1 n2 a2 t2 m2 c2 l2
    h_t1 h_t2 name1 name2 h_n1 h_n2 h_key
  have h_i1 : (t1 == INTERVALOID) = false := by
    simp only [TDENGINE_IS_TIME_TYPE, Bool.or_eq_true, beq_iff_eq] at h_t1
    rcases h_t1 with (h | h) | h <;> subst h <;> decide
  have h_pre : walker_OpExpr_pre cat
      (T_OpExpr opno opresulttype opcollid inputcollid
        [T_Var n1 a1 t1 m1 c1 l1, T_Var n2 a2 t2 m2 c2 l2]) opno
      [T_Var n1 a1 t1 m1 c1 l1, T_Var n2 a2 t2 m2 c2 l2] g outer_cxt = .ok none := by
    unfold walker_OpExpr_pre
    simp only [h_op]
    split
    · rfl
    · simp [both_operands_interval, h_cmp, linitial, lsecond, exprType, h_i1, h_key2, h_ne,
        bind, Except.bind, pure, Except.pure, tdengine_contain_time_column, h_t1, h_t2,
        tdengine_contain_time_function, time_operand_rejected, h_ord]
  rw [tdengine_foreign_expr_walker, h_pre]

/-- Witness for C12: `time = time` on the sample table. -/
theorem both_time_columns_with_key_rejected_witness :
    demo_catalog_tags.operator 2060 = some ⟨"=", 'b', PG_CATALOG_NAMESPACE⟩ ∧
    tdengine_get_column_name demo_catalog_tags 5000 1 = .ok "time" ∧
    tdengine_foreign_expr_walker demo_catalog_tags demo_time_eq_time
      (demo_glob .RELOPT_BASEREL) false inner_cxt_init
      = .ok ⟨false, demo_glob .RELOPT_BASEREL, false, inner_cxt_init⟩ :=
  ⟨rfl, by decide,
   both_time_columns_with_key_rejected demo_catalog_tags 2060
     ⟨"=", 'b', PG_CATALOG_NAMESPACE⟩ rfl (Or.inl rfl) BOOLOID InvalidOid InvalidOid
     1 1 TIMESTAMPOID (-1) InvalidOid 0 1 1 TIMESTAMPOID (-1) InvalidOid 0 rfl rfl
     (demo_glob .RELOPT_BASEREL) "time" "time" (by decide) (by decide) (Or.inl rfl)
     false inner_cxt_init⟩

/-- The time-key scan of a list, given the scan of its first element alone. -/
theorem contain_time_key_cons (cat : Catalog) (relid : Oid) (x : Node) (rest : List Node)
    (b : Bool) (h : tdengine_contain_time_key_column cat relid [x] = .ok b) :
    tdengine_contain_time_key_column cat relid (x :: rest)
      = if b then .ok true else tdengine_contain_time_key_column cat relid rest := by
  cases x <;> simp only [tdengine_contain_time_key_column] at h ⊢ <;>
    try (simp only [Except.ok.injEq] at h; subst h; simp)
  rename_i varno varattno vartype vartypmod varcollid varlevelsup
  by_cases ht : TDENGINE_IS_TIME_TYPE vartype = true
  · simp only [ht, if_true] at h ⊢
    cases hn : tdengine_get_column_name cat relid varattno with
    | error e => simp [hn] at h
    | ok nm =>
      simp only [hn] at h ⊢
      by_cases hc : TDENGINE_IS_TIME_COLUMN nm = true
      · simp only [hc, if_true, Except.ok.injEq] at h ⊢
        subst h; simp
      · simp only [hc] at h ⊢
        simp at h; subst h; simp
  · simp only [ht] at h ⊢
    simp at h; subst h; simp

/-- C13: for every `OpExpr` whose operator is `!=` or `<>` and that has the
time key (a time-typed column `Var` with the remote name `time` or
`time_text`) as one of its two operands, `tdengine_foreign_expr_walker` returns
false, whatever expression the other operand is. -/
theorem not_equal_time_key_rejected (cat : Catalog) (opno : Oid)
    (form : Form_pg_operator) (h_op : cat.operator opno = some form)
    (h_name : form.oprname = "!=" ∨ form.oprname = "<>")
    (opresulttype opcollid inputcollid : Oid)
    (n1 : Nat) (a1 : Int) (t1 : Oid) (m1 : Int) (c1 : Oid) (l1 : Nat)
    (h_t1 : TDENGINE_IS_TIME_TYPE t1 = true)
    (g : foreign_glob_cxt) (name1 : String)
    (h_n1 : tdengine_get_column_name cat g.relid a1 = .ok name1)
    (h_key : TDENGINE_IS_TIME_COLUMN name1 = true)
    (other : Node) (type : Oid) (h_expr : exprType other = .ok type)
    (b : Bool) (h_scan : tdengine_contain_time_key_column cat g.relid [other] = .ok b)
    (args : List Node)
    (h_args : args = [T_Var n1 a1 t1 m1 c1 l1, other] ∨ args = [other, T_Var n1 a1 t1 m1 c1 l1])
    (itc : Bool) (outer_cxt : foreign_loc_cxt) :
    tdengine_foreign_expr_walker cat (T_OpExpr opno opresulttype opcollid inputcollid args)
        g itc outer_cxt
      = .ok ⟨false, g, itc, outer_cxt⟩ := by
  have h_cmp : is_comparison_opname form.oprname = true := by
    rcases h_name with h | h <;> rw [h] <;> decide
  have h_ne : (form.oprname == "!=" || form.oprname == "<>") = true := by
    rcases h_name with h | h <;> rw [h] <;> decide
  have h_i1 : (t1 == INTERVALOID) = false := by
    simp only [TDENGINE_IS_TIME_TYPE, Bool.or_eq_true, beq_iff_eq] at h_t1
    rcases h_t1 with (h | h) | h <;> subst h <;> decide
  have h_keyscan : ∀ rest, tdengine_contain_time_key_column cat g.relid
      (T_Var n1 a1 t1 m1 c1 l1 :: rest) = .ok true := by
    intro rest
    simp [tdengine_contain_time_key_column, h_t1, h_n1, h_key]
  have h_scan2 : tdengine_contain_time_key_column cat g.relid args = .ok true := by
    rcases h_args with h | h
    · rw [h]; exact h_keyscan _
    · rw [h, contain_time_key_cons cat g.relid other _ b h_scan, h_keyscan]
      simp
  have h_int : both_operands_interval true args = .ok false := by
    rcases h_args with h | h
    · rw [h]
      simp [both_operands_interval, linitial, exprType, h_i1, bind, Except.bind, pure,
        Except.pure]
    · rw [h]
      have h_k : exprType (T_Var n1 a1 t1 m1 c1 l1) = .ok t1 := rfl
      by_cases hi : (type == INTERVALOID) = true
      · simp [both_operands_interval, linitial, lsecond, h_k, h_expr, hi, h_i1, bind,
          Except.bind, pure, Except.pure]
      · simp [both_operands_interval, linitial, h_expr, hi, bind,
          Except.bind, pure, Except.pure]
  have h_pre : walker_OpExpr_pre cat (T_OpExpr opno opresulttype opcollid inputcollid args)
      opno args g outer_cxt = .ok none := by
    unfold walker_OpExpr_pre
    simp only [h_op]
    split
    · rfl
    · simp [h_cmp, h_int, h_scan2, h_ne, bind, Except.bind, pure, Except.pure]
  rw [tdengine_foreign_expr_walker, h_pre]

/-- Witness for C13: `'2020-01-01 00:00:00' <> time` on the sample table. -/
theorem not_equal_time_key_rejected_witness :
    demo_catalog_tags.operator 2061 = some ⟨"<>", 'b', PG_CATALOG_NAMESPACE⟩ ∧
    tdengine_get_column_name demo_catalog_tags 5000 1 = .ok "time" ∧
    tdengine_foreign_expr_walker demo_catalog_tags demo_const_ne_time
      (demo_glob .RELOPT_BASEREL) false inner_cxt_init
      = .ok ⟨false, demo_glob .RELOPT_BASEREL, false, inner_cxt_init⟩ :=
  ⟨rfl, by decide,
   not_equal_time_key_rejected demo_catalog_tags 2061
     ⟨"<>", 'b', PG_CATALOG_NAMESPACE⟩ rfl (Or.inr rfl) BOOLOID InvalidOid InvalidOid
     1 1 TIMESTAMPOID (-1) InvalidOid 0 rfl (demo_glob .RELOPT_BASEREL) "time"
     (by decide) (by decide)
     (T_Const TIMESTAMPOID InvalidOid (.text "2020-01-01 00:00:00".toList) false)
     TIMESTAMPOID rfl false rfl _ (Or.inr rfl) false inner_cxt_init⟩

/-! ## Theorems: aggregates -/

/-- C15: `count(*)` on the upper relation of the sample table is accepted by
`tdengine_foreign_expr_walker`, and `tdengine_deparse_aggref` then takes the
name to append from `tdengine_replace_function`, whose body is empty: the
name that is appended is the unset return value of that call, where the
text to append is `count(*)`. -/
theorem count_star_name_not_returned :
    demo_catalog_tags.proname 2803 = some "count" ∧
    tdengine_foreign_expr_walker demo_catalog_tags demo_count_star
      (demo_glob .RELOPT_UPPER_REL) false inner_cxt_init
      = .ok ⟨true, demo_glob .RELOPT_UPPER_REL, false,
          collation_merge InvalidOid (derived_state InvalidOid inner_cxt_init) inner_cxt_init⟩ ∧
    tdengine_deparse_expr demo_catalog_tags demo_count_star demo_context
      = .error (.undefined "tdengine_replace_function returns no value") := by
  refine ⟨rfl, by decide, ?_⟩
  rw [demo_count_star, tdengine_deparse_expr]
  rfl

/-- What `walker_Aggref_pre` has established when the walker goes on to the
argument loop. -/
theorem walker_Aggref_pre_some (cat : Catalog) (aggfnoid : Oid) (opername : String)
    (h_name : cat.proname aggfnoid = some opername) (aggsplit : AggSplit)
    (g : foreign_glob_cxt) (itc : Bool) (pre : AggPre)
    (h : walker_Aggref_pre cat aggfnoid aggsplit g itc = .ok (some pre)) :
    pre.opername = opername ∧ pre.is_star_func = tdengine_is_star_func aggfnoid opername ∧
    pre.old_val = itc ∧ aggsplit = .AGGSPLIT_SIMPLE ∧ g.reloptkind = .RELOPT_UPPER_REL ∧
    (tdengine_is_star_func aggfnoid opername || is_not_star_aggregate opername) = true := by
  simp only [walker_Aggref_pre, h_name] at h
  by_cases h1 : (!(tdengine_is_star_func aggfnoid opername || is_not_star_aggregate opername))
      = true
  · rw [if_pos h1] at h
    simp at h
  · rw [if_neg h1] at h
    by_cases h2 : g.reloptkind ≠ .RELOPT_UPPER_REL
    · rw [if_pos h2] at h
      simp at h
    · rw [if_neg h2] at h
      by_cases h3 : aggsplit ≠ .AGGSPLIT_SIMPLE
      · rw [if_pos h3] at h
        simp at h
      · rw [if_neg h3] at h
        simp only [Except.ok.injEq, Option.some.injEq] at h
        subst h
        refine ⟨rfl, rfl, rfl, ?_, ?_, ?_⟩
        · simpa using h3
        · simpa using h2
        · revert h1
          cases (tdengine_is_star_func aggfnoid opername || is_not_star_aggregate opername) <;>
            simp

/-- C20 (counterexample): on
`tdengine_max_all(tdengine_fill_numeric(1)) FILTER (WHERE flag)` the walker
does not return false: the argument loop, which runs before the tests on
`aggorder`, `aggfilter` and `aggdistinct`, raises the error of the fill call. -/
theorem aggref_filter_raises :
    tdengine_foreign_expr_walker demo_catalog_tags demo_star_fill_filter
      (demo_glob .RELOPT_UPPER_REL) false inner_cxt_init = .error fill_syntax_error := by
  decide

/-- C20 (amended): `tdengine_foreign_expr_walker` returns false for every
`Aggref` whose `aggsplit` is not `AGGSPLIT_SIMPLE`; and for every `Aggref`
that has a non-empty `aggorder`, or an `aggfilter`, or `aggdistinct` set while
its function name is not `count`, it returns false unless the examination of
the arguments, which comes first, raises an error, which the walker then
raises.  It never returns true. -/
theorem aggref_clauses_rejected (cat : Catalog) (aggfnoid : Oid) (opername : String)
    (h_name : cat.proname aggfnoid = some opername)
    (aggtype aggcollid inputcollid : Oid) (args : List Node) (aggorder aggdistinct : List Nat)
    (aggfilter : Option Node) (aggstar aggvariadic : Bool) (aggsplit : AggSplit)
    (h : aggsplit ≠ .AGGSPLIT_SIMPLE ∨ aggorder ≠ [] ∨ aggfilter.isSome = true ∨
      (aggdistinct ≠ [] ∧ opername ≠ "count"))
    (g : foreign_glob_cxt) (itc : Bool) (outer_cxt : foreign_loc_cxt) :
    (aggsplit ≠ .AGGSPLIT_SIMPLE →
      tdengine_foreign_expr_walker cat
        (T_Aggref aggfnoid aggtype aggcollid inputcollid args aggorder aggdistinct aggfilter
          aggstar aggvariadic aggsplit) g itc outer_cxt = .ok ⟨false, g, itc, outer_cxt⟩) ∧
    ((∃ r, tdengine_foreign_expr_walker cat
        (T_Aggref aggfnoid aggtype aggcollid inputcollid args aggorder aggdistinct aggfilter
          aggstar aggvariadic aggsplit) g itc outer_cxt = .ok r ∧ r.result = false) ∨
     (∃ pre e, walker_Aggref_pre cat aggfnoid aggsplit g itc = .ok (some pre) ∧
        walker_aggargs cat pre args ⟨-1, false, inputcollid⟩ g false inner_cxt_init = .error e ∧
        tdengine_foreign_expr_walker cat
          (T_Aggref aggfnoid aggtype aggcollid inputcollid args aggorder aggdistinct aggfilter
            aggstar aggvariadic aggsplit) g itc outer_cxt = .error e)) := by
  constructor
  · intro hs
    have h_pre : walker_Aggref_pre cat aggfnoid aggsplit g itc = .ok none := by
      simp only [walker_Aggref_pre, h_name]
      split
      · rfl
      · split
        · rfl
        · simp [hs]
    rw [tdengine_foreign_expr_walker, h_pre]
  · rw [tdengine_foreign_expr_walker]
    cases h_pre : walker_Aggref_pre cat aggfnoid aggsplit g itc with
    | error e => simp [walker_Aggref_pre, h_name] at h_pre; split_ifs at h_pre
    | ok p =>
      cases p with
      | none => exact Or.inl ⟨_, rfl, rfl⟩
      | some pre =>
        obtain ⟨h_pn, -, -, h_simple, -, -⟩ :=
          walker_Aggref_pre_some cat aggfnoid opername h_name aggsplit g itc pre h_pre
        simp only
        cases h_loop : walker_aggargs cat pre args ⟨-1, false, inputcollid⟩ g false
            inner_cxt_init with
        | error e => exact Or.inr ⟨pre, e, rfl, h_loop, rfl⟩
        | ok x =>
          obtain ⟨r, st⟩ := x
          left
          simp only
          by_cases hr : r.result = true
          · simp only [hr, Bool.not_true, Bool.false_eq_true, if_false]
            have hp : walker_Aggref_post aggtype aggcollid aggorder aggdistinct aggfilter.isSome
                pre st outer_cxt r = .ok ⟨false, r.glob, pre.old_val, outer_cxt⟩ := by
              unfold walker_Aggref_post
              rcases h with h | h | h | h
              · exact absurd h_simple h
              · have : (!aggorder.isEmpty) = true := by
                  cases aggorder with
                  | nil => exact absurd rfl h
                  | cons a b => rfl
                simp [this]
              · simp [h]
              · by_cases ho : (!aggorder.isEmpty || aggfilter.isSome) = true
                · simp only [ho, if_true]
                · have hd : (!aggdistinct.isEmpty) = true := by
                    cases aggdistinct with
                    | nil => exact absurd rfl h.1
                    | cons a b => rfl
                  have hc : (pre.opername != "count") = true := by
                    rw [h_pn]; simpa using h.2
                  simp only [ho, hd, hc, Bool.and_self, if_true]
                  simp
            rw [hp]
            exact ⟨_, rfl, rfl⟩
          · have hr2 : r.result = false := by simpa using hr
            simp only [hr2, Bool.not_false, if_true]
            exact ⟨_, rfl, rfl⟩

/-- Witness for C20: `max(col) FILTER (WHERE flag)` on the upper relation of the
sample table is rejected. -/
theorem aggref_clauses_rejected_witness :
    demo_catalog_tags.proname 2116 = some "max" ∧
    tdengine_foreign_expr_walker demo_catalog_tags demo_max_filter
      (demo_glob .RELOPT_UPPER_REL) false inner_cxt_init
      = .ok ⟨false, { demo_glob .RELOPT_UPPER_REL with mixing_aggref_status := 1 }, false,
          inner_cxt_init⟩ ∧
    ((∃ r, tdengine_foreign_expr_walker demo_catalog_tags demo_max_filter
        (demo_glob .RELOPT_UPPER_REL) false inner_cxt_init = .ok r ∧ r.result = false) ∨
     (∃ pre e, walker_Aggref_pre demo_catalog_tags 2116 .AGGSPLIT_SIMPLE
          (demo_glob .RELOPT_UPPER_REL) false = .ok (some pre) ∧
        walker_aggargs demo_catalog_tags pre [T_TargetEntry demo_col 1 0 false]
          ⟨-1, false, InvalidOid⟩ (demo_glob .RELOPT_UPPER_REL) false inner_cxt_init
          = .error e ∧
        tdengine_foreign_expr_walker demo_catalog_tags demo_max_filter
          (demo_glob .RELOPT_UPPER_REL) false inner_cxt_init = .error e)) :=
  ⟨rfl, by decide,
   (aggref_clauses_rejected demo_catalog_tags 2116 "max" rfl INT4OID InvalidOid InvalidOid
     [T_TargetEntry demo_col 1 0 false] [] [] (some demo_flag) false false .AGGSPLIT_SIMPLE
     (Or.inr (Or.inr (Or.inl rfl))) (demo_glob .RELOPT_UPPER_REL) false inner_cxt_init).2⟩

/-! ## Theorems: what the walker leaves in its parent's context -/

theorem same_flags_refl (c : foreign_loc_cxt) : same_flags c c := ⟨rfl, rfl, rfl, rfl, rfl⟩

theorem same_flags_trans (a b c : foreign_loc_cxt) (h1 : same_flags a b) (h2 : same_flags b c) :
    same_flags a c :=
  ⟨h1.1.trans h2.1, h1.2.1.trans h2.2.1, h1.2.2.1.trans h2.2.2.1, h1.2.2.2.1.trans h2.2.2.2.1,
   h1.2.2.2.2.trans h2.2.2.2.2⟩

theorem collation_merge_flags (collation : Oid) (state : FDWCollateState)
    (c : foreign_loc_cxt) : same_flags (collation_merge collation state c) c := by
  unfold collation_merge
  split_ifs <;> try exact same_flags_refl c
  all_goals first
    | exact ⟨rfl, rfl, rfl, rfl, rfl⟩
    | (split <;> exact same_flags_refl c)

theorem ok_flags (b : Bool) (g : foreign_glob_cxt) (itc : Bool) (c c0 : foreign_loc_cxt)
    (r : WalkOut) (hc : same_flags c c0)
    (h : (Except.ok ⟨b, g, itc, c⟩ : Except Err WalkOut) = .ok r) : same_flags r.cxt c0 := by
  simp only [Except.ok.injEq] at h
  rw [← h]
  exact hc

theorem walker_finish_flags (type : Except Err Oid) (check_type : Bool) (collation : Oid)
    (state : FDWCollateState) (g : foreign_glob_cxt) (itc : Bool) (c c0 : foreign_loc_cxt)
    (r : WalkOut) (hc : same_flags c c0)
    (h : walker_finish type check_type collation state g itc c = .ok r) :
    same_flags r.cxt c0 := by
  have hm := same_flags_trans _ _ _ (collation_merge_flags collation state c) hc
  unfold walker_finish at h
  split_ifs at h
  · split at h
    · simp at h
    · split_ifs at h
      · exact ok_flags _ _ _ _ _ _ hc h
      · exact ok_flags _ _ _ _ _ _ hm h
  · exact ok_flags _ _ _ _ _ _ hm h

theorem walker_List_node_flags
    (loop : foreign_glob_cxt → Bool → foreign_loc_cxt → Except Err WalkOut)
    (g : foreign_glob_cxt) (itc : Bool) (c c0 : foreign_loc_cxt) (r : WalkOut)
    (hc : same_flags c c0) (h : walker_List_node loop g itc c = .ok r) :
    same_flags r.cxt c0 := by
  unfold walker_List_node at h
  simp only at h
  split at h
  · simp at h
  · split_ifs at h
    · exact ok_flags _ _ _ _ _ _ hc h
    · exact walker_finish_flags _ _ _ _ _ _ _ _ _ hc h

theorem walker_FuncExpr_pre_flags (cat : Catalog) (funcid : Oid) (funcresulttype : Oid)
    (g : foreign_glob_cxt) (itc : Bool) (c : foreign_loc_cxt) (x : WalkOut ⊕ FuncPre)
    (h : walker_FuncExpr_pre cat funcid funcresulttype g itc c = .ok x) :
    same_flags (FuncPre_cxt x) c := by
  unfold walker_FuncExpr_pre at h
  split at h
  · simp at h
  · rename_i nm hnm
    by_cases hA : (TDENGINE_IS_TIME_TYPE funcresulttype && c.is_comparison &&
        (nm != "now" || !c.has_time_key)) = true
    · rw [if_pos hA] at h
      simp only [Except.ok.injEq] at h
      rw [← h]; exact same_flags_refl c
    · rw [if_neg hA] at h
      lift_lets at h
      extract_lets is_cast is_star outer1 can src inner1 outer2 g1 inner2 outer3 at h
      have h1 : same_flags outer1 c := by
        simp only [outer1]
        split_ifs
        · exact ⟨rfl, rfl, rfl, rfl, rfl⟩
        · exact same_flags_refl c
      have h2 : same_flags outer2 c := by
        simp only [outer2]
        split_ifs
        · exact same_flags_trans _ outer1 _ ⟨rfl, rfl, rfl, rfl, rfl⟩ h1
        · exact h1
      split_ifs at h
      · simp only [Except.ok.injEq] at h
        rw [← h]; exact h2
      · simp only [Except.ok.injEq] at h
        rw [← h]; exact h2
      · simp only [Except.ok.injEq] at h
        rw [← h]; exact h2
      · have h3 : same_flags outer3 c := by
          simp only [outer3]
          split_ifs
          · exact h2
          · exact same_flags_trans _ outer2 _ ⟨rfl, rfl, rfl, rfl, rfl⟩ h2
        simp only [Except.ok.injEq] at h
        rw [← h]; exact h3

/-- The walker changes none of the five flags in the context it was given. -/
theorem walker_flags (cat : Catalog) (e : Node) (g : foreign_glob_cxt) (itc : Bool)
    (c : foreign_loc_cxt) (r : WalkOut)
    (h : tdengine_foreign_expr_walker cat e g itc c = .ok r) : same_flags r.cxt c := by
  have rf := same_flags_refl c
  cases e with
  | T_Var varno varattno vartype vartypmod varcollid varlevelsup =>
    rw [tdengine_foreign_expr_walker] at h
    unfold walker_Var at h
    simp only at h
    split_ifs at h
    all_goals first
      | exact ok_flags _ _ _ _ _ _ rf h
      | exact walker_finish_flags _ _ _ _ _ _ _ _ _ rf h
  | T_Const consttype constcollid constvalue constisnull =>
    rw [tdengine_foreign_expr_walker] at h
    unfold walker_Const at h
    simp only at h
    split_ifs at h
    all_goals try split at h
    all_goals first
      | exact ok_flags _ _ _ _ _ _ rf h
      | exact walker_finish_flags _ _ _ _ _ _ _ _ _ rf h
      | simp at h
  | T_Param paramid paramtype paramtypmod paramcollid =>
    rw [tdengine_foreign_expr_walker] at h
    unfold walker_Param at h
    split_ifs at h
    all_goals first
      | exact ok_flags _ _ _ _ _ _ rf h
      | exact walker_finish_flags _ _ _ _ _ _ _ _ _ rf h
  | T_FieldSelect arg fieldnum resulttype resultcollid =>
    rw [tdengine_foreign_expr_walker] at h
    unfold walker_FieldSelect at h
    split_ifs at h
    all_goals first
      | exact ok_flags _ _ _ _ _ _ rf h
      | exact walker_finish_flags _ _ _ _ _ _ _ _ _ rf h
  | T_FuncExpr funcid funcresulttype funccollid inputcollid args =>
    rw [tdengine_foreign_expr_walker] at h
    split at h
    · simp at h
    · rename_i r0 h0
      simp only [Except.ok.injEq] at h
      rw [← h]
      exact walker_FuncExpr_pre_flags cat funcid funcresulttype g itc c _ h0
    · rename_i P h0
      have hP : same_flags P.outer_cxt c :=
        walker_FuncExpr_pre_flags cat funcid funcresulttype g itc c _ h0
      split at h
      · simp at h
      · split_ifs at h
        · exact ok_flags _ _ _ _ _ _ hP h
        · unfold walker_FuncExpr_post at h
          simp only at h
          have hP2 : same_flags { P.outer_cxt with can_pushdown_stable := true } c :=
            same_flags_trans _ P.outer_cxt c ⟨rfl, rfl, rfl, rfl, rfl⟩ hP
          split_ifs at h
          all_goals first
            | exact ok_flags _ _ _ _ _ _ hP h
            | exact walker_finish_flags _ _ _ _ _ _ _ _ _ hP h
            | exact walker_finish_flags _ _ _ _ _ _ _ _ _ hP2 h
  | T_OpExpr opno opresulttype opcollid inputcollid args =>
    rw [tdengine_foreign_expr_walker] at h
    split at h
    · simp at h
    · exact ok_flags _ _ _ _ _ _ rf h
    · split_ifs at h
      · exact walker_finish_flags _ _ _ _ _ _ _ _ _ rf h
      · split at h
        · simp at h
        · split_ifs at h
          · exact ok_flags _ _ _ _ _ _ rf h
          · unfold walker_OpExpr_post at h
            split_ifs at h
            · exact ok_flags _ _ _ _ _ _ rf h
            · exact ok_flags _ _ _ _ _ _ rf h
            · exact walker_finish_flags _ _ _ _ _ _ _ _ _ rf h
  | T_DistinctExpr opno opresulttype opcollid inputcollid args =>
    rw [tdengine_foreign_expr_walker] at h
    exact ok_flags _ _ _ _ _ _ rf h
  | T_ScalarArrayOpExpr opno useOr inputcollid args =>
    rw [tdengine_foreign_expr_walker] at h
    split at h
    · simp at h
    · exact ok_flags _ _ _ _ _ _ rf h
    · split at h
      · simp at h
      · split_ifs at h
        · exact ok_flags _ _ _ _ _ _ rf h
        · exact ok_flags _ _ _ _ _ _ rf h
        · exact walker_finish_flags _ _ _ _ _ _ _ _ _ rf h
  | T_RelabelType arg resulttype resultcollid =>
    rw [tdengine_foreign_expr_walker] at h
    split at h
    · simp at h
    · split_ifs at h
      · exact ok_flags _ _ _ _ _ _ rf h
      · exact walker_finish_flags _ _ _ _ _ _ _ _ _ rf h
  | T_BoolExpr boolop args =>
    rw [tdengine_foreign_expr_walker] at h
    split_ifs at h
    · exact ok_flags _ _ _ _ _ _ rf h
    · split at h
      · simp at h
      · split_ifs at h
        · exact ok_flags _ _ _ _ _ _ rf h
        · exact ok_flags _ _ _ _ _ _ rf h
        · exact walker_finish_flags _ _ _ _ _ _ _ _ _ rf h
  | T_List elems =>
    rw [tdengine_foreign_expr_walker] at h
    exact walker_List_node_flags _ _ _ _ _ _ rf h
  | T_Aggref aggfnoid aggtype aggcollid inputcollid args aggorder aggdistinct aggfilter aggstar
      aggvariadic aggsplit =>
    rw [tdengine_foreign_expr_walker] at h
    split at h
    · simp at h
    · exact ok_flags _ _ _ _ _ _ rf h
    · split at h
      · simp at h
      · split_ifs at h
        · exact ok_flags _ _ _ _ _ _ rf h
        · unfold walker_Aggref_post at h
          simp only at h
          split_ifs at h
          all_goals first
            | exact ok_flags _ _ _ _ _ _ rf h
            | exact walker_finish_flags _ _ _ _ _ _ _ _ _ rf h
  | T_TargetEntry expr resno ressortgroupref resjunk =>
    rw [tdengine_foreign_expr_walker] at h
    exact ok_flags _ _ _ _ _ _ rf h
  | T_CoerceViaIOExpr arg resulttype resultcollid =>
    rw [tdengine_foreign_expr_walker] at h
    split_ifs at h
    · exact ok_flags _ _ _ _ _ _ rf h
    · split at h
      · simp at h
      · split_ifs at h
        · exact ok_flags _ _ _ _ _ _ rf h
        · exact walker_finish_flags _ _ _ _ _ _ _ _ _ rf h
    · exact ok_flags _ _ _ _ _ _ rf h
  | T_NullTest arg nulltesttype =>
    rw [tdengine_foreign_expr_walker] at h
    unfold walker_NullTest at h
    split at h
    · exact ok_flags _ _ _ _ _ _ rf h
    · split_ifs at h
      · exact ok_flags _ _ _ _ _ _ rf h
      · exact walker_finish_flags _ _ _ _ _ _ _ _ _ rf h
  | T_ArrayExpr array_typeid array_collid elements =>
    rw [tdengine_foreign_expr_walker] at h
    split at h
    · simp at h
    · split_ifs at h
      · exact ok_flags _ _ _ _ _ _ rf h
      · exact walker_finish_flags _ _ _ _ _ _ _ _ _ rf h
  | T_Other tag type children =>
    rw [tdengine_foreign_expr_walker] at h
    exact ok_flags _ _ _ _ _ _ rf h

/-- The `foreach` loop of a list changes none of the five flags either. -/
theorem walker_foreach_flags (cat : Catalog) :
    ∀ (es : List Node) (g : foreign_glob_cxt) (itc : Bool) (c : foreign_loc_cxt) (r : WalkOut),
      walker_foreach cat es g itc c = .ok r → same_flags r.cxt c
  | [], g, itc, c, r, h => by
    rw [walker_foreach] at h
    exact ok_flags _ _ _ _ _ _ (same_flags_refl c) h
  | a :: rest, g, itc, c, r, h => by
    rw [walker_foreach] at h
    split at h
    · simp at h
    · rename_i r1 h1
      have hf := walker_flags cat a g itc c r1 h1
      split_ifs at h
      · simp only [Except.ok.injEq] at h
        rw [← h]
        exact hf
      · exact same_flags_trans _ _ _ (walker_foreach_flags cat rest _ _ _ _ h) hf

/-- The `foreach` loop on `xs ++ ys`: the loop on `xs`, then, if it accepted
all of them, the loop on `ys` from where it stopped. -/
theorem walker_foreach_append (cat : Catalog) (ys : List Node) :
    ∀ (xs : List Node) (g : foreign_glob_cxt) (itc : Bool) (c : foreign_loc_cxt),
      walker_foreach cat (xs ++ ys) g itc c =
        match walker_foreach cat xs g itc c with
        | .error e => .error e
        | .ok r =>
          if !r.result then .ok r else walker_foreach cat ys r.glob r.is_time_column r.cxt
  | [], g, itc, c => by
    simp [walker_foreach]
  | a :: rest, g, itc, c => by
    rw [List.cons_append, walker_foreach]
    conv_rhs => rw [walker_foreach]
    cases h1 : tdengine_foreign_expr_walker cat a g itc c with
    | error e => rfl
    | ok r1 =>
      simp only
      by_cases hr : r1.result = true
      · simp only [hr, Bool.not_true, Bool.false_eq_true, if_false]
        exact walker_foreach_append cat ys rest _ _ _
      · have hr2 : r1.result = false := by simpa using hr
        simp [hr2]

/-! ## Theorems: fill calls -/

/-- The `T_List` case starts its loop in `list_inner_cxt` of its outer context. -/
theorem walker_List_node_eq
    (loop : foreign_glob_cxt → Bool → foreign_loc_cxt → Except Err WalkOut)
    (g : foreign_glob_cxt) (itc : Bool) (outer_cxt : foreign_loc_cxt) :
    walker_List_node loop g itc outer_cxt =
      match loop g itc (list_inner_cxt outer_cxt) with
      | .error e => .error e
      | .ok r =>
        if !r.result then .ok ⟨false, r.glob, r.is_time_column, outer_cxt⟩
        else
          walker_finish (.ok InvalidOid) false r.cxt.collation r.cxt.state r.glob
            r.is_time_column outer_cxt := rfl

/-- The classification of the two fill functions under a non-builtin id. -/
theorem fill_name_classes (funcid : Oid) (name : String)
    (h_fill : name = "tdengine_fill_numeric" ∨ name = "tdengine_fill_option")
    (h_id : tdengine_is_builtin funcid = false) :
    (name != "now") = true ∧ (name == "float8" || name == "numeric") = false ∧
    tdengine_is_star_func funcid name = false ∧
    (tdengine_is_unique_func funcid name || tdengine_is_supported_builtin_func funcid name)
      = true ∧
    (name == "tdengine_fill_numeric" || name == "tdengine_fill_option") = true ∧
    (name == "tdengine_time") = false := by
  rcases h_fill with h | h <;> subst h <;>
    simp [tdengine_is_star_func, tdengine_is_unique_func, tdengine_is_supported_builtin_func,
      h_id] <;> decide

/-- C17 (counterexample): a fill function declared with the result type
timestamp and visited as an operand of a comparison, with
`tdengine_fill_enable` false, makes the walker return false and raises
nothing: in `time > f(0)` and on the call `f(0)` itself. -/
theorem fill_in_comparison_returns_false :
    tdengine_foreign_expr_walker demo_catalog
      (T_FuncExpr 20002 TIMESTAMPOID InvalidOid InvalidOid [demo_int "0"])
      (demo_glob .RELOPT_BASEREL) false { inner_cxt_init with is_comparison := true }
      = .ok ⟨false, demo_glob .RELOPT_BASEREL, false,
          { inner_cxt_init with is_comparison := true }⟩ ∧
    tdengine_is_foreign_expr demo_catalog .RELOPT_BASEREL demo_slinfo [1] 5000 false
      demo_time_gt_fill false = .ok false := by
  decide

/-- What `walker_FuncExpr_pre` answers for a call of `tdengine_time` when the
walker descends into the arguments: the inner context has
`tdengine_fill_enable` set. -/
theorem time_call_enables_fill (cat : Catalog) (time_fn : Oid)
    (h_time : cat.proname time_fn = some "tdengine_time") (funcresulttype : Oid)
    (g : foreign_glob_cxt) (itc : Bool) (c : foreign_loc_cxt) (P : FuncPre)
    (h : walker_FuncExpr_pre cat time_fn funcresulttype g itc c = .ok (.inr P)) :
    P.inner_cxt.tdengine_fill_enable = true := by
  have e1 : ("tdengine_time" == "tdengine_time") = true := by decide
  unfold walker_FuncExpr_pre at h
  simp only [h_time, e1, if_true] at h
  split_ifs at h
  all_goals first
    | (simp only [Except.ok.injEq, Sum.inr.injEq] at h; subst h; rfl)
    | simp at h

/-- C17 (amended): a call of `tdengine_fill_numeric` or `tdengine_fill_option`
(registered with a non-builtin function id) that is visited with
`tdengine_fill_enable` false in the enclosing context makes
`tdengine_foreign_expr_walker` raise the error of deparse.c 598 instead of
returning false, unless its result type is a time type and the enclosing
context is a comparison: then the walker returns false and raises nothing.
Visited with `tdengine_fill_enable` set, the call passes that check without an
error; and every direct argument of a `tdengine_time` call is visited with
`tdengine_fill_enable` set: the loop over the arguments starts in
`list_inner_cxt` of the inner context of the `tdengine_time` call and, whatever
arguments `pre` it has accepted before, still has the flag set. -/
theorem fill_outside_time_raises (cat : Catalog) (fill_fn : Oid) (name : String)
    (h_name : cat.proname fill_fn = some name)
    (h_fill : name = "tdengine_fill_numeric" ∨ name = "tdengine_fill_option")
    (h_id : tdengine_is_builtin fill_fn = false)
    (funcresulttype funccollid inputcollid : Oid) (args : List Node) :
    (∀ (g : foreign_glob_cxt) (itc : Bool) (c : foreign_loc_cxt),
      c.tdengine_fill_enable = false →
      (TDENGINE_IS_TIME_TYPE funcresulttype && c.is_comparison) = false →
      tdengine_foreign_expr_walker cat
        (T_FuncExpr fill_fn funcresulttype funccollid inputcollid args) g itc c
        = .error fill_syntax_error) ∧
    (∀ (g : foreign_glob_cxt) (itc : Bool) (c : foreign_loc_cxt),
      (TDENGINE_IS_TIME_TYPE funcresulttype && c.is_comparison) = true →
      tdengine_foreign_expr_walker cat
        (T_FuncExpr fill_fn funcresulttype funccollid inputcollid args) g itc c
        = .ok ⟨false, g, itc, c⟩) ∧
    (∀ (g : foreign_glob_cxt) (itc : Bool) (c : foreign_loc_cxt),
      c.tdengine_fill_enable = true →
      ∃ x, walker_FuncExpr_pre cat fill_fn funcresulttype g itc c = .ok x) ∧
    (∀ (time_fn : Oid) (time_type : Oid) (g : foreign_glob_cxt) (itc : Bool)
      (c : foreign_loc_cxt) (P : FuncPre),
      cat.proname time_fn = some "tdengine_time" →
      walker_FuncExpr_pre cat time_fn time_type g itc c = .ok (.inr P) →
      ∀ (pre : List Node) (r1 : WalkOut),
        walker_foreach cat pre P.glob itc (list_inner_cxt P.inner_cxt) = .ok r1 →
        r1.cxt.tdengine_fill_enable = true ∧
        ∃ x, walker_FuncExpr_pre cat fill_fn funcresulttype r1.glob r1.is_time_column r1.cxt
          = .ok x) := by
  obtain ⟨h_now, h_cast, h_star, h_can, h_isfill, h_nt⟩ := fill_name_classes fill_fn name h_fill h_id
  have h3 : ∀ (g : foreign_glob_cxt) (itc : Bool) (c : foreign_loc_cxt),
      c.tdengine_fill_enable = true →
      ∃ x, walker_FuncExpr_pre cat fill_fn funcresulttype g itc c = .ok x := by
    intro g itc c hc
    unfold walker_FuncExpr_pre
    simp only [h_name, h_cast, h_star, h_can, h_isfill, hc]
    split_ifs
    all_goals first
      | exact ⟨_, rfl⟩
      | simp_all
  refine ⟨?_, ?_, h3, ?_⟩
  · intro g itc c hc ht
    have h_pre : walker_FuncExpr_pre cat fill_fn funcresulttype g itc c
        = .error fill_syntax_error := by
      unfold walker_FuncExpr_pre
      simp [h_name, h_cast, h_star, h_can, h_isfill, hc, ht, fill_syntax_error]
    rw [tdengine_foreign_expr_walker, h_pre]
  · intro g itc c ht
    have h_pre : walker_FuncExpr_pre cat fill_fn funcresulttype g itc c
        = .ok (.inl ⟨false, g, itc, c⟩) := by
      unfold walker_FuncExpr_pre
      simp [h_name, h_now, ht]
    rw [tdengine_foreign_expr_walker, h_pre]
  · intro time_fn time_type g itc c P h_time hP pre r1 h1
    have hf := (walker_foreach_flags cat pre _ _ _ _ h1).2.1
    have he := time_call_enables_fill cat time_fn h_time time_type g itc c P hP
    have h_en : r1.cxt.tdengine_fill_enable = true := by
      rw [hf]
      exact he
    exact ⟨h_en, h3 _ _ _ h_en⟩

/-- Witness for C17: the function 20002 of the sample catalog is
`tdengine_fill_numeric`; `tdengine_fill_numeric(0)` visited on its own raises
the error. -/
theorem fill_outside_time_raises_witness :
    demo_catalog.proname 20002 = some "tdengine_fill_numeric" ∧
    tdengine_is_builtin 20002 = false ∧
    tdengine_foreign_expr_walker demo_catalog
      (T_FuncExpr 20002 INT4OID InvalidOid InvalidOid [demo_int "0"])
      (demo_glob .RELOPT_BASEREL) false inner_cxt_init = .error fill_syntax_error :=
  ⟨rfl, rfl,
   (fill_outside_time_raises demo_catalog 20002 "tdengine_fill_numeric" rfl (Or.inl rfl) rfl
     INT4OID InvalidOid InvalidOid [demo_int "0"]).1 (demo_glob .RELOPT_BASEREL) false
     inner_cxt_init rfl rfl⟩

/-! ## Theorems: an unsafe collation -/

theorem same_table_refl (g : foreign_glob_cxt) : same_table g g := ⟨rfl, rfl, rfl, rfl, rfl⟩

theorem same_table_trans (a b c : foreign_glob_cxt) (h1 : same_table a b)
    (h2 : same_table b c) : same_table a c :=
  ⟨h1.1.trans h2.1, h1.2.1.trans h2.2.1, h1.2.2.1.trans h2.2.2.1, h1.2.2.2.1.trans h2.2.2.2.1,
   h1.2.2.2.2.trans h2.2.2.2.2⟩

theorem ok_table (b : Bool) (g g0 : foreign_glob_cxt) (itc : Bool) (c : foreign_loc_cxt)
    (r : WalkOut) (hg : same_table g g0)
    (h : (Except.ok ⟨b, g, itc, c⟩ : Except Err WalkOut) = .ok r) : same_table r.glob g0 := by
  simp only [Except.ok.injEq] at h
  rw [← h]
  exact hg

theorem walker_finish_table (type : Except Err Oid) (check_type : Bool) (collation : Oid)
    (state : FDWCollateState) (g g0 : foreign_glob_cxt) (itc : Bool) (c : foreign_loc_cxt)
    (r : WalkOut) (hg : same_table g g0)
    (h : walker_finish type check_type collation state g itc c = .ok r) :
    same_table r.glob g0 := by
  unfold walker_finish at h
  split_ifs at h
  · split at h
    · simp at h
    · split_ifs at h
      · exact ok_table _ _ _ _ _ _ hg h
      · exact ok_table _ _ _ _ _ _ hg h
  · exact ok_table _ _ _ _ _ _ hg h

theorem walker_List_node_table
    (loop : foreign_glob_cxt → Bool → foreign_loc_cxt → Except Err WalkOut)
    (hloop : ∀ g2 i2 c2 r2, loop g2 i2 c2 = .ok r2 → same_table r2.glob g2)
    (g g0 : foreign_glob_cxt) (itc : Bool) (c : foreign_loc_cxt) (r : WalkOut)
    (hg : same_table g g0) (h : walker_List_node loop g itc c = .ok r) :
    same_table r.glob g0 := by
  unfold walker_List_node at h
  simp only at h
  split at h
  · simp at h
  · rename_i r1 h1
    have h2 := same_table_trans _ _ _ (hloop _ _ _ _ h1) hg
    split_ifs at h
    · exact ok_table _ _ _ _ _ _ h2 h
    · exact walker_finish_table _ _ _ _ _ _ _ _ _ h2 h

theorem walker_FuncExpr_pre_table (cat : Catalog) (funcid : Oid) (funcresulttype : Oid)
    (g : foreign_glob_cxt) (itc : Bool) (c : foreign_loc_cxt) (x : WalkOut ⊕ FuncPre)
    (h : walker_FuncExpr_pre cat funcid funcresulttype g itc c = .ok x) :
    same_table (FuncPre_glob x) g := by
  unfold walker_FuncExpr_pre at h
  split at h
  · simp at h
  · rename_i nm hnm
    by_cases hA : (TDENGINE_IS_TIME_TYPE funcresulttype && c.is_comparison &&
        (nm != "now" || !c.has_time_key)) = true
    · rw [if_pos hA] at h
      simp only [Except.ok.injEq] at h
      rw [← h]; exact same_table_refl g
    · rw [if_neg hA] at h
      lift_lets at h
      extract_lets is_cast is_star outer1 can src inner1 outer2 g1 inner2 outer3 at h
      have h1 : same_table g1 g := by
        simp only [g1]
        split_ifs
        · exact same_table_refl g
        · exact ⟨rfl, rfl, rfl, rfl, rfl⟩
      split_ifs at h
      all_goals
        simp only [Except.ok.injEq] at h
        rw [← h]
        first
          | exact same_table_refl g
          | exact h1

mutual
/-- The walker leaves the relation of the global context as it was: it writes
`mixing_aggref_status` and `is_inner_func` only. -/
theorem walker_table (cat : Catalog) :
    ∀ (e : Node) (g : foreign_glob_cxt) (itc : Bool) (c : foreign_loc_cxt) (r : WalkOut),
      tdengine_foreign_expr_walker cat e g itc c = .ok r → same_table r.glob g
  | T_Var varno varattno vartype vartypmod varcollid varlevelsup, g, itc, c, r, h => by
    have rf := same_table_refl g
    have rf1 : same_table
        { g with mixing_aggref_status := g.mixing_aggref_status ||| TDENGINE_TARGETS_MARK_COLUMN }
        g := ⟨rfl, rfl, rfl, rfl, rfl⟩
    rw [tdengine_foreign_expr_walker] at h
    unfold walker_Var at h
    simp only at h
    split_ifs at h
    all_goals first
      | exact ok_table _ _ _ _ _ _ rf h
      | exact walker_finish_table _ _ _ _ _ _ _ _ _ rf h
      | exact walker_finish_table _ _ _ _ _ _ _ _ _ rf1 h
  | T_Const consttype constcollid constvalue constisnull, g, itc, c, r, h => by
    have rf := same_table_refl g
    rw [tdengine_foreign_expr_walker] at h
    unfold walker_Const at h
    simp only at h
    split_ifs at h
    all_goals try split at h
    all_goals first
      | exact ok_table _ _ _ _ _ _ rf h
      | exact walker_finish_table _ _ _ _ _ _ _ _ _ rf h
      | simp at h
  | T_Param paramid paramtype paramtypmod paramcollid, g, itc, c, r, h => by
    have rf := same_table_refl g
    rw [tdengine_foreign_expr_walker] at h
    unfold walker_Param at h
    split_ifs at h
    all_goals first
      | exact ok_table _ _ _ _ _ _ rf h
      | exact walker_finish_table _ _ _ _ _ _ _ _ _ rf h
  | T_FieldSelect arg fieldnum resulttype resultcollid, g, itc, c, r, h => by
    have rf := same_table_refl g
    rw [tdengine_foreign_expr_walker] at h
    unfold walker_FieldSelect at h
    split_ifs at h
    all_goals exact ok_table _ _ _ _ _ _ rf h
  | T_FuncExpr funcid funcresulttype funccollid inputcollid args, g, itc, c, r, h => by
    rw [tdengine_foreign_expr_walker] at h
    split at h
    · simp at h
    · rename_i r0 h0
      simp only [Except.ok.injEq] at h
      rw [← h]
      exact walker_FuncExpr_pre_table cat funcid funcresulttype g itc c _ h0
    · rename_i P h0
      have hP : same_table P.glob g :=
        walker_FuncExpr_pre_table cat funcid funcresulttype g itc c _ h0
      split at h
      · simp at h
      · rename_i r2 h2
        have hr2 : same_table r2.glob g :=
          walker_List_node_table _ (fun g2 i2 c2 r3 h3 =>
            walker_foreach_table cat args g2 i2 c2 r3 h3) _ _ _ _ _ hP h2
        have hr3 : same_table { r2.glob with is_inner_func := false } g :=
          same_table_trans _ r2.glob g ⟨rfl, rfl, rfl, rfl, rfl⟩ hr2
        split_ifs at h
        · exact ok_table _ _ _ _ _ _ hr2 h
        · unfold walker_FuncExpr_post at h
          simp only at h
          split_ifs at h
          all_goals first
            | exact ok_table _ _ _ _ _ _ hr2 h
            | exact ok_table _ _ _ _ _ _ hr3 h
            | exact walker_finish_table _ _ _ _ _ _ _ _ _ hr2 h
            | exact walker_finish_table _ _ _ _ _ _ _ _ _ hr3 h
  | T_OpExpr opno opresulttype opcollid inputcollid args, g, itc, c, r, h => by
    have rf := same_table_refl g
    rw [tdengine_foreign_expr_walker] at h
    split at h
    · simp at h
    · exact ok_table _ _ _ _ _ _ rf h
    · split_ifs at h
      · exact walker_finish_table _ _ _ _ _ _ _ _ _ rf h
      · split at h
        · simp at h
        · rename_i r2 h2
          have hr2 : same_table r2.glob g :=
            walker_List_node_table _ (fun g2 i2 c2 r3 h3 =>
              walker_foreach_table cat args g2 i2 c2 r3 h3) _ _ _ _ _ rf h2
          split_ifs at h
          · exact ok_table _ _ _ _ _ _ hr2 h
          · unfold walker_OpExpr_post at h
            split_ifs at h
            · exact ok_table _ _ _ _ _ _ hr2 h
            · exact ok_table _ _ _ _ _ _ hr2 h
            · exact walker_finish_table _ _ _ _ _ _ _ _ _ hr2 h
  | T_DistinctExpr opno opresulttype opcollid inputcollid args, g, itc, c, r, h => by
    rw [tdengine_foreign_expr_walker] at h
    exact ok_table _ _ _ _ _ _ (same_table_refl g) h
  | T_ScalarArrayOpExpr opno useOr inputcollid args, g, itc, c, r, h => by
    have rf := same_table_refl g
    rw [tdengine_foreign_expr_walker] at h
    split at h
    · simp at h
    · exact ok_table _ _ _ _ _ _ rf h
    · split at h
      · simp at h
      · rename_i r2 h2
        have hr2 : same_table r2.glob g :=
          walker_List_node_table _ (fun g2 i2 c2 r3 h3 =>
            walker_foreach_table cat args g2 i2 c2 r3 h3) _ _ _ _ _ rf h2
        split_ifs at h
        · exact ok_table _ _ _ _ _ _ hr2 h
        · exact ok_table _ _ _ _ _ _ hr2 h
        · exact walker_finish_table _ _ _ _ _ _ _ _ _ hr2 h
  | T_RelabelType arg resulttype resultcollid, g, itc, c, r, h => by
    rw [tdengine_foreign_expr_walker] at h
    split at h
    · simp at h
    · rename_i r2 h2
      have hr2 : same_table r2.glob g := walker_table cat arg _ _ _ _ h2
      split_ifs at h
      · exact ok_table _ _ _ _ _ _ hr2 h
      · exact walker_finish_table _ _ _ _ _ _ _ _ _ hr2 h
  | T_BoolExpr boolop args, g, itc, c, r, h => by
    have rf := same_table_refl g
    rw [tdengine_foreign_expr_walker] at h
    split_ifs at h
    · exact ok_table _ _ _ _ _ _ rf h
    · split at h
      · simp at h
      · rename_i r2 h2
        have hr2 : same_table r2.glob g :=
          walker_List_node_table _ (fun g2 i2 c2 r3 h3 =>
            walker_foreach_table cat args g2 i2 c2 r3 h3) _ _ _ _ _ rf h2
        split_ifs at h
        · exact ok_table _ _ _ _ _ _ hr2 h
        · exact ok_table _ _ _ _ _ _ hr2 h
        · exact walker_finish_table _ _ _ _ _ _ _ _ _ hr2 h
  | T_List elems, g, itc, c, r, h => by
    rw [tdengine_foreign_expr_walker] at h
    exact walker_List_node_table _ (fun g2 i2 c2 r3 h3 =>
      walker_foreach_table cat elems g2 i2 c2 r3 h3) _ _ _ _ _ (same_table_refl g) h
  | T_Aggref aggfnoid aggtype aggcollid inputcollid args aggorder aggdistinct aggfilter aggstar
      aggvariadic aggsplit, g, itc, c, r, h => by
    have rf := same_table_refl g
    rw [tdengine_foreign_expr_walker] at h
    split at h
    · simp at h
    · exact ok_table _ _ _ _ _ _ rf h
    · rename_i pre hpre
      split at h
      · simp at h
      · rename_i r2 st2 h2
        have hr2 : same_table r2.glob g := walker_aggargs_table cat pre args _ _ _ _ _ _ h2
        split_ifs at h
        · exact ok_table _ _ _ _ _ _ hr2 h
        · unfold walker_Aggref_post at h
          simp only at h
          split_ifs at h
          all_goals first
            | exact ok_table _ _ _ _ _ _ hr2 h
            | exact walker_finish_table _ _ _ _ _ _ _ _ _ hr2 h
  | T_TargetEntry expr resno ressortgroupref resjunk, g, itc, c, r, h => by
    rw [tdengine_foreign_expr_walker] at h
    exact ok_table _ _ _ _ _ _ (same_table_refl g) h
  | T_CoerceViaIOExpr arg resulttype resultcollid, g, itc, c, r, h => by
    have rf := same_table_refl g
    rw [tdengine_foreign_expr_walker] at h
    split_ifs at h
    · exact ok_table _ _ _ _ _ _ rf h
    · split at h
      · simp at h
      · rename_i r2 h2
        have hr2 : same_table r2.glob g := walker_table cat arg _ _ _ _ h2
        split_ifs at h
        · exact ok_table _ _ _ _ _ _ hr2 h
        · exact walker_finish_table _ _ _ _ _ _ _ _ _ hr2 h
    · exact ok_table _ _ _ _ _ _ rf h
  | T_NullTest arg nulltesttype, g, itc, c, r, h => by
    have rf := same_table_refl g
    rw [tdengine_foreign_expr_walker] at h
    unfold walker_NullTest at h
    split at h
    · exact ok_table _ _ _ _ _ _ rf h
    · split_ifs at h
      · exact ok_table _ _ _ _ _ _ rf h
      · exact walker_finish_table _ _ _ _ _ _ _ _ _ rf h
  | T_ArrayExpr array_typeid array_collid elements, g, itc, c, r, h => by
    rw [tdengine_foreign_expr_walker] at h
    split at h
    · simp at h
    · rename_i r2 h2
      have hr2 : same_table r2.glob g :=
        walker_List_node_table _ (fun g2 i2 c2 r3 h3 =>
          walker_foreach_table cat elements g2 i2 c2 r3 h3) _ _ _ _ _ (same_table_refl g) h2
      split_ifs at h
      · exact ok_table _ _ _ _ _ _ hr2 h
      · exact walker_finish_table _ _ _ _ _ _ _ _ _ hr2 h
  | T_Other tag type children, g, itc, c, r, h => by
    rw [tdengine_foreign_expr_walker] at h
    exact ok_table _ _ _ _ _ _ (same_table_refl g) h
/-- The same for the element loop of a list. -/
theorem walker_foreach_table (cat : Catalog) :
    ∀ (es : List Node) (g : foreign_glob_cxt) (itc : Bool) (c : foreign_loc_cxt) (r : WalkOut),
      walker_foreach cat es g itc c = .ok r → same_table r.glob g
  | [], g, itc, c, r, h => by
    rw [walker_foreach] at h
    exact ok_table _ _ _ _ _ _ (same_table_refl g) h
  | a :: rest, g, itc, c, r, h => by
    rw [walker_foreach] at h
    split at h
    · simp at h
    · rename_i r1 h1
      have hf := walker_table cat a g itc c r1 h1
      split_ifs at h
      · simp only [Except.ok.injEq] at h
        rw [← h]
        exact hf
      · exact same_table_trans _ _ _ (walker_foreach_table cat rest _ _ _ _ h) hf
/-- The same for the argument loop of an aggregate. -/
theorem walker_aggargs_table (cat : Catalog) (pre : AggPre) :
    ∀ (es : List Node) (st : AggLoop) (g : foreign_glob_cxt) (itc : Bool)
      (c : foreign_loc_cxt) (r : WalkOut) (st2 : AggLoop),
      walker_aggargs cat pre es st g itc c = .ok (r, st2) → same_table r.glob g
  | [], st, g, itc, c, r, st2, h => by
    rw [walker_aggargs] at h
    simp only [Except.ok.injEq, Prod.mk.injEq] at h
    rw [← h.1]
    exact same_table_refl g
  | T_TargetEntry n a1 a2 a3 :: rest, st, g, itc, c, r, st2, h => by
    rw [walker_aggargs] at h
    split at h
    · simp at h
    · simp only [Except.ok.injEq, Prod.mk.injEq] at h
      rw [← h.1]
      exact same_table_refl g
    · split at h
      · simp at h
      · rename_i r1 h1
        have hf := walker_table cat n g itc c r1 h1
        split_ifs at h
        · simp only [Except.ok.injEq, Prod.mk.injEq] at h
          rw [← h.1]
          exact hf
        · simp only [Except.ok.injEq, Prod.mk.injEq] at h
          rw [← h.1]
          exact hf
        · exact same_table_trans _ _ _ (walker_aggargs_table cat pre rest _ _ _ _ _ _ h) hf
  | n :: rest, st, g, itc, c, r, st2, h => by
    have key : ∀ (wrapped : Bool) (m : Node),
        (∀ g2 i2 c2 r2, tdengine_foreign_expr_walker cat m g2 i2 c2 = .ok r2 →
          same_table r2.glob g2) →
        ((match aggref_arg_pre cat g pre st wrapped m with
          | .error e => .error e
          | .ok none => .ok (⟨false, g, itc, c⟩, st)
          | .ok (some st1) =>
            match tdengine_foreign_expr_walker cat m g itc c with
            | .error e => .error e
            | .ok r =>
              if !r.result then .ok (r, st1)
              else if aggref_time_rejected pre r.is_time_column then
                .ok (⟨false, r.glob, false, r.cxt⟩, st1)
              else walker_aggargs cat pre rest st1 r.glob r.is_time_column r.cxt :
            Except Err (WalkOut × AggLoop))
          = .ok (r, st2)) → same_table r.glob g := by
      intro wrapped m ihm h2
      split at h2
      · simp at h2
      · simp only [Except.ok.injEq, Prod.mk.injEq] at h2
        rw [← h2.1]
        exact same_table_refl g
      · split at h2
        · simp at h2
        · rename_i r1 h1
          have hf := ihm g itc c r1 h1
          split_ifs at h2
          · simp only [Except.ok.injEq, Prod.mk.injEq] at h2
            rw [← h2.1]
            exact hf
          · simp only [Except.ok.injEq, Prod.mk.injEq] at h2
            rw [← h2.1]
            exact hf
          · exact same_table_trans _ _ _ (walker_aggargs_table cat pre rest _ _ _ _ _ _ h2) hf
    have hn : ∀ m, m = n → ∀ g2 i2 c2 r2,
        tdengine_foreign_expr_walker cat m g2 i2 c2 = .ok r2 → same_table r2.glob g2 := by
      intro m hmn g2 i2 c2 r2 hw2
      subst hmn
      exact walker_table cat m g2 i2 c2 r2 hw2
    by_cases hT : ∃ e a1 a2 a3, n = T_TargetEntry e a1 a2 a3
    · cases n with
      | T_TargetEntry e a1 a2 a3 =>
        rw [walker_aggargs] at h
        exact key true e (fun g2 i2 c2 r2 hw2 => walker_table cat e g2 i2 c2 r2 hw2) h
      | _ =>
        obtain ⟨e, a1, a2, a3, he⟩ := hT
        cases he
    · rw [walker_aggargs] at h
      · exact key false n (hn n rfl) h
      · intro n2 a1 a2 a3 hn2
        exact hT ⟨n2, a1, a2, a3, hn2⟩
end

/-! ## Theorems: an aggregate of a tag key -/

theorem slvar_fetch_schemaless (cat : Catalog) (n : Node) (sl : schemaless_info)
    (h : tdengine_is_slvar_fetch cat n sl = true) : sl.schemaless = true := by
  unfold tdengine_is_slvar_fetch at h
  by_cases h1 : (!sl.schemaless) = true
  · rw [if_pos h1] at h
    simp at h
  · simpa using h1

/-- The argument checks of the `T_Aggref` case reject a reference to a tag key
that was wrapped in a `TargetEntry`. -/
theorem aggref_arg_pre_tag (cat : Catalog) (g g2 : foreign_glob_cxt) (hg : same_table g2 g)
    (pre : AggPre) (st : AggLoop) (n : Node) (h : tag_reference cat g n = true) :
    aggref_arg_pre cat g2 pre st true n = .ok none := by
  obtain ⟨-, hsl, -, hrel, -⟩ := hg
  unfold tag_reference at h
  split at h
  · rename_i x1 varattno x3 x4 x5 x6
    split at h
    · rename_i colname hc
      simp [aggref_arg_pre, aggref_tle_check, aggref_column_check, hrel, hc, h]
    · simp at h
  · rw [Bool.and_eq_true] at h
    have hs : g.slinfo.schemaless = true := slvar_fetch_schemaless cat _ _ h.1
    simp [aggref_arg_pre, aggref_tle_check, aggref_column_check, hrel, hsl, hs, h.1, h.2]
  · rw [Bool.and_eq_true] at h
    have hs : g.slinfo.schemaless = true := slvar_fetch_schemaless cat _ _ h.1
    simp [aggref_arg_pre, aggref_tle_check, aggref_column_check, hrel, hsl, hs, h.1, h.2]
  · simp at h

/-- The argument loop on `xs ++ ys`: the loop on `xs`, then, if it accepted
all of them, the loop on `ys` from where it stopped. -/
theorem walker_aggargs_append (cat : Catalog) (pre : AggPre) (ys : List Node) :
    ∀ (xs : List Node) (st : AggLoop) (g : foreign_glob_cxt) (itc : Bool)
      (c : foreign_loc_cxt),
      walker_aggargs cat pre (xs ++ ys) st g itc c =
        match walker_aggargs cat pre xs st g itc c with
        | .error e => .error e
        | .ok (r, st1) =>
          if !r.result then .ok (r, st1)
          else walker_aggargs cat pre ys st1 r.glob r.is_time_column r.cxt
  | [], st, g, itc, c => by
    simp [walker_aggargs]
  | T_TargetEntry n a1 a2 a3 :: rest, st, g, itc, c => by
    rw [List.cons_append, walker_aggargs]
    conv_rhs => rw [walker_aggargs]
    cases h0 : aggref_arg_pre cat g pre st true n with
    | error e => rfl
    | ok o =>
      cases o with
      | none => simp
      | some st1 =>
        simp only
        cases h1 : tdengine_foreign_expr_walker cat n g itc c with
        | error e => rfl
        | ok r1 =>
          simp only
          by_cases hr : r1.result = true
          · simp only [hr, Bool.not_true, Bool.false_eq_true, if_false]
            by_cases ht : aggref_time_rejected pre r1.is_time_column = true
            · simp [ht]
            · simp only [ht, if_false]
              exact walker_aggargs_append cat pre ys rest _ _ _ _
          · have hr2 : r1.result = false := by simpa using hr
            simp [hr2]
  | n :: rest, st, g, itc, c => by
    have key : ∀ (wrapped : Bool) (m : Node),
        ((match aggref_arg_pre cat g pre st wrapped m with
          | .error e => .error e
          | .ok none => .ok (⟨false, g, itc, c⟩, st)
          | .ok (some st1) =>
            match tdengine_foreign_expr_walker cat m g itc c with
            | .error e => .error e
            | .ok r =>
              if !r.result then .ok (r, st1)
              else if aggref_time_rejected pre r.is_time_column then
                .ok (⟨false, r.glob, false, r.cxt⟩, st1)
              else walker_aggargs cat pre (rest ++ ys) st1 r.glob r.is_time_column r.cxt :
            Except Err (WalkOut × AggLoop))
          =
          match (match aggref_arg_pre cat g pre st wrapped m with
            | .error e => .error e
            | .ok none => .ok (⟨false, g, itc, c⟩, st)
            | .ok (some st1) =>
              match tdengine_foreign_expr_walker cat m g itc c with
              | .error e => .error e
              | .ok r =>
                if !r.result then .ok (r, st1)
                else if aggref_time_rejected pre r.is_time_column then
                  .ok (⟨false, r.glob, false, r.cxt⟩, st1)
                else walker_aggargs cat pre rest st1 r.glob r.is_time_column r.cxt :
              Except Err (WalkOut × AggLoop)) with
          | .error e => .error e
          | .ok (r, st1) =>
            if !r.result then .ok (r, st1)
            else walker_aggargs cat pre ys st1 r.glob r.is_time_column r.cxt) := by
      intro wrapped m
      cases h0 : aggref_arg_pre cat g pre st wrapped m with
      | error e => rfl
      | ok o =>
        cases o with
        | none => simp
        | some st1 =>
          simp only
          cases h1 : tdengine_foreign_expr_walker cat m g itc c with
          | error e => rfl
          | ok r1 =>
            simp only
            by_cases hr : r1.result = true
            · simp only [hr, Bool.not_true, Bool.false_eq_true, if_false]
              by_cases ht : aggref_time_rejected pre r1.is_time_column = true
              · simp [ht]
              · simp only [ht, if_false]
                exact walker_aggargs_append cat pre ys rest _ _ _ _
            · have hr2 : r1.result = false := by simpa using hr
              simp [hr2]
    by_cases hT : ∃ e a1 a2 a3, n = T_TargetEntry e a1 a2 a3
    · obtain ⟨e, a1, a2, a3, he⟩ := hT
      subst he
      rw [List.cons_append, walker_aggargs]
      conv_rhs => rw [walker_aggargs]
      exact key true e
    · have hside : ∀ n2 a1 a2 a3, n = T_TargetEntry n2 a1 a2 a3 → False :=
        fun n2 a1 a2 a3 hn2 => hT ⟨n2, a1, a2, a3, hn2⟩
      rw [List.cons_append, walker_aggargs.eq_3 cat pre st g itc c n (rest ++ ys) hside,
        walker_aggargs.eq_3 cat pre st g itc c n rest hside]
      exact key false n

/-- C16 (counterexample): on `tdengine_max_all(tdengine_fill_numeric(1), name)`,
whose second argument is the tag key `name`, the walker does not return false:
the first argument is examined first and raises the error of the fill call. -/
theorem aggregate_of_tag_raises :
    tag_reference demo_catalog_tags (demo_glob .RELOPT_UPPER_REL) demo_name = true ∧
    tdengine_foreign_expr_walker demo_catalog_tags demo_star_fill_tag
      (demo_glob .RELOPT_UPPER_REL) false inner_cxt_init = .error fill_syntax_error := by
  decide

/-- C16 (amended): for every `Aggref` (of `max` or any other aggregate name)
that has, among its arguments, a column `Var` or dynamic-key access whose
remote name is in the tag list of the table, whatever the type of the column,
`tdengine_foreign_expr_walker` returns false, unless the examination of an
argument that stands before it raises an error, which the walker then raises.
It never returns true, and when the reference is the first argument, as in
`max(tag)`, it returns false. -/
theorem aggregate_of_tag_rejected (cat : Catalog) (aggfnoid : Oid) (opername : String)
    (h_name : cat.proname aggfnoid = some opername)
    (aggtype aggcollid inputcollid : Oid) (before after : List Node)
    (n : Node) (resno : Int) (ressortgroupref : Nat) (resjunk : Bool)
    (aggorder aggdistinct : List Nat) (aggfilter : Option Node) (aggstar aggvariadic : Bool)
    (aggsplit : AggSplit) (g : foreign_glob_cxt) (h_tag : tag_reference cat g n = true)
    (itc : Bool) (outer_cxt : foreign_loc_cxt) :
    ((∃ r, tdengine_foreign_expr_walker cat
        (T_Aggref aggfnoid aggtype aggcollid inputcollid
          (before ++ T_TargetEntry n resno ressortgroupref resjunk :: after)
          aggorder aggdistinct aggfilter aggstar aggvariadic aggsplit) g itc outer_cxt = .ok r ∧
        r.result = false) ∨
     (∃ pre e, walker_Aggref_pre cat aggfnoid aggsplit g itc = .ok (some pre) ∧
        walker_aggargs cat pre before ⟨-1, false, inputcollid⟩ g false inner_cxt_init
          = .error e ∧
        tdengine_foreign_expr_walker cat
          (T_Aggref aggfnoid aggtype aggcollid inputcollid
            (before ++ T_TargetEntry n resno ressortgroupref resjunk :: after)
            aggorder aggdistinct aggfilter aggstar aggvariadic aggsplit) g itc outer_cxt
          = .error e)) ∧
    (before = [] →
      ∃ r, tdengine_foreign_expr_walker cat
        (T_Aggref aggfnoid aggtype aggcollid inputcollid
          (before ++ T_TargetEntry n resno ressortgroupref resjunk :: after)
          aggorder aggdistinct aggfilter aggstar aggvariadic aggsplit) g itc outer_cxt = .ok r ∧
        r.result = false) := by
  have main : (∃ r, tdengine_foreign_expr_walker cat
        (T_Aggref aggfnoid aggtype aggcollid inputcollid
          (before ++ T_TargetEntry n resno ressortgroupref resjunk :: after)
          aggorder aggdistinct aggfilter aggstar aggvariadic aggsplit) g itc outer_cxt = .ok r ∧
        r.result = false) ∨
     (∃ pre e, walker_Aggref_pre cat aggfnoid aggsplit g itc = .ok (some pre) ∧
        walker_aggargs cat pre before ⟨-1, false, inputcollid⟩ g false inner_cxt_init
          = .error e ∧
        tdengine_foreign_expr_walker cat
          (T_Aggref aggfnoid aggtype aggcollid inputcollid
            (before ++ T_TargetEntry n resno ressortgroupref resjunk :: after)
            aggorder aggdistinct aggfilter aggstar aggvariadic aggsplit) g itc outer_cxt
          = .error e) := by
    rw [tdengine_foreign_expr_walker]
    cases h_pre : walker_Aggref_pre cat aggfnoid aggsplit g itc with
    | error e =>
      simp only [walker_Aggref_pre, h_name] at h_pre
      split_ifs at h_pre
    | ok p =>
      cases p with
      | none => exact Or.inl ⟨_, rfl, rfl⟩
      | some pre =>
        simp only
        rw [walker_aggargs_append]
        cases h_loop : walker_aggargs cat pre before ⟨-1, false, inputcollid⟩ g false
            inner_cxt_init with
        | error e => exact Or.inr ⟨pre, e, rfl, h_loop, rfl⟩
        | ok x =>
          obtain ⟨r1, st1⟩ := x
          left
          simp only
          by_cases hr : r1.result = true
          · have hg : same_table r1.glob g :=
              walker_aggargs_table cat pre before _ _ _ _ _ _ h_loop
            simp only [hr, Bool.not_true, Bool.false_eq_true, if_false]
            rw [walker_aggargs, aggref_arg_pre_tag cat g r1.glob hg pre st1 n h_tag]
            exact ⟨_, rfl, rfl⟩
          · have hr2 : r1.result = false := by simpa using hr
            simp only [hr2, Bool.not_false, if_true]
            exact ⟨_, rfl, rfl⟩
  refine ⟨main, ?_⟩
  intro hb
  rcases main with h | ⟨pre, e, -, h2, -⟩
  · exact h
  · rw [hb, walker_aggargs] at h2
    simp at h2

/-- Witness for C16: `max(name)` on the upper relation of the sample table,
whose tag key is `name`, is rejected. -/
theorem aggregate_of_tag_rejected_witness :
    demo_catalog_tags.proname 2129 = some "max" ∧
    tag_reference demo_catalog_tags (demo_glob .RELOPT_UPPER_REL) demo_name = true ∧
    tdengine_foreign_expr_walker demo_catalog_tags demo_max_tag
      (demo_glob .RELOPT_UPPER_REL) false inner_cxt_init
      = .ok ⟨false, demo_glob .RELOPT_UPPER_REL, false, inner_cxt_init⟩ ∧
    (∃ r, tdengine_foreign_expr_walker demo_catalog_tags demo_max_tag
      (demo_glob .RELOPT_UPPER_REL) false inner_cxt_init = .ok r ∧ r.result = false) :=
  ⟨rfl, by decide, by decide,
   (aggregate_of_tag_rejected demo_catalog_tags 2129 "max" rfl TEXTOID DEFAULT_COLLATION_OID
     DEFAULT_COLLATION_OID [] [] demo_name 1 0 false [] [] none false false .AGGSPLIT_SIMPLE
     (demo_glob .RELOPT_UPPER_REL) (by decide) false inner_cxt_init).2 rfl⟩

/-! ## Theorems: the time key compared with time arithmetic -/

/-- In a context that is a comparison with the time key, below a `+` or `-`,
the walker returns false on a time-typed column of the relation and on a
time-typed `Param`. -/
theorem time_operand_walk (cat : Catalog) (g g2 : foreign_glob_cxt) (hg : same_table g2 g)
    (x : Node) (hx : time_operand g x = true) (itc : Bool) (c : foreign_loc_cxt)
    (hc : time_arith_in_comparison c = true) :
    ∃ r, tdengine_foreign_expr_walker cat x g2 itc c = .ok r ∧ r.result = false := by
  obtain ⟨-, -, hrel, -, -⟩ := hg
  cases x <;> simp only [time_operand, Bool.false_eq_true] at hx
  · rename_i varno varattno vartype vartypmod varcollid varlevelsup
    simp only [Bool.and_eq_true] at hx
    rw [tdengine_foreign_expr_walker]
    unfold walker_Var
    simp only [hrel, hx.1.1, hx.1.2, hx.2, hc, Bool.and_self, if_true]
    split_ifs <;> exact ⟨_, rfl, rfl⟩
  · rename_i paramid paramtype paramtypmod paramcollid
    rw [tdengine_foreign_expr_walker]
    unfold walker_Param
    simp only [hx, hc, Bool.and_self, if_true]
    split_ifs <;> exact ⟨_, rfl, rfl⟩

theorem time_arith_flags (c c2 : foreign_loc_cxt) (h : same_flags c2 c)
    (hc : time_arith_in_comparison c = true) : time_arith_in_comparison c2 = true := by
  obtain ⟨-, -, h1, h2, h3⟩ := h
  unfold time_arith_in_comparison at hc ⊢
  rw [h1, h2, h3]
  exact hc

/-- The loop over a list that holds such an operand, in such a context, never
accepts the list; and it returns false when the operand stands first. -/
theorem time_operand_in_list (cat : Catalog) (g : foreign_glob_cxt) (x : Node)
    (hx : time_operand g x = true) (before after : List Node)
    (g2 : foreign_glob_cxt) (hg : same_table g2 g) (itc : Bool) (c : foreign_loc_cxt)
    (hc : time_arith_in_comparison c = true) :
    (∀ r, walker_foreach cat (before ++ x :: after) g2 itc c = .ok r → r.result = false) ∧
    (before = [] →
      ∃ r, walker_foreach cat (before ++ x :: after) g2 itc c = .ok r ∧ r.result = false) := by
  have tail : ∀ (g3 : foreign_glob_cxt) (i3 : Bool) (c3 : foreign_loc_cxt),
      same_table g3 g → time_arith_in_comparison c3 = true →
      ∃ r, walker_foreach cat (x :: after) g3 i3 c3 = .ok r ∧ r.result = false := by
    intro g3 i3 c3 hg3 hc3
    obtain ⟨r, h1, h2⟩ := time_operand_walk cat g g3 hg3 x hx i3 c3 hc3
    rw [walker_foreach, h1]
    simp only [h2, Bool.not_false, if_true]
    exact ⟨r, rfl, h2⟩
  constructor
  · intro r h
    rw [walker_foreach_append] at h
    split at h
    · simp at h
    · rename_i r1 h1
      by_cases hr : r1.result = true
      · simp only [hr, Bool.not_true, Bool.false_eq_true, if_false] at h
        obtain ⟨r2, h2, h3⟩ := tail r1.glob r1.is_time_column r1.cxt
          (same_table_trans _ _ _ (walker_foreach_table cat before _ _ _ _ h1) hg)
          (time_arith_flags c r1.cxt (walker_foreach_flags cat before _ _ _ _ h1) hc)
        rw [h2] at h
        simp only [Except.ok.injEq] at h
        rw [← h]
        exact h3
      · have hr2 : r1.result = false := by simpa using hr
        simp only [hr2, Bool.not_false, if_true, Except.ok.injEq] at h
        rw [← h]
        exact hr2
  · intro hb
    rw [hb, List.nil_append]
    exact tail g2 itc c hg hc

/-- The checks of the `T_OpExpr` case on an operator `+` or `-`: apart from the
builtin test and the two column scans nothing rejects, and the inner context is
`arith_inner_cxt`. -/
theorem walker_OpExpr_pre_arith (cat : Catalog) (node : Node) (opno : Oid)
    (form : Form_pg_operator) (h_op : cat.operator opno = some form)
    (h_name : form.oprname = "+" ∨ form.oprname = "-") (args : List Node)
    (g : foreign_glob_cxt) (c : foreign_loc_cxt) :
    walker_OpExpr_pre cat node opno args g c =
      if !tdengine_is_builtin opno && !tdengine_is_slvar_fetch cat node g.slinfo &&
          !tdengine_is_param_fetch node g.slinfo then .ok none
      else
        match tdengine_contain_time_key_column cat g.relid args with
        | .error e => .error e
        | .ok _ =>
          match tdengine_contain_time_column args with
          | .error e => .error e
          | .ok _ => .ok (some (arith_inner_cxt c)) := by
  have h1 : is_comparison_opname form.oprname = false := by
    rcases h_name with h | h <;> rw [h] <;> decide
  have h2 : is_ordering_or_eq_opname form.oprname = false := by
    rcases h_name with h | h <;> rw [h] <;> decide
  have h3 : (form.oprname == "!=" || form.oprname == "<>") = false := by
    rcases h_name with h | h <;> rw [h] <;> decide
  have h4 : (form.oprname == "+" || form.oprname == "-") = true := by
    rcases h_name with h | h <;> rw [h] <;> decide
  unfold walker_OpExpr_pre
  simp only [h_op]
  split_ifs
  · rfl
  · cases hk : tdengine_contain_time_key_column cat g.relid args with
    | error e =>
      simp [both_operands_interval, h1, bind, Except.bind, pure, Except.pure]
    | ok k =>
      cases hc : tdengine_contain_time_column args with
      | error e =>
        simp [both_operands_interval, h1, h3, bind, Except.bind, pure, Except.pure]
      | ok t =>
        simp [both_operands_interval, time_operand_rejected, h1, h2, h3, h4, bind, Except.bind,
          pure, Except.pure, arith_inner_cxt]

theorem opexpr_not_fetch (cat : Catalog) (opno t oc ic : Oid) (args : List Node)
    (sl : schemaless_info) (h : opno ≠ sl.jsonb_op_oid) :
    (tdengine_is_slvar_fetch cat (T_OpExpr opno t oc ic args) sl ||
      tdengine_is_param_fetch (T_OpExpr opno t oc ic args) sl) = false := by
  have hb : (opno != sl.jsonb_op_oid) = true := by simpa using h
  simp [tdengine_is_slvar_fetch, tdengine_is_param_fetch, is_slvar_fetch_op, hb]

/-- Below a comparison with the time key, the walker never accepts an `OpExpr`
`+` or `-` that has a time-typed column of the relation or a time-typed `Param`
among its operands; it returns false when that operand stands first and the
two column scans of the operands raise no error. -/
theorem time_arith_walk (cat : Catalog) (opno : Oid) (form : Form_pg_operator)
    (h_op : cat.operator opno = some form)
    (h_name : form.oprname = "+" ∨ form.oprname = "-")
    (t oc ic : Oid) (g : foreign_glob_cxt) (h_fetch : opno ≠ g.slinfo.jsonb_op_oid)
    (x : Node) (hx : time_operand g x = true) (before after : List Node)
    (g2 : foreign_glob_cxt) (hg : same_table g2 g) (itc : Bool) (c : foreign_loc_cxt)
    (h_cmp : c.is_comparison = true) (h_key : c.has_time_key = true) :
    (∀ r, tdengine_foreign_expr_walker cat (T_OpExpr opno t oc ic (before ++ x :: after))
        g2 itc c = .ok r → r.result = false) ∧
    (before = [] →
      (∃ b, tdengine_contain_time_key_column cat g.relid (before ++ x :: after) = .ok b) →
      (∃ b, tdengine_contain_time_column (before ++ x :: after) = .ok b) →
      ∃ r, tdengine_foreign_expr_walker cat (T_OpExpr opno t oc ic (before ++ x :: after))
        g2 itc c = .ok r ∧ r.result = false) := by
  have hsl : g2.slinfo = g.slinfo := hg.2.1
  have hrel : g2.relid = g.relid := hg.2.2.2.1
  have hnf := opexpr_not_fetch cat opno t oc ic (before ++ x :: after) g2.slinfo
    (by rw [hsl]; exact h_fetch)
  have hflag : time_arith_in_comparison (list_inner_cxt (arith_inner_cxt c)) = true := by
    simp [time_arith_in_comparison, list_inner_cxt, arith_inner_cxt, h_cmp, h_key]
  have hlist := time_operand_in_list cat g x hx before after g2 hg itc
    (list_inner_cxt (arith_inner_cxt c)) hflag
  have hpre := walker_OpExpr_pre_arith cat (T_OpExpr opno t oc ic (before ++ x :: after)) opno
    form h_op h_name (before ++ x :: after) g2 c
  have hsome : ∀ r, (match walker_List_node
        (fun g3 i3 c3 => walker_foreach cat (before ++ x :: after) g3 i3 c3) g2 itc
        (arith_inner_cxt c) with
      | .error e => .error e
      | .ok r1 =>
        if !r1.result then .ok ⟨false, r1.glob, r1.is_time_column, c⟩
        else walker_OpExpr_post t oc ic c r1 : Except Err WalkOut) = .ok r →
      r.result = false := by
    intro r h
    split at h
    · simp at h
    · rename_i r1 h1
      rw [walker_List_node_eq] at h1
      split at h1
      · simp at h1
      · rename_i r0 h0
        have hr0 := hlist.1 r0 h0
        simp only [hr0, Bool.not_false, if_true, Except.ok.injEq] at h1
        rw [← h1] at h
        simp only [Bool.not_false, if_true, Except.ok.injEq] at h
        rw [← h]
  constructor
  · intro r h
    rw [tdengine_foreign_expr_walker, hpre] at h
    by_cases hb : (!tdengine_is_builtin opno &&
        !tdengine_is_slvar_fetch cat (T_OpExpr opno t oc ic (before ++ x :: after)) g2.slinfo &&
        !tdengine_is_param_fetch (T_OpExpr opno t oc ic (before ++ x :: after)) g2.slinfo)
        = true
    · rw [if_pos hb] at h
      simp only [Except.ok.injEq] at h
      rw [← h]
    · rw [if_neg hb] at h
      cases hk : tdengine_contain_time_key_column cat g2.relid (before ++ x :: after) with
      | error e => rw [hk] at h; simp at h
      | ok k =>
        cases htc : tdengine_contain_time_column (before ++ x :: after) with
        | error e => rw [hk, htc] at h; simp at h
        | ok tc =>
          rw [hk, htc] at h
          simp only [hnf, Bool.false_eq_true, if_false] at h
          exact hsome r h
  · intro hb ⟨k, hk⟩ ⟨tc, htc⟩
    obtain ⟨r1, h1, hr1⟩ := hlist.2 hb
    rw [tdengine_foreign_expr_walker, hpre, hrel, hk, htc]
    by_cases hb2 : (!tdengine_is_builtin opno &&
        !tdengine_is_slvar_fetch cat (T_OpExpr opno t oc ic (before ++ x :: after)) g2.slinfo &&
        !tdengine_is_param_fetch (T_OpExpr opno t oc ic (before ++ x :: after)) g2.slinfo)
        = true
    · rw [if_pos hb2]
      exact ⟨_, rfl, rfl⟩
    · rw [if_neg hb2]
      simp only [hnf, Bool.false_eq_true, if_false]
      rw [walker_List_node_eq, h1]
      simp only [hr1, Bool.not_false, if_true]
      exact ⟨_, rfl, rfl⟩


/-- The checks of the `T_OpExpr` case on a comparison `=`, `<`, `>`, `<=` or
`>=` of the time key with an `OpExpr`: they raise nothing, and unless they
reject, the inner context is `time_key_comparison_cxt`. -/
theorem walker_OpExpr_pre_time_key (cat : Catalog) (node : Node) (opno : Oid)
    (form : Form_pg_operator) (h_op : cat.operator opno = some form)
    (h_name : form.oprname = "=" ∨ form.oprname = "<" ∨ form.oprname = ">" ∨
      form.oprname = "<=" ∨ form.oprname = ">=")
    (n1 : Nat) (a1 : Int) (t1 : Oid) (m1 : Int) (c1 : Oid) (l1 : Nat)
    (h_t1 : TDENGINE_IS_TIME_TYPE t1 = true)
    (g : foreign_glob_cxt) (name1 : String)
    (h_n1 : tdengine_get_column_name cat g.relid a1 = .ok name1)
    (h_key : TDENGINE_IS_TIME_COLUMN name1 = true)
    (opno2 t2 oc2 ic2 : Oid) (args2 : List Node) (args : List Node)
    (h_args : args = [T_Var n1 a1 t1 m1 c1 l1, T_OpExpr opno2 t2 oc2 ic2 args2] ∨
      args = [T_OpExpr opno2 t2 oc2 ic2 args2, T_Var n1 a1 t1 m1 c1 l1])
    (c : foreign_loc_cxt) :
    walker_OpExpr_pre cat node opno args g c = .ok none ∨
    walker_OpExpr_pre cat node opno args g c = .ok (some time_key_comparison_cxt) := by
  have h_ord : is_ordering_or_eq_opname form.oprname = true := by
    simp only [is_ordering_or_eq_opname, Bool.or_eq_true, beq_iff_eq]
    tauto
  have h_cmp := ordering_opname_is_comparison _ h_ord
  have h_ne := ordering_opname_not_ne _ h_ord
  have h_pm : (form.oprname == "+" || form.oprname == "-") = false := by
    rcases h_name with h | h | h | h | h <;> rw [h] <;> decide
  have h_i1 : (t1 == INTERVALOID) = false := by
    simp only [TDENGINE_IS_TIME_TYPE, Bool.or_eq_true, beq_iff_eq] at h_t1
    rcases h_t1 with (h | h) | h <;> subst h <;> decide
  have h_s1 : is_string_oid t1 = false := by
    simp only [TDENGINE_IS_TIME_TYPE, Bool.or_eq_true, beq_iff_eq] at h_t1
    rcases h_t1 with (h | h) | h <;> subst h <;> decide
  unfold walker_OpExpr_pre
  simp only [h_op]
  by_cases hb : (!tdengine_is_builtin opno && !tdengine_is_slvar_fetch cat node g.slinfo &&
      !tdengine_is_param_fetch node g.slinfo) = true
  · rw [if_pos hb]
    left; rfl
  · rw [if_neg hb]
    rcases h_args with h | h
    · subst h
      by_cases he : (form.oprname != "=") = true
      · simp [both_operands_interval, linitial, lsecond, exprType, h_cmp, h_i1, h_ne, h_pm,
          tdengine_contain_time_key_column, tdengine_contain_time_column,
          tdengine_contain_time_function, tdengine_contain_time_const,
          tdengine_contain_time_param, time_operand_rejected, h_ord, h_t1, h_n1, h_key, he,
          tdengine_is_string_type, h_s1, bind, Except.bind, pure, Except.pure,
          time_key_comparison_cxt]
      · simp [both_operands_interval, linitial, lsecond, exprType, h_cmp, h_i1, h_ne, h_pm,
          tdengine_contain_time_key_column, tdengine_contain_time_column,
          tdengine_contain_time_function, time_operand_rejected, h_ord, h_t1, h_n1, h_key, he,
          bind, Except.bind, pure, Except.pure, time_key_comparison_cxt]
    · subst h
      by_cases hi : (t2 == INTERVALOID) = true
      all_goals by_cases he : (form.oprname != "=") = true
      all_goals by_cases hs :
        (tdengine_is_string_type cat g.slinfo (T_OpExpr opno2 t2 oc2 ic2 args2)) = true
      all_goals simp [both_operands_interval, linitial, lsecond, exprType, h_cmp, h_i1, h_ne,
          h_pm, tdengine_contain_time_key_column, tdengine_contain_time_column,
          tdengine_contain_time_function, tdengine_contain_time_const,
          tdengine_contain_time_param, time_operand_rejected, h_ord, h_t1, h_n1, h_key, he, hi,
          hs, bind, Except.bind, pure, Except.pure, time_key_comparison_cxt]

theorem walker_Var_ok (cat : Catalog) (varno : Nat) (varattno : Int) (vartype : Oid)
    (vartypmod : Int) (varcollid : Oid) (varlevelsup : Nat) (g : foreign_glob_cxt) (itc : Bool)
    (c : foreign_loc_cxt) :
    ∃ r, tdengine_foreign_expr_walker cat
      (T_Var varno varattno vartype vartypmod varcollid varlevelsup) g itc c = .ok r := by
  rw [tdengine_foreign_expr_walker]
  unfold walker_Var walker_finish
  simp only
  split_ifs <;> exact ⟨_, rfl⟩

/-- The loop over a list that starts with such a `+` or `-` expression, below
a comparison with the time key. -/
theorem time_arith_first_in_list (cat : Catalog) (opno : Oid) (form : Form_pg_operator)
    (h_op : cat.operator opno = some form)
    (h_name : form.oprname = "+" ∨ form.oprname = "-")
    (t oc ic : Oid) (g : foreign_glob_cxt) (h_fetch : opno ≠ g.slinfo.jsonb_op_oid)
    (x : Node) (hx : time_operand g x = true) (before after rest : List Node)
    (g2 : foreign_glob_cxt) (hg : same_table g2 g) (itc : Bool) (c : foreign_loc_cxt)
    (h_cmp : c.is_comparison = true) (h_key : c.has_time_key = true) :
    (∀ r, walker_foreach cat (T_OpExpr opno t oc ic (before ++ x :: after) :: rest)
        g2 itc c = .ok r → r.result = false) ∧
    (before = [] →
      (∃ b, tdengine_contain_time_key_column cat g.relid (before ++ x :: after) = .ok b) →
      (∃ b, tdengine_contain_time_column (before ++ x :: after) = .ok b) →
      ∃ r, walker_foreach cat (T_OpExpr opno t oc ic (before ++ x :: after) :: rest)
        g2 itc c = .ok r ∧ r.result = false) := by
  have hw := time_arith_walk cat opno form h_op h_name t oc ic g h_fetch x hx before after
    g2 hg itc c h_cmp h_key
  constructor
  · intro r h
    rw [walker_foreach] at h
    split at h
    · simp at h
    · rename_i r1 h1
      have hr1 := hw.1 r1 h1
      simp only [hr1, Bool.not_false, if_true, Except.ok.injEq] at h
      rw [← h]
      exact hr1
  · intro hb hk hc
    obtain ⟨r1, h1, hr1⟩ := hw.2 hb hk hc
    rw [walker_foreach, h1]
    simp only [hr1, Bool.not_false, if_true]
    exact ⟨r1, rfl, hr1⟩

/-- C14 (counterexample): on
`time > sqrt(tdengine_fill_numeric(4)) * interval '1 hour' + time` the walker
does not return false: the first operand of the `+` is visited before the time
column and raises the error of the fill call. -/
theorem time_arith_comparison_raises :
    tdengine_foreign_expr_walker demo_catalog_tags demo_time_gt_fill_plus_time
      (demo_glob .RELOPT_BASEREL) false inner_cxt_init = .error fill_syntax_error := by
  decide

/-- The scan `tdengine_contain_time_column` of the operands of
`name::interval + time` meets the `CoerceViaIO` first, where the C code calls
`tdengine_contain_time_key_column(arg, pslinfo)` with a node for the relation
oid and the schemaless information for the list; the walker has no defined
result on `time > name::interval + time`. -/
theorem time_column_scan_on_coerce :
    tdengine_foreign_expr_walker demo_catalog_tags
      (T_OpExpr 2064 BOOLOID InvalidOid InvalidOid [demo_time, demo_coerce_plus_time])
      (demo_glob .RELOPT_BASEREL) false inner_cxt_init
      = .error (.undefined
          "tdengine_contain_time_key_column(arg, pslinfo) reads pslinfo as a List") := by
  decide

/-- C14 (amended): for every comparison `OpExpr` (`=`, `<`, `>`, `<=`, `>=`)
that has the time key as one operand and, as the other operand, a `+` or `-`
`OpExpr` with a time-typed column of the relation or a time-typed `Param`
among its operands, `tdengine_foreign_expr_walker` never returns true: it
returns false unless an error is raised before the time-typed operand is
reached.  When that operand is the first operand of the `+` or `-`, as in
`time > time + interval`, and the two column scans of the operands of the `+`
or `-` raise no error, it returns false. -/
theorem time_key_vs_time_arith (cat : Catalog) (opno : Oid) (form : Form_pg_operator)
    (h_op : cat.operator opno = some form)
    (h_name : form.oprname = "=" ∨ form.oprname = "<" ∨ form.oprname = ">" ∨
      form.oprname = "<=" ∨ form.oprname = ">=")
    (opresulttype opcollid inputcollid : Oid)
    (n1 : Nat) (a1 : Int) (t1 : Oid) (m1 : Int) (c1 : Oid) (l1 : Nat)
    (h_t1 : TDENGINE_IS_TIME_TYPE t1 = true)
    (g : foreign_glob_cxt) (name1 : String)
    (h_n1 : tdengine_get_column_name cat g.relid a1 = .ok name1)
    (h_key : TDENGINE_IS_TIME_COLUMN name1 = true)
    (opno2 : Oid) (form2 : Form_pg_operator) (h_op2 : cat.operator opno2 = some form2)
    (h_name2 : form2.oprname = "+" ∨ form2.oprname = "-")
    (h_fetch : opno2 ≠ g.slinfo.jsonb_op_oid)
    (t2 oc2 ic2 : Oid) (x : Node) (hx : time_operand g x = true) (before after : List Node)
    (args : List Node)
    (h_args :
      args = [T_Var n1 a1 t1 m1 c1 l1, T_OpExpr opno2 t2 oc2 ic2 (before ++ x :: after)] ∨
      args = [T_OpExpr opno2 t2 oc2 ic2 (before ++ x :: after), T_Var n1 a1 t1 m1 c1 l1])
    (itc : Bool) (outer_cxt : foreign_loc_cxt) :
    (∀ r, tdengine_foreign_expr_walker cat (T_OpExpr opno opresulttype opcollid inputcollid args)
        g itc outer_cxt = .ok r → r.result = false) ∧
    (before = [] →
      (∃ b, tdengine_contain_time_key_column cat g.relid (before ++ x :: after) = .ok b) →
      (∃ b, tdengine_contain_time_column (before ++ x :: after) = .ok b) →
      ∃ r, tdengine_foreign_expr_walker cat
        (T_OpExpr opno opresulttype opcollid inputcollid args) g itc outer_cxt = .ok r ∧
        r.result = false) := by
  have hpre := walker_OpExpr_pre_time_key cat
    (T_OpExpr opno opresulttype opcollid inputcollid args) opno form h_op h_name
    n1 a1 t1 m1 c1 l1 h_t1 g name1 h_n1 h_key opno2 t2 oc2 ic2 (before ++ x :: after) args
    h_args outer_cxt
  have hnf : (tdengine_is_slvar_fetch cat (T_OpExpr opno opresulttype opcollid inputcollid args)
        g.slinfo ||
      tdengine_is_param_fetch (T_OpExpr opno opresulttype opcollid inputcollid args) g.slinfo)
      = false := by
    rcases h_args with h | h <;> subst h <;>
      simp [tdengine_is_slvar_fetch, tdengine_is_param_fetch, is_slvar_fetch_op]
  have hL1 : (list_inner_cxt time_key_comparison_cxt).is_comparison = true := rfl
  have hL2 : (list_inner_cxt time_key_comparison_cxt).has_time_key = true := rfl
  -- the loop over the two operands
  have hloop : (∀ r, walker_foreach cat args g itc (list_inner_cxt time_key_comparison_cxt)
        = .ok r → r.result = false) ∧
      (before = [] →
        (∃ b, tdengine_contain_time_key_column cat g.relid (before ++ x :: after) = .ok b) →
        (∃ b, tdengine_contain_time_column (before ++ x :: after) = .ok b) →
        ∃ r, walker_foreach cat args g itc (list_inner_cxt time_key_comparison_cxt) = .ok r ∧
          r.result = false) := by
    rcases h_args with h | h
    · subst h
      obtain ⟨rk, hk⟩ := walker_Var_ok cat n1 a1 t1 m1 c1 l1 g itc
        (list_inner_cxt time_key_comparison_cxt)
      have hf := walker_flags cat _ _ _ _ _ hk
      have ht := walker_table cat _ _ _ _ _ hk
      have hrest := time_arith_first_in_list cat opno2 form2 h_op2 h_name2 t2 oc2 ic2 g h_fetch
        x hx before after [] rk.glob ht rk.is_time_column rk.cxt
        (by rw [hf.2.2.2.2]; exact hL1) (by rw [hf.2.2.1]; exact hL2)
      rw [walker_foreach, hk]
      by_cases hr : rk.result = true
      · simp only [hr, Bool.not_true, Bool.false_eq_true, if_false]
        exact hrest
      · have hr2 : rk.result = false := by simpa using hr
        simp only [hr2, Bool.not_false, if_true]
        constructor
        · intro r h
          simp only [Except.ok.injEq] at h
          rw [← h]
          exact hr2
        · intro _ _ _
          exact ⟨rk, rfl, hr2⟩
    · subst h
      exact time_arith_first_in_list cat opno2 form2 h_op2 h_name2 t2 oc2 ic2 g h_fetch
        x hx before after _ g (same_table_refl g) itc _ hL1 hL2
  constructor
  · intro r h
    rw [tdengine_foreign_expr_walker] at h
    rcases hpre with hp | hp
    · rw [hp] at h
      simp only [Except.ok.injEq] at h
      rw [← h]
    · rw [hp] at h
      simp only [hnf, Bool.false_eq_true, if_false] at h
      rw [walker_List_node_eq] at h
      split at h
      · simp at h
      · rename_i r1 h1
        split at h1
        · simp at h1
        · rename_i r0 h0
          have hr0 := hloop.1 r0 h0
          simp only [hr0, Bool.not_false, if_true, Except.ok.injEq] at h1
          rw [← h1] at h
          simp only [Bool.not_false, if_true, Except.ok.injEq] at h
          rw [← h]
  · intro hb hk hc
    obtain ⟨r0, h0, hr0⟩ := hloop.2 hb hk hc
    rw [tdengine_foreign_expr_walker]
    rcases hpre with hp | hp
    · rw [hp]
      exact ⟨_, rfl, rfl⟩
    · rw [hp]
      simp only [hnf, Bool.false_eq_true, if_false]
      rw [walker_List_node_eq, h0]
      simp only [hr0, Bool.not_false, if_true]
      exact ⟨_, rfl, rfl⟩

/-- Witness for C14: `time > time + interval '1 hour'` on the sample table is
rejected. -/
theorem time_key_vs_time_arith_witness :
    demo_catalog_tags.operator 2064 = some ⟨">", 'b', PG_CATALOG_NAMESPACE⟩ ∧
    demo_catalog_tags.operator 2066 = some ⟨"+", 'b', PG_CATALOG_NAMESPACE⟩ ∧
    time_operand (demo_glob .RELOPT_BASEREL) demo_time = true ∧
    (∃ r, tdengine_foreign_expr_walker demo_catalog_tags demo_time_gt_time_plus
      (demo_glob .RELOPT_BASEREL) false inner_cxt_init = .ok r ∧ r.result = false) :=
  ⟨rfl, rfl, by decide,
   (time_key_vs_time_arith demo_catalog_tags 2064 ⟨">", 'b', PG_CATALOG_NAMESPACE⟩ rfl
     (Or.inr (Or.inr (Or.inl rfl))) BOOLOID InvalidOid InvalidOid
     1 1 TIMESTAMPOID (-1) InvalidOid 0 rfl (demo_glob .RELOPT_BASEREL) "time"
     (by decide) (by decide) 2066 ⟨"+", 'b', PG_CATALOG_NAMESPACE⟩ rfl (Or.inl rfl)
     (by decide) TIMESTAMPOID InvalidOid InvalidOid demo_time (by decide) [] [demo_hour]
     _ (Or.inl rfl) false inner_cxt_init).2 rfl ⟨true, by decide⟩ ⟨true, by decide⟩⟩

/-! ## Theorems: the null test -/

/-- What `is_slvar_fetch_op` accepts: the operator `->>` of the table applied
to a schemaless column and a constant. -/
theorem is_slvar_fetch_op_iff (cat : Catalog) (n : Node) (sl : schemaless_info) :
    is_slvar_fetch_op cat n sl = true ↔
      ∃ t oc ic a1 a2 a3 a4 a5 a6 b1 b2 v b4,
        n = T_OpExpr sl.jsonb_op_oid t oc ic [T_Var a1 a2 a3 a4 a5 a6, T_Const b1 b2 v b4] ∧
        tdengine_is_slvar cat a3 a2 sl = true := by
  constructor
  · intro h
    unfold is_slvar_fetch_op at h
    split at h
    · rename_i opno t oc ic args
      split_ifs at h with h1
      split at h
      · rename_i a1 a2 a3 a4 a5 a6 b1 b2 v b4
        have h2 : opno = sl.jsonb_op_oid := by simpa using h1
        subst h2
        exact ⟨t, oc, ic, a1, a2, a3, a4, a5, a6, b1, b2, v, b4, rfl, h⟩
      · simp at h
    · simp at h
  · rintro ⟨t, oc, ic, a1, a2, a3, a4, a5, a6, b1, b2, v, b4, rfl, h⟩
    simp [is_slvar_fetch_op, h]

/-- What `tdengine_get_slvar` returns a key for: a dynamic key access
`var ->> key` on a schemaless column of a table in schemaless mode, bare or
under a `CoerceViaIO`. -/
theorem get_slvar_some_iff (cat : Catalog) (arg : Node) (sl : schemaless_info) (key : String) :
    tdengine_get_slvar cat arg sl = some key ↔
      sl.schemaless = true ∧
      ∃ t oc ic a1 a2 a3 a4 a5 a6 b1 b2 v b4,
        (arg = T_OpExpr sl.jsonb_op_oid t oc ic [T_Var a1 a2 a3 a4 a5 a6, T_Const b1 b2 v b4] ∨
         ∃ rt rc, arg = T_CoerceViaIOExpr
           (T_OpExpr sl.jsonb_op_oid t oc ic [T_Var a1 a2 a3 a4 a5 a6, T_Const b1 b2 v b4])
           rt rc) ∧
        tdengine_is_slvar cat a3 a2 sl = true ∧ key = String.mk (OidOutputFunctionCall v) := by
  constructor
  · intro h
    unfold tdengine_get_slvar at h
    by_cases hs : sl.schemaless = true
    · refine ⟨hs, ?_⟩
      simp only [hs, Bool.not_true, Bool.false_eq_true, if_false] at h
      split_ifs at h with hf
      unfold tdengine_is_slvar_fetch at hf
      simp only [hs, Bool.not_true, Bool.false_eq_true, if_false] at hf
      split at hf
      · rename_i inner rt rc
        obtain ⟨t, oc, ic, a1, a2, a3, a4, a5, a6, b1, b2, v, b4, rfl, hv⟩ :=
          (is_slvar_fetch_op_iff cat inner sl).1 hf
        simp only [slvar_key, Option.some.injEq] at h
        exact ⟨t, oc, ic, a1, a2, a3, a4, a5, a6, b1, b2, v, b4, Or.inr ⟨rt, rc, rfl⟩, hv, h.symm⟩
      · rename_i hne
        obtain ⟨t, oc, ic, a1, a2, a3, a4, a5, a6, b1, b2, v, b4, rfl, hv⟩ :=
          (is_slvar_fetch_op_iff cat arg sl).1 hf
        simp only [slvar_key, Option.some.injEq] at h
        exact ⟨t, oc, ic, a1, a2, a3, a4, a5, a6, b1, b2, v, b4, Or.inl rfl, hv, h.symm⟩
    · simp [hs] at h
  · rintro ⟨hs, t, oc, ic, a1, a2, a3, a4, a5, a6, b1, b2, v, b4, harg, hv, rfl⟩
    have hop : is_slvar_fetch_op cat
        (T_OpExpr sl.jsonb_op_oid t oc ic [T_Var a1 a2 a3 a4 a5 a6, T_Const b1 b2 v b4]) sl
        = true :=
      (is_slvar_fetch_op_iff cat _ sl).2
        ⟨t, oc, ic, a1, a2, a3, a4, a5, a6, b1, b2, v, b4, rfl, hv⟩
    rcases harg with rfl | ⟨rt, rc, rfl⟩
    · simp [tdengine_get_slvar, tdengine_is_slvar_fetch, hs, hop, slvar_key]
    · simp [tdengine_get_slvar, tdengine_is_slvar_fetch, hs, hop, slvar_key]

/-- C22: on a `NullTest` node `tdengine_foreign_expr_walker` always returns,
and it returns true exactly when the argument is a dynamic key access
`var ->> key` on a schemaless column (bare or under a `CoerceViaIO`, as
`tdengine_get_slvar` reads it) of a table in schemaless mode and `key` is a tag
key of the relation; in every other case it returns false, in particular on
every relation that is not in schemaless mode. -/
theorem null_test_only_on_tag_key (cat : Catalog) (arg : Node) (nulltesttype : NullTestType)
    (g : foreign_glob_cxt) (itc : Bool) (outer_cxt : foreign_loc_cxt) :
    ∃ r, tdengine_foreign_expr_walker cat (T_NullTest arg nulltesttype) g itc outer_cxt = .ok r ∧
      (r.result = true ↔
        g.slinfo.schemaless = true ∧
        ∃ t oc ic a1 a2 a3 a4 a5 a6 b1 b2 v b4,
          (arg = T_OpExpr g.slinfo.jsonb_op_oid t oc ic
                   [T_Var a1 a2 a3 a4 a5 a6, T_Const b1 b2 v b4] ∨
           ∃ rt rc, arg = T_CoerceViaIOExpr
             (T_OpExpr g.slinfo.jsonb_op_oid t oc ic
                [T_Var a1 a2 a3 a4 a5 a6, T_Const b1 b2 v b4]) rt rc) ∧
          tdengine_is_slvar cat a3 a2 g.slinfo = true ∧
          tdengine_is_tag_key cat (String.mk (OidOutputFunctionCall v)) g.relid = true) ∧
      (g.slinfo.schemaless = false → r.result = false) := by
  rw [tdengine_foreign_expr_walker]
  unfold walker_NullTest
  cases hk : tdengine_get_slvar cat arg g.slinfo with
  | none =>
    refine ⟨_, rfl, ⟨fun h => by simp at h, ?_⟩, fun _ => rfl⟩
    rintro ⟨hs, t, oc, ic, a1, a2, a3, a4, a5, a6, b1, b2, v, b4, harg, hv, _⟩
    have := (get_slvar_some_iff cat arg g.slinfo (String.mk (OidOutputFunctionCall v))).2
      ⟨hs, t, oc, ic, a1, a2, a3, a4, a5, a6, b1, b2, v, b4, harg, hv, rfl⟩
    rw [hk] at this
    simp at this
  | some key =>
    obtain ⟨hs, t, oc, ic, a1, a2, a3, a4, a5, a6, b1, b2, v, b4, harg, hv, hkey⟩ :=
      (get_slvar_some_iff cat arg g.slinfo key).1 hk
    by_cases htag : tdengine_is_tag_key cat key g.relid = true
    · have hb : tdengine_is_builtin BOOLOID = true := by decide
      refine ⟨⟨true, g, itc, collation_merge InvalidOid FDW_COLLATE_NONE outer_cxt⟩, ?_, ?_, ?_⟩
      · simp [htag, walker_finish, hb]
      · refine ⟨fun _ => ⟨hs, t, oc, ic, a1, a2, a3, a4, a5, a6, b1, b2, v, b4, harg, hv, ?_⟩,
          fun _ => rfl⟩
        rw [← hkey]; exact htag
      · intro hn; rw [hs] at hn; simp at hn
    · refine ⟨⟨false, g, itc, outer_cxt⟩, ?_, ⟨fun h => by simp at h, ?_⟩, fun _ => rfl⟩
      · simp [htag]
      · rintro ⟨_, t2, oc2, ic2, c1, c2, c3, c4, c5, c6, d1, d2, v2, d4, harg2, _, htag2⟩
        exfalso
        apply htag
        rw [hkey]
        rcases harg with rfl | ⟨rt, rc, rfl⟩
        · rcases harg2 with h2 | ⟨rt2, rc2, h2⟩
          · simp only [T_OpExpr.injEq, List.cons.injEq, T_Const.injEq] at h2
            obtain ⟨_, _, _, _, _, ⟨_, _, hv2, _⟩, _⟩ := h2
            rw [hv2]; exact htag2
          · cases h2
        · rcases harg2 with h2 | ⟨rt2, rc2, h2⟩
          · cases h2
          · simp only [T_CoerceViaIOExpr.injEq, T_OpExpr.injEq, List.cons.injEq,
              T_Const.injEq] at h2
            obtain ⟨⟨_, _, _, _, _, ⟨_, _, hv2, _⟩, _⟩, _⟩ := h2
            rw [hv2]; exact htag2

/-! ## Theorems: function calls and constant arrays in the generated text -/

/-- C28: `log($1, col)` and the star function call `tdengine_max_all(col)` are
accepted for the target list, and `tdengine_deparse_func_expr` then takes the
name to append from `tdengine_replace_function`, whose body is empty: what it
appends is the unset return value of that call, before the `*` of a star
function and before the swapped arguments of `log` are reached. -/
theorem star_and_log_name_not_returned :
    tdengine_is_foreign_expr demo_catalog_funcs .RELOPT_BASEREL demo_slinfo [1] 5000 false
      demo_log_call true = .ok true ∧
    tdengine_is_foreign_expr demo_catalog_funcs .RELOPT_BASEREL demo_slinfo [1] 5000 false
      demo_star_call true = .ok true ∧
    tdengine_deparse_expr demo_catalog_funcs demo_log_call demo_context
      = .error (.undefined "tdengine_replace_function returns no value") ∧
    tdengine_deparse_expr demo_catalog_funcs demo_star_call demo_context
      = .error (.undefined "tdengine_replace_function returns no value") := by
  refine ⟨by decide, by decide, ?_, ?_⟩
  · rw [demo_log_call, tdengine_deparse_expr]
    rfl
  · rw [demo_star_call, tdengine_deparse_expr]
    rfl

/-- C30: for `name = ANY ('{}'::text[])`, an array without elements,
`tdengine_deparse_scalar_array_op_expr` emits the one comparison `"name" = ''`,
where the array has no element to compare with. -/
theorem empty_array_one_comparison :
    (tdengine_deparse_expr demo_catalog_funcs demo_empty_in_list demo_context).map
        (fun c => c.buf)
      = .ok "\"name\" = ''".toList ∧
    array_text [] = "\x7b\x7d".toList := by
  refine ⟨?_, by decide⟩
  rw [demo_empty_in_list, tdengine_deparse_expr]
  decide

/-- On arrays with elements the constant-array loop does what it is described
to do: `{"a,b",c'd,"e\"f"}` gives the three quoted elements `a,b`, `c''d` and
`e"f`, and the boolean array `{t,f}` gives `true` and `false`. -/
theorem constant_array_examples :
    (tdengine_deparse_expr demo_catalog_funcs demo_quoted_in_list demo_context).map
        (fun c => c.buf)
      = .ok "\"name\" = 'a,b' OR \"name\" = 'c''d' OR \"name\" = 'e\"f'".toList ∧
    (tdengine_deparse_expr demo_catalog_funcs demo_bool_in_list demo_context).map
        (fun c => c.buf)
      = .ok "\"flag\" = true OR \"flag\" = false".toList := by
  constructor
  · rw [demo_quoted_in_list, tdengine_deparse_expr]
    decide
  · rw [demo_bool_in_list, tdengine_deparse_expr]
    decide

/-! ## Theorems: the target list -/

/-- The quoted names, each preceded by `, ` unless it is the first of a list
that starts the output. -/
theorem quoted_list_cons (n : String) (rest : List String) :
    quoted_list (n :: rest)
      = tdengine_quote_identifier n.toList QUOTE ++
        (rest.map (fun m => ", ".toList ++ tdengine_quote_identifier m.toList QUOTE)).flatten := by
  induction rest generalizing n with
  | nil => simp [quoted_list, List.intercalate]
  | cons m rest ih =>
    have h := ih m
    simp only [quoted_list, List.map_cons, List.flatten_cons] at h ⊢
    rw [intercalate_cons_cons, h]
    simp

/-- A column reference without conversion, for a column that is not a time
column: the quoted name. -/
theorem column_ref_plain (cat : Catalog) (buf : StringInfo) (rtindex : Nat) (i : Int)
    (name : String) (h : tdengine_get_column_name cat (cat.rte_relid rtindex) i = .ok name)
    (ht : TDENGINE_IS_TIME_COLUMN name = false) :
    tdengine_deparse_column_ref cat buf rtindex i OID_MINUS_ONE false none
      = .ok (buf ++ tdengine_quote_identifier name.toList QUOTE, none) := by
  simp [tdengine_deparse_column_ref, h, column_ref_text, ht]

/-- What the attribute loop of `tdengine_deparse_target_list` leaves behind,
when the catalog knows the names of the attributes. -/
theorem target_list_loop_eq (cat : Catalog) (rtindex : Nat) (attrs_used : List Int)
    (name_of : Int → String) :
    ∀ (l : List Form_pg_attribute) (i : Int) (st : TargetListScan),
      (∀ k : Nat, k < l.length →
        tdengine_get_column_name cat (cat.rte_relid rtindex) (i + k) = .ok (name_of (i + k))) →
      ∃ ra, target_list_loop cat rtindex (attrs_used.contains 0) attrs_used l i st
        = .ok ⟨st.buf ++
                 (if st.first then quoted_list (selected_columns name_of attrs_used l i)
                  else ((selected_columns name_of attrs_used l i).map (fun m =>
                    ", ".toList ++ tdengine_quote_identifier m.toList QUOTE)).flatten),
               st.first && (selected_columns name_of attrs_used l i).isEmpty,
               st.need_field_key &&
                 (selected_columns name_of attrs_used l i).all (fun m =>
                   tdengine_is_tag_key cat m (cat.rte_relid rtindex)),
               ra⟩
  | [], i, st, _ => by
    obtain ⟨b, f, n, r⟩ := st
    refine ⟨r, ?_⟩
    rw [target_list_loop, selected_columns]
    cases f <;> simp [quoted_list, List.intercalate]
  | attr :: rest, i, st, hn => by
    have hn0 : tdengine_get_column_name cat (cat.rte_relid rtindex) i = .ok (name_of i) := by
      have := hn 0 (by simp)
      simpa using this
    have hrest : ∀ k : Nat, k < rest.length →
        tdengine_get_column_name cat (cat.rte_relid rtindex) (i + 1 + k)
          = .ok (name_of (i + 1 + k)) := by
      intro k hk
      have := hn (k + 1) (by simp; omega)
      have e : i + ((k + 1 : Nat) : Int) = i + 1 + (k : Int) := by push_cast; ring
      rw [e] at this
      exact this
    rw [target_list_loop, selected_columns]
    by_cases hd : attr.attisdropped = true
    · obtain ⟨ra, h⟩ := target_list_loop_eq cat rtindex attrs_used name_of rest (i + 1) st hrest
      refine ⟨ra, ?_⟩
      simp only [hd, if_true, Bool.not_true, Bool.false_and, Bool.false_eq_true, if_false]
      exact h
    · have hd2 : attr.attisdropped = false := by simpa using hd
      by_cases hsel : (attrs_used.contains 0 || attrs_used.contains i) = true
      · by_cases ht : TDENGINE_IS_TIME_COLUMN (name_of i) = true
        · obtain ⟨ra, h⟩ := target_list_loop_eq cat rtindex attrs_used name_of rest (i + 1)
            { st with retrieved_attrs := st.retrieved_attrs ++ [i] } hrest
          refine ⟨ra, ?_⟩
          simp only [hd2, Bool.false_eq_true, if_false, hsel, if_true, hn0, ht, Bool.not_true,
            Bool.not_false, Bool.true_and, Bool.and_false]
          exact h
        · have ht2 : TDENGINE_IS_TIME_COLUMN (name_of i) = false := by simpa using ht
          obtain ⟨ra, h⟩ := target_list_loop_eq cat rtindex attrs_used name_of rest (i + 1)
            ⟨(if !st.first then st.buf ++ ", ".toList else st.buf) ++
               tdengine_quote_identifier (name_of i).toList QUOTE, false,
             (if !tdengine_is_tag_key cat (name_of i) (cat.rte_relid rtindex) then false
              else st.need_field_key), st.retrieved_attrs ++ [i]⟩ hrest
          refine ⟨ra, ?_⟩
          simp only [hd2, Bool.false_eq_true, if_false, hsel, if_true, hn0, ht2, Bool.not_false,
            Bool.true_and, Bool.and_true]
          rw [column_ref_plain cat _ rtindex i (name_of i) hn0 ht2]
          simp only
          rw [h, quoted_list_cons]
          simp only [Bool.false_eq_true, if_false, List.map_cons, List.flatten_cons,
            List.isEmpty_cons, Bool.and_false, List.all_cons, Bool.false_and]
          cases hf : st.first <;>
            cases hk : tdengine_is_tag_key cat (name_of i) (cat.rte_relid rtindex) <;>
            simp
      · have hsel2 : (attrs_used.contains 0 || attrs_used.contains i) = false := by
          simpa using hsel
        obtain ⟨ra, h⟩ := target_list_loop_eq cat rtindex attrs_used name_of rest (i + 1) st hrest
        refine ⟨ra, ?_⟩
        simp only [hd2, Bool.false_eq_true, if_false, hsel2, Bool.not_false, Bool.true_and,
          Bool.false_and]
        exact h

/-- What the loop of `tdengine_append_field_key` appends, when the catalog
knows the names of the attributes. -/
theorem append_field_key_loop_eq (cat : Catalog) (rtindex : Nat) (name_of : Int → String) :
    ∀ (l : List Form_pg_attribute) (i : Int) (buf : StringInfo),
      (∀ k : Nat, k < l.length →
        tdengine_get_column_name cat (cat.rte_relid rtindex) (i + k) = .ok (name_of (i + k))) →
      append_field_key_loop cat rtindex false l i buf
        = .ok (match first_field_key (fun m => tdengine_is_tag_key cat m (cat.rte_relid rtindex))
                  name_of l i with
               | some f => buf ++ ", ".toList ++ tdengine_quote_identifier f.toList QUOTE
               | none => buf)
  | [], i, buf, _ => by
    rw [append_field_key_loop, first_field_key]
  | attr :: rest, i, buf, hn => by
    have hn0 : tdengine_get_column_name cat (cat.rte_relid rtindex) i = .ok (name_of i) := by
      have := hn 0 (by simp)
      simpa using this
    have hrest : ∀ k : Nat, k < rest.length →
        tdengine_get_column_name cat (cat.rte_relid rtindex) (i + 1 + k)
          = .ok (name_of (i + 1 + k)) := by
      intro k hk
      have := hn (k + 1) (by simp; omega)
      have e : i + ((k + 1 : Nat) : Int) = i + 1 + (k : Int) := by push_cast; ring
      rw [e] at this
      exact this
    have ih := append_field_key_loop_eq cat rtindex name_of rest (i + 1) buf hrest
    rw [append_field_key_loop, first_field_key, hn0]
    simp only
    by_cases hd : attr.attisdropped = true
    · simp only [hd, if_true, Bool.not_true, Bool.false_and, Bool.false_eq_true, if_false]
      exact ih
    · have hd2 : attr.attisdropped = false := by simpa using hd
      by_cases hf : (!TDENGINE_IS_TIME_COLUMN (name_of i) &&
          !tdengine_is_tag_key cat (name_of i) (cat.rte_relid rtindex)) = true
      · have ht2 : TDENGINE_IS_TIME_COLUMN (name_of i) = false := by
          simp only [Bool.and_eq_true, Bool.not_eq_true'] at hf
          exact hf.1
        simp only [hd2, Bool.false_eq_true, if_false, hf, if_true, Bool.not_false, Bool.true_and]
        rw [column_ref_plain cat _ rtindex i (name_of i) hn0 ht2]
      · have hf2 : (!TDENGINE_IS_TIME_COLUMN (name_of i) &&
            !tdengine_is_tag_key cat (name_of i) (cat.rte_relid rtindex)) = false := by
          simpa using hf
        simp only [hd2, Bool.false_eq_true, if_false, hf2, Bool.not_false, Bool.true_and]
        exact ih

/-- C25: `tdengine_deparse_target_list`, when the catalog knows the remote
names `name_of` of the attributes of the table.  With no selected column that
is not a time column it emits `*`.  With at least one, all of them tag keys,
it emits them (quoted, separated by `, `) followed by `, ` and the first
attribute that is not dropped and is neither a time column nor a tag key, when
the table has one.  When some selected column is neither a time column nor a
tag key it emits the selected columns and appends nothing.  A selected time
column is recorded in `retrieved_attrs` and not emitted. -/
theorem target_list_contract (cat : Catalog) (buf : StringInfo) (rtindex : Nat)
    (tupdesc : List Form_pg_attribute) (attrs_used : List Int) (name_of : Int → String)
    (h_names : ∀ k : Nat, k < tupdesc.length →
      tdengine_get_column_name cat (cat.rte_relid rtindex) (1 + k) = .ok (name_of (1 + k))) :
    (selected_columns name_of attrs_used tupdesc 1 = [] →
      (tdengine_deparse_target_list cat buf rtindex tupdesc attrs_used).map (fun p => p.1)
        = .ok (buf ++ ['*'])) ∧
    (selected_columns name_of attrs_used tupdesc 1 ≠ [] →
      (∀ m ∈ selected_columns name_of attrs_used tupdesc 1,
        tdengine_is_tag_key cat m (cat.rte_relid rtindex) = true) →
      ∀ f, first_field_key (fun m => tdengine_is_tag_key cat m (cat.rte_relid rtindex))
          name_of tupdesc 1 = some f →
      (tdengine_deparse_target_list cat buf rtindex tupdesc attrs_used).map (fun p => p.1)
        = .ok (buf ++ quoted_list (selected_columns name_of attrs_used tupdesc 1) ++
               ", ".toList ++ tdengine_quote_identifier f.toList QUOTE)) ∧
    ((∃ m ∈ selected_columns name_of attrs_used tupdesc 1,
        tdengine_is_tag_key cat m (cat.rte_relid rtindex) = false) →
      (tdengine_deparse_target_list cat buf rtindex tupdesc attrs_used).map (fun p => p.1)
        = .ok (buf ++ quoted_list (selected_columns name_of attrs_used tupdesc 1))) := by
  obtain ⟨ra, hloop⟩ := target_list_loop_eq cat rtindex attrs_used name_of tupdesc 1
    ⟨buf, true, true, []⟩ h_names
  have hkey := append_field_key_loop_eq cat rtindex name_of tupdesc 1
    (buf ++ quoted_list (selected_columns name_of attrs_used tupdesc 1)) h_names
  simp only [if_true, Bool.true_and] at hloop
  refine ⟨?_, ?_, ?_⟩
  · intro hsel
    rw [tdengine_deparse_target_list]
    simp only [hloop, hsel, List.isEmpty_nil, if_true, quoted_list, List.map_nil,
      List.intercalate, List.intersperse_nil, List.flatten_nil, List.append_nil, Except.map]
  · intro hsel htag f hf
    have hemp : (selected_columns name_of attrs_used tupdesc 1).isEmpty = false := by
      cases hs : selected_columns name_of attrs_used tupdesc 1 with
      | nil => exact absurd hs hsel
      | cons _ _ => rfl
    have hall : (selected_columns name_of attrs_used tupdesc 1).all (fun m =>
        tdengine_is_tag_key cat m (cat.rte_relid rtindex)) = true := by
      rw [List.all_eq_true]
      exact htag
    rw [tdengine_deparse_target_list]
    simp only [hloop, hemp, hall, Bool.false_eq_true, if_false, if_true,
      tdengine_append_field_key, hkey, hf, Except.map]
  · rintro ⟨m, hm, hmt⟩
    have hemp : (selected_columns name_of attrs_used tupdesc 1).isEmpty = false := by
      cases hs : selected_columns name_of attrs_used tupdesc 1 with
      | nil => rw [hs] at hm; simp at hm
      | cons _ _ => rfl
    have hall : (selected_columns name_of attrs_used tupdesc 1).all (fun m =>
        tdengine_is_tag_key cat m (cat.rte_relid rtindex)) = false := by
      rw [List.all_eq_false]
      exact ⟨m, hm, by simp [hmt]⟩
    rw [tdengine_deparse_target_list]
    simp only [hloop, hemp, hall, Bool.false_eq_true, if_false, Except.map]

/-- Witness for C25 on the sample table, whose tag key is `name` and whose
first field key is `col`: selecting `time` alone gives `*`, selecting `time` and
`name` gives `"name", "col"`, and selecting `flag` and `name` gives
`"flag", "name"`. -/
theorem target_list_contract_witness :
    (tdengine_deparse_target_list demo_catalog_tags [] 1 demo_tupdesc [1]).map (fun p => p.1)
      = .ok "*".toList ∧
    (tdengine_deparse_target_list demo_catalog_tags [] 1 demo_tupdesc [1, 4]).map (fun p => p.1)
      = .ok "\"name\", \"col\"".toList ∧
    (tdengine_deparse_target_list demo_catalog_tags [] 1 demo_tupdesc [3, 4]).map (fun p => p.1)
      = .ok "\"flag\", \"name\"".toList := by
  have hn : ∀ k : Nat, k < demo_tupdesc.length →
      tdengine_get_column_name demo_catalog_tags (demo_catalog_tags.rte_relid 1) (1 + k)
        = .ok (demo_name_of (1 + k)) := by
    intro k hk
    have hk4 : k < 4 := hk
    interval_cases k <;> decide
  refine ⟨?_, ?_, ?_⟩
  · exact (target_list_contract demo_catalog_tags [] 1 demo_tupdesc [1] demo_name_of hn).1
      (by decide)
  · exact (target_list_contract demo_catalog_tags [] 1 demo_tupdesc [1, 4] demo_name_of hn).2.1
      (by decide) (by decide) "col" (by decide)
  · exact (target_list_contract demo_catalog_tags [] 1 demo_tupdesc [3, 4] demo_name_of hn).2.2
      ⟨"flag", by decide, by decide⟩

/-! ## Theorems: the ORDER BY clause -/

/-- C26, the claim fails: a sort key whose expression the generator has no case
for (the field of a function result) makes `tdengine_append_order_by_clause`
raise `unsupported expression type for deparse`, although no path key asks
for nulls first. -/
theorem order_by_raises_without_nulls_first :
    (demo_pathkey demo_fieldselect BTLessStrategyNumber false).pk_nulls_first = false ∧
    tdengine_append_order_by_clause demo_catalog_tags
        [demo_pathkey demo_fieldselect BTLessStrategyNumber false] demo_context
      = .error (.elog "unsupported expression type for deparse") := by
  refine ⟨rfl, ?_⟩
  rfl

/-- A path key that asks for nulls first makes the loop raise, if nothing
raised before it. -/
theorem order_by_loop_nulls_first (cat : Catalog) :
    ∀ (pathkeys : List PathKey) (delim : List Char) (context : deparse_expr_cxt),
      (∃ pk ∈ pathkeys, pk.pk_nulls_first = true) →
      ∃ e, order_by_loop cat pathkeys delim context = .error e
  | [], _, _, h => by
    obtain ⟨pk, hpk, _⟩ := h
    simp at hpk
  | pathkey :: rest, delim, context, h => by
    rw [order_by_loop]
    simp only
    split
    · exact ⟨_, rfl⟩
    · rename_i c2 _
      by_cases hn : pathkey.pk_nulls_first = true
      · exact ⟨_, by rw [if_pos hn]⟩
      · rw [if_neg hn]
        apply order_by_loop_nulls_first cat rest
        obtain ⟨pk, hpk, hpn⟩ := h
        rcases List.mem_cons.1 hpk with rfl | hmem
        · exact absurd hpn hn
        · exact ⟨pk, hmem, hpn⟩

/-- The loop of `tdengine_append_order_by_clause` on path keys that are columns
of the scanned relation. -/
theorem order_by_loop_columns (cat : Catalog) :
    ∀ (pathkeys : List PathKey) (cols : List (String × Oid)) (delim : List Char)
      (context : deparse_expr_cxt),
      List.Forall₂ (column_key cat context.scanrel_relids) pathkeys cols →
      ((∀ pk ∈ pathkeys, pk.pk_nulls_first = false) →
        ∃ c2, order_by_loop cat pathkeys delim context = .ok c2 ∧
          c2.buf = context.buf ++ order_by_keys context.has_bool_cmp pathkeys cols delim) ∧
      ((∃ pk ∈ pathkeys, pk.pk_nulls_first = true) →
        order_by_loop cat pathkeys delim context = .error (.elog "NULLS FIRST not supported"))
  | [], cols, delim, context, hcols => by
    cases hcols
    refine ⟨fun _ => ⟨context, by rw [order_by_loop], by simp [order_by_keys]⟩, ?_⟩
    rintro ⟨pk, hpk, _⟩
    simp at hpk
  | pathkey :: rest, cols, delim, context, hcols => by
    cases hcols with
    | cons hcol hrest =>
      rename_i col cols2
      obtain ⟨varno, varattno, vartypmod, varcollid, hem, hrel, hname⟩ := hcol
      obtain ⟨c1, hstep, hbuf, hrl, hbc⟩ := deparse_scanned_var cat varno varattno col.2
        vartypmod varcollid col.1 hname (context.append delim) hrel
      have hrl3 : (c1.append (if pathkey.pk_strategy == BTLessStrategyNumber then " ASC".toList
          else " DESC".toList)).scanrel_relids = context.scanrel_relids := hrl
      have hbc3 : (c1.append (if pathkey.pk_strategy == BTLessStrategyNumber then " ASC".toList
          else " DESC".toList)).has_bool_cmp = context.has_bool_cmp := hbc
      have ih := order_by_loop_columns cat rest cols2 ", ".toList
        (c1.append (if pathkey.pk_strategy == BTLessStrategyNumber then " ASC".toList
                    else " DESC".toList)) (by rw [hrl3]; exact hrest)
      rw [hbc3] at ih
      constructor
      · intro hnn
        have hn0 : pathkey.pk_nulls_first = false := hnn pathkey (List.mem_cons_self _ _)
        obtain ⟨c2, h1, h2⟩ := ih.1 (fun pk hpk => hnn pk (List.mem_cons_of_mem _ hpk))
        refine ⟨c2, ?_, ?_⟩
        · rw [order_by_loop]
          simp only [hem, hstep, hn0, Bool.false_eq_true, if_false]
          exact h1
        · rw [h2]
          simp only [order_by_keys, deparse_expr_cxt.append, hbuf, beq_iff_eq,
            List.append_assoc]
      · intro hex
        rw [order_by_loop]
        simp only [hem, hstep]
        by_cases hn : pathkey.pk_nulls_first = true
        · simp only [hn, if_true]
        · simp only [hn, Bool.false_eq_true, if_false]
          apply ih.2
          obtain ⟨pk, hpk, hpn⟩ := hex
          rcases List.mem_cons.1 hpk with rfl | hmem
          · exact absurd hpn hn
          · exact ⟨pk, hmem, hpn⟩

/-- C26 (amended): `tdengine_append_order_by_clause` raises whenever some path
key has `pk_nulls_first` set.  On path keys that are columns of the scanned
relation it raises exactly then, with `NULLS FIRST not supported`, and
otherwise it emits ` ORDER BY` followed by the keys, the first preceded by a
space and the others by `, `, each followed by ` ASC` for the less-than
strategy and by ` DESC` for any other. -/
theorem order_by_clause_contract (cat : Catalog) (pathkeys : List PathKey)
    (context : deparse_expr_cxt) :
    ((∃ pk ∈ pathkeys, pk.pk_nulls_first = true) →
      ∃ e, tdengine_append_order_by_clause cat pathkeys context = .error e) ∧
    (∀ cols, List.Forall₂ (column_key cat context.scanrel_relids) pathkeys cols →
      ((∀ pk ∈ pathkeys, pk.pk_nulls_first = false) →
        ∃ c2, tdengine_append_order_by_clause cat pathkeys context = .ok c2 ∧
          c2.buf = context.buf ++ " ORDER BY".toList ++
            order_by_keys context.has_bool_cmp pathkeys cols " ".toList) ∧
      ((∃ pk ∈ pathkeys, pk.pk_nulls_first = true) →
        tdengine_append_order_by_clause cat pathkeys context
          = .error (.elog "NULLS FIRST not supported"))) := by
  constructor
  · intro h
    exact order_by_loop_nulls_first cat pathkeys _ _ h
  · intro cols hcols
    exact order_by_loop_columns cat pathkeys cols " ".toList
      (context.append " ORDER BY".toList) hcols

/-- Witness for C26: sorting the sample table by `col` ascending and by `time`
with another strategy gives ` ORDER BY "col" ASC, time DESC`, and the same keys
with nulls first on the second raise. -/
theorem order_by_clause_contract_witness :
    (∃ c2, tdengine_append_order_by_clause demo_catalog_tags
        [demo_pathkey demo_col 1 false, demo_pathkey demo_time 5 false] demo_context = .ok c2 ∧
      c2.buf = " ORDER BY \"col\" ASC, time DESC".toList) ∧
    tdengine_append_order_by_clause demo_catalog_tags
        [demo_pathkey demo_col 1 false, demo_pathkey demo_time 5 true] demo_context
      = .error (.elog "NULLS FIRST not supported") := by
  have hc : ∀ b, List.Forall₂ (column_key demo_catalog_tags demo_context.scanrel_relids)
      [demo_pathkey demo_col 1 false, demo_pathkey demo_time 5 b]
      [("col", INT4OID), ("time", TIMESTAMPOID)] := by
    intro b
    refine List.Forall₂.cons ⟨1, 2, -1, InvalidOid, rfl, rfl, rfl⟩
      (List.Forall₂.cons ⟨1, 1, -1, InvalidOid, rfl, rfl, rfl⟩ List.Forall₂.nil)
  constructor
  · have h := ((order_by_clause_contract demo_catalog_tags
      [demo_pathkey demo_col 1 false, demo_pathkey demo_time 5 false] demo_context).2
      _ (hc false)).1 (by decide)
    obtain ⟨c2, h1, h2⟩ := h
    exact ⟨c2, h1, by rw [h2]; decide⟩
  · exact ((order_by_clause_contract demo_catalog_tags
      [demo_pathkey demo_col 1 false, demo_pathkey demo_time 5 true] demo_context).2
      _ (hc true)).2 ⟨_, List.mem_cons_of_mem _ (List.mem_cons_self _ _), rfl⟩

/-! ## Theorems: function calls below a function call -/

theorem ok_false_inner (g2 g0 : foreign_glob_cxt) (itc : Bool) (c : foreign_loc_cxt)
    (r : WalkOut) (P : Prop)
    (h : (Except.ok ⟨false, g2, itc, c⟩ : Except Err WalkOut) = .ok r) :
    (r.result = true → r.glob.is_inner_func = g0.is_inner_func) ∧ (P → r.result = false) := by
  simp only [Except.ok.injEq] at h
  rw [← h]
  exact ⟨fun hb => by simp at hb, fun _ => rfl⟩

theorem walker_finish_inner (type : Except Err Oid) (check_type : Bool) (collation : Oid)
    (state : FDWCollateState) (g2 g0 : foreign_glob_cxt) (itc : Bool) (c : foreign_loc_cxt)
    (r : WalkOut) (P : Prop)
    (h : walker_finish type check_type collation state g2 itc c = .ok r)
    (hA : g2.is_inner_func = g0.is_inner_func) (hB : ¬ P) :
    (r.result = true → r.glob.is_inner_func = g0.is_inner_func) ∧ (P → r.result = false) := by
  refine ⟨fun _ => ?_, fun hP => absurd hP hB⟩
  unfold walker_finish at h
  split_ifs at h
  · split at h
    · simp at h
    · split_ifs at h
      all_goals
        simp only [Except.ok.injEq] at h
        rw [← h]
        exact hA
  · simp only [Except.ok.injEq] at h
    rw [← h]
    exact hA

theorem walker_List_node_inner
    (loop : foreign_glob_cxt → Bool → foreign_loc_cxt → Except Err WalkOut) (hf : Bool)
    (hloop : ∀ g2 i2 c2 r2, loop g2 i2 c2 = .ok r2 → g2.for_tlist = false →
      (r2.result = true → r2.glob.is_inner_func = g2.is_inner_func) ∧
      (g2.is_inner_func = true ∧ hf = true → r2.result = false))
    (g : foreign_glob_cxt) (itc : Bool) (c : foreign_loc_cxt) (r : WalkOut)
    (h : walker_List_node loop g itc c = .ok r) (ht : g.for_tlist = false) :
    (r.result = true → r.glob.is_inner_func = g.is_inner_func) ∧
    (g.is_inner_func = true ∧ hf = true → r.result = false) := by
  unfold walker_List_node at h
  simp only at h
  split at h
  · simp at h
  · rename_i r1 h1
    obtain ⟨hA, hB⟩ := hloop _ _ _ _ h1 ht
    by_cases hr : r1.result = true
    · rw [hr] at h
      simp only [Bool.not_true, Bool.false_eq_true, if_false] at h
      refine walker_finish_inner _ _ _ _ _ _ _ _ _ _ h (hA hr) ?_
      intro hP
      rw [hB hP] at hr
      simp at hr
    · have hr2 : r1.result = false := by simpa using hr
      rw [hr2] at h
      simp only [Bool.not_false, if_true] at h
      exact ok_false_inner _ _ _ _ _ _ h

/-- What `walker_FuncExpr_pre` has established when the walker goes on to the
arguments of a call: for a cast the global context is unchanged, for another
function `is_inner_func` is set, and was clear unless a target list is checked. -/
theorem walker_FuncExpr_pre_inr (cat : Catalog) (funcid : Oid) (funcresulttype : Oid)
    (g : foreign_glob_cxt) (itc : Bool) (c : foreign_loc_cxt) (P : FuncPre)
    (h : walker_FuncExpr_pre cat funcid funcresulttype g itc c = .ok (.inr P)) :
    (P.is_cast_func = true ∧ P.glob = g ∧ is_cast_call cat funcid = true) ∨
    (P.is_cast_func = false ∧ P.glob = { g with is_inner_func := true } ∧
      is_cast_call cat funcid = false ∧ (g.for_tlist = false → g.is_inner_func = false)) := by
  unfold walker_FuncExpr_pre at h
  split at h
  · simp at h
  · rename_i nm hnm
    by_cases hA : (TDENGINE_IS_TIME_TYPE funcresulttype && c.is_comparison &&
        (nm != "now" || !c.has_time_key)) = true
    · rw [if_pos hA] at h
      simp at h
    · rw [if_neg hA] at h
      lift_lets at h
      extract_lets is_cast is_star outer1 can src inner1 outer2 g1 inner2 outer3 at h
      have hcc : is_cast_call cat funcid = is_cast := by
        simp only [is_cast_call, hnm, is_cast]
      split_ifs at h with h1 h2 h3 h4
      · simp at h
      · simp at h
      · simp at h
      · simp only [Except.ok.injEq, Sum.inr.injEq] at h
        rw [← h]
        simp only
        by_cases hc : is_cast = true
        · left
          refine ⟨hc, ?_, by rw [hcc]; exact hc⟩
          simp only [g1, hc, if_true]
        · right
          have hc2 : is_cast = false := by simpa using hc
          refine ⟨hc2, ?_, by rw [hcc]; exact hc2, ?_⟩
          · simp only [g1, hc2, Bool.false_eq_true, if_false]
          · intro ht
            rw [hc2, ht] at h4
            simpa using h4

theorem is_slvar_fetch_op_no_func (cat : Catalog) (node : Node) (sl : schemaless_info)
    (h : is_slvar_fetch_op cat node sl = true) : has_func_call cat node = false := by
  unfold is_slvar_fetch_op at h
  split at h
  · split at h
    · simp at h
    · split at h
      · simp [has_func_call, has_func_call_list]
      · simp at h
  · simp at h

theorem is_slvar_fetch_no_func (cat : Catalog) (node : Node) (sl : schemaless_info)
    (h : tdengine_is_slvar_fetch cat node sl = true) : has_func_call cat node = false := by
  unfold tdengine_is_slvar_fetch at h
  split at h
  · simp at h
  · split at h
    · rw [has_func_call]
      exact is_slvar_fetch_op_no_func cat _ sl h
    · exact is_slvar_fetch_op_no_func cat _ sl h

theorem is_param_fetch_no_func (cat : Catalog) (node : Node) (sl : schemaless_info)
    (h : tdengine_is_param_fetch node sl = true) : has_func_call cat node = false := by
  unfold tdengine_is_param_fetch at h
  split at h
  · simp at h
  · split at h
    · split at h
      · simp at h
      · split at h
        · simp [has_func_call, has_func_call_list]
        · simp at h
    · simp at h

theorem get_slvar_no_func (cat : Catalog) (node : Node) (sl : schemaless_info)
    (name : String) (h : tdengine_get_slvar cat node sl = some name) :
    has_func_call cat node = false := by
  unfold tdengine_get_slvar at h
  split at h
  · simp at h
  · split at h
    · rename_i hf
      exact is_slvar_fetch_no_func cat node sl hf
    · simp at h

theorem has_func_call_Aggref (cat : Catalog) (a1 a2 a3 a4 : Oid) (args : List Node)
    (a5 a6 : List Nat) (af : Option Node) (a7 a8 : Bool) (a9 : AggSplit) :
    has_func_call cat (T_Aggref a1 a2 a3 a4 args a5 a6 af a7 a8 a9) =
      (has_func_call_list cat args ||
        (match af with
         | some f => has_func_call cat f
         | none => false)) := by
  cases af <;> simp [has_func_call]

mutual
/-- While a filter is checked (`for_tlist = false`): a visit that returns true
leaves `is_inner_func` as it was, and a visit that starts with `is_inner_func`
set on a tree that holds a function call other than a cast, outside the
argument of a `FieldSelect`, does not return true. -/
theorem walker_inner_func (cat : Catalog) :
    ∀ (e : Node) (g : foreign_glob_cxt) (itc : Bool) (c : foreign_loc_cxt) (r : WalkOut),
      tdengine_foreign_expr_walker cat e g itc c = .ok r → g.for_tlist = false →
      (r.result = true → r.glob.is_inner_func = g.is_inner_func) ∧
      (g.is_inner_func = true ∧ has_func_call cat e = true → r.result = false)
  | T_Var varno varattno vartype vartypmod varcollid varlevelsup, g, itc, c, r, h, _ => by
    have hnP : ¬ (g.is_inner_func = true ∧ has_func_call cat
        (T_Var varno varattno vartype vartypmod varcollid varlevelsup) = true) := by
      simp [has_func_call]
    rw [tdengine_foreign_expr_walker] at h
    unfold walker_Var at h
    simp only at h
    split_ifs at h
    all_goals first
      | exact ok_false_inner _ _ _ _ _ _ h
      | exact walker_finish_inner _ _ _ _ _ _ _ _ _ _ h rfl hnP
  | T_Const consttype constcollid constvalue constisnull, g, itc, c, r, h, _ => by
    have hnP : ¬ (g.is_inner_func = true ∧ has_func_call cat
        (T_Const consttype constcollid constvalue constisnull) = true) := by
      simp [has_func_call]
    rw [tdengine_foreign_expr_walker] at h
    unfold walker_Const at h
    simp only at h
    split_ifs at h
    all_goals try split at h
    all_goals first
      | exact ok_false_inner _ _ _ _ _ _ h
      | exact walker_finish_inner _ _ _ _ _ _ _ _ _ _ h rfl hnP
      | simp at h
  | T_Param paramid paramtype paramtypmod paramcollid, g, itc, c, r, h, _ => by
    have hnP : ¬ (g.is_inner_func = true ∧ has_func_call cat
        (T_Param paramid paramtype paramtypmod paramcollid) = true) := by
      simp [has_func_call]
    rw [tdengine_foreign_expr_walker] at h
    unfold walker_Param at h
    split_ifs at h
    all_goals first
      | exact ok_false_inner _ _ _ _ _ _ h
      | exact walker_finish_inner _ _ _ _ _ _ _ _ _ _ h rfl hnP
  | T_FieldSelect arg fieldnum resulttype resultcollid, g, itc, c, r, h, _ => by
    have hnP : ¬ (g.is_inner_func = true ∧ has_func_call cat
        (T_FieldSelect arg fieldnum resulttype resultcollid) = true) := by
      simp [has_func_call]
    rw [tdengine_foreign_expr_walker] at h
    unfold walker_FieldSelect at h
    split_ifs at h
    all_goals first
      | exact ok_false_inner _ _ _ _ _ _ h
      | exact walker_finish_inner _ _ _ _ _ _ _ _ _ _ h rfl hnP
  | T_FuncExpr funcid funcresulttype funccollid inputcollid args, g, itc, c, r, h, ht => by
    rw [tdengine_foreign_expr_walker] at h
    split at h
    · simp at h
    · rename_i r0 h0
      have hr0 := walker_FuncExpr_pre_inl cat funcid funcresulttype g itc c r0 h0
      simp only [Except.ok.injEq] at h
      rw [← h]
      exact ⟨fun hb => by rw [hr0] at hb; simp at hb, fun _ => hr0⟩
    · rename_i P h0
      have hPt : P.glob.for_tlist = false := by
        have := walker_FuncExpr_pre_table cat funcid funcresulttype g itc c _ h0
        rw [← ht]
        exact this.2.2.2.2
      split at h
      · simp at h
      · rename_i r2 h2
        have hL := walker_List_node_inner _ (has_func_call_list cat args)
          (fun g2 i2 c2 r3 h3 ht3 => walker_foreach_inner_func cat args g2 i2 c2 r3 h3 ht3)
          P.glob itc P.inner_cxt r2 h2 hPt
        by_cases hr : r2.result = true
        · rw [hr] at h
          simp only [Bool.not_true, Bool.false_eq_true, if_false] at h
          unfold walker_FuncExpr_post at h
          simp only at h
          rcases walker_FuncExpr_pre_inr cat funcid funcresulttype g itc c P h0 with
            ⟨hc, hg, hcc⟩ | ⟨hc, hg, hcc, hin⟩
          · have hA : r2.glob.is_inner_func = g.is_inner_func := by
              rw [hL.1 hr, hg]
            have hnP : ¬ (g.is_inner_func = true ∧ has_func_call cat
                (T_FuncExpr funcid funcresulttype funccollid inputcollid args) = true) := by
              rintro ⟨hi, hf⟩
              rw [has_func_call, hcc] at hf
              have := hL.2 ⟨by rw [hg]; exact hi, by simpa using hf⟩
              rw [this] at hr
              simp at hr
            simp only [hc, Bool.not_true, Bool.false_eq_true, if_false] at h
            split_ifs at h
            all_goals first
              | exact ok_false_inner _ _ _ _ _ _ h
              | exact walker_finish_inner _ _ _ _ _ _ _ _ _ _ h hA hnP
          · have hi0 : g.is_inner_func = false := hin ht
            have hnP : ¬ (g.is_inner_func = true ∧ has_func_call cat
                (T_FuncExpr funcid funcresulttype funccollid inputcollid args) = true) := by
              rintro ⟨hi, _⟩
              rw [hi0] at hi
              simp at hi
            simp only [hc, Bool.not_false, if_true] at h
            split_ifs at h
            all_goals first
              | exact ok_false_inner _ _ _ _ _ _ h
              | exact walker_finish_inner _ _ _ _ _ _ _ _ _ _ h hi0.symm hnP
        · have hr2 : r2.result = false := by simpa using hr
          rw [hr2] at h
          simp only [Bool.not_false, if_true] at h
          exact ok_false_inner _ _ _ _ _ _ h
  | T_OpExpr opno opresulttype opcollid inputcollid args, g, itc, c, r, h, ht => by
    rw [tdengine_foreign_expr_walker] at h
    split at h
    · simp at h
    · exact ok_false_inner _ _ _ _ _ _ h
    · split_ifs at h with hf
      · have hnP : ¬ (g.is_inner_func = true ∧ has_func_call cat
            (T_OpExpr opno opresulttype opcollid inputcollid args) = true) := by
          rintro ⟨_, hfc⟩
          rw [Bool.or_eq_true] at hf
          rcases hf with hf | hf
          · rw [is_slvar_fetch_no_func cat _ _ hf] at hfc
            simp at hfc
          · rw [is_param_fetch_no_func cat _ _ hf] at hfc
            simp at hfc
        exact walker_finish_inner _ _ _ _ _ _ _ _ _ _ h rfl hnP
      · split at h
        · simp at h
        · rename_i r2 h2
          have hL := walker_List_node_inner _ (has_func_call_list cat args)
            (fun g2 i2 c2 r3 h3 ht3 => walker_foreach_inner_func cat args g2 i2 c2 r3 h3 ht3)
            g itc _ r2 h2 ht
          by_cases hr : r2.result = true
          · rw [hr] at h
            simp only [Bool.not_true, Bool.false_eq_true, if_false] at h
            have hnP : ¬ (g.is_inner_func = true ∧ has_func_call cat
                (T_OpExpr opno opresulttype opcollid inputcollid args) = true) := by
              rintro ⟨hi, hfc⟩
              rw [has_func_call] at hfc
              rw [hL.2 ⟨hi, hfc⟩] at hr
              simp at hr
            unfold walker_OpExpr_post at h
            split_ifs at h
            all_goals first
              | exact ok_false_inner _ _ _ _ _ _ h
              | exact walker_finish_inner _ _ _ _ _ _ _ _ _ _ h (hL.1 hr) hnP
          · have hr2 : r2.result = false := by simpa using hr
            rw [hr2] at h
            simp only [Bool.not_false, if_true] at h
            exact ok_false_inner _ _ _ _ _ _ h
  | T_DistinctExpr opno opresulttype opcollid inputcollid args, g, itc, c, r, h, _ => by
    rw [tdengine_foreign_expr_walker] at h
    exact ok_false_inner _ _ _ _ _ _ h
  | T_ScalarArrayOpExpr opno useOr inputcollid args, g, itc, c, r, h, ht => by
    rw [tdengine_foreign_expr_walker] at h
    split at h
    · simp at h
    · exact ok_false_inner _ _ _ _ _ _ h
    · split at h
      · simp at h
      · rename_i r2 h2
        have hL := walker_List_node_inner _ (has_func_call_list cat args)
          (fun g2 i2 c2 r3 h3 ht3 => walker_foreach_inner_func cat args g2 i2 c2 r3 h3 ht3)
          g itc _ r2 h2 ht
        by_cases hr : r2.result = true
        · rw [hr] at h
          simp only [Bool.not_true, Bool.false_eq_true, if_false] at h
          have hnP : ¬ (g.is_inner_func = true ∧ has_func_call cat
              (T_ScalarArrayOpExpr opno useOr inputcollid args) = true) := by
            rintro ⟨hi, hfc⟩
            rw [has_func_call] at hfc
            rw [hL.2 ⟨hi, hfc⟩] at hr
            simp at hr
          split_ifs at h
          all_goals first
            | exact ok_false_inner _ _ _ _ _ _ h
            | exact walker_finish_inner _ _ _ _ _ _ _ _ _ _ h (hL.1 hr) hnP
        · have hr2 : r2.result = false := by simpa using hr
          rw [hr2] at h
          simp only [Bool.not_false, if_true] at h
          exact ok_false_inner _ _ _ _ _ _ h
  | T_RelabelType arg resulttype resultcollid, g, itc, c, r, h, ht => by
    rw [tdengine_foreign_expr_walker] at h
    split at h
    · simp at h
    · rename_i r2 h2
      have hL := walker_inner_func cat arg g itc _ r2 h2 ht
      by_cases hr : r2.result = true
      · rw [hr] at h
        simp only [Bool.not_true, Bool.false_eq_true, if_false] at h
        have hnP : ¬ (g.is_inner_func = true ∧ has_func_call cat
            (T_RelabelType arg resulttype resultcollid) = true) := by
          rintro ⟨hi, hfc⟩
          rw [has_func_call] at hfc
          rw [hL.2 ⟨hi, hfc⟩] at hr
          simp at hr
        exact walker_finish_inner _ _ _ _ _ _ _ _ _ _ h (hL.1 hr) hnP
      · have hr2 : r2.result = false := by simpa using hr
        rw [hr2] at h
        simp only [Bool.not_false, if_true] at h
        exact ok_false_inner _ _ _ _ _ _ h
  | T_BoolExpr boolop args, g, itc, c, r, h, ht => by
    rw [tdengine_foreign_expr_walker] at h
    split_ifs at h
    · exact ok_false_inner _ _ _ _ _ _ h
    · split at h
      · simp at h
      · rename_i r2 h2
        have hL := walker_List_node_inner _ (has_func_call_list cat args)
          (fun g2 i2 c2 r3 h3 ht3 => walker_foreach_inner_func cat args g2 i2 c2 r3 h3 ht3)
          g false _ r2 h2 ht
        by_cases hr : r2.result = true
        · rw [hr] at h
          simp only [Bool.not_true, Bool.false_eq_true, if_false] at h
          have hnP : ¬ (g.is_inner_func = true ∧ has_func_call cat
              (T_BoolExpr boolop args) = true) := by
            rintro ⟨hi, hfc⟩
            rw [has_func_call] at hfc
            rw [hL.2 ⟨hi, hfc⟩] at hr
            simp at hr
          split_ifs at h
          all_goals first
            | exact ok_false_inner _ _ _ _ _ _ h
            | exact walker_finish_inner _ _ _ _ _ _ _ _ _ _ h (hL.1 hr) hnP
        · have hr2 : r2.result = false := by simpa using hr
          rw [hr2] at h
          simp only [Bool.not_false, if_true] at h
          exact ok_false_inner _ _ _ _ _ _ h
  | T_List elems, g, itc, c, r, h, ht => by
    rw [tdengine_foreign_expr_walker] at h
    rw [has_func_call]
    exact walker_List_node_inner _ (has_func_call_list cat elems)
      (fun g2 i2 c2 r3 h3 ht3 => walker_foreach_inner_func cat elems g2 i2 c2 r3 h3 ht3)
      g itc c r h ht
  | T_Aggref aggfnoid aggtype aggcollid inputcollid args aggorder aggdistinct aggfilter aggstar
      aggvariadic aggsplit, g, itc, c, r, h, ht => by
    rw [tdengine_foreign_expr_walker] at h
    split at h
    · simp at h
    · exact ok_false_inner _ _ _ _ _ _ h
    · rename_i pre hpre
      split at h
      · simp at h
      · rename_i r2 st2 h2
        have hL := walker_aggargs_inner_func cat pre args _ g false _ r2 st2 h2 ht
        by_cases hr : r2.result = true
        · rw [hr] at h
          simp only [Bool.not_true, Bool.false_eq_true, if_false] at h
          unfold walker_Aggref_post at h
          simp only at h
          cases aggfilter with
          | some f =>
            simp only [Option.isSome_some, Bool.or_true, if_true] at h
            exact ok_false_inner _ _ _ _ _ _ h
          | none =>
            have hnP : ¬ (g.is_inner_func = true ∧ has_func_call cat
                (T_Aggref aggfnoid aggtype aggcollid inputcollid args aggorder aggdistinct none
                  aggstar aggvariadic aggsplit) = true) := by
              rintro ⟨hi, hfc⟩
              rw [has_func_call_Aggref] at hfc
              simp only [Bool.or_false] at hfc
              rw [hL.2 ⟨hi, hfc⟩] at hr
              simp at hr
            split_ifs at h
            all_goals first
              | exact ok_false_inner _ _ _ _ _ _ h
              | exact walker_finish_inner _ _ _ _ _ _ _ _ _ _ h (hL.1 hr) hnP
        · have hr2 : r2.result = false := by simpa using hr
          rw [hr2] at h
          simp only [Bool.not_false, if_true] at h
          exact ok_false_inner _ _ _ _ _ _ h
  | T_TargetEntry expr resno ressortgroupref resjunk, g, itc, c, r, h, _ => by
    rw [tdengine_foreign_expr_walker] at h
    exact ok_false_inner _ _ _ _ _ _ h
  | T_CoerceViaIOExpr arg resulttype resultcollid, g, itc, c, r, h, ht => by
    rw [tdengine_foreign_expr_walker] at h
    split_ifs at h
    · exact ok_false_inner _ _ _ _ _ _ h
    · split at h
      · simp at h
      · rename_i r2 h2
        have hL := walker_inner_func cat arg g itc _ r2 h2 ht
        by_cases hr : r2.result = true
        · rw [hr] at h
          simp only [Bool.not_true, Bool.false_eq_true, if_false] at h
          have hnP : ¬ (g.is_inner_func = true ∧ has_func_call cat
              (T_CoerceViaIOExpr arg resulttype resultcollid) = true) := by
            rintro ⟨hi, hfc⟩
            rw [has_func_call] at hfc
            rw [hL.2 ⟨hi, hfc⟩] at hr
            simp at hr
          exact walker_finish_inner _ _ _ _ _ _ _ _ _ _ h (hL.1 hr) hnP
        · have hr2 : r2.result = false := by simpa using hr
          rw [hr2] at h
          simp only [Bool.not_false, if_true] at h
          exact ok_false_inner _ _ _ _ _ _ h
    · exact ok_false_inner _ _ _ _ _ _ h
  | T_NullTest arg nulltesttype, g, itc, c, r, h, _ => by
    rw [tdengine_foreign_expr_walker] at h
    unfold walker_NullTest at h
    split at h
    · exact ok_false_inner _ _ _ _ _ _ h
    · rename_i name hn
      have hnP : ¬ (g.is_inner_func = true ∧ has_func_call cat
          (T_NullTest arg nulltesttype) = true) := by
        rintro ⟨_, hfc⟩
        rw [has_func_call, get_slvar_no_func cat arg _ name hn] at hfc
        simp at hfc
      split_ifs at h
      · exact ok_false_inner _ _ _ _ _ _ h
      · exact walker_finish_inner _ _ _ _ _ _ _ _ _ _ h rfl hnP
  | T_ArrayExpr array_typeid array_collid elements, g, itc, c, r, h, ht => by
    rw [tdengine_foreign_expr_walker] at h
    split at h
    · simp at h
    · rename_i r2 h2
      have hL := walker_List_node_inner _ (has_func_call_list cat elements)
        (fun g2 i2 c2 r3 h3 ht3 => walker_foreach_inner_func cat elements g2 i2 c2 r3 h3 ht3)
        g itc _ r2 h2 ht
      by_cases hr : r2.result = true
      · rw [hr] at h
        simp only [Bool.not_true, Bool.false_eq_true, if_false] at h
        have hnP : ¬ (g.is_inner_func = true ∧ has_func_call cat
            (T_ArrayExpr array_typeid array_collid elements) = true) := by
          rintro ⟨hi, hfc⟩
          rw [has_func_call] at hfc
          rw [hL.2 ⟨hi, hfc⟩] at hr
          simp at hr
        exact walker_finish_inner _ _ _ _ _ _ _ _ _ _ h (hL.1 hr) hnP
      · have hr2 : r2.result = false := by simpa using hr
        rw [hr2] at h
        simp only [Bool.not_false, if_true] at h
        exact ok_false_inner _ _ _ _ _ _ h
  | T_Other tag type children, g, itc, c, r, h, _ => by
    rw [tdengine_foreign_expr_walker] at h
    exact ok_false_inner _ _ _ _ _ _ h
/-- The same for the element loop of a list. -/
theorem walker_foreach_inner_func (cat : Catalog) :
    ∀ (es : List Node) (g : foreign_glob_cxt) (itc : Bool) (c : foreign_loc_cxt) (r : WalkOut),
      walker_foreach cat es g itc c = .ok r → g.for_tlist = false →
      (r.result = true → r.glob.is_inner_func = g.is_inner_func) ∧
      (g.is_inner_func = true ∧ has_func_call_list cat es = true → r.result = false)
  | [], g, itc, c, r, h, _ => by
    rw [walker_foreach] at h
    simp only [Except.ok.injEq] at h
    rw [← h]
    exact ⟨fun _ => rfl, fun hP => by simp [has_func_call_list] at hP⟩
  | a :: rest, g, itc, c, r, h, ht => by
    rw [walker_foreach] at h
    split at h
    · simp at h
    · rename_i r1 h1
      have ha := walker_inner_func cat a g itc c r1 h1 ht
      by_cases hr : r1.result = true
      · rw [hr] at h
        simp only [Bool.not_true, Bool.false_eq_true, if_false] at h
        have ht1 : r1.glob.for_tlist = false := by
          rw [← ht]
          exact (walker_table cat a g itc c r1 h1).2.2.2.2
        have hrest := walker_foreach_inner_func cat rest _ _ _ r h ht1
        refine ⟨fun hb => (hrest.1 hb).trans (ha.1 hr), ?_⟩
        rintro ⟨hi, hfc⟩
        rw [has_func_call_list, Bool.or_eq_true] at hfc
        rcases hfc with hfc | hfc
        · rw [ha.2 ⟨hi, hfc⟩] at hr
          simp at hr
        · exact hrest.2 ⟨by rw [ha.1 hr]; exact hi, hfc⟩
      · have hr2 : r1.result = false := by simpa using hr
        rw [hr2] at h
        simp only [Bool.not_false, if_true, Except.ok.injEq] at h
        rw [← h]
        exact ⟨fun hb => by rw [hr2] at hb; simp at hb, fun _ => hr2⟩
/-- The same for the argument loop of an aggregate. -/
theorem walker_aggargs_inner_func (cat : Catalog) (pre : AggPre) :
    ∀ (es : List Node) (st : AggLoop) (g : foreign_glob_cxt) (itc : Bool)
      (c : foreign_loc_cxt) (r : WalkOut) (st2 : AggLoop),
      walker_aggargs cat pre es st g itc c = .ok (r, st2) → g.for_tlist = false →
      (r.result = true → r.glob.is_inner_func = g.is_inner_func) ∧
      (g.is_inner_func = true ∧ has_func_call_list cat es = true → r.result = false)
  | [], st, g, itc, c, r, st2, h, _ => by
    rw [walker_aggargs] at h
    simp only [Except.ok.injEq, Prod.mk.injEq] at h
    rw [← h.1]
    exact ⟨fun _ => rfl, fun hP => by simp [has_func_call_list] at hP⟩
  | n :: rest, st, g, itc, c, r, st2, h, ht => by
    have key : ∀ (wrapped : Bool) (m : Node),
        has_func_call cat m = has_func_call cat n →
        (∀ g2 i2 c2 r2, tdengine_foreign_expr_walker cat m g2 i2 c2 = .ok r2 →
          g2.for_tlist = false →
          (r2.result = true → r2.glob.is_inner_func = g2.is_inner_func) ∧
          (g2.is_inner_func = true ∧ has_func_call cat m = true → r2.result = false)) →
        (∀ g2 i2 c2 r2, tdengine_foreign_expr_walker cat m g2 i2 c2 = .ok r2 →
          same_table r2.glob g2) →
        ((match aggref_arg_pre cat g pre st wrapped m with
          | .error e => .error e
          | .ok none => .ok (⟨false, g, itc, c⟩, st)
          | .ok (some st1) =>
            match tdengine_foreign_expr_walker cat m g itc c with
            | .error e => .error e
            | .ok r =>
              if !r.result then .ok (r, st1)
              else if aggref_time_rejected pre r.is_time_column then
                .ok (⟨false, r.glob, false, r.cxt⟩, st1)
              else walker_aggargs cat pre rest st1 r.glob r.is_time_column r.cxt :
            Except Err (WalkOut × AggLoop))
          = .ok (r, st2)) →
        (r.result = true → r.glob.is_inner_func = g.is_inner_func) ∧
        (g.is_inner_func = true ∧ has_func_call_list cat (n :: rest) = true →
          r.result = false) := by
      intro wrapped m hmn ihm htab h2
      split at h2
      · simp at h2
      · simp only [Except.ok.injEq, Prod.mk.injEq] at h2
        rw [← h2.1]
        exact ⟨fun hb => by simp at hb, fun _ => rfl⟩
      · split at h2
        · simp at h2
        · rename_i r1 h1
          have ha := ihm g itc c r1 h1 ht
          by_cases hr : r1.result = true
          · rw [hr] at h2
            simp only [Bool.not_true, Bool.false_eq_true, if_false] at h2
            split_ifs at h2
            · simp only [Except.ok.injEq, Prod.mk.injEq] at h2
              rw [← h2.1]
              exact ⟨fun hb => by simp at hb, fun _ => rfl⟩
            · have ht1 : r1.glob.for_tlist = false := by
                rw [← ht]
                exact (htab g itc c r1 h1).2.2.2.2
              have hrest := walker_aggargs_inner_func cat pre rest _ _ _ _ r st2 h2 ht1
              refine ⟨fun hb => (hrest.1 hb).trans (ha.1 hr), ?_⟩
              rintro ⟨hi, hfc⟩
              rw [has_func_call_list, Bool.or_eq_true, ← hmn] at hfc
              rcases hfc with hfc | hfc
              · rw [ha.2 ⟨hi, hfc⟩] at hr
                simp at hr
              · exact hrest.2 ⟨by rw [ha.1 hr]; exact hi, hfc⟩
          · have hr2 : r1.result = false := by simpa using hr
            rw [hr2] at h2
            simp only [Bool.not_false, if_true, Except.ok.injEq, Prod.mk.injEq] at h2
            rw [← h2.1]
            exact ⟨fun hb => by rw [hr2] at hb; simp at hb, fun _ => hr2⟩
    by_cases hT : ∃ e a1 a2 a3, n = T_TargetEntry e a1 a2 a3
    · cases n with
      | T_TargetEntry e a1 a2 a3 =>
        rw [walker_aggargs] at h
        exact key true e (by rw [has_func_call])
          (fun g2 i2 c2 r2 hw2 ht2 => walker_inner_func cat e g2 i2 c2 r2 hw2 ht2)
          (fun g2 i2 c2 r2 hw2 => walker_table cat e g2 i2 c2 r2 hw2) h
      | _ =>
        obtain ⟨e, a1, a2, a3, he⟩ := hT
        cases he
    · have hn : ∀ m, m = n → ∀ g2 i2 c2 r2,
          tdengine_foreign_expr_walker cat m g2 i2 c2 = .ok r2 → g2.for_tlist = false →
          (r2.result = true → r2.glob.is_inner_func = g2.is_inner_func) ∧
          (g2.is_inner_func = true ∧ has_func_call cat m = true → r2.result = false) := by
        intro m hmn g2 i2 c2 r2 hw2 ht2
        subst hmn
        exact walker_inner_func cat m g2 i2 c2 r2 hw2 ht2
      rw [walker_aggargs] at h
      · exact key false n rfl (hn n rfl)
          (fun g2 i2 c2 r2 hw2 => walker_table cat n g2 i2 c2 r2 hw2) h
      · intro n2 a1 a2 a3 hn2
        exact hT ⟨n2, a1, a2, a3, hn2⟩
end

/-! ## Theorems: two runs of the walker -/

theorem no_aggref_mark_or (x : Nat) (h : no_aggref_mark x) :
    no_aggref_mark (x ||| TDENGINE_TARGETS_MARK_COLUMN) := by
  unfold no_aggref_mark at h ⊢
  rw [Nat.testBit_or, h]
  decide

theorem no_aggref_mark_test (x : Nat) (h : no_aggref_mark x) :
    ¬ (x &&& TDENGINE_TARGETS_MIXING_AGGREF_UNSAFE = TDENGINE_TARGETS_MIXING_AGGREF_UNSAFE) := by
  intro hx
  unfold no_aggref_mark at h
  have h2 := congrArg (fun n => Nat.testBit n 1) hx
  simp only [Nat.testBit_and, h, Bool.false_and] at h2
  revert h2
  decide

theorem marks_agree_refl (x : Nat) : marks_agree x x := Or.inl rfl

theorem marks_agree_or (x m : Nat) (h : marks_agree x m) :
    marks_agree (x ||| TDENGINE_TARGETS_MARK_COLUMN) (m ||| TDENGINE_TARGETS_MARK_COLUMN) := by
  rcases h with h | ⟨h1, h2⟩
  · left; rw [h]
  · right; exact ⟨no_aggref_mark_or x h1, no_aggref_mark_or m h2⟩

theorem marks_agree_test (x m : Nat) (h : marks_agree x m) :
    (m &&& TDENGINE_TARGETS_MIXING_AGGREF_UNSAFE = TDENGINE_TARGETS_MIXING_AGGREF_UNSAFE) ↔
    (x &&& TDENGINE_TARGETS_MIXING_AGGREF_UNSAFE = TDENGINE_TARGETS_MIXING_AGGREF_UNSAFE) := by
  rcases h with h | ⟨h1, h2⟩
  · rw [h]
  · exact ⟨fun hm => absurd hm (no_aggref_mark_test m h2),
      fun hx => absurd hx (no_aggref_mark_test x h1)⟩

theorem so_error {α : Type} (P : α → α → Prop) (e : Err) :
    same_outcome P (.error e) (.error e) := Or.inl ⟨e, rfl, rfl⟩

theorem marks_rel_mono (i i2 itc itc2 : Bool) (r r2 : WalkOut) (h : marks_rel i i2 r r2)
    (hi : itc2 = itc → i2 = i) : marks_rel itc itc2 r r2 :=
  ⟨h.1, h.2.1, fun e => h.2.2.1 (hi e), h.2.2.2⟩

theorem so_mono (i i2 itc itc2 : Bool) (a b : Except Err WalkOut)
    (h : same_outcome (marks_rel i i2) a b) (hi : itc2 = itc → i2 = i) :
    same_outcome (marks_rel itc itc2) a b := by
  rcases h with h | ⟨r, r2, h1, h2, h3⟩
  · exact Or.inl h
  · exact Or.inr ⟨r, r2, h1, h2, marks_rel_mono i i2 itc itc2 r r2 h3 hi⟩

theorem so_ok_marks (bb : Bool) (g g2 : foreign_glob_cxt) (m : Nat) (b : Bool)
    (itc itc2 i i2 : Bool) (c : foreign_loc_cxt) (hg : g2 = with_marks g m b)
    (hm : marks_agree g.mixing_aggref_status m) (hb : g.for_tlist = false → b = g.is_inner_func)
    (hi : itc2 = itc → i2 = i) :
    same_outcome (marks_rel itc itc2) (.ok ⟨bb, g, i, c⟩) (.ok ⟨bb, g2, i2, c⟩) :=
  Or.inr ⟨_, _, rfl, rfl, rfl, rfl, hi, m, b, hg, hm, hb⟩

theorem so_finish_marks (type : Except Err Oid) (check_type : Bool) (collation : Oid)
    (state : FDWCollateState) (g g2 : foreign_glob_cxt) (m : Nat) (b : Bool)
    (itc itc2 i i2 : Bool) (c : foreign_loc_cxt) (hg : g2 = with_marks g m b)
    (hm : marks_agree g.mixing_aggref_status m) (hb : g.for_tlist = false → b = g.is_inner_func)
    (hi : itc2 = itc → i2 = i) :
    same_outcome (marks_rel itc itc2) (walker_finish type check_type collation state g i c)
      (walker_finish type check_type collation state g2 i2 c) := by
  unfold walker_finish
  split_ifs
  · split
    · exact so_error _ _
    · split_ifs
      · exact so_ok_marks _ _ _ _ _ _ _ _ _ _ hg hm hb hi
      · exact so_ok_marks _ _ _ _ _ _ _ _ _ _ hg hm hb hi
  · exact so_ok_marks _ _ _ _ _ _ _ _ _ _ hg hm hb hi

theorem so_List_node_marks
    (loop : foreign_glob_cxt → Bool → foreign_loc_cxt → Except Err WalkOut)
    (hloop : ∀ g i c m b i2, marks_agree g.mixing_aggref_status m →
      (g.for_tlist = false → b = g.is_inner_func) →
      same_outcome (marks_rel i i2) (loop g i c) (loop (with_marks g m b) i2 c))
    (g : foreign_glob_cxt) (m : Nat) (b : Bool) (itc itc2 i i2 : Bool) (c : foreign_loc_cxt)
    (hm : marks_agree g.mixing_aggref_status m) (hb : g.for_tlist = false → b = g.is_inner_func)
    (hi : itc2 = itc → i2 = i) :
    same_outcome (marks_rel itc itc2) (walker_List_node loop g i c)
      (walker_List_node loop (with_marks g m b) i2 c) := by
  unfold walker_List_node
  simp only
  rcases hloop g i _ m b i2 hm hb with ⟨e, h1, h2⟩ | ⟨r, r2, h1, h2, hres, hcxt, hitc, m2, b2, hg2, hm2, hb2⟩
  · rw [h1, h2]
    exact so_error _ e
  · rw [h1, h2]
    simp only [hres, hcxt]
    by_cases hr : r.result = true
    · simp only [hr, Bool.not_true, Bool.false_eq_true, if_false]
      exact so_finish_marks _ _ _ _ _ _ _ _ _ _ _ _ _ hg2 hm2 hb2 (fun e => hitc (hi e))
    · have hr2 : r.result = false := by simpa using hr
      simp only [hr2, Bool.not_false, if_true]
      exact so_ok_marks _ _ _ _ _ _ _ _ _ _ hg2 hm2 hb2 (fun e => hitc (hi e))

theorem walker_FuncExpr_pre_inl_out (cat : Catalog) (funcid : Oid) (funcresulttype : Oid)
    (g : foreign_glob_cxt) (itc : Bool) (c : foreign_loc_cxt) (r : WalkOut)
    (h : walker_FuncExpr_pre cat funcid funcresulttype g itc c = .ok (.inl r)) :
    r.glob = g ∧ r.is_time_column = itc := by
  unfold walker_FuncExpr_pre at h
  split at h
  · simp at h
  · rename_i nm hnm
    by_cases hA : (TDENGINE_IS_TIME_TYPE funcresulttype && c.is_comparison &&
        (nm != "now" || !c.has_time_key)) = true
    · rw [if_pos hA] at h
      simp only [Except.ok.injEq, Sum.inl.injEq] at h
      rw [← h]
      exact ⟨rfl, rfl⟩
    · rw [if_neg hA] at h
      lift_lets at h
      extract_lets is_cast is_star outer1 can src inner1 outer2 g1 inner2 outer3 at h
      split_ifs at h
      · simp only [Except.ok.injEq, Sum.inl.injEq] at h
        rw [← h]
        exact ⟨rfl, rfl⟩
      · simp only [Except.ok.injEq, Sum.inl.injEq] at h
        rw [← h]
        exact ⟨rfl, rfl⟩
      · simp only [Except.ok.injEq, Sum.inl.injEq] at h
        rw [← h]
        exact ⟨rfl, rfl⟩
      · simp at h

/-- How `walker_FuncExpr_pre` depends on the two fields of the global context
that the walker writes and on the static flag. -/
theorem walker_FuncExpr_pre_marks (cat : Catalog) (funcid : Oid) (funcresulttype : Oid)
    (g : foreign_glob_cxt) (itc : Bool) (c : foreign_loc_cxt) (m : Nat) (b : Bool) (itc2 : Bool)
    (hb : g.for_tlist = false → b = g.is_inner_func) :
    walker_FuncExpr_pre cat funcid funcresulttype (with_marks g m b) itc2 c =
      match walker_FuncExpr_pre cat funcid funcresulttype g itc c with
      | .error e => .error e
      | .ok (.inl r) => .ok (.inl ⟨r.result, with_marks g m b, itc2, r.cxt⟩)
      | .ok (.inr P) =>
        .ok (.inr ⟨P.opername, P.is_cast_func,
          with_marks P.glob m (if P.is_cast_func then b else true), P.outer_cxt, P.inner_cxt⟩) := by
  unfold walker_FuncExpr_pre
  cases hp : cat.proname funcid with
  | none => rfl
  | some nm =>
    simp only
    by_cases hA : (TDENGINE_IS_TIME_TYPE funcresulttype && c.is_comparison &&
        (nm != "now" || !c.has_time_key)) = true
    · rw [if_pos hA, if_pos hA]
    · rw [if_neg hA, if_neg hA]
      have hcond : ∀ x : Bool, (x && !(with_marks g m b).for_tlist &&
          (with_marks g m b).is_inner_func) = (x && !g.for_tlist && g.is_inner_func) := by
        intro x
        show (x && !g.for_tlist && b) = (x && !g.for_tlist && g.is_inner_func)
        cases hf : g.for_tlist
        · rw [hb hf]
        · simp
      simp only [hcond]
      by_cases h1 : (!(tdengine_is_star_func funcid nm ||
          (tdengine_is_unique_func funcid nm || tdengine_is_supported_builtin_func funcid nm) ||
          (nm == "float8" || nm == "numeric"))) = true
      · rw [if_pos h1, if_pos h1]
      · rw [if_neg h1, if_neg h1]
        by_cases h2 : ((nm == "tdengine_fill_numeric" || nm == "tdengine_fill_option") &&
            c.tdengine_fill_enable == false) = true
        · rw [if_pos h2, if_pos h2]
        · rw [if_neg h2, if_neg h2]
          by_cases h3 : ((nm == "float8" || nm == "numeric") && c.can_skip_cast == false) = true
          · rw [if_pos h3, if_pos h3]
          · rw [if_neg h3, if_neg h3]
            by_cases h4 : (!(nm == "float8" || nm == "numeric") && !g.for_tlist &&
                g.is_inner_func) = true
            · rw [if_pos h4, if_pos h4]
            · rw [if_neg h4, if_neg h4]
              simp only
              cases hc : (nm == "float8" || nm == "numeric") <;> rfl

theorem wm_relids (g : foreign_glob_cxt) (m : Nat) (b : Bool) :
    (with_marks g m b).relids = g.relids := rfl
theorem wm_slinfo (g : foreign_glob_cxt) (m : Nat) (b : Bool) :
    (with_marks g m b).slinfo = g.slinfo := rfl
theorem wm_relid (g : foreign_glob_cxt) (m : Nat) (b : Bool) :
    (with_marks g m b).relid = g.relid := rfl
theorem wm_reloptkind (g : foreign_glob_cxt) (m : Nat) (b : Bool) :
    (with_marks g m b).reloptkind = g.reloptkind := rfl
theorem wm_mixing (g : foreign_glob_cxt) (m : Nat) (b : Bool) :
    (with_marks g m b).mixing_aggref_status = m := rfl

theorem walker_Aggref_pre_marks (cat : Catalog) (aggfnoid : Oid) (aggsplit : AggSplit)
    (g : foreign_glob_cxt) (itc : Bool) (m : Nat) (b : Bool) (itc2 : Bool) :
    walker_Aggref_pre cat aggfnoid aggsplit (with_marks g m b) itc2 =
      match walker_Aggref_pre cat aggfnoid aggsplit g itc with
      | .error e => .error e
      | .ok none => .ok none
      | .ok (some pre) => .ok (some { pre with old_val := itc2 }) := by
  unfold walker_Aggref_pre
  cases hp : cat.proname aggfnoid with
  | none => rfl
  | some nm =>
    simp only [wm_reloptkind]
    split_ifs <;> rfl

theorem walker_Aggref_pre_old_val (cat : Catalog) (aggfnoid : Oid) (aggsplit : AggSplit)
    (g : foreign_glob_cxt) (itc : Bool) (pre : AggPre)
    (h : walker_Aggref_pre cat aggfnoid aggsplit g itc = .ok (some pre)) : pre.old_val = itc := by
  unfold walker_Aggref_pre at h
  split at h
  · simp at h
  · simp only at h
    split_ifs at h
    all_goals simp only [Except.ok.injEq, Option.some.injEq] at h
    all_goals first
      | (rw [← h])
      | cases h

theorem aggref_arg_pre_marks (cat : Catalog) (g : foreign_glob_cxt) (m : Nat) (b : Bool)
    (pre : AggPre) (v : Bool) (st : AggLoop) (wrapped : Bool) (n : Node) :
    aggref_arg_pre cat (with_marks g m b) { pre with old_val := v } st wrapped n
      = aggref_arg_pre cat g pre st wrapped n := rfl

/-! ## Theorems: two runs of the walker from different marks and static flag -/

set_option maxHeartbeats 1600000 in
mutual
/-- Two runs of the walker on the same node and local context, the second from
a global context that differs in `mixing_aggref_status` (in a way the test of
the `T_OpExpr` case cannot tell) and, when a target list is checked, in
`is_inner_func`, and from another value of the static `is_time_column`, end
alike: the same error, or the same return value and local context. -/
theorem walker_marks (cat : Catalog) :
    ∀ (e : Node) (g : foreign_glob_cxt) (itc : Bool) (c : foreign_loc_cxt) (m : Nat) (b : Bool)
      (itc2 : Bool), marks_agree g.mixing_aggref_status m →
      (g.for_tlist = false → b = g.is_inner_func) →
      same_outcome (marks_rel itc itc2) (tdengine_foreign_expr_walker cat e g itc c)
        (tdengine_foreign_expr_walker cat e (with_marks g m b) itc2 c)
  | T_Var varno varattno vartype vartypmod varcollid varlevelsup, g, itc, c, m, b, itc2, hm,
      hb => by
    rw [tdengine_foreign_expr_walker, tdengine_foreign_expr_walker]
    unfold walker_Var
    simp only [wm_relids]
    by_cases h1 : (g.relids.contains varno && varlevelsup == 0) = true
    · rw [if_pos h1, if_pos h1]
      by_cases h2 : varattno < 0
      · rw [if_pos h2, if_pos h2]
        exact so_ok_marks _ _ _ m b _ _ _ _ _ rfl hm hb (fun e => e)
      · rw [if_neg h2, if_neg h2]
        by_cases h3 : (TDENGINE_IS_TIME_TYPE vartype && time_arith_in_comparison c) = true
        · rw [if_pos h3, if_pos h3]
          exact so_ok_marks _ _ _ m b _ _ _ _ _ rfl hm hb (fun e => by rw [e])
        · rw [if_neg h3, if_neg h3]
          exact so_finish_marks _ _ _ _ _ _ (m ||| TDENGINE_TARGETS_MARK_COLUMN) b _ _ _ _ _ rfl
            (marks_agree_or _ _ hm) hb (fun e => by rw [e])
    · rw [if_neg h1, if_neg h1]
      exact so_finish_marks _ _ _ _ _ _ m b _ _ _ _ _ rfl hm hb (fun e => e)
  | T_Const consttype constcollid constvalue constisnull, g, itc, c, m, b, itc2, hm, hb => by
    rw [tdengine_foreign_expr_walker, tdengine_foreign_expr_walker]
    unfold walker_Const
    simp only
    by_cases h1 : consttype = INTERVALOID ∧
        ((interval2tm_year_mon (DatumGetIntervalP constvalue)).2 ≠ 0 ∨
          (interval2tm_year_mon (DatumGetIntervalP constvalue)).1 ≠ 0)
    · rw [if_pos h1, if_pos h1]
      exact so_ok_marks _ _ _ m b _ _ _ _ _ rfl hm hb (fun e => e)
    · rw [if_neg h1, if_neg h1]
      cases hd : tdengine_get_data_type_name cat consttype with
      | error e => exact so_error _ e
      | ok nm =>
        simp only
        by_cases h2 : constcollid ≠ InvalidOid ∧ constcollid ≠ DEFAULT_COLLATION_OID
        · rw [if_pos h2, if_pos h2]
          exact so_ok_marks _ _ _ m b _ _ _ _ _ rfl hm hb (fun e => e)
        · rw [if_neg h2, if_neg h2]
          exact so_finish_marks _ _ _ _ _ _ m b _ _ _ _ _ rfl hm hb (fun e => e)
  | T_Param paramid paramtype paramtypmod paramcollid, g, itc, c, m, b, itc2, hm, hb => by
    rw [tdengine_foreign_expr_walker, tdengine_foreign_expr_walker]
    unfold walker_Param
    split_ifs
    · exact so_ok_marks _ _ _ m b _ _ _ _ _ rfl hm hb (fun e => e)
    · exact so_ok_marks _ _ _ m b _ _ _ _ _ rfl hm hb (fun e => e)
    · exact so_finish_marks _ _ _ _ _ _ m b _ _ _ _ _ rfl hm hb (fun e => e)
  | T_FieldSelect arg fieldnum resulttype resultcollid, g, itc, c, m, b, itc2, hm, hb => by
    rw [tdengine_foreign_expr_walker, tdengine_foreign_expr_walker]
    unfold walker_FieldSelect
    simp only [wm_reloptkind]
    split_ifs
    · exact so_ok_marks _ _ _ m b _ _ _ _ _ rfl hm hb (fun e => e)
    · exact so_finish_marks _ _ _ _ _ _ m b _ _ _ _ _ rfl hm hb (fun e => e)
  | T_FuncExpr funcid funcresulttype funccollid inputcollid args, g, itc, c, m, b, itc2, hm,
      hb => by
    rw [tdengine_foreign_expr_walker, tdengine_foreign_expr_walker,
      walker_FuncExpr_pre_marks cat funcid funcresulttype g itc c m b itc2 hb]
    cases hp : walker_FuncExpr_pre cat funcid funcresulttype g itc c with
    | error e => exact so_error _ e
    | ok x =>
      cases x with
      | inl r0 =>
        obtain ⟨hg0, hi0⟩ := walker_FuncExpr_pre_inl_out cat funcid funcresulttype g itc c r0 hp
        simp only
        exact Or.inr ⟨_, _, rfl, rfl, rfl, rfl, fun e => by rw [hi0, e], m, b, by rw [hg0],
          by rw [hg0]; exact hm, by rw [hg0]; exact hb⟩
      | inr P =>
        simp only
        have hPm : marks_agree P.glob.mixing_aggref_status m ∧
            (P.glob.for_tlist = false → (if P.is_cast_func then b else true)
              = P.glob.is_inner_func) := by
          rcases walker_FuncExpr_pre_inr cat funcid funcresulttype g itc c P hp with
            ⟨hc, hg, _⟩ | ⟨hc, hg, _, _⟩
          · rw [hg, hc]
            exact ⟨hm, hb⟩
          · rw [hg, hc]
            exact ⟨hm, fun _ => rfl⟩
        rcases so_List_node_marks (fun g2 i2 c2 => walker_foreach cat args g2 i2 c2)
            (fun g i c m b i2 hm hb => walker_foreach_marks cat args g i c m b i2 hm hb)
            P.glob m (if P.is_cast_func then b else true) itc itc2 itc itc2 P.inner_cxt
            hPm.1 hPm.2 (fun e => e) with
          ⟨e, h1, h2⟩ | ⟨r, r2, h1, h2, hres, hcxt, hitc, m2, b2, hg2, hm2, hb2⟩
        · rw [h1, h2]
          exact so_error _ e
        · rw [h1, h2]
          simp only [hres]
          by_cases hr : r.result = true
          · simp only [hr, Bool.not_true, Bool.false_eq_true, if_false]
            unfold walker_FuncExpr_post
            simp only [hcxt, hg2]
            by_cases hc : P.is_cast_func = true
            · simp only [hc, Bool.not_true, Bool.false_eq_true, if_false]
              split_ifs
              · exact so_finish_marks _ _ _ _ _ _ m2 b2 _ _ _ _ _ rfl hm2 hb2 hitc
              · exact so_ok_marks _ _ _ m2 b2 _ _ _ _ _ rfl hm2 hb2 hitc
              · exact so_finish_marks _ _ _ _ _ _ m2 b2 _ _ _ _ _ rfl hm2 hb2 hitc
            · have hc2 : P.is_cast_func = false := by simpa using hc
              simp only [hc2, Bool.not_false, if_true]
              split_ifs
              · exact so_finish_marks _ _ _ _ _ _ m2 false _ _ _ _ _ rfl hm2 (fun _ => rfl) hitc
              · exact so_ok_marks _ _ _ m2 false _ _ _ _ _ rfl hm2 (fun _ => rfl) hitc
              · exact so_finish_marks _ _ _ _ _ _ m2 false _ _ _ _ _ rfl hm2 (fun _ => rfl) hitc
          · have hr2 : r.result = false := by simpa using hr
            simp only [hr2, Bool.not_false, if_true]
            exact so_ok_marks _ _ _ m2 b2 _ _ _ _ _ hg2 hm2 hb2 hitc
  | T_OpExpr opno opresulttype opcollid inputcollid args, g, itc, c, m, b, itc2, hm, hb => by
    rw [tdengine_foreign_expr_walker, tdengine_foreign_expr_walker]
    have hpre : walker_OpExpr_pre cat (T_OpExpr opno opresulttype opcollid inputcollid args)
        opno args (with_marks g m b) c
        = walker_OpExpr_pre cat (T_OpExpr opno opresulttype opcollid inputcollid args)
            opno args g c := rfl
    rw [hpre]
    simp only [wm_slinfo]
    cases hp : walker_OpExpr_pre cat (T_OpExpr opno opresulttype opcollid inputcollid args)
        opno args g c with
    | error e => exact so_error _ e
    | ok o =>
      cases o with
      | none => exact so_ok_marks _ _ _ m b _ _ _ _ _ rfl hm hb (fun e => e)
      | some inner =>
        simp only
        split_ifs
        · exact so_finish_marks _ _ _ _ _ _ m b _ _ _ _ _ rfl hm hb (fun e => e)
        · rcases so_List_node_marks (fun g2 i2 c2 => walker_foreach cat args g2 i2 c2)
              (fun g i c m b i2 hm hb => walker_foreach_marks cat args g i c m b i2 hm hb)
              g m b itc itc2 itc itc2 inner hm hb (fun e => e) with
            ⟨e, h1, h2⟩ | ⟨r, r2, h1, h2, hres, hcxt, hitc, m2, b2, hg2, hm2, hb2⟩
          · rw [h1, h2]
            exact so_error _ e
          · rw [h1, h2]
            simp only [hres]
            by_cases hr : r.result = true
            · simp only [hr, Bool.not_true, Bool.false_eq_true, if_false]
              unfold walker_OpExpr_post
              simp only [hcxt, hg2, wm_mixing]
              have ht := marks_agree_test _ _ hm2
              by_cases htest : r.glob.mixing_aggref_status &&&
                  TDENGINE_TARGETS_MIXING_AGGREF_UNSAFE = TDENGINE_TARGETS_MIXING_AGGREF_UNSAFE
              · rw [if_pos htest, if_pos (ht.2 htest)]
                exact so_ok_marks _ _ _ m2 b2 _ _ _ _ _ rfl hm2 hb2 hitc
              · rw [if_neg htest, if_neg (fun hx => htest (ht.1 hx))]
                split_ifs
                · exact so_ok_marks _ _ _ m2 b2 _ _ _ _ _ rfl hm2 hb2 hitc
                · exact so_finish_marks _ _ _ _ _ _ m2 b2 _ _ _ _ _ rfl hm2 hb2 hitc
            · have hr2 : r.result = false := by simpa using hr
              simp only [hr2, Bool.not_false, if_true]
              exact so_ok_marks _ _ _ m2 b2 _ _ _ _ _ hg2 hm2 hb2 hitc
  | T_DistinctExpr opno opresulttype opcollid inputcollid args, g, itc, c, m, b, itc2, hm,
      hb => by
    rw [tdengine_foreign_expr_walker, tdengine_foreign_expr_walker]
    exact so_ok_marks _ _ _ m b _ _ _ _ _ rfl hm hb (fun e => e)
  | T_ScalarArrayOpExpr opno useOr inputcollid args, g, itc, c, m, b, itc2, hm, hb => by
    rw [tdengine_foreign_expr_walker, tdengine_foreign_expr_walker]
    have hpre : walker_ScalarArrayOpExpr_pre cat opno args (with_marks g m b)
        = walker_ScalarArrayOpExpr_pre cat opno args g := rfl
    rw [hpre]
    cases hp : walker_ScalarArrayOpExpr_pre cat opno args g with
    | error e => exact so_error _ e
    | ok o =>
      cases o with
      | false => exact so_ok_marks _ _ _ m b _ _ _ _ _ rfl hm hb (fun e => e)
      | true =>
        simp only
        rcases so_List_node_marks (fun g2 i2 c2 => walker_foreach cat args g2 i2 c2)
            (fun g i c m b i2 hm hb => walker_foreach_marks cat args g i c m b i2 hm hb)
            g m b itc itc2 itc itc2 inner_cxt_init hm hb (fun e => e) with
          ⟨e, h1, h2⟩ | ⟨r, r2, h1, h2, hres, hcxt, hitc, m2, b2, hg2, hm2, hb2⟩
        · rw [h1, h2]
          exact so_error _ e
        · rw [h1, h2]
          simp only [hres, hcxt]
          split_ifs
          · exact so_ok_marks _ _ _ m2 b2 _ _ _ _ _ hg2 hm2 hb2 hitc
          · exact so_ok_marks _ _ _ m2 b2 _ _ _ _ _ hg2 hm2 hb2 hitc
          · exact so_finish_marks _ _ _ _ _ _ m2 b2 _ _ _ _ _ hg2 hm2 hb2 hitc
  | T_RelabelType arg resulttype resultcollid, g, itc, c, m, b, itc2, hm, hb => by
    rw [tdengine_foreign_expr_walker, tdengine_foreign_expr_walker]
    rcases walker_marks cat arg g itc inner_cxt_init m b itc2 hm hb with
      ⟨e, h1, h2⟩ | ⟨r, r2, h1, h2, hres, hcxt, hitc, m2, b2, hg2, hm2, hb2⟩
    · rw [h1, h2]
      exact so_error _ e
    · rw [h1, h2]
      simp only [hres, hcxt]
      split_ifs
      · exact so_ok_marks _ _ _ m2 b2 _ _ _ _ _ hg2 hm2 hb2 hitc
      · exact so_finish_marks _ _ _ _ _ _ m2 b2 _ _ _ _ _ hg2 hm2 hb2 hitc
  | T_BoolExpr boolop args, g, itc, c, m, b, itc2, hm, hb => by
    rw [tdengine_foreign_expr_walker, tdengine_foreign_expr_walker]
    by_cases hn : boolop = .NOT_EXPR
    · rw [if_pos hn, if_pos hn]
      exact so_ok_marks _ _ _ m b _ _ _ _ _ rfl hm hb (fun _ => rfl)
    · rw [if_neg hn, if_neg hn]
      rcases so_List_node_marks (fun g2 i2 c2 => walker_foreach cat args g2 i2 c2)
          (fun g i c m b i2 hm hb => walker_foreach_marks cat args g i c m b i2 hm hb)
          g m b false false false false inner_cxt_init hm hb (fun e => e) with
        ⟨e, h1, h2⟩ | ⟨r, r2, h1, h2, hres, hcxt, hitc, m2, b2, hg2, hm2, hb2⟩
      · rw [h1, h2]
        exact so_error _ e
      · rw [h1, h2]
        have hi := hitc rfl
        simp only [hres, hi]
        split_ifs
        · exact so_ok_marks _ _ _ m2 b2 _ _ _ _ _ hg2 hm2 hb2 (fun _ => rfl)
        · exact so_ok_marks _ _ _ m2 b2 _ _ _ _ _ hg2 hm2 hb2 (fun _ => rfl)
        · exact so_finish_marks _ _ _ _ _ _ m2 b2 _ _ _ _ _ hg2 hm2 hb2 (fun _ => rfl)
  | T_List elems, g, itc, c, m, b, itc2, hm, hb => by
    rw [tdengine_foreign_expr_walker, tdengine_foreign_expr_walker]
    exact so_List_node_marks (fun g2 i2 c2 => walker_foreach cat elems g2 i2 c2)
      (fun g i c m b i2 hm hb => walker_foreach_marks cat elems g i c m b i2 hm hb)
      g m b itc itc2 itc itc2 c hm hb (fun e => e)
  | T_Aggref aggfnoid aggtype aggcollid inputcollid args aggorder aggdistinct aggfilter aggstar
      aggvariadic aggsplit, g, itc, c, m, b, itc2, hm, hb => by
    rw [tdengine_foreign_expr_walker, tdengine_foreign_expr_walker,
      walker_Aggref_pre_marks cat aggfnoid aggsplit g itc m b itc2]
    cases hp : walker_Aggref_pre cat aggfnoid aggsplit g itc with
    | error e => exact so_error _ e
    | ok o =>
      cases o with
      | none => exact so_ok_marks _ _ _ m b _ _ _ _ _ rfl hm hb (fun e => e)
      | some pre =>
        have hov := walker_Aggref_pre_old_val cat aggfnoid aggsplit g itc pre hp
        simp only
        rcases walker_aggargs_marks cat pre itc2 args ⟨-1, false, inputcollid⟩ g false
            inner_cxt_init m b hm hb with
          ⟨e, h1, h2⟩ | ⟨p, p2, h1, h2, ⟨hres, hcxt, hitc, m2, b2, hg2, hm2, hb2⟩, hst⟩
        · rw [h1, h2]
          exact so_error _ e
        · rw [h1, h2]
          obtain ⟨r, st⟩ := p
          obtain ⟨r2, st2⟩ := p2
          simp only at hres hcxt hg2 hm2 hb2 hst
          have hi := hitc rfl
          simp only [hres, hst]
          by_cases hr : r.result = true
          · simp only [hr, Bool.not_true, Bool.false_eq_true, if_false]
            unfold walker_Aggref_post
            simp only [hcxt, hov]
            split_ifs
            all_goals first
              | exact so_ok_marks _ _ _ m2 b2 _ _ _ _ _ hg2 hm2 hb2 (fun e => e)
              | exact so_finish_marks _ _ _ _ _ _ m2 b2 _ _ _ _ _ hg2 hm2 hb2 (fun e => e)
          · have hr2 : r.result = false := by simpa using hr
            simp only [hr2, Bool.not_false, if_true]
            exact so_ok_marks _ _ _ m2 b2 _ _ _ _ _ hg2 hm2 hb2 (fun _ => hi)
  | T_TargetEntry expr resno ressortgroupref resjunk, g, itc, c, m, b, itc2, hm, hb => by
    rw [tdengine_foreign_expr_walker, tdengine_foreign_expr_walker]
    exact so_ok_marks _ _ _ m b _ _ _ _ _ rfl hm hb (fun e => e)
  | T_CoerceViaIOExpr arg resulttype resultcollid, g, itc, c, m, b, itc2, hm, hb => by
    rw [tdengine_foreign_expr_walker, tdengine_foreign_expr_walker]
    simp only [wm_slinfo]
    split_ifs
    · exact so_ok_marks _ _ _ m b _ _ _ _ _ rfl hm hb (fun e => e)
    · rcases walker_marks cat arg g itc inner_cxt_init m b itc2 hm hb with
        ⟨e, h1, h2⟩ | ⟨r, r2, h1, h2, hres, hcxt, hitc, m2, b2, hg2, hm2, hb2⟩
      · rw [h1, h2]
        exact so_error _ e
      · rw [h1, h2]
        simp only [hres, hcxt]
        split_ifs
        · exact so_ok_marks _ _ _ m2 b2 _ _ _ _ _ hg2 hm2 hb2 hitc
        · exact so_finish_marks _ _ _ _ _ _ m2 b2 _ _ _ _ _ hg2 hm2 hb2 hitc
    · exact so_ok_marks _ _ _ m b _ _ _ _ _ rfl hm hb (fun e => e)
  | T_NullTest arg nulltesttype, g, itc, c, m, b, itc2, hm, hb => by
    rw [tdengine_foreign_expr_walker, tdengine_foreign_expr_walker]
    unfold walker_NullTest
    simp only [wm_slinfo, wm_relid]
    cases hk : tdengine_get_slvar cat arg g.slinfo with
    | none => exact so_ok_marks _ _ _ m b _ _ _ _ _ rfl hm hb (fun e => e)
    | some key =>
      simp only
      split_ifs
      · exact so_ok_marks _ _ _ m b _ _ _ _ _ rfl hm hb (fun e => e)
      · exact so_finish_marks _ _ _ _ _ _ m b _ _ _ _ _ rfl hm hb (fun e => e)
  | T_ArrayExpr array_typeid array_collid elements, g, itc, c, m, b, itc2, hm, hb => by
    rw [tdengine_foreign_expr_walker, tdengine_foreign_expr_walker]
    rcases so_List_node_marks (fun g2 i2 c2 => walker_foreach cat elements g2 i2 c2)
        (fun g i c m b i2 hm hb => walker_foreach_marks cat elements g i c m b i2 hm hb)
        g m b itc itc2 itc itc2 inner_cxt_init hm hb (fun e => e) with
      ⟨e, h1, h2⟩ | ⟨r, r2, h1, h2, hres, hcxt, hitc, m2, b2, hg2, hm2, hb2⟩
    · rw [h1, h2]
      exact so_error _ e
    · rw [h1, h2]
      simp only [hres, hcxt]
      split_ifs
      · exact so_ok_marks _ _ _ m2 b2 _ _ _ _ _ hg2 hm2 hb2 hitc
      · exact so_finish_marks _ _ _ _ _ _ m2 b2 _ _ _ _ _ hg2 hm2 hb2 hitc
  | T_Other tag type children, g, itc, c, m, b, itc2, hm, hb => by
    rw [tdengine_foreign_expr_walker, tdengine_foreign_expr_walker]
    exact so_ok_marks _ _ _ m b _ _ _ _ _ rfl hm hb (fun e => e)
/-- The same for the element loop of a list. -/
theorem walker_foreach_marks (cat : Catalog) :
    ∀ (es : List Node) (g : foreign_glob_cxt) (itc : Bool) (c : foreign_loc_cxt) (m : Nat)
      (b : Bool) (itc2 : Bool), marks_agree g.mixing_aggref_status m →
      (g.for_tlist = false → b = g.is_inner_func) →
      same_outcome (marks_rel itc itc2) (walker_foreach cat es g itc c)
        (walker_foreach cat es (with_marks g m b) itc2 c)
  | [], g, itc, c, m, b, itc2, hm, hb => by
    rw [walker_foreach, walker_foreach]
    exact so_ok_marks _ _ _ m b _ _ _ _ _ rfl hm hb (fun e => e)
  | a :: rest, g, itc, c, m, b, itc2, hm, hb => by
    rw [walker_foreach, walker_foreach]
    rcases walker_marks cat a g itc c m b itc2 hm hb with
      ⟨e, h1, h2⟩ | ⟨r, r2, h1, h2, hres, hcxt, hitc, m2, b2, hg2, hm2, hb2⟩
    · rw [h1, h2]
      exact so_error _ e
    · rw [h1, h2]
      simp only [hres]
      by_cases hr : r.result = true
      · simp only [hr, Bool.not_true, Bool.false_eq_true, if_false]
        rw [hcxt, hg2]
        exact so_mono _ _ _ _ _ _
          (walker_foreach_marks cat rest r.glob r.is_time_column r.cxt m2 b2 r2.is_time_column
            hm2 hb2) hitc
      · have hr2 : r.result = false := by simpa using hr
        simp only [hr2, Bool.not_false, if_true]
        exact Or.inr ⟨r, r2, rfl, rfl, hres, hcxt, hitc, m2, b2, hg2, hm2, hb2⟩
/-- The same for the argument loop of an aggregate, which does not read the
saved value `old_val` of the static flag. -/
theorem walker_aggargs_marks (cat : Catalog) (pre : AggPre) (v : Bool) :
    ∀ (es : List Node) (st : AggLoop) (g : foreign_glob_cxt) (itc : Bool)
      (c : foreign_loc_cxt) (m : Nat) (b : Bool), marks_agree g.mixing_aggref_status m →
      (g.for_tlist = false → b = g.is_inner_func) →
      same_outcome (fun p p2 => marks_rel false false p.1 p2.1 ∧ p2.2 = p.2)
        (walker_aggargs cat pre es st g itc c)
        (walker_aggargs cat { pre with old_val := v } es st (with_marks g m b) itc c)
  | [], st, g, itc, c, m, b, hm, hb => by
    rw [walker_aggargs, walker_aggargs]
    exact Or.inr ⟨_, _, rfl, rfl, ⟨rfl, rfl, fun _ => rfl, m, b, rfl, hm, hb⟩, rfl⟩
  | n :: rest, st, g, itc, c, m, b, hm, hb => by
    have key : ∀ (wrapped : Bool) (x : Node),
        (∀ g i c m b i2, marks_agree g.mixing_aggref_status m →
          (g.for_tlist = false → b = g.is_inner_func) →
          same_outcome (marks_rel i i2) (tdengine_foreign_expr_walker cat x g i c)
            (tdengine_foreign_expr_walker cat x (with_marks g m b) i2 c)) →
        same_outcome (fun p p2 => marks_rel false false p.1 p2.1 ∧ p2.2 = p.2)
          (match aggref_arg_pre cat g pre st wrapped x with
            | .error e => .error e
            | .ok none => .ok (⟨false, g, itc, c⟩, st)
            | .ok (some st1) =>
              match tdengine_foreign_expr_walker cat x g itc c with
              | .error e => .error e
              | .ok r =>
                if !r.result then .ok (r, st1)
                else if aggref_time_rejected pre r.is_time_column then
                  .ok (⟨false, r.glob, false, r.cxt⟩, st1)
                else walker_aggargs cat pre rest st1 r.glob r.is_time_column r.cxt :
              Except Err (WalkOut × AggLoop))
          (match aggref_arg_pre cat (with_marks g m b) { pre with old_val := v } st wrapped x with
            | .error e => .error e
            | .ok none => .ok (⟨false, with_marks g m b, itc, c⟩, st)
            | .ok (some st1) =>
              match tdengine_foreign_expr_walker cat x (with_marks g m b) itc c with
              | .error e => .error e
              | .ok r =>
                if !r.result then .ok (r, st1)
                else if aggref_time_rejected { pre with old_val := v } r.is_time_column then
                  .ok (⟨false, r.glob, false, r.cxt⟩, st1)
                else walker_aggargs cat { pre with old_val := v } rest st1 r.glob
                  r.is_time_column r.cxt :
              Except Err (WalkOut × AggLoop)) := by
      intro wrapped x ihx
      rw [aggref_arg_pre_marks]
      cases hp : aggref_arg_pre cat g pre st wrapped x with
      | error e => exact so_error _ e
      | ok o =>
        cases o with
        | none =>
          exact Or.inr ⟨_, _, rfl, rfl, ⟨rfl, rfl, fun _ => rfl, m, b, rfl, hm, hb⟩, rfl⟩
        | some st1 =>
          simp only
          rcases ihx g itc c m b itc hm hb with
            ⟨e, h1, h2⟩ | ⟨r, r2, h1, h2, hres, hcxt, hitc, m2, b2, hg2, hm2, hb2⟩
          · rw [h1, h2]
            exact so_error _ e
          · rw [h1, h2]
            have hi := hitc rfl
            have hrej : aggref_time_rejected { pre with old_val := v } r2.is_time_column
                = aggref_time_rejected pre r.is_time_column := by
              rw [hi]; rfl
            simp only [hres, hrej]
            by_cases hr : r.result = true
            · simp only [hr, Bool.not_true, Bool.false_eq_true, if_false]
              split_ifs
              · exact Or.inr ⟨_, _, rfl, rfl,
                  ⟨rfl, hcxt, fun _ => rfl, m2, b2, hg2, hm2, hb2⟩, rfl⟩
              · rw [hcxt, hg2, hi]
                exact walker_aggargs_marks cat pre v rest st1 r.glob r.is_time_column r.cxt
                  m2 b2 hm2 hb2
            · have hr2 : r.result = false := by simpa using hr
              simp only [hr2, Bool.not_false, if_true]
              exact Or.inr ⟨_, _, rfl, rfl,
                ⟨hres, hcxt, fun _ => hi, m2, b2, hg2, hm2, hb2⟩, rfl⟩
    by_cases hT : ∃ e a1 a2 a3, n = T_TargetEntry e a1 a2 a3
    · cases n with
      | T_TargetEntry e a1 a2 a3 =>
        rw [walker_aggargs, walker_aggargs]
        exact key true e (fun g i c m b i2 hm hb => walker_marks cat e g i c m b i2 hm hb)
      | _ =>
        obtain ⟨e, a1, a2, a3, he⟩ := hT
        cases he
    · have hn : ∀ x, x = n → ∀ g i c m b i2, marks_agree g.mixing_aggref_status m →
          (g.for_tlist = false → b = g.is_inner_func) →
          same_outcome (marks_rel i i2) (tdengine_foreign_expr_walker cat x g i c)
            (tdengine_foreign_expr_walker cat x (with_marks g m b) i2 c) := by
        intro x hx g i c m b i2 hm hb
        subst hx
        exact walker_marks cat x g i c m b i2 hm hb
      rw [walker_aggargs.eq_3 cat pre st g itc c n rest
            (fun n2 a1 a2 a3 hn2 => hT ⟨n2, a1, a2, a3, hn2⟩),
          walker_aggargs.eq_3 cat _ st (with_marks g m b) itc c n rest
            (fun n2 a1 a2 a3 hn2 => hT ⟨n2, a1, a2, a3, hn2⟩)]
      exact key false n (hn n rfl)
end

/-! ## Theorems: the aggregate mark is never set -/

theorem marks_kept_refl (g : foreign_glob_cxt) : marks_kept g g := fun h => h

theorem marks_kept_trans (a b c : foreign_glob_cxt) (h1 : marks_kept a b)
    (h2 : marks_kept b c) : marks_kept a c :=
  fun h => h1 (h2 h)

theorem ok_kept (b : Bool) (g g0 : foreign_glob_cxt) (itc : Bool) (c : foreign_loc_cxt)
    (r : WalkOut) (hg : marks_kept g g0)
    (h : (Except.ok ⟨b, g, itc, c⟩ : Except Err WalkOut) = .ok r) : marks_kept r.glob g0 := by
  simp only [Except.ok.injEq] at h
  rw [← h]
  exact hg

theorem walker_finish_kept (type : Except Err Oid) (check_type : Bool) (collation : Oid)
    (state : FDWCollateState) (g g0 : foreign_glob_cxt) (itc : Bool) (c : foreign_loc_cxt)
    (r : WalkOut) (hg : marks_kept g g0)
    (h : walker_finish type check_type collation state g itc c = .ok r) :
    marks_kept r.glob g0 := by
  unfold walker_finish at h
  split_ifs at h
  · split at h
    · simp at h
    · split_ifs at h
      · exact ok_kept _ _ _ _ _ _ hg h
      · exact ok_kept _ _ _ _ _ _ hg h
  · exact ok_kept _ _ _ _ _ _ hg h

theorem walker_List_node_kept
    (loop : foreign_glob_cxt → Bool → foreign_loc_cxt → Except Err WalkOut)
    (hloop : ∀ g2 i2 c2 r2, loop g2 i2 c2 = .ok r2 → marks_kept r2.glob g2)
    (g g0 : foreign_glob_cxt) (itc : Bool) (c : foreign_loc_cxt) (r : WalkOut)
    (hg : marks_kept g g0) (h : walker_List_node loop g itc c = .ok r) :
    marks_kept r.glob g0 := by
  unfold walker_List_node at h
  simp only at h
  split at h
  · simp at h
  · rename_i r1 h1
    have h2 := marks_kept_trans _ _ _ (hloop _ _ _ _ h1) hg
    split_ifs at h
    · exact ok_kept _ _ _ _ _ _ h2 h
    · exact walker_finish_kept _ _ _ _ _ _ _ _ _ h2 h

theorem walker_FuncExpr_pre_kept (cat : Catalog) (funcid : Oid) (funcresulttype : Oid)
    (g : foreign_glob_cxt) (itc : Bool) (c : foreign_loc_cxt) (x : WalkOut ⊕ FuncPre)
    (h : walker_FuncExpr_pre cat funcid funcresulttype g itc c = .ok x) :
    marks_kept (FuncPre_glob x) g := by
  unfold walker_FuncExpr_pre at h
  split at h
  · simp at h
  · rename_i nm hnm
    by_cases hA : (TDENGINE_IS_TIME_TYPE funcresulttype && c.is_comparison &&
        (nm != "now" || !c.has_time_key)) = true
    · rw [if_pos hA] at h
      simp only [Except.ok.injEq] at h
      rw [← h]; exact marks_kept_refl g
    · rw [if_neg hA] at h
      lift_lets at h
      extract_lets is_cast is_star outer1 can src inner1 outer2 g1 inner2 outer3 at h
      have h1 : marks_kept g1 g := by
        simp only [g1]
        split_ifs
        · exact marks_kept_refl g
        · exact fun h => h
      split_ifs at h
      all_goals
        simp only [Except.ok.injEq] at h
        rw [← h]
        first
          | exact marks_kept_refl g
          | exact h1

mutual
/-- The walker never sets the aggregate mark of `mixing_aggref_status`. -/
theorem walker_kept (cat : Catalog) :
    ∀ (e : Node) (g : foreign_glob_cxt) (itc : Bool) (c : foreign_loc_cxt) (r : WalkOut),
      tdengine_foreign_expr_walker cat e g itc c = .ok r → marks_kept r.glob g
  | T_Var varno varattno vartype vartypmod varcollid varlevelsup, g, itc, c, r, h => by
    have rf := marks_kept_refl g
    have rf1 : marks_kept
        { g with mixing_aggref_status := g.mixing_aggref_status ||| TDENGINE_TARGETS_MARK_COLUMN }
        g := fun h => no_aggref_mark_or _ h
    rw [tdengine_foreign_expr_walker] at h
    unfold walker_Var at h
    simp only at h
    split_ifs at h
    all_goals first
      | exact ok_kept _ _ _ _ _ _ rf h
      | exact walker_finish_kept _ _ _ _ _ _ _ _ _ rf h
      | exact walker_finish_kept _ _ _ _ _ _ _ _ _ rf1 h
  | T_Const consttype constcollid constvalue constisnull, g, itc, c, r, h => by
    have rf := marks_kept_refl g
    rw [tdengine_foreign_expr_walker] at h
    unfold walker_Const at h
    simp only at h
    split_ifs at h
    all_goals try split at h
    all_goals first
      | exact ok_kept _ _ _ _ _ _ rf h
      | exact walker_finish_kept _ _ _ _ _ _ _ _ _ rf h
      | simp at h
  | T_Param paramid paramtype paramtypmod paramcollid, g, itc, c, r, h => by
    have rf := marks_kept_refl g
    rw [tdengine_foreign_expr_walker] at h
    unfold walker_Param at h
    split_ifs at h
    all_goals first
      | exact ok_kept _ _ _ _ _ _ rf h
      | exact walker_finish_kept _ _ _ _ _ _ _ _ _ rf h
  | T_FieldSelect arg fieldnum resulttype resultcollid, g, itc, c, r, h => by
    have rf := marks_kept_refl g
    rw [tdengine_foreign_expr_walker] at h
    unfold walker_FieldSelect at h
    split_ifs at h
    all_goals exact ok_kept _ _ _ _ _ _ rf h
  | T_FuncExpr funcid funcresulttype funccollid inputcollid args, g, itc, c, r, h => by
    rw [tdengine_foreign_expr_walker] at h
    split at h
    · simp at h
    · rename_i r0 h0
      simp only [Except.ok.injEq] at h
      rw [← h]
      exact walker_FuncExpr_pre_kept cat funcid funcresulttype g itc c _ h0
    · rename_i P h0
      have hP : marks_kept P.glob g :=
        walker_FuncExpr_pre_kept cat funcid funcresulttype g itc c _ h0
      split at h
      · simp at h
      · rename_i r2 h2
        have hr2 : marks_kept r2.glob g :=
          walker_List_node_kept _ (fun g2 i2 c2 r3 h3 =>
            walker_foreach_kept cat args g2 i2 c2 r3 h3) _ _ _ _ _ hP h2
        have hr3 : marks_kept { r2.glob with is_inner_func := false } g :=
          marks_kept_trans _ r2.glob g (fun h => h) hr2
        split_ifs at h
        · exact ok_kept _ _ _ _ _ _ hr2 h
        · unfold walker_FuncExpr_post at h
          simp only at h
          split_ifs at h
          all_goals first
            | exact ok_kept _ _ _ _ _ _ hr2 h
            | exact ok_kept _ _ _ _ _ _ hr3 h
            | exact walker_finish_kept _ _ _ _ _ _ _ _ _ hr2 h
            | exact walker_finish_kept _ _ _ _ _ _ _ _ _ hr3 h
  | T_OpExpr opno opresulttype opcollid inputcollid args, g, itc, c, r, h => by
    have rf := marks_kept_refl g
    rw [tdengine_foreign_expr_walker] at h
    split at h
    · simp at h
    · exact ok_kept _ _ _ _ _ _ rf h
    · split_ifs at h
      · exact walker_finish_kept _ _ _ _ _ _ _ _ _ rf h
      · split at h
        · simp at h
        · rename_i r2 h2
          have hr2 : marks_kept r2.glob g :=
            walker_List_node_kept _ (fun g2 i2 c2 r3 h3 =>
              walker_foreach_kept cat args g2 i2 c2 r3 h3) _ _ _ _ _ rf h2
          split_ifs at h
          · exact ok_kept _ _ _ _ _ _ hr2 h
          · unfold walker_OpExpr_post at h
            split_ifs at h
            · exact ok_kept _ _ _ _ _ _ hr2 h
            · exact ok_kept _ _ _ _ _ _ hr2 h
            · exact walker_finish_kept _ _ _ _ _ _ _ _ _ hr2 h
  | T_DistinctExpr opno opresulttype opcollid inputcollid args, g, itc, c, r, h => by
    rw [tdengine_foreign_expr_walker] at h
    exact ok_kept _ _ _ _ _ _ (marks_kept_refl g) h
  | T_ScalarArrayOpExpr opno useOr inputcollid args, g, itc, c, r, h => by
    have rf := marks_kept_refl g
    rw [tdengine_foreign_expr_walker] at h
    split at h
    · simp at h
    · exact ok_kept _ _ _ _ _ _ rf h
    · split at h
      · simp at h
      · rename_i r2 h2
        have hr2 : marks_kept r2.glob g :=
          walker_List_node_kept _ (fun g2 i2 c2 r3 h3 =>
            walker_foreach_kept cat args g2 i2 c2 r3 h3) _ _ _ _ _ rf h2
        split_ifs at h
        · exact ok_kept _ _ _ _ _ _ hr2 h
        · exact ok_kept _ _ _ _ _ _ hr2 h
        · exact walker_finish_kept _ _ _ _ _ _ _ _ _ hr2 h
  | T_RelabelType arg resulttype resultcollid, g, itc, c, r, h => by
    rw [tdengine_foreign_expr_walker] at h
    split at h
    · simp at h
    · rename_i r2 h2
      have hr2 : marks_kept r2.glob g := walker_kept cat arg _ _ _ _ h2
      split_ifs at h
      · exact ok_kept _ _ _ _ _ _ hr2 h
      · exact walker_finish_kept _ _ _ _ _ _ _ _ _ hr2 h
  | T_BoolExpr boolop args, g, itc, c, r, h => by
    have rf := marks_kept_refl g
    rw [tdengine_foreign_expr_walker] at h
    split_ifs at h
    · exact ok_kept _ _ _ _ _ _ rf h
    · split at h
      · simp at h
      · rename_i r2 h2
        have hr2 : marks_kept r2.glob g :=
          walker_List_node_kept _ (fun g2 i2 c2 r3 h3 =>
            walker_foreach_kept cat args g2 i2 c2 r3 h3) _ _ _ _ _ rf h2
        split_ifs at h
        · exact ok_kept _ _ _ _ _ _ hr2 h
        · exact ok_kept _ _ _ _ _ _ hr2 h
        · exact walker_finish_kept _ _ _ _ _ _ _ _ _ hr2 h
  | T_List elems, g, itc, c, r, h => by
    rw [tdengine_foreign_expr_walker] at h
    exact walker_List_node_kept _ (fun g2 i2 c2 r3 h3 =>
      walker_foreach_kept cat elems g2 i2 c2 r3 h3) _ _ _ _ _ (marks_kept_refl g) h
  | T_Aggref aggfnoid aggtype aggcollid inputcollid args aggorder aggdistinct aggfilter aggstar
      aggvariadic aggsplit, g, itc, c, r, h => by
    have rf := marks_kept_refl g
    rw [tdengine_foreign_expr_walker] at h
    split at h
    · simp at h
    · exact ok_kept _ _ _ _ _ _ rf h
    · rename_i pre hpre
      split at h
      · simp at h
      · rename_i r2 st2 h2
        have hr2 : marks_kept r2.glob g := walker_aggargs_kept cat pre args _ _ _ _ _ _ h2
        split_ifs at h
        · exact ok_kept _ _ _ _ _ _ hr2 h
        · unfold walker_Aggref_post at h
          simp only at h
          split_ifs at h
          all_goals first
            | exact ok_kept _ _ _ _ _ _ hr2 h
            | exact walker_finish_kept _ _ _ _ _ _ _ _ _ hr2 h
  | T_TargetEntry expr resno ressortgroupref resjunk, g, itc, c, r, h => by
    rw [tdengine_foreign_expr_walker] at h
    exact ok_kept _ _ _ _ _ _ (marks_kept_refl g) h
  | T_CoerceViaIOExpr arg resulttype resultcollid, g, itc, c, r, h => by
    have rf := marks_kept_refl g
    rw [tdengine_foreign_expr_walker] at h
    split_ifs at h
    · exact ok_kept _ _ _ _ _ _ rf h
    · split at h
      · simp at h
      · rename_i r2 h2
        have hr2 : marks_kept r2.glob g := walker_kept cat arg _ _ _ _ h2
        split_ifs at h
        · exact ok_kept _ _ _ _ _ _ hr2 h
        · exact walker_finish_kept _ _ _ _ _ _ _ _ _ hr2 h
    · exact ok_kept _ _ _ _ _ _ rf h
  | T_NullTest arg nulltesttype, g, itc, c, r, h => by
    have rf := marks_kept_refl g
    rw [tdengine_foreign_expr_walker] at h
    unfold walker_NullTest at h
    split at h
    · exact ok_kept _ _ _ _ _ _ rf h
    · split_ifs at h
      · exact ok_kept _ _ _ _ _ _ rf h
      · exact walker_finish_kept _ _ _ _ _ _ _ _ _ rf h
  | T_ArrayExpr array_typeid array_collid elements, g, itc, c, r, h => by
    rw [tdengine_foreign_expr_walker] at h
    split at h
    · simp at h
    · rename_i r2 h2
      have hr2 : marks_kept r2.glob g :=
        walker_List_node_kept _ (fun g2 i2 c2 r3 h3 =>
          walker_foreach_kept cat elements g2 i2 c2 r3 h3) _ _ _ _ _ (marks_kept_refl g) h2
      split_ifs at h
      · exact ok_kept _ _ _ _ _ _ hr2 h
      · exact walker_finish_kept _ _ _ _ _ _ _ _ _ hr2 h
  | T_Other tag type children, g, itc, c, r, h => by
    rw [tdengine_foreign_expr_walker] at h
    exact ok_kept _ _ _ _ _ _ (marks_kept_refl g) h
/-- The same for the element loop of a list. -/
theorem walker_foreach_kept (cat : Catalog) :
    ∀ (es : List Node) (g : foreign_glob_cxt) (itc : Bool) (c : foreign_loc_cxt) (r : WalkOut),
      walker_foreach cat es g itc c = .ok r → marks_kept r.glob g
  | [], g, itc, c, r, h => by
    rw [walker_foreach] at h
    exact ok_kept _ _ _ _ _ _ (marks_kept_refl g) h
  | a :: rest, g, itc, c, r, h => by
    rw [walker_foreach] at h
    split at h
    · simp at h
    · rename_i r1 h1
      have hf := walker_kept cat a g itc c r1 h1
      split_ifs at h
      · simp only [Except.ok.injEq] at h
        rw [← h]
        exact hf
      · exact marks_kept_trans _ _ _ (walker_foreach_kept cat rest _ _ _ _ h) hf
/-- The same for the argument loop of an aggregate. -/
theorem walker_aggargs_kept (cat : Catalog) (pre : AggPre) :
    ∀ (es : List Node) (st : AggLoop) (g : foreign_glob_cxt) (itc : Bool)
      (c : foreign_loc_cxt) (r : WalkOut) (st2 : AggLoop),
      walker_aggargs cat pre es st g itc c = .ok (r, st2) → marks_kept r.glob g
  | [], st, g, itc, c, r, st2, h => by
    rw [walker_aggargs] at h
    simp only [Except.ok.injEq, Prod.mk.injEq] at h
    rw [← h.1]
    exact marks_kept_refl g
  | T_TargetEntry n a1 a2 a3 :: rest, st, g, itc, c, r, st2, h => by
    rw [walker_aggargs] at h
    split at h
    · simp at h
    · simp only [Except.ok.injEq, Prod.mk.injEq] at h
      rw [← h.1]
      exact marks_kept_refl g
    · split at h
      · simp at h
      · rename_i r1 h1
        have hf := walker_kept cat n g itc c r1 h1
        split_ifs at h
        · simp only [Except.ok.injEq, Prod.mk.injEq] at h
          rw [← h.1]
          exact hf
        · simp only [Except.ok.injEq, Prod.mk.injEq] at h
          rw [← h.1]
          exact hf
        · exact marks_kept_trans _ _ _ (walker_aggargs_kept cat pre rest _ _ _ _ _ _ h) hf
  | n :: rest, st, g, itc, c, r, st2, h => by
    have key : ∀ (wrapped : Bool) (m : Node),
        (∀ g2 i2 c2 r2, tdengine_foreign_expr_walker cat m g2 i2 c2 = .ok r2 →
          marks_kept r2.glob g2) →
        ((match aggref_arg_pre cat g pre st wrapped m with
          | .error e => .error e
          | .ok none => .ok (⟨false, g, itc, c⟩, st)
          | .ok (some st1) =>
            match tdengine_foreign_expr_walker cat m g itc c with
            | .error e => .error e
            | .ok r =>
              if !r.result then .ok (r, st1)
              else if aggref_time_rejected pre r.is_time_column then
                .ok (⟨false, r.glob, false, r.cxt⟩, st1)
              else walker_aggargs cat pre rest st1 r.glob r.is_time_column r.cxt :
            Except Err (WalkOut × AggLoop))
          = .ok (r, st2)) → marks_kept r.glob g := by
      intro wrapped m ihm h2
      split at h2
      · simp at h2
      · simp only [Except.ok.injEq, Prod.mk.injEq] at h2
        rw [← h2.1]
        exact marks_kept_refl g
      · split at h2
        · simp at h2
        · rename_i r1 h1
          have hf := ihm g itc c r1 h1
          split_ifs at h2
          · simp only [Except.ok.injEq, Prod.mk.injEq] at h2
            rw [← h2.1]
            exact hf
          · simp only [Except.ok.injEq, Prod.mk.injEq] at h2
            rw [← h2.1]
            exact hf
          · exact marks_kept_trans _ _ _ (walker_aggargs_kept cat pre rest _ _ _ _ _ _ h2) hf
    have hn : ∀ m, m = n → ∀ g2 i2 c2 r2,
        tdengine_foreign_expr_walker cat m g2 i2 c2 = .ok r2 → marks_kept r2.glob g2 := by
      intro m hmn g2 i2 c2 r2 hw2
      subst hmn
      exact walker_kept cat m g2 i2 c2 r2 hw2
    by_cases hT : ∃ e a1 a2 a3, n = T_TargetEntry e a1 a2 a3
    · cases n with
      | T_TargetEntry e a1 a2 a3 =>
        rw [walker_aggargs] at h
        exact key true e (fun g2 i2 c2 r2 hw2 => walker_kept cat e g2 i2 c2 r2 hw2) h
      | _ =>
        obtain ⟨e, a1, a2, a3, he⟩ := hT
        cases he
    · rw [walker_aggargs] at h
      · exact key false n (hn n rfl) h
      · intro n2 a1 a2 a3 hn2
        exact hT ⟨n2, a1, a2, a3, hn2⟩
end

/-! ## Theorems: what the walker reads of its parent context -/

theorem with_frame_of_same_flags (c c2 : foreign_loc_cxt) (h : same_flags c c2) :
    c2 = with_frame c c2 := by
  obtain ⟨h1, h2, h3, h4, h5⟩ := h
  cases c
  cases c2
  simp only [with_frame] at *
  subst h1 h2 h3 h4 h5
  rfl

theorem sv_ok (b : Bool) (g : foreign_glob_cxt) (itc : Bool) (c c2 : foreign_loc_cxt) :
    same_outcome same_verdict (.ok ⟨b, g, itc, c⟩) (.ok ⟨b, g, itc, c2⟩) :=
  Or.inr ⟨_, _, rfl, rfl, rfl, rfl, rfl⟩

theorem sv_finish (type : Except Err Oid) (check_type : Bool) (collation : Oid)
    (state : FDWCollateState) (g : foreign_glob_cxt) (itc : Bool) (c c2 : foreign_loc_cxt) :
    same_outcome same_verdict (walker_finish type check_type collation state g itc c)
      (walker_finish type check_type collation state g itc c2) := by
  unfold walker_finish
  split_ifs
  · cases type with
    | error e => exact so_error _ e
    | ok t =>
      simp only
      split_ifs
      · exact sv_ok _ _ _ _ _
      · exact sv_ok _ _ _ _ _
  · exact sv_ok _ _ _ _ _

theorem sv_List_node
    (loop : foreign_glob_cxt → Bool → foreign_loc_cxt → Except Err WalkOut)
    (g : foreign_glob_cxt) (itc : Bool) (c k : foreign_loc_cxt) :
    same_outcome same_verdict (walker_List_node loop g itc c)
      (walker_List_node loop g itc (with_frame c k)) := by
  unfold walker_List_node
  simp only [with_frame]
  cases h : loop g itc
      { inner_cxt_init with
        can_skip_cast := c.can_skip_cast,
        tdengine_fill_enable := c.tdengine_fill_enable,
        has_time_key := c.has_time_key,
        has_sub_or_add_operator := c.has_sub_or_add_operator,
        is_comparison := c.is_comparison } with
  | error e => exact so_error _ e
  | ok r =>
    simp only
    split_ifs
    · exact sv_ok _ _ _ _ _
    · exact sv_finish _ _ _ _ _ _ _ _

/-- What `walker_FuncExpr_pre` settles does not depend on the collation, the
state and the write-only flags of the parent's context. -/
theorem walker_FuncExpr_pre_frame (cat : Catalog) (funcid : Oid) (funcresulttype : Oid)
    (g : foreign_glob_cxt) (itc : Bool) (c k : foreign_loc_cxt) :
    same_outcome
      (fun x x2 =>
        match x, x2 with
        | .inl r, .inl r2 => same_verdict r r2
        | .inr P, .inr P2 => P2.opername = P.opername ∧ P2.is_cast_func = P.is_cast_func ∧
            P2.glob = P.glob ∧ P2.inner_cxt = P.inner_cxt
        | _, _ => False)
      (walker_FuncExpr_pre cat funcid funcresulttype g itc c)
      (walker_FuncExpr_pre cat funcid funcresulttype g itc (with_frame c k)) := by
  unfold walker_FuncExpr_pre
  cases hp : cat.proname funcid with
  | none => exact so_error _ _
  | some nm =>
    simp only [with_frame]
    by_cases hA : (TDENGINE_IS_TIME_TYPE funcresulttype && c.is_comparison &&
        (nm != "now" || !c.has_time_key)) = true
    · rw [if_pos hA, if_pos hA]
      exact Or.inr ⟨_, _, rfl, rfl, rfl, rfl, rfl⟩
    · rw [if_neg hA, if_neg hA]
      by_cases h1 : (!(tdengine_is_star_func funcid nm ||
          (tdengine_is_unique_func funcid nm || tdengine_is_supported_builtin_func funcid nm) ||
          (nm == "float8" || nm == "numeric"))) = true
      · rw [if_pos h1, if_pos h1]
        exact Or.inr ⟨_, _, rfl, rfl, rfl, rfl, rfl⟩
      · rw [if_neg h1, if_neg h1]
        by_cases h2 : ((nm == "tdengine_fill_numeric" || nm == "tdengine_fill_option") &&
            c.tdengine_fill_enable == false) = true
        · rw [if_pos h2, if_pos h2]
          exact so_error _ _
        · rw [if_neg h2, if_neg h2]
          by_cases h3 : ((nm == "float8" || nm == "numeric") && c.can_skip_cast == false) = true
          · rw [if_pos h3, if_pos h3]
            exact Or.inr ⟨_, _, rfl, rfl, rfl, rfl, rfl⟩
          · rw [if_neg h3, if_neg h3]
            by_cases h4 : (!(nm == "float8" || nm == "numeric") && !g.for_tlist &&
                g.is_inner_func) = true
            · rw [if_pos h4, if_pos h4]
              exact Or.inr ⟨_, _, rfl, rfl, rfl, rfl, rfl⟩
            · rw [if_neg h4, if_neg h4]
              exact Or.inr ⟨_, _, rfl, rfl, rfl, rfl, rfl, rfl⟩

theorem walker_FuncExpr_post_frame (funcresulttype : Oid) (funccollid : Oid) (inputcollid : Oid)
    (args : List Node) (P P2 : FuncPre) (r : WalkOut) (hc : P2.is_cast_func = P.is_cast_func) :
    same_outcome same_verdict
      (walker_FuncExpr_post funcresulttype funccollid inputcollid args P r)
      (walker_FuncExpr_post funcresulttype funccollid inputcollid args P2 r) := by
  unfold walker_FuncExpr_post
  simp only [hc]
  split_ifs
  all_goals first
    | exact sv_ok _ _ _ _ _
    | exact sv_finish _ _ _ _ _ _ _ _

theorem time_arith_frame (c k : foreign_loc_cxt) :
    time_arith_in_comparison (with_frame c k) = time_arith_in_comparison c := rfl

/-- The walker reads of its parent's context only the five flags that a list
hands down: with another collation, state and write-only flags it raises the
same error or returns the same value, global context and static flag. -/
theorem walker_outer_cxt (cat : Catalog) (e : Node) (g : foreign_glob_cxt) (itc : Bool)
    (c k : foreign_loc_cxt) :
    same_outcome same_verdict (tdengine_foreign_expr_walker cat e g itc c)
      (tdengine_foreign_expr_walker cat e g itc (with_frame c k)) := by
  cases e with
  | T_Var varno varattno vartype vartypmod varcollid varlevelsup =>
    rw [tdengine_foreign_expr_walker, tdengine_foreign_expr_walker]
    unfold walker_Var
    simp only [time_arith_frame]
    split_ifs
    all_goals first
      | exact sv_ok _ _ _ _ _
      | exact sv_finish _ _ _ _ _ _ _ _
  | T_Const consttype constcollid constvalue constisnull =>
    rw [tdengine_foreign_expr_walker, tdengine_foreign_expr_walker]
    unfold walker_Const
    simp only
    by_cases h1 : consttype = INTERVALOID ∧
        ((interval2tm_year_mon (DatumGetIntervalP constvalue)).2 ≠ 0 ∨
          (interval2tm_year_mon (DatumGetIntervalP constvalue)).1 ≠ 0)
    · rw [if_pos h1, if_pos h1]
      exact sv_ok _ _ _ _ _
    · rw [if_neg h1, if_neg h1]
      cases hd : tdengine_get_data_type_name cat consttype with
      | error e => exact so_error _ e
      | ok nm =>
        simp only
        split_ifs
        · exact sv_ok _ _ _ _ _
        · exact sv_finish _ _ _ _ _ _ _ _
  | T_Param paramid paramtype paramtypmod paramcollid =>
    rw [tdengine_foreign_expr_walker, tdengine_foreign_expr_walker]
    unfold walker_Param
    simp only [time_arith_frame]
    split_ifs
    all_goals first
      | exact sv_ok _ _ _ _ _
      | exact sv_finish _ _ _ _ _ _ _ _
  | T_FieldSelect arg fieldnum resulttype resultcollid =>
    rw [tdengine_foreign_expr_walker, tdengine_foreign_expr_walker]
    unfold walker_FieldSelect
    split_ifs
    all_goals exact sv_ok _ _ _ _ _
  | T_FuncExpr funcid funcresulttype funccollid inputcollid args =>
    rw [tdengine_foreign_expr_walker, tdengine_foreign_expr_walker]
    rcases walker_FuncExpr_pre_frame cat funcid funcresulttype g itc c k with
      ⟨e, h1, h2⟩ | ⟨x, x2, h1, h2, hx⟩
    · rw [h1, h2]
      exact so_error _ e
    · rw [h1, h2]
      cases x with
      | inl r =>
        cases x2 with
        | inl r2 => exact Or.inr ⟨_, _, rfl, rfl, hx⟩
        | inr P2 => exact hx.elim
      | inr P =>
        cases x2 with
        | inl r2 => exact hx.elim
        | inr P2 =>
          obtain ⟨_, hc, hg, hi⟩ := hx
          simp only [hg, hi]
          cases hl : walker_List_node (fun g2 i2 c2 => walker_foreach cat args g2 i2 c2)
              P.glob itc P.inner_cxt with
          | error e => exact so_error _ e
          | ok r =>
            simp only
            split_ifs
            · exact sv_ok _ _ _ _ _
            · exact walker_FuncExpr_post_frame _ _ _ _ _ _ _ hc
  | T_OpExpr opno opresulttype opcollid inputcollid args =>
    rw [tdengine_foreign_expr_walker, tdengine_foreign_expr_walker]
    have hpre : walker_OpExpr_pre cat (T_OpExpr opno opresulttype opcollid inputcollid args)
        opno args g (with_frame c k)
        = walker_OpExpr_pre cat (T_OpExpr opno opresulttype opcollid inputcollid args)
            opno args g c := rfl
    rw [hpre]
    cases hp : walker_OpExpr_pre cat (T_OpExpr opno opresulttype opcollid inputcollid args)
        opno args g c with
    | error e => exact so_error _ e
    | ok o =>
      cases o with
      | none => exact sv_ok _ _ _ _ _
      | some inner =>
        simp only
        split_ifs
        · exact sv_finish _ _ _ _ _ _ _ _
        · cases hl : walker_List_node (fun g2 i2 c2 => walker_foreach cat args g2 i2 c2)
              g itc inner with
          | error e => exact so_error _ e
          | ok r =>
            simp only
            split_ifs
            · exact sv_ok _ _ _ _ _
            · unfold walker_OpExpr_post
              split_ifs
              all_goals first
                | exact sv_ok _ _ _ _ _
                | exact sv_finish _ _ _ _ _ _ _ _
  | T_DistinctExpr opno opresulttype opcollid inputcollid args =>
    rw [tdengine_foreign_expr_walker, tdengine_foreign_expr_walker]
    exact sv_ok _ _ _ _ _
  | T_ScalarArrayOpExpr opno useOr inputcollid args =>
    rw [tdengine_foreign_expr_walker, tdengine_foreign_expr_walker]
    cases hp : walker_ScalarArrayOpExpr_pre cat opno args g with
    | error e => exact so_error _ e
    | ok o =>
      cases o with
      | false => exact sv_ok _ _ _ _ _
      | true =>
        simp only
        cases hl : walker_List_node (fun g2 i2 c2 => walker_foreach cat args g2 i2 c2)
            g itc inner_cxt_init with
        | error e => exact so_error _ e
        | ok r =>
          simp only
          split_ifs
          all_goals exact sv_ok _ _ _ _ _
  | T_RelabelType arg resulttype resultcollid =>
    rw [tdengine_foreign_expr_walker, tdengine_foreign_expr_walker]
    cases hl : tdengine_foreign_expr_walker cat arg g itc inner_cxt_init with
    | error e => exact so_error _ e
    | ok r =>
      simp only
      split_ifs
      all_goals first
        | exact sv_ok _ _ _ _ _
        | exact sv_finish _ _ _ _ _ _ _ _
  | T_BoolExpr boolop args =>
    rw [tdengine_foreign_expr_walker, tdengine_foreign_expr_walker]
    by_cases hn : boolop = .NOT_EXPR
    · rw [if_pos hn, if_pos hn]
      exact sv_ok _ _ _ _ _
    · rw [if_neg hn, if_neg hn]
      cases hl : walker_List_node (fun g2 i2 c2 => walker_foreach cat args g2 i2 c2)
          g false inner_cxt_init with
      | error e => exact so_error _ e
      | ok r =>
        simp only
        split_ifs
        all_goals exact sv_ok _ _ _ _ _
  | T_List elems =>
    rw [tdengine_foreign_expr_walker, tdengine_foreign_expr_walker]
    exact sv_List_node _ _ _ _ _
  | T_Aggref aggfnoid aggtype aggcollid inputcollid args aggorder aggdistinct aggfilter aggstar
      aggvariadic aggsplit =>
    rw [tdengine_foreign_expr_walker, tdengine_foreign_expr_walker]
    cases hp : walker_Aggref_pre cat aggfnoid aggsplit g itc with
    | error e => exact so_error _ e
    | ok o =>
      cases o with
      | none => exact sv_ok _ _ _ _ _
      | some pre =>
        simp only
        cases hl : walker_aggargs cat pre args ⟨-1, false, inputcollid⟩ g false
            inner_cxt_init with
        | error e => exact so_error _ e
        | ok p =>
          obtain ⟨r, st⟩ := p
          simp only
          split_ifs
          · exact sv_ok _ _ _ _ _
          · unfold walker_Aggref_post
            simp only
            split_ifs
            all_goals first
              | exact sv_ok _ _ _ _ _
              | exact sv_finish _ _ _ _ _ _ _ _
  | T_TargetEntry expr resno ressortgroupref resjunk =>
    rw [tdengine_foreign_expr_walker, tdengine_foreign_expr_walker]
    exact sv_ok _ _ _ _ _
  | T_CoerceViaIOExpr arg resulttype resultcollid =>
    rw [tdengine_foreign_expr_walker, tdengine_foreign_expr_walker]
    simp only [time_arith_frame]
    split_ifs
    · exact sv_ok _ _ _ _ _
    · cases hl : tdengine_foreign_expr_walker cat arg g itc inner_cxt_init with
      | error e => exact so_error _ e
      | ok r =>
        simp only
        split_ifs
        all_goals first
          | exact sv_ok _ _ _ _ _
          | exact sv_finish _ _ _ _ _ _ _ _
    · exact sv_ok _ _ _ _ _
  | T_NullTest arg nulltesttype =>
    rw [tdengine_foreign_expr_walker, tdengine_foreign_expr_walker]
    unfold walker_NullTest
    cases hk : tdengine_get_slvar cat arg g.slinfo with
    | none => exact sv_ok _ _ _ _ _
    | some key =>
      simp only
      split_ifs
      all_goals exact sv_ok _ _ _ _ _
  | T_ArrayExpr array_typeid array_collid elements =>
    rw [tdengine_foreign_expr_walker, tdengine_foreign_expr_walker]
    cases hl : walker_List_node (fun g2 i2 c2 => walker_foreach cat elements g2 i2 c2)
        g itc inner_cxt_init with
    | error e => exact so_error _ e
    | ok r =>
      simp only
      split_ifs
      all_goals first
        | exact sv_ok _ _ _ _ _
        | exact sv_finish _ _ _ _ _ _ _ _
  | T_Other tag type children =>
    rw [tdengine_foreign_expr_walker, tdengine_foreign_expr_walker]
    exact sv_ok _ _ _ _ _

/-! ## Theorems: the static flag and the verdict -/

theorem with_marks_self (g : foreign_glob_cxt) :
    with_marks g g.mixing_aggref_status g.is_inner_func = g := rfl

theorem with_marks_of_same_table (a b : foreign_glob_cxt) (h : same_table a b) :
    a = with_marks b a.mixing_aggref_status a.is_inner_func := by
  obtain ⟨h1, h2, h3, h4, h5⟩ := h
  cases a
  cases b
  simp only [with_marks] at *
  subst h1 h2 h3 h4 h5
  rfl

/-- The walker returns the same value and local context, or raises the same
error, whatever the static `is_time_column` holds when it starts. -/
theorem walker_static_flag (cat : Catalog) (e : Node) (g : foreign_glob_cxt) (itc itc2 : Bool)
    (c : foreign_loc_cxt) :
    same_outcome (fun r r2 => r2.result = r.result ∧ r2.cxt = r.cxt)
      (tdengine_foreign_expr_walker cat e g itc c)
      (tdengine_foreign_expr_walker cat e g itc2 c) := by
  have h := walker_marks cat e g itc c g.mixing_aggref_status g.is_inner_func itc2
    (marks_agree_refl _) (fun _ => rfl)
  rw [with_marks_self] at h
  rcases h with ⟨e, h1, h2⟩ | ⟨r, r2, h1, h2, hres, hcxt, -⟩
  · exact Or.inl ⟨e, h1, h2⟩
  · exact Or.inr ⟨r, r2, h1, h2, hres, hcxt⟩

/-- The answer of `tdengine_is_foreign_expr` is the same from either value of
the static flag. -/
theorem is_foreign_expr_static_flag (cat : Catalog) (reloptkind : RelOptKind)
    (slinfo : schemaless_info) (relids : List Nat) (relid : Oid) (itc itc2 : Bool) (expr : Node)
    (for_tlist : Bool) :
    tdengine_is_foreign_expr cat reloptkind slinfo relids relid itc2 expr for_tlist
      = tdengine_is_foreign_expr cat reloptkind slinfo relids relid itc expr for_tlist := by
  unfold tdengine_is_foreign_expr
  simp only
  rcases walker_static_flag cat expr
      { reloptkind := reloptkind, slinfo := slinfo, relids := relids, relid := relid,
        mixing_aggref_status := TDENGINE_TARGETS_MIXING_AGGREF_SAFE,
        for_tlist := for_tlist, is_inner_func := false } itc itc2 inner_cxt_init with
    ⟨e, h1, h2⟩ | ⟨r, r2, h1, h2, hres, hcxt⟩
  · rw [h1, h2]
  · rw [h1, h2]
    simp only [hres, hcxt]

/-- C24: two runs of `tdengine_is_foreign_expr` on the same expression, catalog
and relation that start with different values `itc1` and `itc2` of the
function-static `is_time_column` end alike: they return the same verdict, or
raise the same error.  Every read of the flag (deparse.c 918 and 1111) follows
an assignment of `false` in the same case (905 and 1021). -/
theorem verdict_independent_of_static_flag (cat : Catalog) (reloptkind : RelOptKind)
    (slinfo : schemaless_info) (relids : List Nat) (relid : Oid) (expr : Node)
    (for_tlist : Bool) (itc1 itc2 : Bool) :
    tdengine_is_foreign_expr cat reloptkind slinfo relids relid itc1 expr for_tlist
      = tdengine_is_foreign_expr cat reloptkind slinfo relids relid itc2 expr for_tlist :=
  is_foreign_expr_static_flag cat reloptkind slinfo relids relid itc2 itc1 expr for_tlist

/-! ## Theorems: the restriction clauses of the base relation -/

theorem classify_baserestrictinfo_eq (cat : Catalog) (reloptkind : RelOptKind)
    (slinfo : schemaless_info) (relids : List Nat) (relid : Oid) :
    ∀ (clauses : List RestrictInfo) (itc : Bool) (remote_conds local_conds : List RestrictInfo),
      (∀ ri ∈ clauses, ∃ b, tdengine_is_foreign_expr cat reloptkind slinfo relids relid false
        ri.clause false = .ok b) →
      classify_baserestrictinfo cat reloptkind slinfo relids relid clauses itc remote_conds
          local_conds
        = .ok (remote_conds ++ clauses.filter (accepts_clause cat reloptkind slinfo relids relid),
               local_conds ++ clauses.filter
                 (fun ri => !accepts_clause cat reloptkind slinfo relids relid ri))
  | [], itc, remote_conds, local_conds, _ => by
    simp [classify_baserestrictinfo]
  | ri :: rest, itc, remote_conds, local_conds, h => by
    obtain ⟨b, hb⟩ := h ri (List.mem_cons_self _ _)
    have hrest : ∀ x ∈ rest, ∃ b, tdengine_is_foreign_expr cat reloptkind slinfo relids relid
        false x.clause false = .ok b := fun x hx => h x (List.mem_cons_of_mem _ hx)
    have hacc : accepts_clause cat reloptkind slinfo relids relid ri = b := by
      unfold accepts_clause
      rw [hb]
    rw [classify_baserestrictinfo,
      is_foreign_expr_static_flag cat reloptkind slinfo relids relid false itc, hb]
    simp only
    cases b with
    | true =>
      simp only [if_true]
      rw [classify_baserestrictinfo_eq cat reloptkind slinfo relids relid rest _ _ _ hrest]
      simp [List.filter_cons, hacc]
    | false =>
      simp only [Bool.false_eq_true, if_false]
      rw [classify_baserestrictinfo_eq cat reloptkind slinfo relids relid rest _ _ _ hrest]
      simp [List.filter_cons, hacc]

theorem classify_baserestrictinfo_error (cat : Catalog) (reloptkind : RelOptKind)
    (slinfo : schemaless_info) (relids : List Nat) (relid : Oid) (ri : RestrictInfo)
    (after : List RestrictInfo) (e : Err)
    (he : tdengine_is_foreign_expr cat reloptkind slinfo relids relid false ri.clause false
      = .error e) :
    ∀ (before : List RestrictInfo) (itc : Bool) (remote_conds local_conds : List RestrictInfo),
      (∀ x ∈ before, ∃ b, tdengine_is_foreign_expr cat reloptkind slinfo relids relid false
        x.clause false = .ok b) →
      classify_baserestrictinfo cat reloptkind slinfo relids relid (before ++ ri :: after) itc
        remote_conds local_conds = .error e
  | [], itc, remote_conds, local_conds, _ => by
    rw [List.nil_append, classify_baserestrictinfo,
      is_foreign_expr_static_flag cat reloptkind slinfo relids relid false itc, he]
  | x :: rest, itc, remote_conds, local_conds, h => by
    obtain ⟨b, hb⟩ := h x (List.mem_cons_self _ _)
    have hrest : ∀ y ∈ rest, ∃ b, tdengine_is_foreign_expr cat reloptkind slinfo relids relid
        false y.clause false = .ok b := fun y hy => h y (List.mem_cons_of_mem _ hy)
    rw [List.cons_append, classify_baserestrictinfo,
      is_foreign_expr_static_flag cat reloptkind slinfo relids relid false itc, hb]
    simp only
    split_ifs
    · exact classify_baserestrictinfo_error cat reloptkind slinfo relids relid ri after e he
        rest _ _ _ hrest
    · exact classify_baserestrictinfo_error cat reloptkind slinfo relids relid ri after e he
        rest _ _ _ hrest

/-- C23 (counterexample): on `col = tdengine_fill_numeric(1)`, a restriction
clause of the sample table, `tdengine_is_foreign_expr` raises the error of
deparse.c 598, and so does `tdengineGetForeignRelSize`, also when the clause
stands after one that was accepted: the clause is placed in neither
`remote_conds` nor `local_conds`. -/
theorem rel_size_raises_on_fill_clause :
    tdengine_is_foreign_expr demo_catalog .RELOPT_BASEREL demo_slinfo [1] 5000 false
      demo_col_eq_fill false = .error fill_syntax_error ∧
    tdengineGetForeignRelSize demo_catalog .RELOPT_BASEREL demo_slinfo [1] 5000 false
      [⟨demo_col_eq_fill⟩] = .error fill_syntax_error ∧
    tdengineGetForeignRelSize demo_catalog .RELOPT_BASEREL demo_slinfo [1] 5000 false
      [⟨demo_col_eq_param 2⟩, ⟨demo_col_eq_fill⟩] = .error fill_syntax_error := by
  refine ⟨rfl, rfl, rfl⟩

/-- C23 (amended): when `tdengine_is_foreign_expr` returns on every restriction
clause of the base relation, `tdengineGetForeignRelSize` leaves in
`remote_conds` exactly the clauses it accepts and in `local_conds` exactly the
others, each list in the order of `baserestrictinfo`, whatever the static flag
held at the start; and when it raises an error on a clause, the first such
error is raised by `tdengineGetForeignRelSize`, which then fills neither
list. -/
theorem restriction_clauses_partitioned (cat : Catalog) (reloptkind : RelOptKind)
    (slinfo : schemaless_info) (relids : List Nat) (relid : Oid) (itc : Bool)
    (baserestrictinfo : List RestrictInfo) :
    ((∀ ri ∈ baserestrictinfo, ∃ b, tdengine_is_foreign_expr cat reloptkind slinfo relids relid
        false ri.clause false = .ok b) →
      tdengineGetForeignRelSize cat reloptkind slinfo relids relid itc baserestrictinfo
        = .ok (baserestrictinfo.filter (accepts_clause cat reloptkind slinfo relids relid),
               baserestrictinfo.filter
                 (fun ri => !accepts_clause cat reloptkind slinfo relids relid ri))) ∧
    (∀ before ri after e, baserestrictinfo = before ++ ri :: after →
      (∀ x ∈ before, ∃ b, tdengine_is_foreign_expr cat reloptkind slinfo relids relid false
        x.clause false = .ok b) →
      tdengine_is_foreign_expr cat reloptkind slinfo relids relid false ri.clause false
        = .error e →
      tdengineGetForeignRelSize cat reloptkind slinfo relids relid itc baserestrictinfo
        = .error e) := by
  constructor
  · intro h
    unfold tdengineGetForeignRelSize
    rw [classify_baserestrictinfo_eq cat reloptkind slinfo relids relid _ _ _ _ h]
    rfl
  · intro before ri after e hsplit hbefore he
    unfold tdengineGetForeignRelSize
    rw [hsplit]
    exact classify_baserestrictinfo_error cat reloptkind slinfo relids relid ri after e he
      before _ _ _ hbefore

/-- Witness for C23: of the clauses `col = $2`, `NOT flag` and `time > $1` of
the sample table, on each of which `tdengine_is_foreign_expr` returns, the
first and the third go to `remote_conds` and the second to `local_conds`. -/
theorem restriction_clauses_partitioned_witness :
    (∀ ri ∈ [(⟨demo_col_eq_param 2⟩ : RestrictInfo), ⟨demo_not⟩, ⟨demo_time_gt⟩],
      ∃ b, tdengine_is_foreign_expr demo_catalog .RELOPT_BASEREL demo_slinfo [1] 5000 false
        ri.clause false = .ok b) ∧
    tdengineGetForeignRelSize demo_catalog .RELOPT_BASEREL demo_slinfo [1] 5000 true
        [⟨demo_col_eq_param 2⟩, ⟨demo_not⟩, ⟨demo_time_gt⟩]
      = .ok ([⟨demo_col_eq_param 2⟩, ⟨demo_time_gt⟩], [⟨demo_not⟩]) := by
  have h : ∀ ri ∈ [(⟨demo_col_eq_param 2⟩ : RestrictInfo), ⟨demo_not⟩, ⟨demo_time_gt⟩],
      ∃ b, tdengine_is_foreign_expr demo_catalog .RELOPT_BASEREL demo_slinfo [1] 5000 false
        ri.clause false = .ok b := by
    intro ri hri
    simp only [List.mem_cons, List.mem_singleton, List.not_mem_nil, or_false] at hri
    rcases hri with rfl | rfl | rfl
    · exact ⟨true, rfl⟩
    · exact ⟨false, rfl⟩
    · exact ⟨true, rfl⟩
  refine ⟨h, ?_⟩
  rw [(restriction_clauses_partitioned demo_catalog .RELOPT_BASEREL demo_slinfo [1] 5000 true
    [⟨demo_col_eq_param 2⟩, ⟨demo_not⟩, ⟨demo_time_gt⟩]).1 h]
  rfl

/-! ## Theorems: a conjunction and its arguments -/

/-- The walker on `AND` or `OR` is the loop over the arguments from a fresh
inner context and the static flag `false`, followed by the test for a time
column under `OR`. -/
theorem walker_BoolExpr_and (cat : Catalog) (args : List Node) (g : foreign_glob_cxt)
    (itc : Bool) (c : foreign_loc_cxt) :
    tdengine_foreign_expr_walker cat (T_BoolExpr .AND_EXPR args) g itc c =
      match walker_foreach cat args g false inner_cxt_init with
      | .error e => .error e
      | .ok r =>
        if !r.result then .ok ⟨false, r.glob, r.is_time_column, c⟩
        else .ok ⟨true, r.glob, r.is_time_column,
          collation_merge InvalidOid FDW_COLLATE_NONE c⟩ := by
  rw [tdengine_foreign_expr_walker]
  have hl : ∀ x, walker_List_node (fun g2 i2 c2 => walker_foreach cat args g2 i2 c2) g false
      inner_cxt_init = x ↔
      (match walker_foreach cat args g false inner_cxt_init with
       | .error e => .error e
       | .ok r =>
         if !r.result then .ok ⟨false, r.glob, r.is_time_column, inner_cxt_init⟩
         else walker_finish (.ok InvalidOid) false r.cxt.collation r.cxt.state r.glob
           r.is_time_column inner_cxt_init) = x := fun x => Iff.rfl
  rw [if_neg (by decide), (hl _).2 rfl]
  cases hf : walker_foreach cat args g false inner_cxt_init with
  | error e => rfl
  | ok r =>
    simp only
    cases hr : r.result with
    | false => rfl
    | true =>
      simp only [Bool.not_true, Bool.false_eq_true, if_false, walker_finish]
      rfl

/-- The loop over the arguments of a conjunction, started from a global context
that differs from `g0` in the two fields the walker writes and from any static
flag and any context with the flags of a fresh one: it raises the error that
an argument raises on its own, or it returns, and returns true exactly when
every argument on its own returns true. -/
theorem walker_foreach_each (cat : Catalog) (g0 : foreign_glob_cxt)
    (hm0 : no_aggref_mark g0.mixing_aggref_status) (itc0 : Bool) :
    ∀ (args : List Node) (m : Nat) (b : Bool) (itc : Bool) (c : foreign_loc_cxt),
      no_aggref_mark m → (g0.for_tlist = false → b = g0.is_inner_func) →
      same_flags inner_cxt_init c →
      (∃ e, walker_foreach cat args (with_marks g0 m b) itc c = .error e ∧
        ∃ a ∈ args, tdengine_foreign_expr_walker cat a g0 itc0 inner_cxt_init = .error e) ∨
      (∃ r, walker_foreach cat args (with_marks g0 m b) itc c = .ok r ∧
        (r.result = true ↔ ∀ a ∈ args, ∃ ra,
          tdengine_foreign_expr_walker cat a g0 itc0 inner_cxt_init = .ok ra ∧
          ra.result = true))
  | [], m, b, itc, c, _, _, _ => by
    right
    refine ⟨_, by rw [walker_foreach], ?_⟩
    simp
  | a :: rest, m, b, itc, c, hm, hb, hc => by
    rw [walker_foreach]
    have hframe : c = with_frame inner_cxt_init c := with_frame_of_same_flags _ _ hc
    have h2 := walker_marks cat a g0 itc0 inner_cxt_init m b itc (Or.inr ⟨hm0, hm⟩) hb
    have h1 := walker_outer_cxt cat a (with_marks g0 m b) itc inner_cxt_init c
    rw [← hframe] at h1
    rcases h2 with ⟨e, hown, hmid⟩ | ⟨ra, r2, hown, hmid, hres, hcxt, hitc, m2, b2, hg2, hm2, hb2⟩
    · rcases h1 with ⟨e2, hmid2, hseq⟩ | ⟨x, y, hmid2, -⟩
      · rw [hmid] at hmid2
        cases hmid2
        left
        rw [hseq]
        exact ⟨e, rfl, a, List.mem_cons_self _ _, hown⟩
      · rw [hmid] at hmid2
        cases hmid2
    · rcases h1 with ⟨e2, hmid2, -⟩ | ⟨x, r3, hmid2, hseq, hres3, hg3, hitc3⟩
      · rw [hmid] at hmid2
        cases hmid2
      · rw [hmid] at hmid2
        cases hmid2
        rw [hseq]
        simp only
        by_cases hr : ra.result = true
        · have hr3 : r3.result = true := by rw [hres3, hres, hr]
          simp only [hr3, Bool.not_true, Bool.false_eq_true, if_false]
          have htab := walker_table cat a g0 itc0 inner_cxt_init ra hown
          have hra : ra.glob = with_marks g0 ra.glob.mixing_aggref_status
              ra.glob.is_inner_func := with_marks_of_same_table _ _ htab
          have hg3b : r3.glob = with_marks g0 m2 b2 := by
            rw [hg3, hg2, hra]
            rfl
          have hm2b : no_aggref_mark m2 := by
            rcases hm2 with h | ⟨-, h⟩
            · rw [h]
              exact walker_kept cat a g0 itc0 inner_cxt_init ra hown hm0
            · exact h
          have hb2b : g0.for_tlist = false → b2 = g0.is_inner_func := by
            intro hf
            rw [hb2 (by rw [htab.2.2.2.2]; exact hf)]
            exact (walker_inner_func cat a g0 itc0 inner_cxt_init ra hown hf).1 hr
          have hc3 : same_flags inner_cxt_init r3.cxt := by
            have h3 := walker_flags cat a (with_marks g0 m b) itc c r3 hseq
            obtain ⟨c1, c2, c3, c4, c5⟩ := hc
            obtain ⟨d1, d2, d3, d4, d5⟩ := h3
            exact ⟨c1.trans d1.symm, c2.trans d2.symm, c3.trans d3.symm, c4.trans d4.symm,
              c5.trans d5.symm⟩
          rw [hg3b]
          rcases walker_foreach_each cat g0 hm0 itc0 rest m2 b2 r3.is_time_column r3.cxt
              hm2b hb2b hc3 with ⟨e, he, a2, ha2, hea⟩ | ⟨r, hrr, hiff⟩
          · exact Or.inl ⟨e, he, a2, List.mem_cons_of_mem _ ha2, hea⟩
          · right
            refine ⟨r, hrr, ?_⟩
            rw [hiff]
            constructor
            · intro hall x hx
              rcases List.mem_cons.1 hx with rfl | hx
              · exact ⟨ra, hown, hr⟩
              · exact hall x hx
            · intro hall x hx
              exact hall x (List.mem_cons_of_mem _ hx)
        · have hr2 : ra.result = false := by simpa using hr
          have hr3 : r3.result = false := by rw [hres3, hres, hr2]
          simp only [hr3, Bool.not_false, if_true]
          right
          refine ⟨r3, rfl, ?_⟩
          constructor
          · intro h
            rw [hr3] at h
            cases h
          · intro hall
            obtain ⟨ra2, h1, h2⟩ := hall a (List.mem_cons_self _ _)
            rw [hown] at h1
            cases h1
            rw [hr2] at h2
            cases h2

/-- C27: in a global context `g` whose `mixing_aggref_status` has no aggregate
mark (the code never sets it), for every `AND(a1, ..., an)`: whenever the
walker returns on the `AND`, it returns true if and only if it returns true on
every argument visited on its own in the fresh local context with the same
global context `g` (from whatever value `itc0` of the static flag); and when
no argument raises an error on its own, the walker does return on the `AND`. -/
theorem and_iff_each_argument (cat : Catalog) (args : List Node) (g : foreign_glob_cxt)
    (itc itc0 : Bool) (c : foreign_loc_cxt)
    (h_mark : no_aggref_mark g.mixing_aggref_status) :
    (∀ r, tdengine_foreign_expr_walker cat (T_BoolExpr .AND_EXPR args) g itc c = .ok r →
      (r.result = true ↔ ∀ a ∈ args, ∃ ra,
        tdengine_foreign_expr_walker cat a g itc0 inner_cxt_init = .ok ra ∧
        ra.result = true)) ∧
    ((∀ a ∈ args, ∃ ra, tdengine_foreign_expr_walker cat a g itc0 inner_cxt_init = .ok ra) →
      ∃ r, tdengine_foreign_expr_walker cat (T_BoolExpr .AND_EXPR args) g itc c = .ok r ∧
        (r.result = true ↔ ∀ a ∈ args, ∃ ra,
          tdengine_foreign_expr_walker cat a g itc0 inner_cxt_init = .ok ra ∧
          ra.result = true)) := by
  have hloop := walker_foreach_each cat g h_mark itc0 args g.mixing_aggref_status
    g.is_inner_func false inner_cxt_init h_mark (fun _ => rfl) (same_flags_refl _)
  rw [with_marks_self] at hloop
  have main : ∀ r, tdengine_foreign_expr_walker cat (T_BoolExpr .AND_EXPR args) g itc c
      = .ok r → (r.result = true ↔ ∀ a ∈ args, ∃ ra,
        tdengine_foreign_expr_walker cat a g itc0 inner_cxt_init = .ok ra ∧
        ra.result = true) := by
    intro r h
    rw [walker_BoolExpr_and] at h
    rcases hloop with ⟨e, he, -⟩ | ⟨r1, hr1, hiff⟩
    · rw [he] at h
      cases h
    · rw [hr1] at h
      simp only at h
      rw [← hiff]
      cases hres : r1.result with
      | false =>
        simp only [hres, Bool.not_false, if_true, Except.ok.injEq] at h
        rw [← h]
      | true =>
        simp only [hres, Bool.not_true, Bool.false_eq_true, if_false, Except.ok.injEq] at h
        rw [← h]
  refine ⟨main, ?_⟩
  intro hok
  rcases hloop with ⟨e, -, a, ha, hea⟩ | ⟨r1, hr1, -⟩
  · obtain ⟨ra, hra⟩ := hok a ha
    rw [hra] at hea
    cases hea
  · have hret : ∃ r, tdengine_foreign_expr_walker cat (T_BoolExpr .AND_EXPR args) g itc c
        = .ok r := by
      rw [walker_BoolExpr_and, hr1]
      simp only
      split_ifs
      · exact ⟨_, rfl⟩
      · exact ⟨_, rfl⟩
    obtain ⟨r, hr⟩ := hret
    exact ⟨r, hr, main r hr⟩

/-- Witness for C27: `col = $2 AND NOT flag` on the sample table.  Each argument
returns on its own, and the `AND` returns false, as `NOT flag` does. -/
theorem and_iff_each_argument_witness :
    no_aggref_mark (demo_glob .RELOPT_BASEREL).mixing_aggref_status ∧
    (∀ a ∈ [demo_col_eq_param 2, demo_not], ∃ ra,
      tdengine_foreign_expr_walker demo_catalog a (demo_glob .RELOPT_BASEREL) false
        inner_cxt_init = .ok ra) ∧
    (∃ r, tdengine_foreign_expr_walker demo_catalog demo_and_not (demo_glob .RELOPT_BASEREL)
        true inner_cxt_init = .ok r ∧
      (r.result = true ↔ ∀ a ∈ [demo_col_eq_param 2, demo_not], ∃ ra,
        tdengine_foreign_expr_walker demo_catalog a (demo_glob .RELOPT_BASEREL) false
          inner_cxt_init = .ok ra ∧ ra.result = true)) := by
  have hm : no_aggref_mark (demo_glob .RELOPT_BASEREL).mixing_aggref_status := rfl
  have hok : ∀ a ∈ [demo_col_eq_param 2, demo_not], ∃ ra,
      tdengine_foreign_expr_walker demo_catalog a (demo_glob .RELOPT_BASEREL) false
        inner_cxt_init = .ok ra := by
    intro a ha
    simp only [List.mem_cons, List.mem_singleton, List.not_mem_nil, or_false] at ha
    rcases ha with rfl | rfl
    · exact ⟨_, rfl⟩
    · exact ⟨_, rfl⟩
  exact ⟨hm, hok,
    (and_iff_each_argument demo_catalog [demo_col_eq_param 2, demo_not] (demo_glob .RELOPT_BASEREL)
      true false inner_cxt_init hm).2 hok⟩

/-! ## Theorems: a function call inside a function call -/

/-- C29 (counterexample): two filters of the sample table with a call of a
function that is not a cast inside the arguments of `sqrt`.  On
`sqrt(float8(tdengine_fill_numeric(4)))` the walker raises the error of
deparse.c 598, which stands before the test of `is_inner_func`, and does not
return false.  On `sqrt((record_of(sqrt(float8(col)))).f1)` it returns true:
the argument of a `FieldSelect` is not visited. -/
theorem nested_call_raises_or_accepted :
    has_func_call_list demo_catalog_tags
      [T_FuncExpr 316 FLOAT8OID InvalidOid InvalidOid
         [T_FuncExpr 20002 INT4OID InvalidOid InvalidOid [demo_int "4"]]] = true ∧
    tdengine_foreign_expr_walker demo_catalog_tags demo_sqrt_cast_fill
      (demo_glob .RELOPT_BASEREL) false inner_cxt_init = .error fill_syntax_error ∧
    tdengine_is_foreign_expr demo_catalog_tags .RELOPT_BASEREL demo_slinfo [1] 5000 false
      demo_sqrt_cast_fill false = .error fill_syntax_error ∧
    tdengine_is_foreign_expr demo_catalog_tags .RELOPT_BASEREL demo_slinfo [1] 5000 false
      demo_sqrt_fieldselect false = .ok true :=
  ⟨rfl, rfl, rfl, rfl⟩

/-- C29 (amended): when a filter is checked (`for_tlist = false`), a call of a
function that is not one of the casts `float8` and `numeric`, whose arguments
hold, at any depth outside the argument of a `FieldSelect`, another call of a
function that is not such a cast, is never accepted: the walker returns false
on it unless an error is raised first.  When a target list is checked
(`for_tlist = true`), the walker ends alike from either value of
`is_inner_func`, on every expression: nesting alone never causes rejection. -/
theorem nested_call_never_accepted (cat : Catalog) (funcid funcresulttype funccollid
    inputcollid : Oid) (args : List Node) (g : foreign_glob_cxt) (itc : Bool)
    (c : foreign_loc_cxt) (h_outer : is_cast_call cat funcid = false)
    (h_filter : g.for_tlist = false) (h_inner : has_func_call_list cat args = true) :
    (∀ r, tdengine_foreign_expr_walker cat
        (T_FuncExpr funcid funcresulttype funccollid inputcollid args) g itc c = .ok r →
      r.result = false) ∧
    (∀ (e : Node) (g2 : foreign_glob_cxt) (itc2 : Bool) (c2 : foreign_loc_cxt) (b : Bool),
      g2.for_tlist = true →
      same_outcome (fun r r2 => r2.result = r.result ∧ r2.cxt = r.cxt)
        (tdengine_foreign_expr_walker cat e g2 itc2 c2)
        (tdengine_foreign_expr_walker cat e { g2 with is_inner_func := b } itc2 c2)) := by
  constructor
  · intro r h
    rw [tdengine_foreign_expr_walker] at h
    cases hp : walker_FuncExpr_pre cat funcid funcresulttype g itc c with
    | error e =>
      rw [hp] at h
      cases h
    | ok x =>
      rw [hp] at h
      cases x with
      | inl r0 =>
        simp only [Except.ok.injEq] at h
        rw [← h]
        exact walker_FuncExpr_pre_inl cat funcid funcresulttype g itc c r0 hp
      | inr P =>
        simp only at h
        rcases walker_FuncExpr_pre_inr cat funcid funcresulttype g itc c P hp with
          ⟨-, -, hc⟩ | ⟨-, hg, -, -⟩
        · rw [h_outer] at hc
          cases hc
        · cases hl : walker_List_node (fun g2 i2 c2 => walker_foreach cat args g2 i2 c2)
              P.glob itc P.inner_cxt with
          | error e =>
            rw [hl] at h
            cases h
          | ok r1 =>
            rw [hl] at h
            simp only at h
            have hft : P.glob.for_tlist = false := by rw [hg]; exact h_filter
            have hin : P.glob.is_inner_func = true := by rw [hg]
            have hr1 : r1.result = false :=
              (walker_List_node_inner _ (has_func_call_list cat args)
                (fun g2 i2 c2 r2 h2 ht2 => walker_foreach_inner_func cat args g2 i2 c2 r2 h2 ht2)
                P.glob itc P.inner_cxt r1 hl hft).2 ⟨hin, h_inner⟩
            simp only [hr1, Bool.not_false, if_true, Except.ok.injEq] at h
            rw [← h]
  · intro e g2 itc2 c2 b hf
    have h := walker_marks cat e g2 itc2 c2 g2.mixing_aggref_status b itc2
      (marks_agree_refl _) (fun h0 => by rw [hf] at h0; cases h0)
    rcases h with ⟨e, h1, h2⟩ | ⟨r, r2, h1, h2, hres, hcxt, -⟩
    · exact Or.inl ⟨e, h1, h2⟩
    · exact Or.inr ⟨r, r2, h1, h2, hres, hcxt⟩

/-- Witness for C29: `sqrt(sqrt(float8(col)))` is rejected as a filter of the
sample table and accepted as a target. -/
theorem nested_call_never_accepted_witness :
    is_cast_call demo_catalog_tags 1344 = false ∧
    (demo_glob .RELOPT_BASEREL).for_tlist = false ∧
    has_func_call_list demo_catalog_tags
      [T_FuncExpr 1344 FLOAT8OID InvalidOid InvalidOid
         [T_FuncExpr 316 FLOAT8OID InvalidOid InvalidOid [demo_col]]] = true ∧
    (∀ r, tdengine_foreign_expr_walker demo_catalog_tags demo_sqrt_sqrt
        (demo_glob .RELOPT_BASEREL) false inner_cxt_init = .ok r → r.result = false) ∧
    tdengine_is_foreign_expr demo_catalog_tags .RELOPT_BASEREL demo_slinfo [1] 5000 false
      demo_sqrt_sqrt false = .ok false ∧
    tdengine_is_foreign_expr demo_catalog_tags .RELOPT_BASEREL demo_slinfo [1] 5000 false
      demo_sqrt_sqrt true = .ok true :=
  ⟨rfl, rfl, rfl,
   (nested_call_never_accepted demo_catalog_tags 1344 FLOAT8OID InvalidOid InvalidOid
     [T_FuncExpr 1344 FLOAT8OID InvalidOid InvalidOid
        [T_FuncExpr 316 FLOAT8OID InvalidOid InvalidOid [demo_col]]]
     (demo_glob .RELOPT_BASEREL) false inner_cxt_init rfl rfl rfl).1,
   rfl, rfl⟩

/-! ## Theorems: a time column among the arguments of an aggregate -/

theorem ok_time (b : Bool) (g : foreign_glob_cxt) (i : Bool) (c : foreign_loc_cxt)
    (r : WalkOut) (h : (Except.ok ⟨b, g, i, c⟩ : Except Err WalkOut) = .ok r)
    (hres : r.result = true) (hi : b = true → i = true) : r.is_time_column = true := by
  simp only [Except.ok.injEq] at h
  rw [← h] at hres ⊢
  exact hi hres

theorem walker_finish_time (type : Except Err Oid) (check_type : Bool) (collation : Oid)
    (state : FDWCollateState) (g : foreign_glob_cxt) (i : Bool) (c : foreign_loc_cxt)
    (r : WalkOut) (h : walker_finish type check_type collation state g i c = .ok r)
    (hi : i = true) : r.is_time_column = true := by
  unfold walker_finish at h
  split_ifs at h
  · split at h
    · simp at h
    · split_ifs at h
      all_goals
        simp only [Except.ok.injEq] at h
        rw [← h]
        exact hi
  · simp only [Except.ok.injEq] at h
    rw [← h]
    exact hi

theorem walker_List_node_time
    (loop : foreign_glob_cxt → Bool → foreign_loc_cxt → Except Err WalkOut)
    (g0 : foreign_glob_cxt) (hf : Bool)
    (hloop : ∀ g2 i2 c2 r2, loop g2 i2 c2 = .ok r2 → r2.result = true → same_table g2 g0 →
      (i2 = true ∨ hf = true) → r2.is_time_column = true)
    (g : foreign_glob_cxt) (itc : Bool) (c : foreign_loc_cxt) (r : WalkOut)
    (h : walker_List_node loop g itc c = .ok r) (hres : r.result = true)
    (hg : same_table g g0) (hi : itc = true ∨ hf = true) : r.is_time_column = true := by
  unfold walker_List_node at h
  simp only at h
  split at h
  · simp at h
  · rename_i r1 h1
    by_cases hr : r1.result = true
    · have h2 := hloop _ _ _ _ h1 hr hg hi
      rw [hr] at h
      simp only [Bool.not_true, Bool.false_eq_true, if_false] at h
      exact walker_finish_time _ _ _ _ _ _ _ _ h h2
    · have hr2 : r1.result = false := by simpa using hr
      rw [hr2] at h
      simp only [Bool.not_false, if_true] at h
      exact ok_time false _ _ _ _ h hres (fun hb => Bool.noConfusion hb)

theorem is_slvar_no_time (cat : Catalog) (vartype : Oid) (varattno : Int)
    (sl : schemaless_info) (h : tdengine_is_slvar cat vartype varattno sl = true)
    (h_sl : sl.schemaless = true → TDENGINE_IS_TIME_TYPE sl.slcol_type_oid = false) :
    TDENGINE_IS_TIME_TYPE vartype = false := by
  unfold tdengine_is_slvar at h
  split_ifs at h with hs
  simp only [Bool.and_eq_true, beq_iff_eq] at h
  rw [h.1]
  exact h_sl (by simpa using hs)

theorem is_slvar_fetch_op_no_time (cat : Catalog) (node : Node) (sl : schemaless_info)
    (relids : List Nat) (h : is_slvar_fetch_op cat node sl = true)
    (h_sl : sl.schemaless = true → TDENGINE_IS_TIME_TYPE sl.slcol_type_oid = false) :
    has_time_column relids node = false := by
  obtain ⟨t, oc, ic, a1, a2, a3, a4, a5, a6, b1, b2, v, b4, hn, hv⟩ :=
    (is_slvar_fetch_op_iff cat node sl).1 h
  rw [hn]
  simp [has_time_column, has_time_column_list, is_slvar_no_time cat a3 a2 sl hv h_sl]

theorem is_slvar_fetch_no_time (cat : Catalog) (node : Node) (sl : schemaless_info)
    (relids : List Nat) (h : tdengine_is_slvar_fetch cat node sl = true)
    (h_sl : sl.schemaless = true → TDENGINE_IS_TIME_TYPE sl.slcol_type_oid = false) :
    has_time_column relids node = false := by
  unfold tdengine_is_slvar_fetch at h
  split at h
  · simp at h
  · split at h
    · rw [has_time_column]
      exact is_slvar_fetch_op_no_time cat _ sl relids h h_sl
    · exact is_slvar_fetch_op_no_time cat _ sl relids h h_sl

theorem is_param_fetch_no_time (node : Node) (sl : schemaless_info) (relids : List Nat)
    (h : tdengine_is_param_fetch node sl = true) : has_time_column relids node = false := by
  unfold tdengine_is_param_fetch at h
  split at h
  · simp at h
  · split at h
    · split at h
      · simp at h
      · split at h
        · simp [has_time_column, has_time_column_list]
        · simp at h
    · simp at h

theorem get_slvar_no_time (cat : Catalog) (node : Node) (sl : schemaless_info)
    (relids : List Nat) (name : String) (h : tdengine_get_slvar cat node sl = some name)
    (h_sl : sl.schemaless = true → TDENGINE_IS_TIME_TYPE sl.slcol_type_oid = false) :
    has_time_column relids node = false := by
  unfold tdengine_get_slvar at h
  split at h
  · simp at h
  · split at h
    · rename_i hf
      exact is_slvar_fetch_no_time cat node sl relids hf h_sl
    · simp at h

mutual
/-- On an upper relation `g0` whose dynamic column is not time-typed: when the
walker accepts a tree without `BoolExpr` and `Aggref` nodes, and the static
`is_time_column` was set at the start or the tree holds a time-typed column of
the scanned relation, the flag is set at the end. -/
theorem walker_time_flag (cat : Catalog) (g0 : foreign_glob_cxt)
    (h_rel : g0.reloptkind = .RELOPT_UPPER_REL)
    (h_sl : g0.slinfo.schemaless = true →
      TDENGINE_IS_TIME_TYPE g0.slinfo.slcol_type_oid = false) :
    ∀ (e : Node) (g : foreign_glob_cxt) (itc : Bool) (c : foreign_loc_cxt) (r : WalkOut),
      tdengine_foreign_expr_walker cat e g itc c = .ok r → r.result = true →
      same_table g g0 → resets_time_flag e = false →
      (itc = true ∨ has_time_column g0.relids e = true) → r.is_time_column = true
  | T_Var varno varattno vartype vartypmod varcollid varlevelsup, g, itc, c, r, h, hres, hg,
      _, hi => by
    rw [tdengine_foreign_expr_walker] at h
    unfold walker_Var at h
    simp only at h
    simp only [has_time_column] at hi
    obtain ⟨-, -, hrel, -, -⟩ := hg
    by_cases h1 : (g.relids.contains varno && varlevelsup == 0) = true
    · rw [if_pos h1] at h
      by_cases h2 : varattno < 0
      · rw [if_pos h2] at h
        exact ok_time false _ _ _ _ h hres (fun hb => Bool.noConfusion hb)
      · rw [if_neg h2] at h
        by_cases h3 : (TDENGINE_IS_TIME_TYPE vartype && time_arith_in_comparison c) = true
        · rw [if_pos h3] at h
          exact ok_time false _ _ _ _ h hres (fun hb => Bool.noConfusion hb)
        · rw [if_neg h3] at h
          refine walker_finish_time _ _ _ _ _ _ _ _ h ?_
          rcases hi with hi | hi
          · simp [hi]
          · simp only [Bool.and_eq_true] at hi
            simp [hi.2]
    · rw [if_neg h1] at h
      refine walker_finish_time _ _ _ _ _ _ _ _ h ?_
      rcases hi with hi | hi
      · exact hi
      · exfalso
        apply h1
        rw [hrel]
        simp only [Bool.and_eq_true] at hi ⊢
        exact hi.1
  | T_Const consttype constcollid constvalue constisnull, g, itc, c, r, h, hres, _, _, hi => by
    simp only [has_time_column, Bool.false_eq_true, or_false] at hi
    rw [tdengine_foreign_expr_walker] at h
    unfold walker_Const at h
    simp only at h
    split_ifs at h
    all_goals try split at h
    all_goals first
      | exact ok_time false _ _ _ _ h hres (fun hb => Bool.noConfusion hb)
      | exact walker_finish_time _ _ _ _ _ _ _ _ h hi
      | simp at h
  | T_Param paramid paramtype paramtypmod paramcollid, g, itc, c, r, h, hres, _, _, hi => by
    simp only [has_time_column, Bool.false_eq_true, or_false] at hi
    rw [tdengine_foreign_expr_walker] at h
    unfold walker_Param at h
    split_ifs at h
    all_goals first
      | exact ok_time false _ _ _ _ h hres (fun hb => Bool.noConfusion hb)
      | exact walker_finish_time _ _ _ _ _ _ _ _ h hi
  | T_FieldSelect arg fieldnum resulttype resultcollid, g, itc, c, r, h, hres, hg, _, _ => by
    have hk : g.reloptkind = .RELOPT_UPPER_REL := hg.1.trans h_rel
    rw [tdengine_foreign_expr_walker] at h
    unfold walker_FieldSelect at h
    rw [hk] at h
    simp only [reduceCtorEq, or_self, not_false_eq_true, decide_True, Bool.not_false,
      decide_False, if_true] at h
    exact ok_time false _ _ _ _ h hres (fun hb => Bool.noConfusion hb)
  | T_FuncExpr funcid funcresulttype funccollid inputcollid args, g, itc, c, r, h, hres, hg,
      hp, hi => by
    simp only [has_time_column] at hi
    simp only [resets_time_flag] at hp
    rw [tdengine_foreign_expr_walker] at h
    split at h
    · simp at h
    · rename_i r0 h0
      have hr0 := walker_FuncExpr_pre_inl cat funcid funcresulttype g itc c r0 h0
      simp only [Except.ok.injEq] at h
      rw [← h, hr0] at hres
      cases hres
    · rename_i P h0
      have hP : same_table P.glob g0 :=
        same_table_trans _ _ _
          (walker_FuncExpr_pre_table cat funcid funcresulttype g itc c _ h0) hg
      split at h
      · simp at h
      · rename_i r2 h2
        by_cases hr : r2.result = true
        · have hL := walker_List_node_time _ g0 (has_time_column_list g0.relids args)
            (fun g2 i2 c2 r3 h3 hr3 hg3 hi3 =>
              walker_foreach_time_flag cat g0 h_rel h_sl args g2 i2 c2 r3 h3 hr3 hg3 hp hi3)
            P.glob itc P.inner_cxt r2 h2 hr hP hi
          rw [hr] at h
          simp only [Bool.not_true, Bool.false_eq_true, if_false] at h
          unfold walker_FuncExpr_post at h
          simp only at h
          split_ifs at h
          all_goals first
            | exact ok_time false _ _ _ _ h hres (fun hb => Bool.noConfusion hb)
            | exact walker_finish_time _ _ _ _ _ _ _ _ h hL
        · have hr2 : r2.result = false := by simpa using hr
          rw [hr2] at h
          simp only [Bool.not_false, if_true] at h
          exact ok_time false _ _ _ _ h hres (fun hb => Bool.noConfusion hb)
  | T_OpExpr opno opresulttype opcollid inputcollid args, g, itc, c, r, h, hres, hg, hp,
      hi => by
    simp only [resets_time_flag] at hp
    rw [tdengine_foreign_expr_walker] at h
    split at h
    · simp at h
    · exact ok_time false _ _ _ _ h hres (fun hb => Bool.noConfusion hb)
    · split_ifs at h with hf
      · refine walker_finish_time _ _ _ _ _ _ _ _ h ?_
        have hsl : g.slinfo.schemaless = true →
            TDENGINE_IS_TIME_TYPE g.slinfo.slcol_type_oid = false := by
          rw [hg.2.1]
          exact h_sl
        rcases hi with hi | hi
        · exact hi
        · exfalso
          rw [Bool.or_eq_true] at hf
          rcases hf with hf | hf
          · rw [is_slvar_fetch_no_time cat _ _ g0.relids hf hsl] at hi
            cases hi
          · rw [is_param_fetch_no_time _ _ g0.relids hf] at hi
            cases hi
      · simp only [has_time_column] at hi
        split at h
        · simp at h
        · rename_i r2 h2
          by_cases hr : r2.result = true
          · have hL := walker_List_node_time _ g0 (has_time_column_list g0.relids args)
              (fun g2 i2 c2 r3 h3 hr3 hg3 hi3 =>
                walker_foreach_time_flag cat g0 h_rel h_sl args g2 i2 c2 r3 h3 hr3 hg3 hp hi3)
              g itc _ r2 h2 hr hg hi
            rw [hr] at h
            simp only [Bool.not_true, Bool.false_eq_true, if_false] at h
            unfold walker_OpExpr_post at h
            split_ifs at h
            all_goals first
              | exact ok_time false _ _ _ _ h hres (fun hb => Bool.noConfusion hb)
              | exact walker_finish_time _ _ _ _ _ _ _ _ h hL
          · have hr2 : r2.result = false := by simpa using hr
            rw [hr2] at h
            simp only [Bool.not_false, if_true] at h
            exact ok_time false _ _ _ _ h hres (fun hb => Bool.noConfusion hb)
  | T_DistinctExpr opno opresulttype opcollid inputcollid args, g, itc, c, r, h, hres, _, _,
      _ => by
    rw [tdengine_foreign_expr_walker] at h
    exact ok_time false _ _ _ _ h hres (fun hb => Bool.noConfusion hb)
  | T_ScalarArrayOpExpr opno useOr inputcollid args, g, itc, c, r, h, hres, hg, hp, hi => by
    simp only [has_time_column] at hi
    simp only [resets_time_flag] at hp
    rw [tdengine_foreign_expr_walker] at h
    split at h
    · simp at h
    · exact ok_time false _ _ _ _ h hres (fun hb => Bool.noConfusion hb)
    · split at h
      · simp at h
      · rename_i r2 h2
        by_cases hr : r2.result = true
        · have hL := walker_List_node_time _ g0 (has_time_column_list g0.relids args)
            (fun g2 i2 c2 r3 h3 hr3 hg3 hi3 =>
              walker_foreach_time_flag cat g0 h_rel h_sl args g2 i2 c2 r3 h3 hr3 hg3 hp hi3)
            g itc _ r2 h2 hr hg hi
          rw [hr] at h
          simp only [Bool.not_true, Bool.false_eq_true, if_false] at h
          split_ifs at h
          all_goals first
            | exact ok_time false _ _ _ _ h hres (fun hb => Bool.noConfusion hb)
            | exact walker_finish_time _ _ _ _ _ _ _ _ h hL
        · have hr2 : r2.result = false := by simpa using hr
          rw [hr2] at h
          simp only [Bool.not_false, if_true] at h
          exact ok_time false _ _ _ _ h hres (fun hb => Bool.noConfusion hb)
  | T_RelabelType arg resulttype resultcollid, g, itc, c, r, h, hres, hg, hp, hi => by
    simp only [has_time_column] at hi
    simp only [resets_time_flag] at hp
    rw [tdengine_foreign_expr_walker] at h
    split at h
    · simp at h
    · rename_i r2 h2
      by_cases hr : r2.result = true
      · have hL := walker_time_flag cat g0 h_rel h_sl arg g itc _ r2 h2 hr hg hp hi
        rw [hr] at h
        simp only [Bool.not_true, Bool.false_eq_true, if_false] at h
        exact walker_finish_time _ _ _ _ _ _ _ _ h hL
      · have hr2 : r2.result = false := by simpa using hr
        rw [hr2] at h
        simp only [Bool.not_false, if_true] at h
        exact ok_time false _ _ _ _ h hres (fun hb => Bool.noConfusion hb)
  | T_BoolExpr boolop args, g, itc, c, r, h, hres, hg, hp, hi => by
    simp [resets_time_flag] at hp
  | T_List elems, g, itc, c, r, h, hres, hg, hp, hi => by
    simp only [has_time_column] at hi
    simp only [resets_time_flag] at hp
    rw [tdengine_foreign_expr_walker] at h
    exact walker_List_node_time _ g0 (has_time_column_list g0.relids elems)
      (fun g2 i2 c2 r3 h3 hr3 hg3 hi3 =>
        walker_foreach_time_flag cat g0 h_rel h_sl elems g2 i2 c2 r3 h3 hr3 hg3 hp hi3)
      g itc c r h hres hg hi
  | T_Aggref aggfnoid aggtype aggcollid inputcollid args aggorder aggdistinct aggfilter aggstar
      aggvariadic aggsplit, g, itc, c, r, h, hres, hg, hp, hi => by
    simp [resets_time_flag] at hp
  | T_TargetEntry expr resno ressortgroupref resjunk, g, itc, c, r, h, hres, _, _, _ => by
    rw [tdengine_foreign_expr_walker] at h
    exact ok_time false _ _ _ _ h hres (fun hb => Bool.noConfusion hb)
  | T_CoerceViaIOExpr arg resulttype resultcollid, g, itc, c, r, h, hres, hg, hp, hi => by
    simp only [has_time_column] at hi
    simp only [resets_time_flag] at hp
    rw [tdengine_foreign_expr_walker] at h
    split_ifs at h
    · exact ok_time false _ _ _ _ h hres (fun hb => Bool.noConfusion hb)
    · split at h
      · simp at h
      · rename_i r2 h2
        by_cases hr : r2.result = true
        · have hL := walker_time_flag cat g0 h_rel h_sl arg g itc _ r2 h2 hr hg hp hi
          rw [hr] at h
          simp only [Bool.not_true, Bool.false_eq_true, if_false] at h
          exact walker_finish_time _ _ _ _ _ _ _ _ h hL
        · have hr2 : r2.result = false := by simpa using hr
          rw [hr2] at h
          simp only [Bool.not_false, if_true] at h
          exact ok_time false _ _ _ _ h hres (fun hb => Bool.noConfusion hb)
    · exact ok_time false _ _ _ _ h hres (fun hb => Bool.noConfusion hb)
  | T_NullTest arg nulltesttype, g, itc, c, r, h, hres, hg, _, hi => by
    simp only [has_time_column] at hi
    rw [tdengine_foreign_expr_walker] at h
    unfold walker_NullTest at h
    split at h
    · exact ok_time false _ _ _ _ h hres (fun hb => Bool.noConfusion hb)
    · rename_i key hk
      split_ifs at h
      · exact ok_time false _ _ _ _ h hres (fun hb => Bool.noConfusion hb)
      · refine walker_finish_time _ _ _ _ _ _ _ _ h ?_
        have hsl : g.slinfo.schemaless = true →
            TDENGINE_IS_TIME_TYPE g.slinfo.slcol_type_oid = false := by
          rw [hg.2.1]
          exact h_sl
        rcases hi with hi | hi
        · exact hi
        · rw [get_slvar_no_time cat arg _ g0.relids key hk hsl] at hi
          cases hi
  | T_ArrayExpr array_typeid array_collid elements, g, itc, c, r, h, hres, hg, hp, hi => by
    simp only [has_time_column] at hi
    simp only [resets_time_flag] at hp
    rw [tdengine_foreign_expr_walker] at h
    split at h
    · simp at h
    · rename_i r2 h2
      by_cases hr : r2.result = true
      · have hL := walker_List_node_time _ g0 (has_time_column_list g0.relids elements)
          (fun g2 i2 c2 r3 h3 hr3 hg3 hi3 =>
            walker_foreach_time_flag cat g0 h_rel h_sl elements g2 i2 c2 r3 h3 hr3 hg3 hp hi3)
          g itc _ r2 h2 hr hg hi
        rw [hr] at h
        simp only [Bool.not_true, Bool.false_eq_true, if_false] at h
        exact walker_finish_time _ _ _ _ _ _ _ _ h hL
      · have hr2 : r2.result = false := by simpa using hr
        rw [hr2] at h
        simp only [Bool.not_false, if_true] at h
        exact ok_time false _ _ _ _ h hres (fun hb => Bool.noConfusion hb)
  | T_Other tag type children, g, itc, c, r, h, hres, _, _, _ => by
    rw [tdengine_foreign_expr_walker] at h
    exact ok_time false _ _ _ _ h hres (fun hb => Bool.noConfusion hb)
/-- The same for the element loop of a list. -/
theorem walker_foreach_time_flag (cat : Catalog) (g0 : foreign_glob_cxt)
    (h_rel : g0.reloptkind = .RELOPT_UPPER_REL)
    (h_sl : g0.slinfo.schemaless = true →
      TDENGINE_IS_TIME_TYPE g0.slinfo.slcol_type_oid = false) :
    ∀ (es : List Node) (g : foreign_glob_cxt) (itc : Bool) (c : foreign_loc_cxt) (r : WalkOut),
      walker_foreach cat es g itc c = .ok r → r.result = true →
      same_table g g0 → resets_time_flag_list es = false →
      (itc = true ∨ has_time_column_list g0.relids es = true) → r.is_time_column = true
  | [], g, itc, c, r, h, hres, _, _, hi => by
    simp only [has_time_column_list, Bool.false_eq_true, or_false] at hi
    rw [walker_foreach] at h
    exact ok_time _ _ _ _ _ h hres (fun _ => hi)
  | a :: rest, g, itc, c, r, h, hres, hg, hp, hi => by
    simp only [has_time_column_list, Bool.or_eq_true] at hi
    simp only [resets_time_flag_list, Bool.or_eq_false_iff] at hp
    rw [walker_foreach] at h
    split at h
    · simp at h
    · rename_i r1 h1
      by_cases hr : r1.result = true
      · rw [hr] at h
        simp only [Bool.not_true, Bool.false_eq_true, if_false] at h
        have hg1 : same_table r1.glob g0 :=
          same_table_trans _ _ _ (walker_table cat a g itc c r1 h1) hg
        have hi1 : r1.is_time_column = true ∨ has_time_column_list g0.relids rest = true := by
          rcases hi with hi | hi | hi
          · exact Or.inl (walker_time_flag cat g0 h_rel h_sl a g itc c r1 h1 hr hg hp.1
              (Or.inl hi))
          · exact Or.inl (walker_time_flag cat g0 h_rel h_sl a g itc c r1 h1 hr hg hp.1
              (Or.inr hi))
          · exact Or.inr hi
        exact walker_foreach_time_flag cat g0 h_rel h_sl rest r1.glob r1.is_time_column r1.cxt
          r h hres hg1 hp.2 hi1
      · have hr2 : r1.result = false := by simpa using hr
        rw [hr2] at h
        simp only [Bool.not_false, if_true, Except.ok.injEq] at h
        rw [← h, hr2] at hres
        cases hres
end

/-- C21 (counterexample): on `tdengine_max_all(tdengine_fill_numeric(1), time)`,
an aggregate that is neither `first` nor `last` and has the time column of the
sample table as an argument, the walker raises the error of deparse.c 598 at
the first argument and does not return false. -/
theorem aggregate_of_time_column_raises :
    demo_catalog_last.proname 20010 = some "tdengine_max_all" ∧
    has_time_column [1] demo_time = true ∧
    tdengine_foreign_expr_walker demo_catalog_last demo_star_fill_time
      { demo_glob .RELOPT_UPPER_REL with for_tlist := true } false inner_cxt_init
      = .error fill_syntax_error ∧
    tdengine_is_foreign_expr demo_catalog_last .RELOPT_UPPER_REL demo_slinfo [1] 5000 false
      demo_star_fill_time true = .error fill_syntax_error :=
  ⟨rfl, rfl, rfl, rfl⟩

/-- An aggregate over `(time > $1) = (col = $2 AND col = $3)` is accepted
although its argument holds the time column: the nested `AND` assigns `false`
to the static `is_time_column` (deparse.c 905) after the time column had set
it. -/
theorem aggregate_of_time_column_under_and_accepted :
    has_time_column [1] (T_OpExpr 91 BOOLOID InvalidOid InvalidOid
      [demo_time_gt, T_BoolExpr .AND_EXPR [demo_col_eq_param 2, demo_col_eq_param 3]])
      = true ∧
    tdengine_is_foreign_expr demo_catalog_last .RELOPT_UPPER_REL demo_slinfo [1] 5000 false
      demo_star_time_and true = .ok true :=
  ⟨rfl, rfl⟩

/-- C21 (amended): for every `Aggref` whose function name is neither `first`
nor `last`, on a table whose dynamic column is not time-typed: if one of its
arguments holds, at any depth, a time-typed column `Var` of the scanned
relation, and holds no `BoolExpr` and no `Aggref` node, then the walker never
returns true on the `Aggref`; it returns false unless an error is raised
first.  For `first` and `last` the test of the flag after each argument
(deparse.c 1111) never rejects, whatever the flag holds. -/
theorem aggregate_of_time_column_rejected (cat : Catalog) (aggfnoid : Oid) (opername : String)
    (h_name : cat.proname aggfnoid = some opername)
    (h_first : opername ≠ "first") (h_last : opername ≠ "last")
    (aggtype aggcollid inputcollid : Oid) (before after : List Node)
    (n : Node) (resno : Int) (ressortgroupref : Nat) (resjunk : Bool)
    (aggorder aggdistinct : List Nat) (aggfilter : Option Node) (aggstar aggvariadic : Bool)
    (aggsplit : AggSplit) (g : foreign_glob_cxt)
    (h_sl : g.slinfo.schemaless = true →
      TDENGINE_IS_TIME_TYPE g.slinfo.slcol_type_oid = false)
    (h_time : has_time_column g.relids n = true) (h_plain : resets_time_flag n = false)
    (itc : Bool) (outer_cxt : foreign_loc_cxt) :
    (∀ r, tdengine_foreign_expr_walker cat
        (T_Aggref aggfnoid aggtype aggcollid inputcollid
          (before ++ T_TargetEntry n resno ressortgroupref resjunk :: after)
          aggorder aggdistinct aggfilter aggstar aggvariadic aggsplit) g itc outer_cxt = .ok r →
      r.result = false) ∧
    (∀ (pre : AggPre) (flag : Bool), pre.opername = "first" ∨ pre.opername = "last" →
      aggref_time_rejected pre flag = false) := by
  constructor
  · intro r h
    rw [tdengine_foreign_expr_walker] at h
    cases h_pre : walker_Aggref_pre cat aggfnoid aggsplit g itc with
    | error e =>
      rw [h_pre] at h
      cases h
    | ok p =>
      rw [h_pre] at h
      cases p with
      | none =>
        simp only [Except.ok.injEq] at h
        rw [← h]
      | some pre =>
        obtain ⟨hop, -, -, -, h_rel, -⟩ :=
          walker_Aggref_pre_some cat aggfnoid opername h_name aggsplit g itc pre h_pre
        have hrej : aggref_time_rejected pre true = true := by
          unfold aggref_time_rejected
          rw [hop]
          simp [h_first, h_last]
        simp only at h
        have hloop : ∀ p, walker_aggargs cat pre
            (before ++ T_TargetEntry n resno ressortgroupref resjunk :: after)
            ⟨-1, false, inputcollid⟩ g false inner_cxt_init = .ok p → p.1.result = false := by
          intro p hp
          rw [walker_aggargs_append] at hp
          cases h_loop : walker_aggargs cat pre before ⟨-1, false, inputcollid⟩ g false
              inner_cxt_init with
          | error e =>
            rw [h_loop] at hp
            cases hp
          | ok x =>
            rw [h_loop] at hp
            obtain ⟨r1, st1⟩ := x
            simp only at hp
            by_cases hr : r1.result = true
            · have hg : same_table r1.glob g :=
                walker_aggargs_table cat pre before _ _ _ _ _ _ h_loop
              simp only [hr, Bool.not_true, Bool.false_eq_true, if_false] at hp
              rw [walker_aggargs] at hp
              cases h_arg : aggref_arg_pre cat r1.glob pre st1 true n with
              | error e =>
                rw [h_arg] at hp
                cases hp
              | ok o =>
                rw [h_arg] at hp
                cases o with
                | none =>
                  simp only [Except.ok.injEq] at hp
                  rw [← hp]
                | some st2 =>
                  simp only at hp
                  cases h_walk : tdengine_foreign_expr_walker cat n r1.glob r1.is_time_column
                      r1.cxt with
                  | error e =>
                    rw [h_walk] at hp
                    cases hp
                  | ok r2 =>
                    rw [h_walk] at hp
                    simp only at hp
                    by_cases hr2 : r2.result = true
                    · have hflag : r2.is_time_column = true :=
                        walker_time_flag cat g h_rel h_sl n r1.glob r1.is_time_column r1.cxt r2
                          h_walk hr2 hg h_plain (Or.inr h_time)
                      simp only [hr2, hflag, hrej, Bool.not_true, Bool.false_eq_true, if_false,
                        if_true, Except.ok.injEq] at hp
                      rw [← hp]
                    · have hr3 : r2.result = false := by simpa using hr2
                      simp only [hr3, Bool.not_false, if_true, Except.ok.injEq] at hp
                      rw [← hp]
                      exact hr3
            · have hr2 : r1.result = false := by simpa using hr
              simp only [hr2, Bool.not_false, if_true, Except.ok.injEq] at hp
              rw [← hp]
              exact hr2
        cases h_all : walker_aggargs cat pre
            (before ++ T_TargetEntry n resno ressortgroupref resjunk :: after)
            ⟨-1, false, inputcollid⟩ g false inner_cxt_init with
        | error e =>
          rw [h_all] at h
          cases h
        | ok p =>
          rw [h_all] at h
          have hp := hloop p h_all
          obtain ⟨r1, st1⟩ := p
          simp only at hp h
          simp only [hp, Bool.not_false, if_true, Except.ok.injEq] at h
          rw [← h]
  · intro pre flag hpre
    unfold aggref_time_rejected
    rcases hpre with hpre | hpre <;> rw [hpre] <;> simp

/-- Witness for C21: `max(time)` on the upper relation of the sample table is
rejected, and `last(time)` is accepted. -/
theorem aggregate_of_time_column_rejected_witness :
    demo_catalog_last.proname 2116 = some "max" ∧
    has_time_column (demo_glob .RELOPT_UPPER_REL).relids demo_time = true ∧
    resets_time_flag demo_time = false ∧
    (∀ r, tdengine_foreign_expr_walker demo_catalog_last demo_max_time
        (demo_glob .RELOPT_UPPER_REL) false inner_cxt_init = .ok r → r.result = false) ∧
    tdengine_is_foreign_expr demo_catalog_last .RELOPT_UPPER_REL demo_slinfo [1] 5000 false
      demo_max_time true = .ok false ∧
    tdengine_is_foreign_expr demo_catalog_last .RELOPT_UPPER_REL demo_slinfo [1] 5000 false
      demo_last_time true = .ok true :=
  ⟨rfl, rfl, rfl,
   (aggregate_of_time_column_rejected demo_catalog_last 2116 "max" rfl (by decide) (by decide)
     TIMESTAMPOID InvalidOid InvalidOid [] [] demo_time 1 0 false [] [] none false false
     .AGGSPLIT_SIMPLE (demo_glob .RELOPT_UPPER_REL) (fun _ => rfl) rfl rfl false
     inner_cxt_init).1,
   rfl, rfl⟩

/-! ## Theorems: escapes, the empty pattern and the delimiter in LIKE patterns -/

theorem like_escaped_body_cons (sp : List Char) (c : Char) (rest : List Char) :
    like_escaped_body sp (c :: rest) =
      if c = '\\' then
        match rest with
        | [] => []
        | d :: rest2 => (if d ∈ sp then ['\\', d] else [d]) ++ like_escaped_body sp rest2
      else translate_char sp c ++ like_escaped_body sp rest :=
  like_escaped_body.eq_def sp (c :: rest)

theorem add_backslash_eq (b : StringInfo) (c : Char) (sp : List Char) :
    add_backslash b c sp = b ++ (if c ∈ sp then ['\\', c] else [c]) := by
  unfold add_backslash strchr_found
  by_cases h : c ∈ sp
  · have h2 : sp.contains c = true := by simpa using h
    rw [if_pos h2, if_pos h]
  · have h2 : ¬ sp.contains c = true := by simpa using h
    rw [if_neg h2, if_neg h]

/-- A pattern with a backslash left dangling stops the loop at
`elog(ERROR, "invalid pattern matching")`. -/
theorem like_pattern_loop_dangling_aux (n : Nat) :
    ∀ (p : List Char), p.length ≤ n → dangling_escape p = true →
      ∀ (b : StringInfo), like_pattern_loop p b = .error (.elog "invalid pattern matching") := by
  induction n with
  | zero =>
    intro p hp hd b
    have : p = [] := List.length_eq_zero.mp (Nat.le_zero.mp hp)
    subst this
    simp [dangling_escape] at hd
  | succ n ih =>
    intro p hp hd b
    cases p with
    | nil => simp [dangling_escape] at hd
    | cons c rest =>
      have hr : rest.length ≤ n := by simpa using hp
      rw [like_pattern_loop_cons]
      rw [dangling_escape_cons] at hd
      by_cases h1 : c = '%'
      · have hne : c ≠ '\\' := by rw [h1]; decide
        rw [if_neg hne] at hd
        rw [if_pos h1]
        exact ih rest hr hd _
      · rw [if_neg h1]
        by_cases h2 : c = '_'
        · have hne : c ≠ '\\' := by rw [h2]; decide
          rw [if_neg hne] at hd
          rw [if_pos h2]
          exact ih rest hr hd _
        · rw [if_neg h2]
          by_cases h3 : c = '\\'
          · rw [if_pos h3] at hd
            rw [if_pos h3]
            cases rest with
            | nil => rfl
            | cons d rest2 =>
              simp only at hd ⊢
              have hr2 : rest2.length ≤ n := by
                simp at hr; omega
              exact ih rest2 hr2 hd _
          · rw [if_neg h3] at hd
            rw [if_neg h3]
            exact ih rest hr hd _

/-- Without a dangling backslash the loop appends the escaped body. -/
theorem like_pattern_loop_escaped_aux (n : Nat) :
    ∀ (p : List Char), p.length ≤ n → dangling_escape p = false →
      ∀ (b : StringInfo),
        like_pattern_loop p b = .ok (b ++ like_escaped_body regex_special p) := by
  induction n with
  | zero =>
    intro p hp _ b
    have : p = [] := List.length_eq_zero.mp (Nat.le_zero.mp hp)
    subst this
    simp [like_pattern_loop, like_escaped_body]
  | succ n ih =>
    intro p hp hd b
    cases p with
    | nil => simp [like_pattern_loop, like_escaped_body]
    | cons c rest =>
      have hr : rest.length ≤ n := by simpa using hp
      rw [like_pattern_loop_cons, like_escaped_body_cons]
      rw [dangling_escape_cons] at hd
      by_cases h1 : c = '%'
      · have hne : c ≠ '\\' := by rw [h1]; decide
        rw [if_neg hne] at hd
        rw [if_pos h1, if_neg hne, ih rest hr hd _]
        simp [translate_char, h1]
      · rw [if_neg h1]
        by_cases h2 : c = '_'
        · have hne : c ≠ '\\' := by rw [h2]; decide
          rw [if_neg hne] at hd
          rw [if_pos h2, if_neg hne, ih rest hr hd _]
          simp [translate_char, h2]
        · rw [if_neg h2]
          by_cases h3 : c = '\\'
          · rw [if_pos h3] at hd
            rw [if_pos h3, if_pos h3]
            cases rest with
            | nil => simp at hd
            | cons d rest2 =>
              simp only at hd ⊢
              have hr2 : rest2.length ≤ n := by
                simp at hr; omega
              rw [ih rest2 hr2 hd _, add_backslash_eq, List.append_assoc]
          · rw [if_neg h3] at hd
            rw [if_neg h3, if_neg h3, ih rest hr hd _, add_backslash_eq]
            simp [translate_char, h1, h2]

/-- On a pattern with a last character the final-percent test reads inside the
pattern only and answers. -/
theorem last_percent_check_nonempty (rest : List Char) (c : Char) :
    ∃ b, tdengine_last_percent_sign_check (rest ++ [c]) = .ok b := by
  unfold tdengine_last_percent_sign_check
  simp only [List.reverse_append, List.reverse_cons, List.reverse_nil, List.nil_append,
    List.singleton_append]
  by_cases h1 : c ≠ '%'
  · exact ⟨true, by rw [if_pos h1]⟩
  · rw [if_neg h1]
    by_cases h2 : count_backslash rest.reverse % 2 = 0
    · exact ⟨false, by rw [if_pos h2]⟩
    · exact ⟨true, by rw [if_neg h2]⟩

theorem last_percent_check_ne_nil (p : List Char) (hp : p ≠ []) :
    ∃ b, tdengine_last_percent_sign_check p = .ok b := by
  rcases List.eq_nil_or_concat p with h0 | ⟨q, c, h0⟩
  · exact absurd h0 hp
  · rw [List.concat_eq_append] at h0
    rw [h0]
    exact last_percent_check_nonempty q c

/-- The final-percent test never raises the pattern error. -/
theorem last_percent_check_not_elog (p : List Char) (msg : String) :
    tdengine_last_percent_sign_check p ≠ .error (.elog msg) := by
  by_cases hp : p = []
  · subst hp
    intro h
    cases h
  · obtain ⟨b, hb⟩ := last_percent_check_ne_nil p hp
    rw [hb]
    intro h
    cases h

/-- The pattern error is raised exactly on a dangling backslash. -/
theorem like_pattern_error_iff (buf p : List Char) (op : PatternMatchingOperator) :
    tdengine_deparse_string_like_pattern buf p op = .error (.elog "invalid pattern matching")
      ↔ dangling_escape p = true := by
  unfold tdengine_deparse_string_like_pattern
  constructor
  · intro h
    by_contra hd
    have hd2 : dangling_escape p = false := by simpa using hd
    rw [like_pattern_loop_escaped_aux p.length p (Nat.le_refl _) hd2] at h
    simp only at h
    cases hc : tdengine_last_percent_sign_check p with
    | error e =>
      rw [hc] at h
      simp only [Except.error.injEq] at h
      rw [h] at hc
      exact last_percent_check_not_elog p _ hc
    | ok a =>
      rw [hc] at h
      cases h
  · intro hd
    rw [like_pattern_loop_dangling_aux p.length p (Nat.le_refl _) hd]

/-- The text of a non-empty pattern without a dangling backslash. -/
theorem like_pattern_text (buf p : List Char) (op : PatternMatchingOperator) (hp : p ≠ [])
    (hd : dangling_escape p = false) :
    ∃ anchored, tdengine_last_percent_sign_check p = .ok anchored ∧
      tdengine_deparse_string_like_pattern buf p op =
        .ok (buf ++ (['/'] ++ case_flag op ++ (if p.head? ≠ some '%' then ['^'] else []) ++
          like_escaped_body regex_special p ++ (if anchored then ['$'] else []) ++ ['/'])) := by
  obtain ⟨a, ha⟩ := last_percent_check_ne_nil p hp
  refine ⟨a, ha, ?_⟩
  unfold tdengine_deparse_string_like_pattern
  rw [like_pattern_loop_escaped_aux p.length p (Nat.le_refl _) hd, ha, like_pattern_head_eq]
  cases a <;> simp

/-- C35: on the empty pattern `tdengine_last_percent_sign_check` computes
`len = strlen(val) - 1 = -1` and reads `val[-1]`, a position before the
pattern; the translation of the empty pattern is therefore undefined, not
`/^$/`, for every buffer and operator kind.  On every pattern with a last
character the test reads inside the pattern and answers. -/
theorem empty_like_pattern_reads_before_start :
    tdengine_last_percent_sign_check []
      = .error (.undefined "tdengine_last_percent_sign_check reads val[-1]") ∧
    (∀ (buf : StringInfo) (op : PatternMatchingOperator),
      tdengine_deparse_string_like_pattern buf [] op
        = .error (.undefined "tdengine_last_percent_sign_check reads val[-1]") ∧
      tdengine_deparse_string_like_pattern buf [] op ≠ .ok (buf ++ "/^$/".toList)) ∧
    ∀ (rest : List Char) (c : Char),
      ∃ b, tdengine_last_percent_sign_check (rest ++ [c]) = .ok b := by
  refine ⟨rfl, ?_, last_percent_check_nonempty⟩
  intro buf op
  have h : tdengine_deparse_string_like_pattern buf [] op
      = .error (.undefined "tdengine_last_percent_sign_check reads val[-1]") := rfl
  refine ⟨h, ?_⟩
  rw [h]
  intro h2
  cases h2

/-- C36 (amended): `tdengine_deparse_string_like_pattern` raises
`invalid pattern matching` if and only if, scanning the pattern left to right
with each backslash consuming the character after it, a backslash is left with
no character after it.  For every other non-empty pattern it returns, and the
text between the head and the tail is the escaped body: each character after a
backslash is copied, preceded by a backslash exactly when it is one of
`\ ^ $ . | ? * + ( ) [ { %`, so `\%` is emitted as `\%` and `\_` as `_`, not as
the wildcards `(.*)` and `(.{1})`. -/
theorem like_pattern_escapes (buf p : List Char) (op : PatternMatchingOperator) :
    (tdengine_deparse_string_like_pattern buf p op = .error (.elog "invalid pattern matching")
      ↔ dangling_escape p = true) ∧
    (p ≠ [] → dangling_escape p = false →
      ∃ anchored, tdengine_last_percent_sign_check p = .ok anchored ∧
        tdengine_deparse_string_like_pattern buf p op =
          .ok (buf ++ (['/'] ++ case_flag op ++ (if p.head? ≠ some '%' then ['^'] else []) ++
            like_escaped_body regex_special p ++ (if anchored then ['$'] else []) ++ ['/']))) ∧
    (∀ (d : Char) (rest : List Char),
      like_escaped_body regex_special ('\\' :: d :: rest)
        = (if d ∈ regex_special then ['\\', d] else [d])
          ++ like_escaped_body regex_special rest) :=
  ⟨like_pattern_error_iff buf p op, like_pattern_text buf p op,
   fun d rest => by rw [like_escaped_body_cons, if_pos rfl]⟩

/-- Witness for C36: the pattern `a\%b\_c` has no dangling backslash and is
translated to `/^a\%b_c$/`. -/
theorem like_pattern_escapes_witness :
    "a\\%b\\_c".toList ≠ [] ∧ dangling_escape "a\\%b\\_c".toList = false ∧
    like_escaped_body regex_special "a\\%b\\_c".toList = "a\\%b_c".toList ∧
    ∃ anchored, tdengine_last_percent_sign_check "a\\%b\\_c".toList = .ok anchored ∧
      tdengine_deparse_string_like_pattern [] "a\\%b\\_c".toList LIKE_OPERATOR =
        .ok ([] ++ (['/'] ++ case_flag LIKE_OPERATOR ++
          (if "a\\%b\\_c".toList.head? ≠ some '%' then ['^'] else []) ++
          like_escaped_body regex_special "a\\%b\\_c".toList ++
          (if anchored then ['$'] else []) ++ ['/'])) :=
  ⟨by decide, by decide, by decide,
   (like_pattern_escapes [] "a\\%b\\_c".toList LIKE_OPERATOR).2.1 (by decide) (by decide)⟩

/-- C36 (counterexample): the pattern `\%` is translated to `/^\%$/`: the
percent sign is preceded by a backslash although it is not a regex
metacharacter. -/
theorem like_escaped_percent_keeps_backslash :
    tdengine_deparse_string_like_pattern [] "\\%".toList LIKE_OPERATOR
      = .ok "/^\\%$/".toList ∧
    dangling_escape "\\%".toList = false ∧
    '%' ∉ spec_metacharacters ∧
    tdengine_deparse_string_like_pattern [] "\\%".toList LIKE_OPERATOR
      ≠ .ok "/^%$/".toList := by
  decide

/-- Without `/` in the pattern there is none in the escaped body. -/
theorem like_escaped_body_no_slash_aux (n : Nat) :
    ∀ (p : List Char), p.length ≤ n → '/' ∉ p →
      '/' ∉ like_escaped_body regex_special p := by
  induction n with
  | zero =>
    intro p hp _
    have : p = [] := List.length_eq_zero.mp (Nat.le_zero.mp hp)
    subst this
    simp [like_escaped_body]
  | succ n ih =>
    intro p hp hs
    cases p with
    | nil => simp [like_escaped_body]
    | cons c rest =>
      have hr : rest.length ≤ n := by simpa using hp
      have hc : '/' ≠ c := fun h => hs (by rw [h]; simp)
      have hrest : '/' ∉ rest := fun h => hs (List.mem_cons_of_mem _ h)
      rw [like_escaped_body_cons]
      by_cases h3 : c = '\\'
      · rw [if_pos h3]
        cases rest with
        | nil => simp
        | cons d rest2 =>
          have hr2 : rest2.length ≤ n := by
            simp at hr; omega
          have hd : '/' ≠ d := fun h => hrest (by rw [h]; simp)
          have hrest2 : '/' ∉ rest2 := fun h => hrest (List.mem_cons_of_mem _ h)
          have := ih rest2 hr2 hrest2
          by_cases hm : d ∈ regex_special <;> simp [hm, hd, this]
      · rw [if_neg h3]
        have := ih rest hr hrest
        unfold translate_char
        by_cases h1 : c = '%'
        · simp [h1, this]
        · by_cases h2 : c = '_'
          · simp [h2, this]
          · by_cases hm : c ∈ regex_special <;> simp [h1, h2, hm, hc, this]

/-- A non-empty pattern without `/` and without a dangling backslash is
translated to a text whose only `/` are the first and the last character. -/
theorem like_pattern_no_slash (buf p : List Char) (op : PatternMatchingOperator) (hp : p ≠ [])
    (hd : dangling_escape p = false) (hs : '/' ∉ p) :
    ∃ inner,
      tdengine_deparse_string_like_pattern buf p op = .ok (buf ++ (['/'] ++ inner ++ ['/'])) ∧
      '/' ∉ inner := by
  obtain ⟨a, _, h⟩ := like_pattern_text buf p op hp hd
  refine ⟨case_flag op ++ (if p.head? ≠ some '%' then ['^'] else []) ++
    like_escaped_body regex_special p ++ (if a then ['$'] else []), ?_, ?_⟩
  · rw [h]
    simp
  · have hb := like_escaped_body_no_slash_aux p.length p (Nat.le_refl _) hs
    have hf : '/' ∉ case_flag op := by
      unfold case_flag
      split <;> decide
    simp only [List.mem_append, not_or]
    refine ⟨⟨⟨hf, ?_⟩, hb⟩, ?_⟩
    · split <;> decide
    · split <;> decide

/-- C37: the character `/` is not in `regex_special`, so a `/` of the pattern
is copied as it is, with or without a backslash before it in the pattern: the
patterns `a/b` and `a\/b` are both translated to `/^a/b$/`, where the third
`/` is neither the first nor the last character and has no backslash before
it. -/
theorem like_pattern_slash_unescaped :
    strchr_found regex_special '/' = false ∧
    (∀ (buf : StringInfo),
      tdengine_deparse_string_like_pattern buf "a/b".toList LIKE_OPERATOR
        = .ok (buf ++ "/^a/b$/".toList) ∧
      tdengine_deparse_string_like_pattern buf "a\\/b".toList LIKE_OPERATOR
        = .ok (buf ++ "/^a/b$/".toList)) ∧
    "/^a/b$/".toList.count '/' = 3 := by
  refine ⟨by decide, ?_, by decide⟩
  intro buf
  constructor <;>
  simp [tdengine_deparse_string_like_pattern, like_pattern_head, like_pattern_loop,
    add_backslash, strchr_found, regex_special, tdengine_last_percent_sign_check,
    count_backslash]

/-! ## Theorems: the text of an operator expression -/

/-- The name `tdengine_deparse_operator_name` appends for an operator of
`pg_catalog`. -/
theorem operator_name_text (cat : Catalog) (buf : StringInfo) (oprname : String)
    (oprkind : Char) :
    (tdengine_deparse_operator_name cat buf ⟨oprname, oprkind, PG_CATALOG_NAMESPACE⟩).1
      = buf ++ (if oprname = "~~" ∨ oprname = "~~*" then "=~".toList
                else if oprname = "!~~" ∨ oprname = "!~~*" then "!~".toList
                else oprname.toList) := by
  unfold tdengine_deparse_operator_name
  simp only [ne_eq, not_true_eq_false, if_false, beq_iff_eq]
  by_cases h1 : oprname = "~~"
  · simp [h1]
  · by_cases h2 : oprname = "!~~"
    · subst h2
      simp
    · by_cases h3 : oprname = "~~*"
      · subst h3
        simp
      · by_cases h4 : oprname = "!~~*"
        · subst h4
          simp
        · simp [h1, h2, h3, h4]

/-- The text of an operator expression that is not a dynamic-column access,
when both operands are deparsed: what the left operand leaves in the buffer, a
space, the operator name, a space, what the right operand appends, and one
closing parenthesis. -/
theorem op_expr_text (cat : Catalog) (node : Node) (opno : Oid) (args : List Node)
    (left right : Deparse) (context c2 c4 : deparse_expr_cxt) (form : Form_pg_operator)
    (tk : Bool)
    (hop : cat.operator opno = some form)
    (hsl : tdengine_is_slvar_fetch cat node context.slinfo = false)
    (hkey : (if form.oprkind == 'b' then
        tdengine_contain_time_key_column cat (cat.rte_relid context.scanrel_relid) args
      else .ok false) = .ok tk)
    (hl : left (if tk then { context with convert_to_timestamp := true } else context)
      = .ok c2)
    (hr : right { c2 with
        buf := (tdengine_deparse_operator_name cat (c2.buf ++ [' ']) form).1 ++ [' '],
        op_type := (tdengine_deparse_operator_name cat (c2.buf ++ [' ']) form).2 } = .ok c4) :
    tdengine_deparse_op_expr cat node opno args left right context
      = .ok { c4 with op_type := UNKNOWN_OPERATOR, buf := c4.buf ++ [')'] } := by
  unfold tdengine_deparse_op_expr
  rw [hop]
  simp only [hsl, Bool.false_eq_true, if_false]
  rw [hkey]
  simp only [hl, hr]
  rfl

/-- C31: `tdengine_deparse_op_expr` appends the closing parenthesis of an
operator expression without an opening one.  The operator name of a
`pg_catalog` operator is mapped as the claim says (`~~`, `~~*` to `=~`, `!~~`,
`!~~*` to `!~`, every other name unchanged).  `col = $2` on the sample table,
which is not a dynamic-column access and which `tdengine_is_foreign_expr`
accepts, is deparsed to `"col" = $1)`: left operand, space, name, space, right
operand (the first parameter of the remote query), then a `)` that no `(`
opens, although both operand texts are balanced.  In the same way
`name LIKE $1` is deparsed to `"name" =~ $1)` and `col = 1` to `"col" = 1)`. -/
theorem op_expr_closing_parenthesis_unopened :
    (∀ (cat : Catalog) (buf : StringInfo) (oprname : String) (oprkind : Char),
      (tdengine_deparse_operator_name cat buf ⟨oprname, oprkind, PG_CATALOG_NAMESPACE⟩).1
        = buf ++ (if oprname = "~~" ∨ oprname = "~~*" then "=~".toList
                  else if oprname = "!~~" ∨ oprname = "!~~*" then "!~".toList
                  else oprname.toList)) ∧
    tdengine_is_foreign_expr demo_catalog .RELOPT_BASEREL demo_slinfo [1] 5000 false
      (demo_col_eq_param 2) false = .ok true ∧
    tdengine_is_slvar_fetch demo_catalog (demo_col_eq_param 2) demo_context.slinfo = false ∧
    (tdengine_deparse_expr demo_catalog demo_col demo_context).toOption.map (fun c => c.buf)
      = some "\"col\"".toList ∧
    (tdengine_deparse_expr demo_catalog (demo_int_param 2) demo_context).toOption.map
      (fun c => c.buf) = some "$1".toList ∧
    (tdengine_deparse_expr demo_catalog (demo_col_eq_param 2) demo_context).toOption.map
      (fun c => c.buf) = some "\"col\" = $1)".toList ∧
    "\"col\" = $1)".toList.count '(' = 0 ∧ "\"col\" = $1)".toList.count ')' = 1 ∧
    (tdengine_deparse_expr demo_catalog demo_like_param demo_context).toOption.map
      (fun c => c.buf) = some "\"name\" =~ $1)".toList ∧
    (tdengine_deparse_expr demo_catalog (demo_col_eq "1") demo_context).toOption.map
      (fun c => c.buf) = some "\"col\" = 1)".toList :=
  ⟨operator_name_text, rfl, rfl, rfl, rfl, rfl, by decide, by decide, rfl, rfl⟩

/-! ## Theorems: transparent calls in an explicit target list -/

/-- With `is_tlist` set, `tdengine_deparse_func_expr` returns at once on
`tdengine_time`, `tdengine_fill_numeric` and `tdengine_fill_option`. -/
theorem func_expr_transparent_in_tlist (cat : Catalog) (node : Node) (funcid : Oid)
    (nargs : Nat) (time_args first_arg : Deparse)
    (swapped_args all_args : Bool → Bool → Deparse)
    (context : deparse_expr_cxt) (name : String)
    (hname : cat.proname funcid = some name)
    (hskip : name = "tdengine_time" ∨ name = "tdengine_fill_numeric" ∨
      name = "tdengine_fill_option")
    (ht : context.is_tlist = true) :
    tdengine_deparse_func_expr cat node funcid nargs time_args first_arg swapped_args all_args
      context = .ok context := by
  unfold tdengine_deparse_func_expr
  rw [hname]
  rcases hskip with h | h | h <;> subst h <;> simp [ht]

/-- The name test of the target-list loop on such a call. -/
theorem is_skip_expr_transparent (cat : Catalog) (funcid frt fc ic : Oid) (args : List Node)
    (name : String) (hname : cat.proname funcid = some name)
    (hskip : name = "tdengine_time" ∨ name = "tdengine_fill_numeric" ∨
      name = "tdengine_fill_option") :
    is_skip_expr cat (T_FuncExpr funcid frt fc ic args) = .ok true := by
  simp only [is_skip_expr, hname]
  rcases hskip with h | h | h <;> subst h <;> rfl

theorem is_slvar_fetch_func_expr (cat : Catalog) (funcid frt fc ic : Oid) (args : List Node)
    (sl : schemaless_info) :
    tdengine_is_slvar_fetch cat (T_FuncExpr funcid frt fc ic args) sl = false := by
  unfold tdengine_is_slvar_fetch is_slvar_fetch_op
  by_cases h : sl.schemaless = true <;> simp [h]

/-- The loop body on a target entry that is such a call: nothing but the
field-key flag, the counter and the retrieved attributes changes. -/
theorem explicit_target_step_transparent (cat : Catalog) (pushdown all_fieldtag : Bool)
    (groupClause : List Nat) (funcid frt fc ic : Oid) (args : List Node) (ref : Nat)
    (name : String) (hname : cat.proname funcid = some name)
    (hskip : name = "tdengine_time" ∨ name = "tdengine_fill_numeric" ∨
      name = "tdengine_fill_option") (st : ExplicitTargetScan) :
    explicit_target_step cat pushdown all_fieldtag groupClause
        (T_FuncExpr funcid frt fc ic args) ref st
      = .ok { st with need_field_key := false,
                      retrieved_attrs := st.retrieved_attrs ++ [(st.i : Int) + 1],
                      i := st.i + 1 } := by
  unfold explicit_target_step explicit_target_emit
  simp only [is_slvar_fetch_func_expr, is_skip_expr_transparent cat funcid frt fc ic args name
    hname hskip, isVar, isFuncExpr, isAggref, isOpExpr]
  simp [explicit_target_field_key]

/-- The emission part of the loop body does not read the field-key flag, the
counter or the retrieved attributes. -/
theorem explicit_target_emit_sim (cat : Catalog) (pushdown all_fieldtag : Bool)
    (groupClause : List Nat) (expr : Node) (ref : Nat) (s1 s2 r1 : ExplicitTargetScan)
    (h : same_emission s1 s2)
    (hs : explicit_target_emit cat pushdown all_fieldtag groupClause expr ref s1 = .ok r1) :
    ∃ r2, explicit_target_emit cat pushdown all_fieldtag groupClause expr ref s2 = .ok r2 ∧
      same_emission r1 r2 := by
  obtain ⟨c1, i1, f1, g1, k1, m1, a1, ra1⟩ := s1
  obtain ⟨c2, i2, f2, g2, k2, m2, a2, ra2⟩ := s2
  obtain ⟨hc, hf, hm, hg, ha, hk⟩ := h
  simp only at hc hf hm hg ha hk
  subst hc hf hm hg ha
  unfold explicit_target_emit at hs ⊢
  simp only at hs ⊢
  generalize tdengine_is_slvar_fetch cat expr c2.slinfo = S at hs ⊢
  generalize (if S = true then tdengine_is_grouping_target ref groupClause
    else if (!pushdown && isVar expr) = true then tdengine_is_grouping_target ref groupClause
    else g2) = G at hs ⊢
  generalize (isAggref expr || isOpExpr expr && !S || isFuncExpr expr ||
    (isVar expr || S) && !G) = C at hs ⊢
  cases C with
  | false =>
    simp only [Bool.false_eq_true, if_false, Except.ok.injEq] at hs ⊢
    subst hs
    exact ⟨_, rfl, rfl, rfl, rfl, rfl, rfl, hk⟩
  | true =>
    simp only [if_true] at hs ⊢
    cases hskip : is_skip_expr cat expr with
    | error e => rw [hskip] at hs; cases hs
    | ok skip =>
      rw [hskip] at hs
      simp only at hs ⊢
      cases skip with
      | true =>
        simp only [Bool.not_true, Bool.false_eq_true, if_false, Except.ok.injEq] at hs ⊢
        subst hs
        exact ⟨_, rfl, rfl, rfl, rfl, rfl, rfl, fun h => h⟩
      | false =>
        simp only [Bool.not_false, if_true] at hs ⊢
        cases hall : (pushdown && all_fieldtag) with
        | true =>
          rw [hall] at hs
          simp only [if_true, Except.ok.injEq] at hs ⊢
          subst hs
          exact ⟨_, rfl, rfl, rfl, rfl, rfl, rfl, fun h => h⟩
        | false =>
          rw [hall] at hs
          simp only [Bool.false_eq_true, if_false] at hs ⊢
          cases hd : tdengine_deparse_expr cat expr
              (if (m2 && true) = true then c2.append ", ".toList else c2) with
          | error e => rw [hd] at hs; cases hs
          | ok c3 =>
            rw [hd] at hs
            simp only [Except.ok.injEq] at hs ⊢
            subst hs
            exact ⟨_, rfl, rfl, rfl, rfl, rfl, rfl, fun h => h⟩

/-- The field-key test after the emission: a state that has given up the
field key makes no lookup. -/
theorem explicit_target_field_key_sim (cat : Catalog) (expr : Node)
    (r1 r2 : ExplicitTargetScan) (b1 : Bool) (h : same_emission r1 r2)
    (hs : explicit_target_field_key cat expr r1 = .ok b1) :
    ∃ b2, explicit_target_field_key cat expr r2 = .ok b2 ∧ (b2 = true → b1 = true) := by
  obtain ⟨hc, _, _, _, _, hk⟩ := h
  unfold explicit_target_field_key at hs ⊢
  cases expr with
  | T_Var varno varattno vartype vartypmod varcollid varlevelsup =>
    simp only at hs ⊢
    by_cases hk2 : r2.need_field_key = true
    · have hk1 := hk hk2
      rw [if_pos hk1] at hs
      rw [if_pos hk2, hc]
      cases hn : tdengine_get_column_name cat (cat.rte_relid r1.context.scanrel_relid)
          varattno with
      | error e => rw [hn] at hs; cases hs
      | ok colname =>
        rw [hn] at hs
        simp only at hs ⊢
        split at hs
        · rename_i htag
          rw [if_pos htag]
          exact ⟨false, rfl, fun h => by cases h⟩
        · rename_i htag
          rw [if_neg htag]
          simp only [Except.ok.injEq] at hs
          exact ⟨_, rfl, fun _ => by rw [← hs]; exact hk1⟩
    · rw [if_neg hk2]
      exact ⟨_, rfl, fun h => absurd h hk2⟩
  | _ =>
    simp only [Except.ok.injEq] at hs
    exact ⟨_, rfl, fun h => by rw [← hs]; exact hk h⟩

theorem explicit_target_step_sim (cat : Catalog) (pushdown all_fieldtag : Bool)
    (groupClause : List Nat) (expr : Node) (ref : Nat) (s1 s2 r1 : ExplicitTargetScan)
    (h : same_emission s1 s2)
    (hs : explicit_target_step cat pushdown all_fieldtag groupClause expr ref s1 = .ok r1) :
    ∃ r2, explicit_target_step cat pushdown all_fieldtag groupClause expr ref s2 = .ok r2 ∧
      same_emission r1 r2 := by
  unfold explicit_target_step at hs ⊢
  cases he : explicit_target_emit cat pushdown all_fieldtag groupClause expr ref s1 with
  | error e => rw [he] at hs; cases hs
  | ok t1 =>
    rw [he] at hs
    obtain ⟨t2, he2, hsim⟩ :=
      explicit_target_emit_sim cat pushdown all_fieldtag groupClause expr ref s1 s2 t1 h he
    rw [he2]
    simp only at hs ⊢
    cases hk : explicit_target_field_key cat expr t1 with
    | error e => rw [hk] at hs; cases hs
    | ok b1 =>
      rw [hk] at hs
      obtain ⟨b2, hk2, hb⟩ := explicit_target_field_key_sim cat expr t1 t2 b1 hsim hk
      rw [hk2]
      simp only [Except.ok.injEq] at hs ⊢
      subst hs
      obtain ⟨hc, hf, hm, hg, ha, _⟩ := hsim
      exact ⟨_, rfl, hc, hf, hm, hg, ha, hb⟩

theorem explicit_target_loop_sim (cat : Catalog) (pushdown all_fieldtag : Bool)
    (groupClause : List Nat) (tlist : List Node) :
    ∀ (s1 s2 r1 : ExplicitTargetScan), same_emission s1 s2 →
      explicit_target_loop cat pushdown all_fieldtag groupClause tlist s1 = .ok r1 →
      ∃ r2, explicit_target_loop cat pushdown all_fieldtag groupClause tlist s2 = .ok r2 ∧
        same_emission r1 r2 := by
  induction tlist with
  | nil =>
    intro s1 s2 r1 h hs
    rw [explicit_target_loop] at hs ⊢
    simp only [Except.ok.injEq] at hs
    subst hs
    exact ⟨s2, rfl, h⟩
  | cons node rest ih =>
    intro s1 s2 r1 h hs
    cases node with
    | T_TargetEntry expr resno ref junk =>
      rw [explicit_target_loop] at hs ⊢
      cases he : explicit_target_step cat pushdown all_fieldtag groupClause expr ref s1 with
      | error e => rw [he] at hs; cases hs
      | ok t1 =>
        rw [he] at hs
        obtain ⟨t2, he2, hsim⟩ :=
          explicit_target_step_sim cat pushdown all_fieldtag groupClause expr ref s1 s2 t1 h he
        rw [he2]
        exact ih t1 t2 r1 hsim hs
    | _ => simp [explicit_target_loop] at hs

/-- Putting a transparent call into a target list changes neither the text
emitted by the loop nor its comma flag. -/
theorem explicit_target_loop_frame (cat : Catalog) (pushdown all_fieldtag : Bool)
    (groupClause : List Nat) (funcid frt fc ic : Oid) (args : List Node) (resno : Int)
    (ref : Nat) (junk : Bool) (name : String) (hname : cat.proname funcid = some name)
    (hskip : name = "tdengine_time" ∨ name = "tdengine_fill_numeric" ∨
      name = "tdengine_fill_option") (after : List Node) :
    ∀ (before : List Node) (st r1 : ExplicitTargetScan),
      explicit_target_loop cat pushdown all_fieldtag groupClause (before ++ after) st
        = .ok r1 →
      ∃ r2, explicit_target_loop cat pushdown all_fieldtag groupClause
          (before ++ T_TargetEntry (T_FuncExpr funcid frt fc ic args) resno ref junk :: after)
          st = .ok r2 ∧ same_emission r1 r2 := by
  intro before
  induction before with
  | nil =>
    intro st r1 hs
    rw [List.nil_append] at hs ⊢
    rw [explicit_target_loop, explicit_target_step_transparent cat pushdown all_fieldtag
      groupClause funcid frt fc ic args ref name hname hskip st]
    exact explicit_target_loop_sim cat pushdown all_fieldtag groupClause after st _ r1
      ⟨rfl, rfl, rfl, rfl, rfl, fun h => by cases h⟩ hs
  | cons node rest ih =>
    intro st r1 hs
    rw [List.cons_append] at hs ⊢
    cases node with
    | T_TargetEntry expr resno2 ref2 junk2 =>
      rw [explicit_target_loop] at hs ⊢
      cases he : explicit_target_step cat pushdown all_fieldtag groupClause expr ref2 st with
      | error e => rw [he] at hs; cases hs
      | ok t1 =>
        rw [he] at hs
        exact ih t1 r1 hs
    | _ => simp [explicit_target_loop] at hs

/-- C32: let `f` be a function whose name in the catalog is `tdengine_time`,
`tdengine_fill_numeric` or `tdengine_fill_option`.  With `is_tlist` set,
`tdengine_deparse_func_expr` on a call of `f` returns the context as it is, so
the buffer is unchanged.  In the loop of
`tdengine_deparse_explicit_target_list` a target entry that is a call of `f`
leaves the context (the buffer with it), the comma flag and `first` as they
are, and whenever the loop returns on a target list, it returns on the list
with such an entry put in at any place with the same buffer, comma flag and
`first`: the other entries are emitted as without it, one `, ` between two of
them. -/
theorem transparent_calls_emit_nothing (cat : Catalog) (pushdown all_fieldtag : Bool)
    (groupClause : List Nat) (funcid frt fc ic : Oid) (args : List Node) (resno : Int)
    (ref : Nat) (junk : Bool) (name : String) (hname : cat.proname funcid = some name)
    (hskip : name = "tdengine_time" ∨ name = "tdengine_fill_numeric" ∨
      name = "tdengine_fill_option") :
    (∀ (node : Node) (nargs : Nat) (time_args first_arg : Deparse)
        (swapped_args all_args : Bool → Bool → Deparse) (context : deparse_expr_cxt),
      context.is_tlist = true →
      tdengine_deparse_func_expr cat node funcid nargs time_args first_arg swapped_args
        all_args context = .ok context) ∧
    (∀ (context : deparse_expr_cxt), context.is_tlist = true →
      ∃ c2, tdengine_deparse_expr cat (T_FuncExpr funcid frt fc ic args) context = .ok c2 ∧
        c2.buf = context.buf) ∧
    (∀ (st : ExplicitTargetScan),
      ∃ st2, explicit_target_step cat pushdown all_fieldtag groupClause
          (T_FuncExpr funcid frt fc ic args) ref st = .ok st2 ∧
        st2.context = st.context ∧ st2.is_need_comma = st.is_need_comma ∧
        st2.first = st.first) ∧
    (∀ (before after : List Node) (st r1 : ExplicitTargetScan),
      explicit_target_loop cat pushdown all_fieldtag groupClause (before ++ after) st
        = .ok r1 →
      ∃ r2, explicit_target_loop cat pushdown all_fieldtag groupClause
          (before ++ T_TargetEntry (T_FuncExpr funcid frt fc ic args) resno ref junk :: after)
          st = .ok r2 ∧
        r2.context = r1.context ∧ r2.is_need_comma = r1.is_need_comma ∧
        r2.first = r1.first) := by
  refine ⟨?_, ?_, ?_, ?_⟩
  · intro node nargs ta fa sa aa context ht
    exact func_expr_transparent_in_tlist cat node funcid nargs ta fa sa aa context name hname
      hskip ht
  · intro context ht
    refine ⟨enter context true false, ?_, rfl⟩
    rw [tdengine_deparse_expr]
    exact func_expr_transparent_in_tlist cat _ funcid _ _ _ _ _ _ name hname hskip ht
  · intro st
    exact ⟨_, explicit_target_step_transparent cat pushdown all_fieldtag groupClause funcid frt
      fc ic args ref name hname hskip st, rfl, rfl, rfl⟩
  · intro before after st r1 hs
    obtain ⟨r2, h2, hc, hf, hm, _⟩ := explicit_target_loop_frame cat pushdown all_fieldtag
      groupClause funcid frt fc ic args resno ref junk name hname hskip after before st r1 hs
    exact ⟨r2, h2, hc, hm, hf⟩

/-- Witness for C32: on the sample table the loop emits `"col", "name"` for
the target list `col, name` and for the list with the `tdengine_time` call
between the two columns, and the whole function emits `"col", "name"` for
`col, tdengine_time(...), name` and for `tdengine_fill_numeric(0), col, name`. -/
theorem transparent_calls_emit_nothing_witness :
    demo_catalog.proname 20001 = some "tdengine_time" ∧
    (∃ r1 r2,
      explicit_target_loop demo_catalog false false []
          ([T_TargetEntry demo_col 1 0 false] ++ [T_TargetEntry demo_name 3 0 false])
          ⟨{ demo_context with is_tlist := true }, 0, true, false, true, false, false, []⟩
        = .ok r1 ∧
      explicit_target_loop demo_catalog false false []
          ([T_TargetEntry demo_col 1 0 false] ++
            T_TargetEntry demo_time_bucket 2 0 false :: [T_TargetEntry demo_name 3 0 false])
          ⟨{ demo_context with is_tlist := true }, 0, true, false, true, false, false, []⟩
        = .ok r2 ∧
      r2.context = r1.context ∧ r2.is_need_comma = r1.is_need_comma ∧ r2.first = r1.first ∧
      r1.context.buf = "\"col\", \"name\"".toList) ∧
    (tdengine_deparse_explicit_target_list demo_catalog false false [] demo_tupdesc
        demo_tlist_bucket demo_context).toOption.map (fun r => (r.1.buf, r.2))
      = some ("\"col\", \"name\"".toList, [1, 2, 3]) ∧
    (tdengine_deparse_explicit_target_list demo_catalog false false [] demo_tupdesc
        demo_tlist_fill_first demo_context).toOption.map (fun r => (r.1.buf, r.2))
      = some ("\"col\", \"name\"".toList, [1, 2, 3]) := by
  refine ⟨rfl, ?_, rfl, rfl⟩
  have hb : (explicit_target_loop demo_catalog false false []
      ([T_TargetEntry demo_col 1 0 false] ++ [T_TargetEntry demo_name 3 0 false])
      ⟨{ demo_context with is_tlist := true }, 0, true, false, true, false, false,
        []⟩).toOption.map (fun r => r.context.buf) = some "\"col\", \"name\"".toList := rfl
  cases h : explicit_target_loop demo_catalog false false []
      ([T_TargetEntry demo_col 1 0 false] ++ [T_TargetEntry demo_name 3 0 false])
      ⟨{ demo_context with is_tlist := true }, 0, true, false, true, false, false, []⟩ with
  | error e =>
    rw [h] at hb
    cases hb
  | ok r1 =>
    rw [h] at hb
    obtain ⟨r2, h2, h3, h4, h5⟩ :=
      (transparent_calls_emit_nothing demo_catalog false false [] 20001 TIMESTAMPOID InvalidOid
        InvalidOid _ 2 0 false "tdengine_time" rfl (Or.inl rfl)).2.2.2
        [T_TargetEntry demo_col 1 0 false] [T_TargetEntry demo_name 3 0 false] _ r1 h
    refine ⟨r1, r2, rfl, h2, h3, h4, h5, ?_⟩
    simpa [Except.toOption] using hb

/-! ## Theorems: the positional placeholder of a parameter -/

/-- The list scan finds the first entry `equal` to the node and answers with
its 1-based position, counted from `pindex`. -/
theorem param_index_found (node : Node) :
    ∀ (pre : List Node) (p : Node) (post : List Node) (pindex : Nat),
      (∀ x ∈ pre, equal node x = false) → equal node p = true →
      param_index node (pre ++ p :: post) pindex = (pindex + pre.length + 1, true)
  | [], p, post, pindex, _, hp => by
    rw [List.nil_append, param_index, if_pos hp]
    rfl
  | x :: pre, p, post, pindex, hpre, hp => by
    have hx : equal node x = false := hpre x (List.mem_cons_self _ _)
    rw [List.cons_append, param_index, hx]
    simp only [Bool.false_eq_true, if_false]
    rw [param_index_found node pre p post (pindex + 1)
      (fun y hy => hpre y (List.mem_cons_of_mem _ hy)) hp]
    simp only [List.length_cons, Prod.mk.injEq, and_true]
    omega

/-- Without an entry `equal` to the node the scan answers one past the end. -/
theorem param_index_new (node : Node) :
    ∀ (params : List Node) (pindex : Nat), (∀ x ∈ params, equal node x = false) →
      param_index node params pindex = (pindex + params.length + 1, false)
  | [], pindex, _ => rfl
  | x :: rest, pindex, h => by
    have hx : equal node x = false := h x (List.mem_cons_self _ _)
    rw [param_index, hx]
    simp only [Bool.false_eq_true, if_false]
    rw [param_index_new node rest (pindex + 1) (fun y hy => h y (List.mem_cons_of_mem _ hy))]
    simp only [List.length_cons, Prod.mk.injEq, and_true]
    omega

theorem equal_param_self (paramid : Int) (paramtype : Oid) (paramtypmod : Int)
    (paramcollid : Oid) :
    equal (T_Param paramid paramtype paramtypmod paramcollid)
      (T_Param paramid paramtype paramtypmod paramcollid) = true := by
  show (paramid == paramid && paramtype == paramtype && paramtypmod == paramtypmod
    && paramcollid == paramcollid) = true
  simp

/-- A list has an entry `equal` to the node, or none. -/
theorem param_split (node : Node) :
    ∀ (params : List Node),
      (∀ x ∈ params, equal node x = false) ∨
      ∃ pre p post, params = pre ++ p :: post ∧ (∀ x ∈ pre, equal node x = false) ∧
        equal node p = true
  | [] => Or.inl (fun x hx => by cases hx)
  | x :: rest => by
    by_cases hx : equal node x = true
    · exact Or.inr ⟨[], x, rest, rfl, fun y hy => (by cases hy), hx⟩
    · have hx2 : equal node x = false := by simpa using hx
      rcases param_split node rest with h | ⟨pre, p, post, h1, h2, h3⟩
      · left
        intro y hy
        rcases List.mem_cons.1 hy with rfl | hy
        · exact hx2
        · exact h y hy
      · right
        refine ⟨x :: pre, p, post, by rw [h1]; rfl, ?_, h3⟩
        intro y hy
        rcases List.mem_cons.1 hy with rfl | hy
        · exact hx2
        · exact h2 y hy

/-- C33: `tdengine_deparse_param` on a `Param`.  With a parameter list
`params`: if an entry is `equal` to the `Param`, the list stays as it is and
`$k` is appended with `k` the 1-based position of the first such entry; if
none is, the `Param` is appended to the list and `$k` is appended with
`k = |params| + 1`, its position in the new list.  A list in which no entry is
`equal` to an earlier one stays so.  Deparsing the same `Param` once more
appends the same `$k` and leaves the list as the first call left it.  Without
a parameter list `(SELECT null)` is appended. -/
theorem param_placeholder_contract (cat : Catalog) (paramid : Int) (paramtype : Oid)
    (paramtypmod : Int) (paramcollid : Oid) (context : deparse_expr_cxt) :
    tdengine_deparse_expr cat (T_Param paramid paramtype paramtypmod paramcollid) context
      = .ok (deparse_as_param (T_Param paramid paramtype paramtypmod paramcollid)
          (enter context false false)) ∧
    (∀ params, context.params_list = some params →
      ((∀ pre p post, params = pre ++ p :: post →
          (∀ x ∈ pre, equal (T_Param paramid paramtype paramtypmod paramcollid) x = false) →
          equal (T_Param paramid paramtype paramtypmod paramcollid) p = true →
          (deparse_as_param (T_Param paramid paramtype paramtypmod paramcollid) context).buf
            = context.buf ++ '$' :: (toString (pre.length + 1)).toList ∧
          (deparse_as_param (T_Param paramid paramtype paramtypmod paramcollid)
            context).params_list = some params) ∧
       ((∀ x ∈ params, equal (T_Param paramid paramtype paramtypmod paramcollid) x = false) →
          (deparse_as_param (T_Param paramid paramtype paramtypmod paramcollid) context).buf
            = context.buf ++ '$' :: (toString (params.length + 1)).toList ∧
          (deparse_as_param (T_Param paramid paramtype paramtypmod paramcollid)
            context).params_list
            = some (params ++ [T_Param paramid paramtype paramtypmod paramcollid])) ∧
       (params.Pairwise (fun a b => equal b a = false) →
          ∃ params2,
            (deparse_as_param (T_Param paramid paramtype paramtypmod paramcollid)
              context).params_list = some params2 ∧
            params2.Pairwise (fun a b => equal b a = false)) ∧
       (∃ k : Nat,
          (deparse_as_param (T_Param paramid paramtype paramtypmod paramcollid) context).buf
            = context.buf ++ '$' :: (toString k).toList ∧
          (deparse_as_param (T_Param paramid paramtype paramtypmod paramcollid)
            (deparse_as_param (T_Param paramid paramtype paramtypmod paramcollid) context)).buf
            = (deparse_as_param (T_Param paramid paramtype paramtypmod paramcollid) context).buf
              ++ '$' :: (toString k).toList ∧
          (deparse_as_param (T_Param paramid paramtype paramtypmod paramcollid)
            (deparse_as_param (T_Param paramid paramtype paramtypmod paramcollid)
              context)).params_list
            = (deparse_as_param (T_Param paramid paramtype paramtypmod paramcollid)
              context).params_list))) ∧
    (context.params_list = none →
      (deparse_as_param (T_Param paramid paramtype paramtypmod paramcollid) context).buf
        = context.buf ++ "(SELECT null)".toList) := by
  generalize hnode : T_Param paramid paramtype paramtypmod paramcollid = node
  have hself : equal node node = true := by
    rw [← hnode]
    exact equal_param_self _ _ _ _
  have hfound : ∀ (c : deparse_expr_cxt) pre p post, c.params_list = some (pre ++ p :: post) →
      (∀ x ∈ pre, equal node x = false) → equal node p = true →
      (deparse_as_param node c).buf = c.buf ++ '$' :: (toString (pre.length + 1)).toList ∧
      (deparse_as_param node c).params_list = some (pre ++ p :: post) := by
    intro c pre p post hc hpre hp
    unfold deparse_as_param
    rw [hc]
    simp only [param_index_found node pre p post 0 hpre hp, Nat.zero_add, if_true, and_self]
  have hnew : ∀ (c : deparse_expr_cxt) params, c.params_list = some params →
      (∀ x ∈ params, equal node x = false) →
      (deparse_as_param node c).buf = c.buf ++ '$' :: (toString (params.length + 1)).toList ∧
      (deparse_as_param node c).params_list = some (params ++ [node]) := by
    intro c params hc h
    unfold deparse_as_param
    rw [hc]
    simp only [param_index_new node params 0 h, Nat.zero_add, Bool.false_eq_true, if_false,
      and_self]
  refine ⟨?_, ?_, ?_⟩
  · rw [← hnode, tdengine_deparse_expr]
  · intro params hparams
    refine ⟨?_, ?_, ?_, ?_⟩
    · intro pre p post hsplit hpre hp
      rw [hsplit] at hparams
      rw [hsplit]
      exact hfound context pre p post hparams hpre hp
    · intro h
      exact hnew context params hparams h
    · intro hpw
      rcases param_split node params with h | ⟨pre, p, post, h1, h2, h3⟩
      · refine ⟨_, (hnew context params hparams h).2, ?_⟩
        rw [List.pairwise_append]
        refine ⟨hpw, List.pairwise_singleton _ _, ?_⟩
        intro a ha b hb
        rw [List.mem_singleton.1 hb]
        exact h a ha
      · rw [h1] at hparams
        refine ⟨_, (hfound context pre p post hparams h2 h3).2, ?_⟩
        rw [← h1]
        exact hpw
    · rcases param_split node params with h | ⟨pre, p, post, h1, h2, h3⟩
      · obtain ⟨hb, hl⟩ := hnew context params hparams h
        refine ⟨params.length + 1, hb, ?_⟩
        have h2 := hfound (deparse_as_param node context) params node [] hl h hself
        exact ⟨h2.1, h2.2.trans hl.symm⟩
      · rw [h1] at hparams
        obtain ⟨hb, hl⟩ := hfound context pre p post hparams h2 h3
        refine ⟨pre.length + 1, hb, ?_⟩
        have h4 := hfound (deparse_as_param node context) pre p post hl h2 h3
        exact ⟨h4.1, h4.2.trans hl.symm⟩
  · intro hnone
    unfold deparse_as_param
    rw [hnone]
    rfl

/-- Witness for C33: with the list `[$a]` the new parameter `$b` is appended
and printed as `$2`, and printed as `$2` again by a second call; the
parameter `$a` is found and printed as `$1`. -/
theorem param_placeholder_contract_witness :
    (deparse_as_param (T_Param 2 INT4OID (-1) InvalidOid)
      { demo_context with params_list := some [T_Param 1 TEXTOID (-1) 950] }).buf
        = "$2".toList ∧
    (deparse_as_param (T_Param 2 INT4OID (-1) InvalidOid)
      { demo_context with params_list := some [T_Param 1 TEXTOID (-1) 950] }).params_list
        = some ([T_Param 1 TEXTOID (-1) 950] ++ [T_Param 2 INT4OID (-1) InvalidOid]) ∧
    (deparse_as_param (T_Param 1 TEXTOID (-1) 950)
      { demo_context with params_list := some [T_Param 1 TEXTOID (-1) 950] }).buf
        = "$1".toList ∧
    (deparse_as_param (T_Param 2 INT4OID (-1) InvalidOid)
      { demo_context with params_list := none }).buf = "(SELECT null)".toList := by
  have h := (param_placeholder_contract demo_catalog 2 INT4OID (-1) InvalidOid
    { demo_context with params_list := some [T_Param 1 TEXTOID (-1) 950] }).2.1
    [T_Param 1 TEXTOID (-1) 950] rfl
  have h2 := h.2.1 (by
    intro x hx
    rw [List.mem_singleton.1 hx]
    rfl)
  exact ⟨h2.1, h2.2, rfl, rfl⟩

/-! ## Theorems: the test for a select of the whole table -/

theorem select_all_tlist_cons (cat : Catalog) (rel_type_id : Oid) (pslinfo : schemaless_info)
    (attnum : Int) (node : Node) (rest : List Node) (s : SelectAllScan) :
    select_all_tlist cat rel_type_id pslinfo attnum (node :: rest) s =
      match target_expr node with
      | T_Var _ varattno vartype _ _ _ =>
        if vartype == rel_type_id then { s with has_rel_type_id := true }
        else if varattno == 0 then { s with has_wholerow := true }
        else if tdengine_is_slvar cat vartype varattno pslinfo then { s with has_slcol := true }
        else if varattno == attnum then { s with natts := s.natts + 1 }
        else select_all_tlist cat rel_type_id pslinfo attnum rest s
      | _ => select_all_tlist cat rel_type_id pslinfo attnum rest s := by
  cases node with
  | T_TargetEntry expr resno ref junk => cases expr <;> rfl
  | _ => rfl

/-- On a target list of plain nodes the scan for one column adds one to
`natts` when a `Var` of the list references the column, and changes nothing
else. -/
theorem select_all_tlist_plain (cat : Catalog) (rel_type_id : Oid) (pslinfo : schemaless_info)
    (attnum : Int) :
    ∀ (tlist : List Node) (s : SelectAllScan),
      (∀ n ∈ tlist, plain_target cat rel_type_id pslinfo n = true) →
      select_all_tlist cat rel_type_id pslinfo attnum tlist s =
        if tlist.any (references_column attnum) then { s with natts := s.natts + 1 } else s
  | [], s, _ => rfl
  | node :: rest, s, h => by
    have hn := h node (List.mem_cons_self _ _)
    have ih := select_all_tlist_plain cat rel_type_id pslinfo attnum rest s
      (fun n hm => h n (List.mem_cons_of_mem _ hm))
    rw [select_all_tlist_cons, List.any_cons]
    unfold plain_target at hn
    unfold references_column
    generalize target_expr node = e at hn ⊢
    cases e with
    | T_Var varno varattno vartype vartypmod varcollid varlevelsup =>
      simp only [Bool.and_eq_true] at hn
      obtain ⟨⟨h1, h2⟩, h3⟩ := hn
      have h1b : (vartype == rel_type_id) = false := by simpa using h1
      have h2b : (varattno == 0) = false := by simpa using h2
      have h3b : tdengine_is_slvar cat vartype varattno pslinfo = false := by simpa using h3
      simp only [h1b, h2b, h3b, Bool.false_eq_true, if_false]
      by_cases h4 : varattno = attnum
      · simp [h4]
      · have h4b : (varattno == attnum) = false := by simpa using h4
        simp only [h4b, Bool.false_eq_true, if_false, Bool.false_or]
        exact ih
    | _ =>
      simp only [Bool.false_or]
      exact ih

/-- On a target list of plain nodes the scan of the columns counts the
non-dropped columns that are referenced and sets no flag. -/
theorem select_all_attrs_plain (cat : Catalog) (rel_type_id : Oid) (pslinfo : schemaless_info)
    (tlist : List Node) (h : ∀ n ∈ tlist, plain_target cat rel_type_id pslinfo n = true) :
    ∀ (tupdesc : List Form_pg_attribute) (i : Int) (s : SelectAllScan),
      select_all_attrs cat rel_type_id pslinfo tlist tupdesc i s =
        { s with natts := s.natts + referenced_columns tlist tupdesc i }
  | [], _, s => rfl
  | attr :: rest, i, s => by
    rw [select_all_attrs, referenced_columns]
    by_cases hd : attr.attisdropped = true
    · rw [if_pos hd, select_all_attrs_plain cat rel_type_id pslinfo tlist h rest (i + 1) s]
      simp [hd]
    · have hd2 : attr.attisdropped = false := by simpa using hd
      rw [if_neg hd, select_all_attrs_plain cat rel_type_id pslinfo tlist h rest (i + 1),
        select_all_tlist_plain cat rel_type_id pslinfo i tlist s h]
      by_cases hr : tlist.any (references_column i) = true
      · simp only [hr, hd2, if_true, Bool.not_false, Bool.and_self]
        congr 1
        omega
      · have hr2 : tlist.any (references_column i) = false := by simpa using hr
        simp [hr2]

/-- On a target list without a row-type, whole-row or schemaless-column `Var`
`tdengine_is_select_all` answers whether no non-dropped column is referenced:
it returns false as soon as one column is, be it a proper subset of the
columns or all of them. -/
theorem select_all_plain (cat : Catalog) (rel_type_id : Oid) (pslinfo : schemaless_info)
    (tupdesc : List Form_pg_attribute) (tlist : List Node)
    (h : ∀ n ∈ tlist, plain_target cat rel_type_id pslinfo n = true) :
    tdengine_is_select_all cat rel_type_id tupdesc tlist pslinfo
      = (referenced_columns tlist tupdesc 1 == 0) := by
  unfold tdengine_is_select_all
  simp only [select_all_attrs_plain cat rel_type_id pslinfo tlist h tupdesc 1]
  simp

/-- C34: `tdengine_is_select_all` compares the number of referenced columns
with `natts_valid`, which is still `0` at the end: on the schemaless table with
the two columns `time` and `time_text` the target list `time, time_text`, which
references every column, gives false, as does `time, time_text, t.*` with the
whole-row `Var` after the columns; the proper subset `time` gives false as
claimed, and the empty target list gives true.  On the table with the
schemaless columns `tags` and `fields` the list of all three columns gives
true through the schemaless-column flag. -/
theorem select_all_compares_with_zero :
    (∀ (cat : Catalog) (rel_type_id : Oid) (tupdesc : List Form_pg_attribute)
        (tlist : List Node) (pslinfo : schemaless_info),
      tdengine_is_select_all cat rel_type_id tupdesc tlist pslinfo =
        ((select_all_attrs cat rel_type_id pslinfo tlist tupdesc 1
            ⟨0, false, false, false⟩).natts == 0 ||
          (select_all_attrs cat rel_type_id pslinfo tlist tupdesc 1
            ⟨0, false, false, false⟩).has_rel_type_id ||
          (select_all_attrs cat rel_type_id pslinfo tlist tupdesc 1
            ⟨0, false, false, false⟩).has_slcol ||
          (select_all_attrs cat rel_type_id pslinfo tlist tupdesc 1
            ⟨0, false, false, false⟩).has_wholerow)) ∧
    tdengine_is_select_all demo_sl_catalog 6001 demo_sl_tupdesc
      [demo_sl_time, demo_sl_time_text] demo_sl_info = false ∧
    tdengine_is_select_all demo_sl_catalog 6001 demo_sl_tupdesc
      [demo_sl_time, demo_sl_time_text, T_Var 1 0 6001 (-1) InvalidOid 0] demo_sl_info
      = false ∧
    tdengine_is_select_all demo_sl_catalog 6001 demo_sl_tupdesc [demo_sl_time] demo_sl_info
      = false ∧
    tdengine_is_select_all demo_sl_catalog 6001 demo_sl_tupdesc [] demo_sl_info = true ∧
    tdengine_is_select_all demo_sl_catalog 6101 demo_sl_std_tupdesc
      [demo_sl_time, demo_sl_tags, demo_sl_fields] demo_sl_std_info = true := by
  refine ⟨fun _ _ _ _ _ => rfl, by decide, by decide, by decide, by decide, by decide⟩

/-! ## Theorems: quoting an identifier -/

theorem quote_identifier_body_eq (q : Char) (s : List Char) :
    quote_identifier_body q s = (s.map (fun c => if c = q then [q, q] else [c])).flatten := by
  induction s with
  | nil => rfl
  | cons c rest ih =>
    rw [quote_identifier_body]
    by_cases h : c = q
    · simp [h, ih]
    · simp [h, ih]

theorem quote_identifier_body_length (q : Char) (s : List Char) :
    (quote_identifier_body q s).length = s.length + s.count q := by
  induction s with
  | nil => rfl
  | cons c rest ih =>
    rw [quote_identifier_body]
    by_cases h : c = q
    · simp [h, ih]
      omega
    · have h2 : (c == q) = false := by simpa using h
      simp [h, ih, List.count_cons, h2]
      omega

/-- The doubling is undone by the collapse, whatever text that does not start
with the quote character follows. -/
theorem collapse_doubled_body (q : Char) :
    ∀ (s : List Char), collapse_doubled q (quote_identifier_body q s) = s
  | [] => rfl
  | c :: rest => by
    rw [quote_identifier_body]
    by_cases h : c = q
    · rw [if_pos h, collapse_doubled, if_pos ⟨h, h⟩, collapse_doubled_body q rest, h]
    · rw [if_neg h]
      cases hb : quote_identifier_body q rest with
      | nil =>
        have hr := collapse_doubled_body q rest
        rw [hb] at hr
        rw [collapse_doubled, ← hr]
        rfl
      | cons d tail =>
        have hr := collapse_doubled_body q rest
        rw [hb] at hr
        rw [collapse_doubled, if_neg (fun hh => h hh.1), hr]

theorem drop_one_dropLast (q : Char) (body : List Char) :
    ((q :: (body ++ [q])).drop 1).dropLast = body := by
  simp

/-- C38: for every string `s` and quote character `q`,
`tdengine_quote_identifier s q` is `q`, then `s` with every `q` doubled, then
`q`; its length is `|s| + 2 +` the number of `q` in `s`; stripping the outer
quotes and collapsing each doubled `q` gives `s` back; and so two strings with
the same quoted form are equal. -/
theorem quote_identifier_contract (s : List Char) (q : Char) :
    tdengine_quote_identifier s q
      = [q] ++ (s.map (fun c => if c = q then [q, q] else [c])).flatten ++ [q] ∧
    (tdengine_quote_identifier s q).length = s.length + 2 + s.count q ∧
    unquote_identifier (tdengine_quote_identifier s q) q = s ∧
    ∀ s2, tdengine_quote_identifier s q = tdengine_quote_identifier s2 q ↔ s = s2 := by
  have hun : ∀ t, unquote_identifier (tdengine_quote_identifier t q) q = t := by
    intro t
    unfold unquote_identifier tdengine_quote_identifier
    rw [drop_one_dropLast, collapse_doubled_body]
  refine ⟨?_, ?_, hun s, ?_⟩
  · unfold tdengine_quote_identifier
    rw [quote_identifier_body_eq]
    simp
  · unfold tdengine_quote_identifier
    simp only [List.length_cons, List.length_append, List.length_nil,
      quote_identifier_body_length]
    omega
  · intro s2
    constructor
    · intro h
      have h2 := congrArg (fun t => unquote_identifier t q) h
      simp only [hun] at h2
      exact h2
    · intro h
      rw [h]

/-! ## Theorems: the order of the merged children -/

theorem verdict_join_none_left (a : CollationVerdict) : verdict_join .none a = a := by
  cases a <;> rfl

theorem verdict_join_none_right (x : CollationVerdict) : verdict_join x .none = x := by
  cases x <;> rfl

theorem verdict_join_rejected_left (a : CollationVerdict) :
    verdict_join .rejected a = .rejected := by
  cases a <;> rfl

theorem verdict_join_rejected_right (x : CollationVerdict) :
    verdict_join x .rejected = .rejected := by
  cases x <;> rfl

theorem verdict_join_safe (c1 c2 : Oid) :
    verdict_join (.safe c1) (.safe c2) =
      if c1 = c2 then .safe c2
      else if c2 = DEFAULT_COLLATION_OID then .safe c1
      else if c1 = DEFAULT_COLLATION_OID then .safe c2
      else .rejected := rfl

/-- The merge step is the join of the two verdicts. -/
theorem collation_merge_verdict (collation : Oid) (state : FDWCollateState)
    (c : foreign_loc_cxt) :
    verdict_of (collation_merge collation state c).collation
        (collation_merge collation state c).state
      = verdict_join (verdict_of collation state) (verdict_of c.collation c.state) := by
  unfold collation_merge
  cases state <;> cases h1 : c.state <;>
    simp only [FDWCollateState.toNat, verdict_of, h1, gt_iff_lt,
      Nat.lt_irrefl, if_false, if_true, reduceCtorEq, Nat.zero_lt_one, Nat.one_lt_two,
      Nat.zero_lt_two, Nat.not_lt_zero, Nat.reduceLT, verdict_join_none_left,
      verdict_join_none_right, verdict_join_rejected_left, verdict_join_rejected_right]
  rw [verdict_join_safe]
  by_cases h2 : collation = c.collation
  · rw [if_neg (fun h => h h2), if_pos h2, h1]
  · rw [if_pos h2, if_neg h2]
    by_cases h3 : c.collation = DEFAULT_COLLATION_OID
    · rw [if_pos h3, if_pos h3]
    · rw [if_neg h3, if_neg h3]
      by_cases h4 : collation = DEFAULT_COLLATION_OID
      · rw [if_neg (fun h => h h4), if_pos h4, h1]
      · rw [if_pos h4, if_neg h4]

theorem verdict_join_swap (x y a : CollationVerdict) :
    verdict_join y (verdict_join x a) = verdict_join x (verdict_join y a) := by
  cases x with
  | none => simp only [verdict_join_none_left]
  | rejected => simp only [verdict_join_rejected_left, verdict_join_rejected_right]
  | safe cx =>
    cases y with
    | none => simp only [verdict_join_none_left]
    | rejected => simp only [verdict_join_rejected_left, verdict_join_rejected_right]
    | safe cy =>
      cases a with
      | none =>
        simp only [verdict_join_none_right, verdict_join_safe]
        by_cases h1 : cx = cy <;>
          by_cases h3 : cx = DEFAULT_COLLATION_OID <;>
          by_cases h4 : cy = DEFAULT_COLLATION_OID <;> simp_all
        exact fun h => h1 h.symm
      | rejected => simp only [verdict_join_rejected_right]
      | safe ca =>
        simp only [verdict_join_safe]
        by_cases h1 : cx = ca <;> by_cases h2 : cy = ca <;>
          by_cases h3 : ca = DEFAULT_COLLATION_OID <;>
          by_cases h4 : cx = DEFAULT_COLLATION_OID <;>
          by_cases h5 : cy = DEFAULT_COLLATION_OID <;>
          by_cases h6 : cx = cy <;>
          simp_all [verdict_join_safe, verdict_join_rejected_left, verdict_join_rejected_right]
        exact fun h => h6 h.symm

theorem verdict_of_eq (c1 c2 : Oid) (s1 s2 : FDWCollateState)
    (h : verdict_of c1 s1 = verdict_of c2 s2) :
    s1 = s2 ∧ (s1 = FDW_COLLATE_SAFE → c1 = c2) := by
  cases s1 <;> cases s2 <;> simp_all [verdict_of]

/-- The verdict after merging a list of results is the fold of the join. -/
theorem merge_all_verdict (results : List (Oid × FDWCollateState)) :
    ∀ (c : foreign_loc_cxt),
      verdict_of (merge_all results c).collation (merge_all results c).state
        = results.foldl (fun v r => verdict_join (verdict_of r.1 r.2) v)
            (verdict_of c.collation c.state) := by
  induction results with
  | nil => intro c; rfl
  | cons x rest ih =>
    intro c
    unfold merge_all at ih ⊢
    rw [List.foldl_cons, List.foldl_cons, ih, collation_merge_verdict]

theorem verdict_fold_perm (results results2 : List (Oid × FDWCollateState))
    (h : results.Perm results2) :
    ∀ (v : CollationVerdict),
      results.foldl (fun v r => verdict_join (verdict_of r.1 r.2) v) v
        = results2.foldl (fun v r => verdict_join (verdict_of r.1 r.2) v) v := by
  induction h with
  | nil => intro v; rfl
  | cons x _ ih =>
    intro v
    rw [List.foldl_cons, List.foldl_cons]
    exact ih _
  | swap x y l =>
    intro v
    rw [List.foldl_cons, List.foldl_cons, List.foldl_cons, List.foldl_cons, verdict_join_swap]
  | trans _ _ ih1 ih2 =>
    intro v
    exact (ih1 v).trans (ih2 v)

/-- C39: when the results `(collation, state)` of the children of a node are
merged one after the other into a parent context, the state the parent ends
with does not depend on the order of the children, and when that state is Safe
the collation does not depend on it either.  This holds from every parent
context, in particular from the fresh one, whose state is None. -/
theorem merge_order_independent (results results2 : List (Oid × FDWCollateState))
    (h : results.Perm results2) (outer_cxt : foreign_loc_cxt) :
    (merge_all results outer_cxt).state = (merge_all results2 outer_cxt).state ∧
    ((merge_all results outer_cxt).state = FDW_COLLATE_SAFE →
      (merge_all results outer_cxt).collation = (merge_all results2 outer_cxt).collation) := by
  apply verdict_of_eq
  rw [merge_all_verdict, merge_all_verdict]
  exact verdict_fold_perm results results2 h _

/-- Witness for C39: children Safe with collation `"C"` (950), Safe with the
default collation and None, merged into the fresh context in two orders, leave
the state Safe and the collation `"C"`. -/
theorem merge_order_independent_witness :
    [((950 : Oid), FDW_COLLATE_SAFE), (DEFAULT_COLLATION_OID, FDW_COLLATE_SAFE),
      (InvalidOid, FDW_COLLATE_NONE)].Perm
      [(InvalidOid, FDW_COLLATE_NONE), (DEFAULT_COLLATION_OID, FDW_COLLATE_SAFE),
        (950, FDW_COLLATE_SAFE)] ∧
    (merge_all [(950, FDW_COLLATE_SAFE), (DEFAULT_COLLATION_OID, FDW_COLLATE_SAFE),
      (InvalidOid, FDW_COLLATE_NONE)] inner_cxt_init).state = FDW_COLLATE_SAFE ∧
    (merge_all [(950, FDW_COLLATE_SAFE), (DEFAULT_COLLATION_OID, FDW_COLLATE_SAFE),
      (InvalidOid, FDW_COLLATE_NONE)] inner_cxt_init).collation = 950 ∧
    (merge_all [(InvalidOid, FDW_COLLATE_NONE), (DEFAULT_COLLATION_OID, FDW_COLLATE_SAFE),
      (950, FDW_COLLATE_SAFE)] inner_cxt_init).collation = 950 := by
  have hp : [((950 : Oid), FDW_COLLATE_SAFE), (DEFAULT_COLLATION_OID, FDW_COLLATE_SAFE),
      (InvalidOid, FDW_COLLATE_NONE)].Perm
      [(InvalidOid, FDW_COLLATE_NONE), (DEFAULT_COLLATION_OID, FDW_COLLATE_SAFE),
        (950, FDW_COLLATE_SAFE)] := by decide
  have h := merge_order_independent _ _ hp inner_cxt_init
  refine ⟨hp, by decide, by decide, ?_⟩
  rw [← h.2 (by decide)]
  decide

/-! ## Theorems: the option names that are validated and the ones that are read -/

/-- An option whose name is none of the nine names compared in the loop of
`tdengine_get_options` leaves the structure as it is. -/
theorem get_options_step_other (split : String → Option (List String)) (opt : tdengine_opt)
    (d : DefElem)
    (h : d.defname ∉ ["table", "host", "port", "user", "password", "dbname", "table_name",
      "tags", "schemaless"]) :
    get_options_step split opt d = .ok opt := by
  simp only [List.mem_cons, List.mem_singleton, List.not_mem_nil, or_false, not_or] at h
  obtain ⟨h1, h2, h3, h4, h5, h6, h7, h8, h9⟩ := h
  unfold get_options_step
  simp [h1, h2, h3, h4, h5, h6, h7, h8, h9]

/-- An option that leaves the structure as it is can be taken out of the list. -/
theorem get_options_loop_skip (split : String → Option (List String)) (d : DefElem)
    (hd : ∀ opt, get_options_step split opt d = .ok opt) :
    ∀ (pre post : List DefElem) (opt : tdengine_opt),
      get_options_loop split (pre ++ d :: post) opt = get_options_loop split (pre ++ post) opt
  | [], post, opt => by
    rw [List.nil_append, List.nil_append, get_options_loop, hd]
  | p :: pre, post, opt => by
    rw [List.cons_append, List.cons_append, get_options_loop, get_options_loop]
    cases get_options_step split opt p with
    | error e => rfl
    | ok o => exact get_options_loop_skip split d hd pre post o

/-- The step of an option other than `user` keeps `svr_username`. -/
theorem get_options_step_username (split : String → Option (List String)) (opt o : tdengine_opt)
    (d : DefElem) (hn : d.defname ≠ "user") (h : get_options_step split opt d = .ok o) :
    o.svr_username = opt.svr_username := by
  obtain ⟨name, sval, bval⟩ := d
  simp only at hn
  by_cases h1 : name = "table"
  · subst h1
    simp [get_options_step] at h
    rw [← h]
  by_cases h2 : name = "host"
  · subst h2
    simp [get_options_step] at h
    rw [← h]
  by_cases h3 : name = "port"
  · subst h3
    simp [get_options_step] at h
    rw [← h]
  by_cases h5 : name = "password"
  · subst h5
    simp [get_options_step] at h
    rw [← h]
  by_cases h6 : name = "dbname"
  · subst h6
    simp [get_options_step] at h
    rw [← h]
  by_cases h7 : name = "table_name"
  · subst h7
    simp [get_options_step] at h
    rw [← h]
  by_cases h8 : name = "tags"
  · subst h8
    cases hs : split sval with
    | none => simp [get_options_step, hs] at h
    | some tags =>
      simp [get_options_step, hs] at h
      rw [← h]
  by_cases h9 : name = "schemaless"
  · subst h9
    simp [get_options_step] at h
    rw [← h]
  rw [get_options_step_other split opt _ (by simp [h1, h2, h3, hn, h5, h6, h7, h8, h9])] at h
  simp only [Except.ok.injEq] at h
  rw [← h]

/-- A list of options without the name `user` keeps `svr_username`. -/
theorem get_options_loop_username (split : String → Option (List String)) :
    ∀ (options : List DefElem) (opt o : tdengine_opt),
      (∀ d ∈ options, d.defname ≠ "user") → get_options_loop split options opt = .ok o →
      o.svr_username = opt.svr_username
  | [], opt, o, _, h => by
    rw [get_options_loop] at h
    cases h
    rfl
  | d :: rest, opt, o, hn, h => by
    rw [get_options_loop] at h
    cases hs : get_options_step split opt d with
    | error e => rw [hs] at h; cases h
    | ok o1 =>
      rw [hs] at h
      have h1 := get_options_step_username split opt o1 d (hn d (List.mem_cons_self _ _)) hs
      have h2 := get_options_loop_username split rest o1 o
        (fun x hx => hn x (List.mem_cons_of_mem _ hx)) h
      rw [h2, h1]

/-- Options that pass `tdengine_fdw_validator` do not have the name `user`. -/
theorem validated_not_user :
    ∀ (options : List DefElem) (catalog : Oid),
      tdengine_fdw_validator options catalog = .ok () → ∀ d ∈ options, d.defname ≠ "user"
  | [], _, _, d, hd => by cases hd
  | x :: rest, catalog, h, d, hd => by
    rw [tdengine_fdw_validator] at h
    by_cases hv : tdengine_is_valid_option x.defname catalog = true
    · by_cases hp : (x.defname == "port" &&
          (decide (atoi x.sval ≤ 0) || decide (atoi x.sval > 65535))) = true
      · simp [hv, hp] at h
      · simp only [hv, hp, Bool.not_true, Bool.false_eq_true, if_false] at h
        rcases List.mem_cons.1 hd with rfl | hd2
        · intro hu
          rw [hu] at hv
          simp [tdengine_is_valid_option, valid_options] at hv
        · exact validated_not_user rest catalog h d hd2
    · simp [hv] at h

/-- Whatever options the validator has accepted for the table, the server and
the user mapping, the structure `tdengine_get_options` returns has the empty
string as `svr_username`. -/
theorem validated_options_username_empty (src : ForeignObjects) (o : tdengine_opt)
    (ht : tdengine_fdw_validator (src.f_table.getD []) ForeignTableRelationId = .ok ())
    (hs : tdengine_fdw_validator src.f_server ForeignServerRelationId = .ok ())
    (hm : tdengine_fdw_validator src.f_mapping UserMappingRelationId = .ok ())
    (h : tdengine_get_options src = .ok o) : o.svr_username = some "" := by
  unfold tdengine_get_options at h
  simp only at h
  cases hl : get_options_loop src.SplitIdentifierString
      ((src.f_table.getD []) ++ src.f_server ++ src.f_mapping)
      ⟨none, none, none, none, none, 0, none, none, [], false⟩ with
  | error e => rw [hl] at h; cases h
  | ok opt =>
    rw [hl] at h
    have hu : opt.svr_username = none := by
      have := get_options_loop_username src.SplitIdentifierString _ _ opt (by
        intro d hd
        rcases List.mem_append.1 hd with hd1 | hd3
        · rcases List.mem_append.1 hd1 with hd1 | hd2
          · exact validated_not_user _ _ ht d hd1
          · exact validated_not_user _ _ hs d hd2
        · exact validated_not_user _ _ hm d hd3) hl
      exact this
    simp only at h
    split_ifs at h <;> simp only [Except.ok.injEq] at h <;> rw [← h] <;> simp_all

/-- The seven names on which the validator and `tdengine_get_options` agree:
each is accepted for the server, the user mapping or the table and is read
into its field of the structure. -/
theorem option_names_accepted_and_read (split : String → Option (List String))
    (opt : tdengine_opt) (v : String) (b : Bool) :
    (tdengine_is_valid_option "host" ForeignServerRelationId = true ∧
      get_options_step split opt ⟨"host", v, b⟩ = .ok { opt with svr_address := some v }) ∧
    (tdengine_is_valid_option "port" ForeignServerRelationId = true ∧
      get_options_step split opt ⟨"port", v, b⟩ = .ok { opt with svr_port := atoi v }) ∧
    (tdengine_is_valid_option "dbname" ForeignServerRelationId = true ∧
      get_options_step split opt ⟨"dbname", v, b⟩ = .ok { opt with svr_database := some v }) ∧
    (tdengine_is_valid_option "password" UserMappingRelationId = true ∧
      get_options_step split opt ⟨"password", v, b⟩
        = .ok { opt with svr_password := some v }) ∧
    (tdengine_is_valid_option "table" ForeignTableRelationId = true ∧
      get_options_step split opt ⟨"table", v, b⟩ = .ok { opt with svr_table := some v }) ∧
    (tdengine_is_valid_option "tags" ForeignTableRelationId = true ∧
      get_options_step split opt ⟨"tags", v, b⟩ =
        match split v with
        | none => .error (.elog "parameter \"tags\" must be a list of tag keys")
        | some tags => .ok { opt with tags_list := tags }) ∧
    (tdengine_is_valid_option "schemaless" ForeignTableRelationId = true ∧
      get_options_step split opt ⟨"schemaless", v, b⟩ = .ok { opt with schemaless := b }) := by
  refine ⟨⟨by decide, ?_⟩, ⟨by decide, ?_⟩, ⟨by decide, ?_⟩, ⟨by decide, ?_⟩, ⟨by decide, ?_⟩,
    ⟨by decide, ?_⟩, ⟨by decide, ?_⟩⟩
  all_goals simp [get_options_step]
  cases split v <;> rfl

/-- C40: the names read and the names accepted differ in three names.  The
validator accepts `username` for a user mapping, and `tdengine_get_options`
does not read it: adding a `username` option to the user mapping never changes
the returned structure.  `tdengine_get_options` reads `user` into
`svr_username` and `table_name` into `svr_table`, and the validator accepts
neither name in any catalog context.  With the validated user mapping
`username 'root', password 'taosdata'` the structure has the empty string as
user name; the mapping `user 'root'`, which would be read, is rejected by the
validator. -/
theorem option_names_read_and_accepted_differ :
    tdengine_is_valid_option "username" UserMappingRelationId = true ∧
    (∀ (context : Oid), tdengine_is_valid_option "user" context = false) ∧
    (∀ (context : Oid), tdengine_is_valid_option "table_name" context = false) ∧
    (∀ (src : ForeignObjects) (v : String) (b : Bool),
      tdengine_get_options { src with f_mapping := ⟨"username", v, b⟩ :: src.f_mapping }
        = tdengine_get_options src) ∧
    tdengine_fdw_validator demo_mapping UserMappingRelationId = .ok () ∧
    (tdengine_get_options (demo_objects demo_mapping)).toOption.map
      (fun o => (o.svr_username, o.svr_password)) = some (some "", some "taosdata") ∧
    tdengine_fdw_validator [⟨"user", "root", false⟩, ⟨"password", "taosdata", false⟩]
      UserMappingRelationId = .error (.elog "invalid option \"user\"") ∧
    (tdengine_get_options
        (demo_objects [⟨"user", "root", false⟩,
          ⟨"password", "taosdata", false⟩])).toOption.map
      (fun o => (o.svr_username, o.svr_password)) = some (some "root", some "taosdata") ∧
    (tdengine_get_options
        (demo_objects [⟨"table_name", "m2", false⟩])).toOption.map
      (fun o => o.svr_table) = some (some "m2") := by
  refine ⟨by decide, ?_, ?_, ?_, by decide, by decide, by decide, by decide, by decide⟩
  · intro context
    simp [tdengine_is_valid_option, valid_options]
  · intro context
    simp [tdengine_is_valid_option, valid_options]
  · intro src v b
    unfold tdengine_get_options
    simp only
    rw [get_options_loop_skip src.SplitIdentifierString ⟨"username", v, b⟩
      (fun opt => get_options_step_other _ opt _ (by simp))]

/-! ## Theorems: an unsafe collation below the root -/

/-- The restriction of C11 to aggregates of tables that are not in schemaless
mode is needed: on a table in schemaless mode the aggregate
`tdengine_max_all(fields->>'a', $1)` with the input collation `"default"` is
accepted although the walker leaves the context of its arguments Unsafe after
`$1`, for the aggregate tests the collation of the column `fields` in place of
its own (deparse.c 1081-1107). -/
theorem schemaless_aggregate_unsafe_operand_accepted :
    (walker_aggargs demo_sl_agg_catalog ⟨"tdengine_max_all", true, -1, false⟩
      [T_TargetEntry demo_sl_fetch 1 0 false, T_TargetEntry demo_param_c 2 0 false]
      ⟨-1, false, DEFAULT_COLLATION_OID⟩
      (initial_glob_cxt .RELOPT_UPPER_REL demo_sl_std_info [1] 6100 true) false
      inner_cxt_init).map (fun p => (p.1.result, p.1.cxt.state, p.2.agg_inputcollid))
      = .ok (true, FDW_COLLATE_UNSAFE, InvalidOid) ∧
    tdengine_is_foreign_expr demo_sl_agg_catalog .RELOPT_UPPER_REL demo_sl_std_info [1] 6100
      false demo_sl_star_agg true = .ok true := by
  decide

end TDengine
